import Mathlib

/-! The gloin compiler front end: a shallow embedding

The C sources (`types.c`, `lexer.c`, `parser.c`, `ast.c`, `codegen.c`) are
translated function by function.  Conventions:

* a C string is a `List Char` (`CStr`); `strcmp(a, b) == 0` is `a = b`;
* a C `int` used as a truth value is a `Bool` (`true` for non-zero); other
  `int`s are `Int`, with `wrap32` where the C code accumulates;
* `TypeKind` is the enum's integer value, a `Nat`;
* global or pointed-to state (the struct registry, the lexer, the parser, the
  code generator) is passed and returned explicitly;
* `exit(1)` in the parser is the `exit1` outcome of `ParseResult`.
-/

namespace Gloin

/-! ## types.h / types.c -/

abbrev CStr := List Char

abbrev TypeKind := Nat

abbrev TYPE_VOID : TypeKind := 0
abbrev TYPE_BOOL : TypeKind := 1
abbrev TYPE_I8 : TypeKind := 2
abbrev TYPE_I16 : TypeKind := 3
abbrev TYPE_I32 : TypeKind := 4
abbrev TYPE_I64 : TypeKind := 5
abbrev TYPE_U8 : TypeKind := 6
abbrev TYPE_U16 : TypeKind := 7
abbrev TYPE_U32 : TypeKind := 8
abbrev TYPE_U64 : TypeKind := 9
abbrev TYPE_F32 : TypeKind := 10
abbrev TYPE_F64 : TypeKind := 11
abbrev TYPE_CHAR : TypeKind := 12
abbrev TYPE_STRING : TypeKind := 13
abbrev TYPE_PTR_VOID : TypeKind := 100
abbrev TYPE_PTR_BOOL : TypeKind := 101
abbrev TYPE_PTR_I8 : TypeKind := 102
abbrev TYPE_PTR_I16 : TypeKind := 103
abbrev TYPE_PTR_I32 : TypeKind := 104
abbrev TYPE_PTR_I64 : TypeKind := 105
abbrev TYPE_PTR_U8 : TypeKind := 106
abbrev TYPE_PTR_U16 : TypeKind := 107
abbrev TYPE_PTR_U32 : TypeKind := 108
abbrev TYPE_PTR_U64 : TypeKind := 109
abbrev TYPE_PTR_F32 : TypeKind := 110
abbrev TYPE_PTR_F64 : TypeKind := 111
abbrev TYPE_PTR_CHAR : TypeKind := 112
abbrev TYPE_PTR_STRING : TypeKind := 113
abbrev TYPE_STRUCT_START : TypeKind := 200
abbrev TYPE_UNKNOWN : TypeKind := 255

/-- The C `struct Type` (named `TypeInfo` here, `Type` being reserved). The
`pointed_to` pointer is `NULL` in every value the program builds. -/
structure TypeInfo where
  kind : TypeKind
  size : Int
  is_signed : Bool
  is_numeric : Bool
  is_comparable : Bool
  is_ordered : Bool
  is_pointer : Bool
  pointed_to : Option TypeKind
  deriving DecidableEq, Repr

structure StructField where
  name : CStr
  type : TypeKind
  offset : Int
  deriving DecidableEq, Repr

structure StructType where
  name : CStr
  type_id : TypeKind
  fields : List StructField
  total_size : Int
  deriving DecidableEq, Repr

/-- The global struct registry: `registered_structs` (whose length is
`struct_count`) and `next_struct_type_id`. -/
structure Registry where
  registered_structs : List StructType
  next_struct_type_id : Nat
  deriving DecidableEq, Repr

/-- The registry at program start: no struct, next id `TYPE_STRUCT_START`. -/
def Registry.initial : Registry := ⟨[], TYPE_STRUCT_START⟩

def Registry.struct_count (reg : Registry) : Nat := reg.registered_structs.length

def type_table : List TypeInfo :=
  [ ⟨TYPE_VOID, 0, false, false, false, false, false, none⟩,
    ⟨TYPE_BOOL, 1, false, false, true, false, false, none⟩,
    ⟨TYPE_I8, 1, true, true, true, true, false, none⟩,
    ⟨TYPE_I16, 2, true, true, true, true, false, none⟩,
    ⟨TYPE_I32, 4, true, true, true, true, false, none⟩,
    ⟨TYPE_I64, 8, true, true, true, true, false, none⟩,
    ⟨TYPE_U8, 1, false, true, true, true, false, none⟩,
    ⟨TYPE_U16, 2, false, true, true, true, false, none⟩,
    ⟨TYPE_U32, 4, false, true, true, true, false, none⟩,
    ⟨TYPE_U64, 8, false, true, true, true, false, none⟩,
    ⟨TYPE_F32, 4, true, true, true, true, false, none⟩,
    ⟨TYPE_F64, 8, true, true, true, true, false, none⟩,
    ⟨TYPE_CHAR, 1, false, false, true, true, false, none⟩,
    ⟨TYPE_STRING, 8, false, false, true, false, false, none⟩ ]

def POINTER_SIZE : Int := 8

def unknown_type : TypeInfo := ⟨TYPE_UNKNOWN, 0, false, false, false, false, false, none⟩

def is_pointer_type (type : TypeKind) : Bool :=
  decide (type ≥ TYPE_PTR_VOID) && decide (type ≤ TYPE_PTR_STRING)

def is_struct_type (type : TypeKind) : Bool :=
  decide (type ≥ TYPE_STRUCT_START) && decide (type < TYPE_UNKNOWN)

def get_type_info (kind : TypeKind) : TypeInfo :=
  if kind ≥ TYPE_VOID ∧ kind ≤ TYPE_STRING then
    type_table.getD kind unknown_type
  else if is_pointer_type kind then
    ⟨kind, POINTER_SIZE, false, false, true, false, true, none⟩
  else
    unknown_type

def make_pointer_type (base_type : TypeKind) : TypeKind :=
  if base_type = TYPE_VOID then TYPE_PTR_VOID
  else if base_type = TYPE_BOOL then TYPE_PTR_BOOL
  else if base_type = TYPE_I8 then TYPE_PTR_I8
  else if base_type = TYPE_I16 then TYPE_PTR_I16
  else if base_type = TYPE_I32 then TYPE_PTR_I32
  else if base_type = TYPE_I64 then TYPE_PTR_I64
  else if base_type = TYPE_U8 then TYPE_PTR_U8
  else if base_type = TYPE_U16 then TYPE_PTR_U16
  else if base_type = TYPE_U32 then TYPE_PTR_U32
  else if base_type = TYPE_U64 then TYPE_PTR_U64
  else if base_type = TYPE_F32 then TYPE_PTR_F32
  else if base_type = TYPE_F64 then TYPE_PTR_F64
  else if base_type = TYPE_CHAR then TYPE_PTR_CHAR
  else if base_type = TYPE_STRING then TYPE_PTR_STRING
  else TYPE_UNKNOWN

def get_pointed_type (pointer_type : TypeKind) : TypeKind :=
  if pointer_type = TYPE_PTR_VOID then TYPE_VOID
  else if pointer_type = TYPE_PTR_BOOL then TYPE_BOOL
  else if pointer_type = TYPE_PTR_I8 then TYPE_I8
  else if pointer_type = TYPE_PTR_I16 then TYPE_I16
  else if pointer_type = TYPE_PTR_I32 then TYPE_I32
  else if pointer_type = TYPE_PTR_I64 then TYPE_I64
  else if pointer_type = TYPE_PTR_U8 then TYPE_U8
  else if pointer_type = TYPE_PTR_U16 then TYPE_U16
  else if pointer_type = TYPE_PTR_U32 then TYPE_U32
  else if pointer_type = TYPE_PTR_U64 then TYPE_U64
  else if pointer_type = TYPE_PTR_F32 then TYPE_F32
  else if pointer_type = TYPE_PTR_F64 then TYPE_F64
  else if pointer_type = TYPE_PTR_CHAR then TYPE_CHAR
  else if pointer_type = TYPE_PTR_STRING then TYPE_STRING
  else TYPE_UNKNOWN

/-- The loop of `get_struct_type`: the first entry whose `type_id` matches. -/
def get_struct_type (reg : Registry) (type_id : TypeKind) : Option StructType :=
  reg.registered_structs.find? (fun st => decide (st.type_id = type_id))

/-- The loop of `find_struct_by_name`: the first entry whose name matches. -/
def find_struct_by_name (reg : Registry) (name : CStr) : Option StructType :=
  reg.registered_structs.find? (fun st => decide (st.name = name))

def type_to_string (reg : Registry) (kind : TypeKind) : CStr :=
  if kind = TYPE_VOID then "void".toList
  else if kind = TYPE_BOOL then "bool".toList
  else if kind = TYPE_I8 then "i8".toList
  else if kind = TYPE_I16 then "i16".toList
  else if kind = TYPE_I32 then "i32".toList
  else if kind = TYPE_I64 then "i64".toList
  else if kind = TYPE_U8 then "u8".toList
  else if kind = TYPE_U16 then "u16".toList
  else if kind = TYPE_U32 then "u32".toList
  else if kind = TYPE_U64 then "u64".toList
  else if kind = TYPE_F32 then "f32".toList
  else if kind = TYPE_F64 then "f64".toList
  else if kind = TYPE_CHAR then "char".toList
  else if kind = TYPE_STRING then "string".toList
  else if kind = TYPE_PTR_VOID then "*void".toList
  else if kind = TYPE_PTR_BOOL then "*bool".toList
  else if kind = TYPE_PTR_I8 then "*i8".toList
  else if kind = TYPE_PTR_I16 then "*i16".toList
  else if kind = TYPE_PTR_I32 then "*i32".toList
  else if kind = TYPE_PTR_I64 then "*i64".toList
  else if kind = TYPE_PTR_U8 then "*u8".toList
  else if kind = TYPE_PTR_U16 then "*u16".toList
  else if kind = TYPE_PTR_U32 then "*u32".toList
  else if kind = TYPE_PTR_U64 then "*u64".toList
  else if kind = TYPE_PTR_F32 then "*f32".toList
  else if kind = TYPE_PTR_F64 then "*f64".toList
  else if kind = TYPE_PTR_CHAR then "*char".toList
  else if kind = TYPE_PTR_STRING then "*string".toList
  else if is_struct_type kind then
    match get_struct_type reg kind with
    | some st => st.name
    | none => "unknown_struct".toList
  else "unknown".toList

/-- The part of `string_to_type` after the pointer test: the primitive names,
then the registry. -/
def string_to_type_base (reg : Registry) (type_str : CStr) : TypeKind :=
  if type_str = "void".toList then TYPE_VOID
  else if type_str = "bool".toList then TYPE_BOOL
  else if type_str = "i8".toList then TYPE_I8
  else if type_str = "i16".toList then TYPE_I16
  else if type_str = "i32".toList then TYPE_I32
  else if type_str = "i64".toList then TYPE_I64
  else if type_str = "u8".toList then TYPE_U8
  else if type_str = "u16".toList then TYPE_U16
  else if type_str = "u32".toList then TYPE_U32
  else if type_str = "u64".toList then TYPE_U64
  else if type_str = "f32".toList then TYPE_F32
  else if type_str = "f64".toList then TYPE_F64
  else if type_str = "char".toList then TYPE_CHAR
  else if type_str = "string".toList then TYPE_STRING
  else
    match find_struct_by_name reg type_str with
    | some st => st.type_id
    | none => TYPE_UNKNOWN

def string_to_type (reg : Registry) : CStr → TypeKind
  | [] => string_to_type_base reg []
  | c :: base_type_str =>
    if c = '*' then make_pointer_type (string_to_type reg base_type_str)
    else string_to_type_base reg (c :: base_type_str)

def types_compatible (left right : TypeKind) : Bool :=
  if left = right then true
  else
    let left_info := get_type_info left
    let right_info := get_type_info right
    if !left_info.is_numeric || !right_info.is_numeric then false
    else false

def types_comparable (left right : TypeKind) : Bool :=
  if left ≠ right then false
  else (get_type_info left).is_comparable

def get_binary_result_type (left right : TypeKind) (is_comparison : Bool) : TypeKind :=
  if is_comparison then TYPE_BOOL
  else if left = right ∧ (get_type_info left).is_numeric = true then left
  else TYPE_UNKNOWN

def is_numeric_type (type : TypeKind) : Bool := (get_type_info type).is_numeric

/-- Two's-complement wrap of a C `int` (32 bits). -/
def wrap32 (x : Int) : Int := (x + 2147483648) % 4294967296 - 2147483648

/-- The loop of `register_struct_type` from index `i` on: `offset` is the
running offset, the result is the copied fields and the final offset. -/
def register_fields (offset : Int) : List StructField → List StructField × Int
  | [] => ([], offset)
  | f :: rest =>
    let field_size := (get_type_info f.type).size
    let r := register_fields (wrap32 (offset + field_size)) rest
    (⟨f.name, f.type, offset⟩ :: r.1, r.2)

def register_struct_type (reg : Registry) (name : CStr) (fields : List StructField) :
    Registry × TypeKind :=
  let laid := register_fields 0 fields
  let new_struct : StructType := ⟨name, reg.next_struct_type_id, laid.1, laid.2⟩
  (⟨reg.registered_structs ++ [new_struct], reg.next_struct_type_id + 1⟩, new_struct.type_id)

/-- The registries a compilation can reach: the initial one, and any registry
obtained from a reachable one by a call of `register_struct_type`. -/
inductive Registry.Reachable : Registry → Prop
  | initial : Registry.Reachable Registry.initial
  | register (reg : Registry) (name : CStr) (fields : List StructField) :
      Registry.Reachable reg → Registry.Reachable (register_struct_type reg name fields).1

/-- Sum of the sizes of the types of a field list, as `get_type_info` gives them. -/
def field_size_sum (fs : List StructField) : Int :=
  (fs.map (fun f => (get_type_info f.type).size)).sum

/-- The names of the primitive types, in `TypeKind` order. -/
def primitive_names : List CStr :=
  ["void".toList, "bool".toList, "i8".toList, "i16".toList, "i32".toList, "i64".toList,
   "u8".toList, "u16".toList, "u32".toList, "u64".toList, "f32".toList, "f64".toList,
   "char".toList, "string".toList]

/-- Registering `def struct P { a: bool; }` twice, as `resolve_types` does on a
program that declares `P` twice. -/
def registry_with_duplicate : Registry :=
  (register_struct_type
    (register_struct_type Registry.initial "P".toList [⟨"a".toList, TYPE_BOOL, 0⟩]).1
    "P".toList [⟨"a".toList, TYPE_BOOL, 0⟩]).1

/-- Registers `n` field-less structs named `a`, `aa`, `aaa`, ... in this order. -/
def register_many : Nat → Registry
  | 0 => Registry.initial
  | n + 1 => (register_struct_type (register_many n) (List.replicate (n + 1) 'a') []).1

/-! ## lexer.h / lexer.c -/

inductive TokenType where
  | TOKEN_EOF | TOKEN_IMPORT | TOKEN_FN | TOKEN_DEF | TOKEN_MUT | TOKEN_CONST | TOKEN_RETURN
  | TOKEN_BOOL | TOKEN_I32 | TOKEN_F32 | TOKEN_STRING_TYPE | TOKEN_VOID | TOKEN_TRUE
  | TOKEN_FALSE | TOKEN_NULL | TOKEN_STRUCT | TOKEN_ENUM | TOKEN_PUB | TOKEN_PRIV
  | TOKEN_STATIC | TOKEN_SELF | TOKEN_IF | TOKEN_UNLESS | TOKEN_ELSE | TOKEN_FOR
  | TOKEN_WHILE | TOKEN_SWITCH | TOKEN_MATCH | TOKEN_CASE | TOKEN_DEFAULT | TOKEN_BREAK
  | TOKEN_CONTINUE | TOKEN_DEFER | TOKEN_DEFERRED | TOKEN_SPAWNABLE | TOKEN_RUN
  | TOKEN_IDENTIFIER | TOKEN_STRING | TOKEN_NUMBER | TOKEN_FLOAT | TOKEN_LPAREN
  | TOKEN_RPAREN | TOKEN_LBRACE | TOKEN_RBRACE | TOKEN_SEMICOLON | TOKEN_COLON
  | TOKEN_DOUBLE_COLON | TOKEN_ASSIGN | TOKEN_ARROW | TOKEN_DOUBLE_ARROW | TOKEN_DOT
  | TOKEN_AT | TOKEN_HASH | TOKEN_QUOTE | TOKEN_COMMA | TOKEN_PLUS | TOKEN_MINUS
  | TOKEN_MULTIPLY | TOKEN_DIVIDE | TOKEN_COMMENT | TOKEN_EQ | TOKEN_NE | TOKEN_LT
  | TOKEN_GT | TOKEN_LE | TOKEN_GE | TOKEN_AMPERSAND | TOKEN_UNDERSCORE | TOKEN_NEWLINE
  | TOKEN_UNKNOWN
  deriving DecidableEq, Repr

open TokenType

structure Token where
  type : TokenType
  value : CStr
  line : Int
  column : Int
  deriving DecidableEq, Repr

/-- The lexer state. `input` is the NUL-terminated source without its
terminator (it holds no NUL itself); `current_char` is NUL at the end. -/
structure Lexer where
  input : CStr
  position : Nat
  current_char : Char
  line : Int
  column : Int
  deriving DecidableEq, Repr

def NUL : Char := '\x00'

/-- Reading `input[i]`: the terminating NUL at index `strlen(input)`. -/
def char_at (input : CStr) (i : Nat) : Char := input.getD i NUL

def create_lexer (input : CStr) : Lexer :=
  ⟨input, 0, char_at input 0, 1, 1⟩

def advance (lexer : Lexer) : Lexer :=
  let position := lexer.position + 1
  let line := if lexer.current_char = '\n' then lexer.line + 1 else lexer.line
  let column := if lexer.current_char = '\n' then 1 else lexer.column + 1
  let current_char := if position ≥ lexer.input.length then NUL else char_at lexer.input position
  ⟨lexer.input, position, current_char, line, column⟩

def peek (lexer : Lexer) : Char :=
  let peek_pos := lexer.position + 1
  if peek_pos ≥ lexer.input.length then NUL else char_at lexer.input peek_pos

/-- The C library `isdigit` in the "C" locale. -/
def isdigit (c : Char) : Bool := decide ('0' ≤ c) && decide (c ≤ '9')

/-- The C library `isalpha` in the "C" locale. -/
def isalpha (c : Char) : Bool :=
  (decide ('a' ≤ c) && decide (c ≤ 'z')) || (decide ('A' ≤ c) && decide (c ≤ 'Z'))

/-- The C library `isalnum` in the "C" locale. -/
def isalnum (c : Char) : Bool := isalpha c || isdigit c

/-- A `while (current_char != NUL && cond(current_char)) advance(lexer);` loop.
Each turn consumes one character, so `fuel = strlen(input)` turns always suffice. -/
def advance_while (cond : Char → Bool) : Nat → Lexer → Lexer
  | 0, lexer => lexer
  | fuel + 1, lexer =>
    if lexer.current_char ≠ NUL ∧ cond lexer.current_char = true then
      advance_while cond fuel (advance lexer)
    else lexer

def skip_whitespace (lexer : Lexer) : Lexer :=
  advance_while (fun c => c = ' ' || c = '\t' || c = '\r') lexer.input.length lexer

/-- The copy `strncpy(buf, &input[start], position - start)` the readers return. -/
def substring_from (lexer : Lexer) (start : Nat) : CStr :=
  (lexer.input.drop start).take (lexer.position - start)

def read_string (lexer : Lexer) : CStr × Lexer :=
  let l1 := advance lexer
  let start := l1.position
  let l2 := advance_while (fun c => c ≠ '"') l1.input.length l1
  let string := substring_from l2 start
  let l3 := if l2.current_char = '"' then advance l2 else l2
  (string, l3)

def skip_comment (lexer : Lexer) : Lexer :=
  if lexer.current_char = '/' ∧ peek lexer = '/' then
    let l2 := advance (advance lexer)
    advance_while (fun c => c ≠ '\n') l2.input.length l2
  else lexer

def read_float (lexer : Lexer) : CStr × Lexer :=
  let start := lexer.position
  let l1 := advance_while isdigit lexer.input.length lexer
  let l2 :=
    if l1.current_char = '.' then
      advance_while isdigit l1.input.length (advance l1)
    else l1
  (substring_from l2 start, l2)

def read_number (lexer : Lexer) : CStr × Lexer :=
  let start := lexer.position
  let l1 := advance_while isdigit lexer.input.length lexer
  (substring_from l1 start, l1)

def read_identifier (lexer : Lexer) : CStr × Lexer :=
  let start := lexer.position
  let l1 := advance_while (fun c => isalnum c || c = '_') lexer.input.length lexer
  (substring_from l1 start, l1)

def get_keyword_type (identifier : CStr) : TokenType :=
  if identifier = "import".toList then TOKEN_IMPORT
  else if identifier = "fn".toList then TOKEN_FN
  else if identifier = "def".toList then TOKEN_DEF
  else if identifier = "mut".toList then TOKEN_MUT
  else if identifier = "const".toList then TOKEN_CONST
  else if identifier = "return".toList then TOKEN_RETURN
  else if identifier = "bool".toList then TOKEN_BOOL
  else if identifier = "i32".toList then TOKEN_I32
  else if identifier = "f32".toList then TOKEN_F32
  else if identifier = "string".toList then TOKEN_STRING_TYPE
  else if identifier = "void".toList then TOKEN_VOID
  else if identifier = "true".toList then TOKEN_TRUE
  else if identifier = "false".toList then TOKEN_FALSE
  else if identifier = "null".toList then TOKEN_NULL
  else if identifier = "struct".toList then TOKEN_STRUCT
  else if identifier = "enum".toList then TOKEN_ENUM
  else if identifier = "pub".toList then TOKEN_PUB
  else if identifier = "priv".toList then TOKEN_PRIV
  else if identifier = "static".toList then TOKEN_STATIC
  else if identifier = "self".toList then TOKEN_SELF
  else if identifier = "if".toList then TOKEN_IF
  else if identifier = "unless".toList then TOKEN_UNLESS
  else if identifier = "else".toList then TOKEN_ELSE
  else if identifier = "for".toList then TOKEN_FOR
  else if identifier = "while".toList then TOKEN_WHILE
  else if identifier = "switch".toList then TOKEN_SWITCH
  else if identifier = "match".toList then TOKEN_MATCH
  else if identifier = "case".toList then TOKEN_CASE
  else if identifier = "default".toList then TOKEN_DEFAULT
  else if identifier = "break".toList then TOKEN_BREAK
  else if identifier = "continue".toList then TOKEN_CONTINUE
  else if identifier = "defer".toList then TOKEN_DEFER
  else if identifier = "deferred".toList then TOKEN_DEFERRED
  else if identifier = "spawnable".toList then TOKEN_SPAWNABLE
  else if identifier = "run".toList then TOKEN_RUN
  else TOKEN_IDENTIFIER

/-- The look-ahead loop of `next_token` on the characters from `position` on:
whether the run of digits there is followed by a `.`. -/
def has_decimal_scan : List Char → Bool
  | [] => false
  | c :: rest =>
    if isdigit c || c = '.' then
      if c = '.' then true else has_decimal_scan rest
    else false

/-- One- and two-character operators and punctuation: the `switch` of
`next_token`, with the unknown-character fall-through. -/
def next_token_punct (lexer : Lexer) (line column : Int) : Token × Lexer :=
  let c := lexer.current_char
  let one (t : TokenType) (v : String) : Token × Lexer := (⟨t, v.toList, line, column⟩, advance lexer)
  let two (t : TokenType) (v : String) : Token × Lexer :=
    (⟨t, v.toList, line, column⟩, advance (advance lexer))
  if c = '(' then one TOKEN_LPAREN "("
  else if c = ')' then one TOKEN_RPAREN ")"
  else if c = '{' then one TOKEN_LBRACE "\x7b"
  else if c = '}' then one TOKEN_RBRACE "\x7d"
  else if c = ';' then one TOKEN_SEMICOLON ";"
  else if c = ':' then
    if peek lexer = ':' then two TOKEN_DOUBLE_COLON "::" else one TOKEN_COLON ":"
  else if c = '=' then
    if peek lexer = '=' then two TOKEN_EQ "=="
    else if peek lexer = '>' then two TOKEN_DOUBLE_ARROW "=>"
    else one TOKEN_ASSIGN "="
  else if c = '+' then one TOKEN_PLUS "+"
  else if c = '-' then
    if peek lexer = '>' then two TOKEN_ARROW "->" else one TOKEN_MINUS "-"
  else if c = '*' then one TOKEN_MULTIPLY "*"
  else if c = '/' then one TOKEN_DIVIDE "/"
  else if c = '!' then
    if peek lexer = '=' then two TOKEN_NE "!=" else one TOKEN_UNKNOWN "!"
  else if c = '<' then
    if peek lexer = '=' then two TOKEN_LE "<=" else one TOKEN_LT "<"
  else if c = '>' then
    if peek lexer = '=' then two TOKEN_GE ">=" else one TOKEN_GT ">"
  else if c = '&' then one TOKEN_AMPERSAND "&"
  else if c = '.' then one TOKEN_DOT "."
  else if c = '@' then one TOKEN_AT "@"
  else if c = '#' then one TOKEN_HASH "#"
  else if c = ',' then one TOKEN_COMMA ","
  else if c = '_' then one TOKEN_UNDERSCORE "_"
  else (⟨TOKEN_UNKNOWN, [c], line, column⟩, advance lexer)

/-- The `while (current_char != NUL)` loop of `next_token`; `line` and `column`
were read before the loop.  A turn that `continue`s has consumed at least one
character, so `strlen(input) + 1` turns always suffice. -/
def next_token_loop (line column : Int) : Nat → Lexer → Token × Lexer
  | 0, lexer => (⟨TOKEN_EOF, [], line, column⟩, lexer)
  | fuel + 1, lexer =>
    let c := lexer.current_char
    if c = NUL then (⟨TOKEN_EOF, [], line, column⟩, lexer)
    else if c = ' ' ∨ c = '\t' ∨ c = '\r' then
      next_token_loop line column fuel (skip_whitespace lexer)
    else if c = '\n' then (⟨TOKEN_NEWLINE, ['\n'], line, column⟩, advance lexer)
    else if c = '/' ∧ peek lexer = '/' then
      next_token_loop line column fuel (skip_comment lexer)
    else if c = '"' then
      let r := read_string lexer
      (⟨TOKEN_STRING, r.1, line, column⟩, r.2)
    else if isdigit c then
      if has_decimal_scan (lexer.input.drop lexer.position) then
        let r := read_float lexer
        (⟨TOKEN_FLOAT, r.1, line, column⟩, r.2)
      else
        let r := read_number lexer
        (⟨TOKEN_NUMBER, r.1, line, column⟩, r.2)
    else if isalpha c || c = '_' then
      let r := read_identifier lexer
      (⟨get_keyword_type r.1, r.1, line, column⟩, r.2)
    else next_token_punct lexer line column

def next_token (lexer : Lexer) : Token × Lexer :=
  next_token_loop lexer.line lexer.column (lexer.input.length + 1) lexer

/-- All tokens of a source up to and including the first `TOKEN_EOF`
(successive `next_token` calls). -/
def tokenize_loop : Nat → Lexer → List Token
  | 0, _ => []
  | fuel + 1, lexer =>
    let r := next_token lexer
    if r.1.type = TOKEN_EOF then [r.1] else r.1 :: tokenize_loop fuel r.2

def tokenize (input : CStr) : List Token :=
  tokenize_loop (input.length + 1) (create_lexer input)

/-! ## ast.h / ast.c: nodes and constructors -/

inductive ImportType where
  | IMPORT_STD | IMPORT_EXTERNAL | IMPORT_LOCAL
  deriving DecidableEq, Repr

inductive BinaryOperator where
  | OP_ADD | OP_SUB | OP_MUL | OP_DIV | OP_EQ | OP_NE | OP_LT | OP_GT | OP_LE | OP_GE
  deriving DecidableEq, Repr

inductive UnaryOperator where
  | UNARY_ADDRESS_OF | UNARY_DEREFERENCE
  deriving DecidableEq, Repr

inductive Visibility where
  | VISIBILITY_PUBLIC | VISIBILITY_PRIVATE
  deriving DecidableEq, Repr

open ImportType BinaryOperator UnaryOperator Visibility

/-- The tagged union `ASTNode`: one constructor per `NodeType`, carrying the
members of the matching `data` struct. A child array with its count is a list;
a child pointer that may be `NULL` is an `Option`. -/
inductive ASTNode where
  | program (imports : List ASTNode) (functions : List ASTNode)
  | import_node (import_type : ImportType) (path : CStr)
  | function (name : CStr) (return_type : CStr) (params : List ASTNode) (body : Option ASTNode)
  | parameter (name : CStr) (type : CStr) (resolved_type : TypeKind)
  | variable_decl (name : CStr) (type : CStr) (value : Option ASTNode) (is_mutable : Int)
      (resolved_type : TypeKind)
  | assignment (variable_name : CStr) (value : ASTNode)
  | pointer_assignment (target : ASTNode) (value : ASTNode)
  | return_stmt (value : Option ASTNode)
  | call (name : CStr) (args : List ASTNode)
  | identifier (name : CStr) (resolved_type : TypeKind)
  | literal (value : CStr) (type : CStr) (resolved_type : TypeKind)
  | binary_op (operator : BinaryOperator) (left : ASTNode) (right : ASTNode)
      (resolved_type : TypeKind)
  | unary_op (operator : UnaryOperator) (operand : ASTNode) (resolved_type : TypeKind)
  | block (statements : List ASTNode)
  | struct_decl (name : CStr) (fields : List ASTNode) (methods : List ASTNode)
  | struct_field (name : CStr) (type : CStr) (resolved_type : TypeKind)
  | struct_method (name : CStr) (return_type : CStr) (params : List ASTNode)
      (body : Option ASTNode) (visibility : Visibility)
  | field_access (object : ASTNode) (field_name : CStr) (resolved_type : TypeKind)
  | method_call (object : ASTNode) (method_name : CStr) (args : List ASTNode)
      (resolved_type : TypeKind)
  | struct_literal (struct_type_name : CStr) (field_values : List ASTNode)
      (field_names : List CStr) (resolved_type : TypeKind)
  | enum_decl (name : CStr) (variants : List ASTNode)
  | enum_variant (name : CStr)
  | if_stmt (condition : ASTNode) (then_block : ASTNode) (else_block : Option ASTNode)
  | unless_stmt (condition : ASTNode) (then_block : ASTNode) (else_block : Option ASTNode)
  | for_stmt (init : Option ASTNode) (condition : Option ASTNode) (update : Option ASTNode)
      (body : ASTNode)
  | while_stmt (condition : ASTNode) (body : ASTNode)
  | switch_stmt (expression : ASTNode) (cases : List ASTNode) (default_case : Option ASTNode)
  | switch_case (value : Option ASTNode) (statements : List ASTNode)
  | match_stmt (expression : ASTNode) (cases : List ASTNode)
  | match_case (pattern : ASTNode) (body : ASTNode)
  | break_stmt
  | continue_stmt
  deriving Repr

instance : Inhabited ASTNode := ⟨ASTNode.break_stmt⟩

def create_parameter_node (reg : Registry) (name type : CStr) : ASTNode :=
  .parameter name type (string_to_type reg type)

def create_variable_decl_node (reg : Registry) (name type : CStr) (value : Option ASTNode)
    (is_mutable : Int) : ASTNode :=
  .variable_decl name type value is_mutable (string_to_type reg type)

def create_identifier_node (name : CStr) : ASTNode := .identifier name TYPE_UNKNOWN

def create_literal_node (reg : Registry) (value type : CStr) : ASTNode :=
  .literal value type (string_to_type reg type)

def create_binary_op_node (operator : BinaryOperator) (left right : ASTNode) : ASTNode :=
  .binary_op operator left right TYPE_UNKNOWN

def create_unary_op_node (operator : UnaryOperator) (operand : ASTNode) : ASTNode :=
  .unary_op operator operand TYPE_UNKNOWN

def create_struct_field_node (name type : CStr) : ASTNode := .struct_field name type TYPE_UNKNOWN

def create_field_access_node (object : ASTNode) (field_name : CStr) : ASTNode :=
  .field_access object field_name TYPE_UNKNOWN

/-! ## parser.h / parser.c -/

structure Parser where
  lexer : Lexer
  current_token : Token
  deriving DecidableEq, Repr

/-- What the parser printed before `exit(1)`: the mismatch report of `eat`, or
the message of `parser_error` with the position of the current token. -/
inductive ParseError where
  | expected (expected_type : TokenType) (got : TokenType) (line : Int)
  | message (text : String) (line : Int) (column : Int)
  deriving DecidableEq, Repr

/-- Outcome of a parsing function: it returns a value and leaves the parser in
a new state, or the process exits with status 1, or the recursion budget of the
embedding is used up (the C code has no such outcome). -/
inductive ParseResult (α : Type) where
  | ok (value : α) (parser : Parser)
  | exit1 (error : ParseError)
  | out_of_fuel
  deriving Repr

/-- A parsing function: the `Parser *` argument is threaded through. -/
def PM (α : Type) : Type := Parser → ParseResult α

def PM.pure {α : Type} (a : α) : PM α := fun p => .ok a p

def PM.bind {α β : Type} (m : PM α) (f : α → PM β) : PM β := fun p =>
  match m p with
  | .ok a p1 => f a p1
  | .exit1 e => .exit1 e
  | .out_of_fuel => .out_of_fuel

instance : Monad PM where
  pure := PM.pure
  bind := PM.bind

/-- Named `create_parser` in the source: the first token is read at once. -/
def parser_create (lexer : Lexer) : Parser :=
  let r := next_token lexer
  ⟨r.2, r.1⟩

/-- Reads `parser->current_token`. -/
def current_token : PM Token := fun p => .ok p.current_token p

/-- Reads `parser->current_token.type`. -/
def current_type : PM TokenType := fun p => .ok p.current_token.type p

def eat (expected_type : TokenType) : PM Unit := fun p =>
  if p.current_token.type = expected_type then
    let r := next_token p.lexer
    .ok () ⟨r.2, r.1⟩
  else
    .exit1 (.expected expected_type p.current_token.type p.current_token.line)

def parser_error {α : Type} (message : String) : PM α := fun p =>
  .exit1 (.message message p.current_token.line p.current_token.column)

/-- The embedding ran out of recursion budget. -/
def no_fuel {α : Type} : PM α := fun _ => .out_of_fuel

def token_to_binary_operator (token : TokenType) : BinaryOperator :=
  match token with
  | TOKEN_PLUS => OP_ADD
  | TOKEN_MINUS => OP_SUB
  | TOKEN_MULTIPLY => OP_MUL
  | TOKEN_DIVIDE => OP_DIV
  | TOKEN_EQ => OP_EQ
  | TOKEN_NE => OP_NE
  | TOKEN_LT => OP_LT
  | TOKEN_GT => OP_GT
  | TOKEN_LE => OP_LE
  | TOKEN_GE => OP_GE
  | _ => OP_ADD

/-- The test of the `while` in `parse_comparison_expression`. -/
def is_comparison_token (t : TokenType) : Bool :=
  t = TOKEN_EQ || t = TOKEN_NE || t = TOKEN_LT || t = TOKEN_GT || t = TOKEN_LE || t = TOKEN_GE

mutual

def parse_expression (reg : Registry) : Nat → PM ASTNode
  | 0 => no_fuel
  | fuel + 1 => parse_comparison_expression reg fuel

def parse_comparison_expression (reg : Registry) : Nat → PM ASTNode
  | 0 => no_fuel
  | fuel + 1 => do
    let left ← parse_additive_expression reg fuel
    parse_comparison_loop reg fuel left

/-- The `while` loop of `parse_comparison_expression`. -/
def parse_comparison_loop (reg : Registry) : Nat → ASTNode → PM ASTNode
  | 0, _ => no_fuel
  | fuel + 1, left => do
    let op_token ← current_type
    if is_comparison_token op_token then do
      eat op_token
      let right ← parse_additive_expression reg fuel
      parse_comparison_loop reg fuel
        (create_binary_op_node (token_to_binary_operator op_token) left right)
    else pure left

def parse_additive_expression (reg : Registry) : Nat → PM ASTNode
  | 0 => no_fuel
  | fuel + 1 => do
    let left ← parse_multiplicative_expression reg fuel
    parse_additive_continuation reg fuel left

def parse_additive_continuation (reg : Registry) : Nat → ASTNode → PM ASTNode
  | 0, _ => no_fuel
  | fuel + 1, left => do
    let op_token ← current_type
    if op_token = TOKEN_PLUS ∨ op_token = TOKEN_MINUS then do
      eat op_token
      let right ← parse_multiplicative_expression reg fuel
      parse_additive_continuation reg fuel
        (create_binary_op_node (token_to_binary_operator op_token) left right)
    else pure left

def parse_multiplicative_expression (reg : Registry) : Nat → PM ASTNode
  | 0 => no_fuel
  | fuel + 1 => do
    let left ← parse_primary reg fuel
    parse_multiplicative_loop reg fuel left

/-- The `while` loop of `parse_multiplicative_expression`. -/
def parse_multiplicative_loop (reg : Registry) : Nat → ASTNode → PM ASTNode
  | 0, _ => no_fuel
  | fuel + 1, left => do
    let op_token ← current_type
    if op_token = TOKEN_MULTIPLY ∨ op_token = TOKEN_DIVIDE then do
      eat op_token
      let right ← parse_primary reg fuel
      parse_multiplicative_loop reg fuel
        (create_binary_op_node (token_to_binary_operator op_token) left right)
    else pure left

/-- The argument loop `while (type != TOKEN_RPAREN) { ... }` shared by the
method-call branch of `parse_primary` and the call branches of
`parse_expression_statement`; `what` completes the error message. -/
def parse_args_until_rparen (reg : Registry) (what : String) : Nat → List ASTNode →
    PM (List ASTNode)
  | 0, _ => no_fuel
  | fuel + 1, args => do
    let t ← current_type
    if t ≠ TOKEN_RPAREN then do
      let arg ← parse_expression reg fuel
      let t2 ← current_type
      if t2 = TOKEN_COMMA then do
        eat TOKEN_COMMA
        parse_args_until_rparen reg what fuel (args ++ [arg])
      else if t2 ≠ TOKEN_RPAREN then
        parser_error ("Expected ',' or ')' in " ++ what)
      else parse_args_until_rparen reg what fuel (args ++ [arg])
    else pure args

/-- The field loop of the struct-literal branch of `parse_primary`. -/
def parse_struct_literal_fields (reg : Registry) : Nat → List ASTNode → List CStr →
    PM (List ASTNode × List CStr)
  | 0, _, _ => no_fuel
  | fuel + 1, values, names => do
    let t ← current_type
    if t ≠ TOKEN_RBRACE ∧ t ≠ TOKEN_EOF then
      if t = TOKEN_NEWLINE then do
        eat TOKEN_NEWLINE
        parse_struct_literal_fields reg fuel values names
      else do
        if t ≠ TOKEN_IDENTIFIER then
          parser_error "Expected field name in struct literal"
        else do
          let tok ← current_token
          let field_name := tok.value
          eat TOKEN_IDENTIFIER
          eat TOKEN_COLON
          let field_value ← parse_expression reg fuel
          let t2 ← current_type
          if t2 = TOKEN_COMMA then do
            eat TOKEN_COMMA
            parse_struct_literal_fields reg fuel (values ++ [field_value]) (names ++ [field_name])
          else if t2 ≠ TOKEN_RBRACE ∧ t2 ≠ TOKEN_NEWLINE then
            parser_error "Expected ',' or '\x7d' in struct literal"
          else
            parse_struct_literal_fields reg fuel (values ++ [field_value]) (names ++ [field_name])
    else pure (values, names)

/-- The `while (type == TOKEN_COMMA)` loop of `parse_call`. -/
def parse_call_more (reg : Registry) : Nat → List ASTNode → PM (List ASTNode)
  | 0, _ => no_fuel
  | fuel + 1, args => do
    let t ← current_type
    if t = TOKEN_COMMA then do
      eat TOKEN_COMMA
      let arg ← parse_expression reg fuel
      parse_call_more reg fuel (args ++ [arg])
    else pure args

def parse_call (reg : Registry) (name : CStr) : Nat → PM ASTNode
  | 0 => no_fuel
  | fuel + 1 => do
    eat TOKEN_LPAREN
    let t ← current_type
    let args ← (if t ≠ TOKEN_RPAREN then do
        let arg ← parse_expression reg fuel
        parse_call_more reg fuel [arg]
      else pure [])
    eat TOKEN_RPAREN
    pure (.call name args)

def parse_primary (reg : Registry) : Nat → PM ASTNode
  | 0 => no_fuel
  | fuel + 1 => do
    let tok ← current_token
    if tok.type = TOKEN_AMPERSAND then do
      eat TOKEN_AMPERSAND
      let operand ← parse_primary reg fuel
      pure (create_unary_op_node UNARY_ADDRESS_OF operand)
    else if tok.type = TOKEN_MULTIPLY then do
      eat TOKEN_MULTIPLY
      let operand ← parse_primary reg fuel
      pure (create_unary_op_node UNARY_DEREFERENCE operand)
    else if tok.type = TOKEN_LPAREN then do
      eat TOKEN_LPAREN
      let expr ← parse_expression reg fuel
      eat TOKEN_RPAREN
      pure expr
    else if tok.type = TOKEN_STRING then do
      eat TOKEN_STRING
      pure (create_literal_node reg tok.value "string".toList)
    else if tok.type = TOKEN_NUMBER then do
      eat TOKEN_NUMBER
      pure (create_literal_node reg tok.value "i32".toList)
    else if tok.type = TOKEN_FLOAT then do
      eat TOKEN_FLOAT
      pure (create_literal_node reg tok.value "f32".toList)
    else if tok.type = TOKEN_TRUE then do
      eat TOKEN_TRUE
      pure (create_literal_node reg "true".toList "bool".toList)
    else if tok.type = TOKEN_FALSE then do
      eat TOKEN_FALSE
      pure (create_literal_node reg "false".toList "bool".toList)
    else if tok.type = TOKEN_NULL then do
      eat TOKEN_NULL
      pure (create_literal_node reg "null".toList "void".toList)
    else if tok.type = TOKEN_IDENTIFIER then do
      let name := tok.value
      eat TOKEN_IDENTIFIER
      let t ← current_type
      if t = TOKEN_DOT then do
        eat TOKEN_DOT
        let tok2 ← current_token
        if tok2.type ≠ TOKEN_IDENTIFIER then
          parser_error "Expected field or method name after '.'"
        else do
          let field_or_method := tok2.value
          eat TOKEN_IDENTIFIER
          let t3 ← current_type
          if name = "std".toList then
            let qualified_name := name ++ ['.'] ++ field_or_method
            if t3 = TOKEN_LPAREN then parse_call reg qualified_name fuel
            else pure (create_identifier_node qualified_name)
          else if t3 = TOKEN_LPAREN then do
            let object := create_identifier_node name
            eat TOKEN_LPAREN
            let args ← parse_args_until_rparen reg "method call" fuel []
            eat TOKEN_RPAREN
            pure (.method_call object field_or_method args TYPE_UNKNOWN)
          else
            pure (create_field_access_node (create_identifier_node name) field_or_method)
      else if t = TOKEN_LPAREN then parse_call reg name fuel
      else if t = TOKEN_LBRACE then
        if decide ('A' ≤ char_at name 0) && decide (char_at name 0 ≤ 'Z') then do
          eat TOKEN_LBRACE
          let r ← parse_struct_literal_fields reg fuel [] []
          eat TOKEN_RBRACE
          pure (.struct_literal name r.1 r.2 TYPE_UNKNOWN)
        else pure (create_identifier_node name)
      else pure (create_identifier_node name)
    else parser_error "Unexpected token in expression"

end

/-- The type spelling accepted after `:` or `->` by `parse_variable_declaration`
and by `parse_function_declaration` (parameters and return type): `*` followed
by an identifier or `bool`, or an identifier, `bool`, `i32`, `f32`, `string`,
`void`. The two messages are those of the calling site. -/
def parse_type_spelling (msg_after_star msg : String) : PM CStr := do
  let tok ← current_token
  if tok.type = TOKEN_MULTIPLY then do
    eat TOKEN_MULTIPLY
    let base ← current_token
    if base.type = TOKEN_IDENTIFIER then do
      eat TOKEN_IDENTIFIER
      pure ('*' :: base.value)
    else if base.type = TOKEN_BOOL then do
      eat TOKEN_BOOL
      pure "*bool".toList
    else parser_error msg_after_star
  else if tok.type = TOKEN_IDENTIFIER then do
    eat TOKEN_IDENTIFIER
    pure tok.value
  else if tok.type = TOKEN_BOOL then do
    eat TOKEN_BOOL
    pure "bool".toList
  else if tok.type = TOKEN_I32 then do
    eat TOKEN_I32
    pure "i32".toList
  else if tok.type = TOKEN_F32 then do
    eat TOKEN_F32
    pure "f32".toList
  else if tok.type = TOKEN_STRING_TYPE then do
    eat TOKEN_STRING_TYPE
    pure "string".toList
  else if tok.type = TOKEN_VOID then do
    eat TOKEN_VOID
    pure "void".toList
  else parser_error msg

/-- The type spelling accepted by `parse_struct_declaration` for a field and
for a method parameter: `*` followed by an identifier, or an identifier, or
`bool`. -/
def parse_struct_type_spelling (msg : String) : PM CStr := do
  let tok ← current_token
  if tok.type = TOKEN_MULTIPLY then do
    eat TOKEN_MULTIPLY
    let base ← current_token
    if base.type = TOKEN_IDENTIFIER then do
      eat TOKEN_IDENTIFIER
      pure ('*' :: base.value)
    else parser_error "Expected type after '*'"
  else if tok.type = TOKEN_IDENTIFIER then do
    eat TOKEN_IDENTIFIER
    pure tok.value
  else if tok.type = TOKEN_BOOL then do
    eat TOKEN_BOOL
    pure "bool".toList
  else parser_error msg

def parse_variable_declaration (reg : Registry) (fuel : Nat) : PM ASTNode := do
  eat TOKEN_DEF
  let t ← current_type
  let is_mutable : Int ← (if t = TOKEN_MUT then do
      eat TOKEN_MUT
      pure 1
    else if t = TOKEN_CONST then do
      eat TOKEN_CONST
      pure (-1)
    else pure 0)
  let name_tok ← current_token
  if name_tok.type ≠ TOKEN_IDENTIFIER then parser_error "Expected variable name"
  else do
    let var_name := name_tok.value
    eat TOKEN_IDENTIFIER
    eat TOKEN_COLON
    let var_type ← parse_type_spelling "Expected base type after '*'" "Expected variable type"
    eat TOKEN_ASSIGN
    let value ← parse_expression reg fuel
    eat TOKEN_SEMICOLON
    pure (create_variable_decl_node reg var_name var_type (some value) is_mutable)

def parse_return_statement (reg : Registry) (fuel : Nat) : PM ASTNode := do
  eat TOKEN_RETURN
  let t ← current_type
  let value ← (if t ≠ TOKEN_SEMICOLON then do
      let v ← parse_expression reg fuel
      pure (some v)
    else pure none)
  eat TOKEN_SEMICOLON
  pure (.return_stmt value)

def parse_expression_statement (reg : Registry) (fuel : Nat) : PM ASTNode := do
  let tok ← current_token
  if tok.type = TOKEN_MULTIPLY then do
    eat TOKEN_MULTIPLY
    let target ← parse_primary reg fuel
    let t ← current_type
    if t = TOKEN_ASSIGN then do
      eat TOKEN_ASSIGN
      let value ← parse_expression reg fuel
      eat TOKEN_SEMICOLON
      pure (.pointer_assignment (create_unary_op_node UNARY_DEREFERENCE target) value)
    else do
      let deref := create_unary_op_node UNARY_DEREFERENCE target
      let expr ← parse_additive_continuation reg fuel deref
      eat TOKEN_SEMICOLON
      pure expr
  else if tok.type = TOKEN_IDENTIFIER then do
    let var_name := tok.value
    eat TOKEN_IDENTIFIER
    let t ← current_type
    if t = TOKEN_ASSIGN then do
      eat TOKEN_ASSIGN
      let value ← parse_expression reg fuel
      eat TOKEN_SEMICOLON
      pure (.assignment var_name value)
    else do
      let left := create_identifier_node var_name
      if t = TOKEN_DOT then do
        eat TOKEN_DOT
        let mtok ← current_token
        if mtok.type ≠ TOKEN_IDENTIFIER then parser_error "Expected method name after '.'"
        else do
          let method := mtok.value
          eat TOKEN_IDENTIFIER
          let t2 ← current_type
          if t2 = TOKEN_LPAREN then do
            eat TOKEN_LPAREN
            let call_name :=
              if var_name = "std".toList then var_name ++ ['.'] ++ method else method
            let args ← parse_args_until_rparen reg "function call" fuel []
            eat TOKEN_RPAREN
            eat TOKEN_SEMICOLON
            pure (.call call_name args)
          else parser_error "Field access not implemented"
      else if t = TOKEN_LPAREN then do
        eat TOKEN_LPAREN
        let args ← parse_args_until_rparen reg "function call" fuel []
        eat TOKEN_RPAREN
        eat TOKEN_SEMICOLON
        pure (.call var_name args)
      else do
        let expr ← parse_additive_continuation reg fuel left
        eat TOKEN_SEMICOLON
        pure expr
  else do
    let expr ← parse_expression reg fuel
    eat TOKEN_SEMICOLON
    pure expr

def parse_break_statement : PM ASTNode := do
  eat TOKEN_BREAK
  eat TOKEN_SEMICOLON
  pure .break_stmt

def parse_continue_statement : PM ASTNode := do
  eat TOKEN_CONTINUE
  eat TOKEN_SEMICOLON
  pure .continue_stmt

/-- The `init` clause of `parse_for_statement`. -/
def parse_for_init (reg : Registry) (fuel : Nat) : PM (Option ASTNode) := do
  let t ← current_type
  if t ≠ TOKEN_SEMICOLON then
    if t = TOKEN_DEF then do
      eat TOKEN_DEF
      let t1 ← current_type
      let is_mutable : Int ← (if t1 = TOKEN_MUT then do
          eat TOKEN_MUT
          pure 1
        else pure 0)
      let name_tok ← current_token
      if name_tok.type ≠ TOKEN_IDENTIFIER then parser_error "Expected variable name"
      else do
        eat TOKEN_IDENTIFIER
        eat TOKEN_COLON
        let type_tok ← current_token
        eat TOKEN_IDENTIFIER
        eat TOKEN_ASSIGN
        let value ← parse_expression reg fuel
        pure (some (create_variable_decl_node reg name_tok.value type_tok.value (some value)
          is_mutable))
    else do
      let e ← parse_expression reg fuel
      pure (some e)
  else pure none

/-- The `update` clause of `parse_for_statement`. -/
def parse_for_update (reg : Registry) (fuel : Nat) : PM (Option ASTNode) := do
  let tok ← current_token
  if tok.type ≠ TOKEN_LBRACE then
    if tok.type = TOKEN_IDENTIFIER then do
      eat TOKEN_IDENTIFIER
      let t ← current_type
      if t = TOKEN_ASSIGN then do
        eat TOKEN_ASSIGN
        let value ← parse_expression reg fuel
        pure (some (.assignment tok.value value))
      else pure (some (create_identifier_node tok.value))
    else do
      let e ← parse_expression reg fuel
      pure (some e)
  else pure none

/-- The loop `while (type == TOKEN_NEWLINE) eat(parser, TOKEN_NEWLINE);`. -/
def skip_newlines : Nat → PM Unit
  | 0 => no_fuel
  | fuel + 1 => do
    let t ← current_type
    if t = TOKEN_NEWLINE then do
      eat TOKEN_NEWLINE
      skip_newlines fuel
    else pure ()

mutual

def parse_block (reg : Registry) : Nat → PM ASTNode
  | 0 => no_fuel
  | fuel + 1 => do
    eat TOKEN_LBRACE
    skip_newlines fuel
    let statements ← parse_block_loop reg fuel []
    eat TOKEN_RBRACE
    pure (.block statements)

/-- The statement loop of `parse_block`. -/
def parse_block_loop (reg : Registry) : Nat → List ASTNode → PM (List ASTNode)
  | 0, _ => no_fuel
  | fuel + 1, statements => do
    let t ← current_type
    if t ≠ TOKEN_RBRACE ∧ t ≠ TOKEN_EOF then
      if t = TOKEN_NEWLINE then do
        eat TOKEN_NEWLINE
        parse_block_loop reg fuel statements
      else do
        let statement ← parse_statement reg fuel
        parse_block_loop reg fuel (statements ++ [statement])
    else pure statements

def parse_statement (reg : Registry) : Nat → PM ASTNode
  | 0 => no_fuel
  | fuel + 1 => do
    let t ← current_type
    if t = TOKEN_DEF then parse_variable_declaration reg fuel
    else if t = TOKEN_RETURN then parse_return_statement reg fuel
    else if t = TOKEN_IF then parse_if_statement reg fuel
    else if t = TOKEN_UNLESS then parse_unless_statement reg fuel
    else if t = TOKEN_FOR then parse_for_statement reg fuel
    else if t = TOKEN_WHILE then parse_while_statement reg fuel
    else if t = TOKEN_SWITCH then parse_switch_statement reg fuel
    else if t = TOKEN_MATCH then parse_match_statement reg fuel
    else if t = TOKEN_BREAK then parse_break_statement
    else if t = TOKEN_CONTINUE then parse_continue_statement
    else parse_expression_statement reg fuel

def parse_if_statement (reg : Registry) : Nat → PM ASTNode
  | 0 => no_fuel
  | fuel + 1 => do
    eat TOKEN_IF
    let condition ← parse_expression reg fuel
    let then_block ← parse_block reg fuel
    let t ← current_type
    let else_block ← (if t = TOKEN_ELSE then do
        eat TOKEN_ELSE
        let b ← parse_block reg fuel
        pure (some b)
      else pure none)
    pure (.if_stmt condition then_block else_block)

def parse_unless_statement (reg : Registry) : Nat → PM ASTNode
  | 0 => no_fuel
  | fuel + 1 => do
    eat TOKEN_UNLESS
    let condition ← parse_expression reg fuel
    let then_block ← parse_block reg fuel
    let t ← current_type
    let else_block ← (if t = TOKEN_ELSE then do
        eat TOKEN_ELSE
        let b ← parse_block reg fuel
        pure (some b)
      else pure none)
    pure (.unless_stmt condition then_block else_block)

def parse_for_statement (reg : Registry) : Nat → PM ASTNode
  | 0 => no_fuel
  | fuel + 1 => do
    eat TOKEN_FOR
    let init ← parse_for_init reg fuel
    eat TOKEN_SEMICOLON
    let t ← current_type
    let condition ← (if t ≠ TOKEN_SEMICOLON then do
        let c ← parse_expression reg fuel
        pure (some c)
      else pure none)
    eat TOKEN_SEMICOLON
    let update ← parse_for_update reg fuel
    let body ← parse_block reg fuel
    pure (.for_stmt init condition update body)

def parse_while_statement (reg : Registry) : Nat → PM ASTNode
  | 0 => no_fuel
  | fuel + 1 => do
    eat TOKEN_WHILE
    let condition ← parse_expression reg fuel
    let body ← parse_block reg fuel
    pure (.while_stmt condition body)

/-- The statement loop of a `case` arm in `parse_switch_statement`. -/
def parse_case_statements (reg : Registry) : Nat → List ASTNode → PM (List ASTNode)
  | 0, _ => no_fuel
  | fuel + 1, statements => do
    let t ← current_type
    if t ≠ TOKEN_CASE ∧ t ≠ TOKEN_DEFAULT ∧ t ≠ TOKEN_RBRACE then
      if t = TOKEN_NEWLINE then do
        eat TOKEN_NEWLINE
        parse_case_statements reg fuel statements
      else do
        let statement ← parse_statement reg fuel
        parse_case_statements reg fuel (statements ++ [statement])
    else pure statements

/-- The statement loop of the `default` arm in `parse_switch_statement`. -/
def parse_default_statements (reg : Registry) : Nat → List ASTNode → PM (List ASTNode)
  | 0, _ => no_fuel
  | fuel + 1, statements => do
    let t ← current_type
    if t ≠ TOKEN_RBRACE then
      if t = TOKEN_NEWLINE then do
        eat TOKEN_NEWLINE
        parse_default_statements reg fuel statements
      else do
        let statement ← parse_statement reg fuel
        parse_default_statements reg fuel (statements ++ [statement])
    else pure statements

/-- The case loop of `parse_switch_statement`: the cases so far and the
default case so far. -/
def parse_switch_cases (reg : Registry) : Nat → List ASTNode → Option ASTNode →
    PM (List ASTNode × Option ASTNode)
  | 0, _, _ => no_fuel
  | fuel + 1, cases, default_case => do
    let t ← current_type
    if t ≠ TOKEN_RBRACE then
      if t = TOKEN_NEWLINE then do
        eat TOKEN_NEWLINE
        parse_switch_cases reg fuel cases default_case
      else if t = TOKEN_CASE then do
        eat TOKEN_CASE
        let case_value ← parse_expression reg fuel
        eat TOKEN_COLON
        let statements ← parse_case_statements reg fuel []
        parse_switch_cases reg fuel (cases ++ [.switch_case (some case_value) statements])
          default_case
      else if t = TOKEN_DEFAULT then do
        eat TOKEN_DEFAULT
        eat TOKEN_COLON
        let statements ← parse_default_statements reg fuel []
        parse_switch_cases reg fuel cases (some (.switch_case none statements))
      else parser_error "Expected 'case' or 'default' in switch statement"
    else pure (cases, default_case)

def parse_switch_statement (reg : Registry) : Nat → PM ASTNode
  | 0 => no_fuel
  | fuel + 1 => do
    eat TOKEN_SWITCH
    let expression ← parse_expression reg fuel
    eat TOKEN_LBRACE
    let r ← parse_switch_cases reg fuel [] none
    eat TOKEN_RBRACE
    pure (.switch_stmt expression r.1 r.2)

/-- The case loop of `parse_match_statement`. -/
def parse_match_cases (reg : Registry) : Nat → List ASTNode → PM (List ASTNode)
  | 0, _ => no_fuel
  | fuel + 1, cases => do
    let t ← current_type
    if t ≠ TOKEN_RBRACE then
      if t = TOKEN_NEWLINE then do
        eat TOKEN_NEWLINE
        parse_match_cases reg fuel cases
      else do
        let pattern ← (if t = TOKEN_UNDERSCORE then do
            eat TOKEN_UNDERSCORE
            pure (create_identifier_node "_".toList)
          else parse_expression reg fuel)
        eat TOKEN_DOUBLE_ARROW
        let body ← parse_block reg fuel
        parse_match_cases reg fuel (cases ++ [.match_case pattern body])
    else pure cases

def parse_match_statement (reg : Registry) : Nat → PM ASTNode
  | 0 => no_fuel
  | fuel + 1 => do
    eat TOKEN_MATCH
    let expression ← parse_expression reg fuel
    eat TOKEN_LBRACE
    let cases ← parse_match_cases reg fuel []
    eat TOKEN_RBRACE
    pure (.match_stmt expression cases)

end

/-- The parameter loop of `parse_function_declaration`: names and type
spellings, in order. -/
def parse_function_params : Nat → List (CStr × CStr) → PM (List (CStr × CStr))
  | 0, _ => no_fuel
  | fuel + 1, params => do
    let tok ← current_token
    if tok.type ≠ TOKEN_RPAREN ∧ tok.type ≠ TOKEN_EOF then
      if tok.type ≠ TOKEN_IDENTIFIER then parser_error "Expected parameter name"
      else do
        eat TOKEN_IDENTIFIER
        let t ← current_type
        if t ≠ TOKEN_COLON then parser_error "Expected ':' after parameter name"
        else do
          eat TOKEN_COLON
          let param_type ←
            parse_type_spelling "Expected base type after '*'" "Expected parameter type"
          let t2 ← current_type
          if t2 = TOKEN_COMMA then do
            eat TOKEN_COMMA
            parse_function_params fuel (params ++ [(tok.value, param_type)])
          else if t2 ≠ TOKEN_RPAREN then parser_error "Expected ',' or ')' after parameter"
          else parse_function_params fuel (params ++ [(tok.value, param_type)])
    else pure params

def parse_function_declaration (reg : Registry) (fuel : Nat) : PM ASTNode := do
  let tok ← current_token
  if tok.type ≠ TOKEN_IDENTIFIER then parser_error "Expected function name"
  else do
    let function_name := tok.value
    eat TOKEN_IDENTIFIER
    eat TOKEN_LPAREN
    let params ← parse_function_params fuel []
    eat TOKEN_RPAREN
    eat TOKEN_ARROW
    let return_type ← parse_type_spelling "Expected base type after '*'" "Expected return type"
    let body ← parse_block reg fuel
    pure (.function function_name return_type
      (params.map (fun p => create_parameter_node reg p.1 p.2)) (some body))

/-- The parameter loop of a method in `parse_struct_declaration`. -/
def parse_method_params (reg : Registry) : Nat → List ASTNode → PM (List ASTNode)
  | 0, _ => no_fuel
  | fuel + 1, params => do
    let tok ← current_token
    if tok.type ≠ TOKEN_RPAREN then
      if tok.type ≠ TOKEN_IDENTIFIER then parser_error "Expected parameter name"
      else do
        eat TOKEN_IDENTIFIER
        eat TOKEN_COLON
        let param_type ← parse_struct_type_spelling "Expected parameter type"
        let param := create_parameter_node reg tok.value param_type
        let t2 ← current_type
        if t2 = TOKEN_COMMA then do
          eat TOKEN_COMMA
          parse_method_params reg fuel (params ++ [param])
        else if t2 ≠ TOKEN_RPAREN then parser_error "Expected ',' or ')' in parameter list"
        else parse_method_params reg fuel (params ++ [param])
    else pure params

/-- The member loop of `parse_struct_declaration`: fields and methods so far. -/
def parse_struct_members (reg : Registry) : Nat → List ASTNode → List ASTNode →
    PM (List ASTNode × List ASTNode)
  | 0, _, _ => no_fuel
  | fuel + 1, fields, methods => do
    let tok ← current_token
    if tok.type ≠ TOKEN_RBRACE ∧ tok.type ≠ TOKEN_EOF then
      if tok.type = TOKEN_NEWLINE then do
        eat TOKEN_NEWLINE
        parse_struct_members reg fuel fields methods
      else if tok.type = TOKEN_PUB ∨ tok.type = TOKEN_PRIV then do
        let visibility :=
          if tok.type = TOKEN_PUB then VISIBILITY_PUBLIC else VISIBILITY_PRIVATE
        eat tok.type
        let name_tok ← current_token
        if name_tok.type ≠ TOKEN_IDENTIFIER then
          parser_error "Expected method name after visibility modifier"
        else do
          eat TOKEN_IDENTIFIER
          eat TOKEN_LPAREN
          let params ← parse_method_params reg fuel []
          eat TOKEN_RPAREN
          let t ← current_type
          let return_type ← (if t = TOKEN_ARROW then do
              eat TOKEN_ARROW
              let rt ← current_token
              if rt.type = TOKEN_IDENTIFIER then do
                eat TOKEN_IDENTIFIER
                pure rt.value
              else if rt.type = TOKEN_BOOL then do
                eat TOKEN_BOOL
                pure "bool".toList
              else parser_error "Expected return type after '->'"
            else pure "void".toList)
          let body ← parse_block reg fuel
          parse_struct_members reg fuel fields
            (methods ++ [.struct_method name_tok.value return_type params (some body) visibility])
      else if tok.type = TOKEN_IDENTIFIER then do
        eat TOKEN_IDENTIFIER
        eat TOKEN_COLON
        let field_type ← parse_struct_type_spelling "Expected field type"
        eat TOKEN_SEMICOLON
        parse_struct_members reg fuel (fields ++ [create_struct_field_node tok.value field_type])
          methods
      else parser_error "Expected field or method declaration in struct"
    else pure (fields, methods)

def parse_struct_declaration (reg : Registry) (fuel : Nat) : PM ASTNode := do
  eat TOKEN_STRUCT
  let tok ← current_token
  if tok.type ≠ TOKEN_IDENTIFIER then parser_error "Expected struct name"
  else do
    eat TOKEN_IDENTIFIER
    eat TOKEN_LBRACE
    skip_newlines fuel
    let r ← parse_struct_members reg fuel [] []
    eat TOKEN_RBRACE
    pure (.struct_decl tok.value r.1 r.2)

/-- The variant loop of `parse_enum_declaration`. -/
def parse_enum_variants : Nat → List ASTNode → PM (List ASTNode)
  | 0, _ => no_fuel
  | fuel + 1, variants => do
    let tok ← current_token
    if tok.type ≠ TOKEN_RBRACE ∧ tok.type ≠ TOKEN_EOF then
      if tok.type = TOKEN_NEWLINE then do
        eat TOKEN_NEWLINE
        parse_enum_variants fuel variants
      else if tok.type = TOKEN_IDENTIFIER then do
        eat TOKEN_IDENTIFIER
        let t ← current_type
        if t = TOKEN_COMMA then do
          eat TOKEN_COMMA
          parse_enum_variants fuel (variants ++ [.enum_variant tok.value])
        else parse_enum_variants fuel (variants ++ [.enum_variant tok.value])
      else parser_error "Expected enum variant name"
    else pure variants

def parse_enum_declaration (fuel : Nat) : PM ASTNode := do
  eat TOKEN_ENUM
  let tok ← current_token
  if tok.type ≠ TOKEN_IDENTIFIER then parser_error "Expected enum name"
  else do
    eat TOKEN_IDENTIFIER
    eat TOKEN_LBRACE
    skip_newlines fuel
    let variants ← parse_enum_variants fuel []
    eat TOKEN_RBRACE
    pure (.enum_decl tok.value variants)

def parse_import_decl : PM ASTNode := do
  eat TOKEN_IMPORT
  let tok ← current_token
  if tok.type ≠ TOKEN_STRING then parser_error "Expected import path string"
  else
    let import_path := tok.value
    let finish (type : ImportType) (clean_path : CStr) : PM ASTNode := do
      eat TOKEN_STRING
      let t ← current_type
      if t = TOKEN_NEWLINE then do
        eat TOKEN_NEWLINE
        pure (.import_node type clean_path)
      else pure (.import_node type clean_path)
    if char_at import_path 0 = '@' then finish IMPORT_STD (import_path.drop 1)
    else if char_at import_path 0 = '#' then finish IMPORT_EXTERNAL (import_path.drop 1)
    else if import_path.take 2 = "./".toList then finish IMPORT_LOCAL (import_path.drop 2)
    else parser_error "Invalid import path format"

/-- The top-level `def const|mut name: type = value;` handled inside
`parse_program` (the `def` is already consumed). -/
def parse_toplevel_variable (reg : Registry) (fuel : Nat) : PM ASTNode := do
  let kw ← current_type
  let is_const := decide (kw = TOKEN_CONST)
  eat kw
  let name_tok ← current_token
  if name_tok.type ≠ TOKEN_IDENTIFIER then parser_error "Expected variable name"
  else do
    eat TOKEN_IDENTIFIER
    eat TOKEN_COLON
    let tok ← current_token
    let var_type ← (if tok.type = TOKEN_I32 then do
        eat TOKEN_I32
        pure "i32".toList
      else if tok.type = TOKEN_F32 then do
        eat TOKEN_F32
        pure "f32".toList
      else if tok.type = TOKEN_STRING_TYPE then do
        eat TOKEN_STRING_TYPE
        pure "string".toList
      else if tok.type = TOKEN_VOID then do
        eat TOKEN_VOID
        pure "void".toList
      else if tok.type = TOKEN_IDENTIFIER then do
        eat TOKEN_IDENTIFIER
        pure tok.value
      else parser_error "Expected variable type")
    eat TOKEN_ASSIGN
    let value ← parse_expression reg fuel
    eat TOKEN_SEMICOLON
    pure (create_variable_decl_node reg name_tok.value var_type (some value)
      (if is_const then -1 else 1))

/-- The main loop of `parse_program`: imports and declarations so far. -/
def parse_program_loop (reg : Registry) : Nat → List ASTNode → List ASTNode → PM ASTNode
  | 0, _, _ => no_fuel
  | fuel + 1, imports, functions => do
    let t ← current_type
    if t ≠ TOKEN_EOF then
      if t = TOKEN_IMPORT then do
        let node ← parse_import_decl
        parse_program_loop reg fuel (imports ++ [node]) functions
      else if t = TOKEN_DEF then do
        eat TOKEN_DEF
        let t1 ← current_type
        if t1 = TOKEN_CONST ∨ t1 = TOKEN_MUT then do
          let var_decl ← parse_toplevel_variable reg fuel
          parse_program_loop reg fuel imports (functions ++ [var_decl])
        else if t1 = TOKEN_STRUCT then do
          let struct_decl ← parse_struct_declaration reg fuel
          parse_program_loop reg fuel imports (functions ++ [struct_decl])
        else if t1 = TOKEN_ENUM then do
          let enum_decl ← parse_enum_declaration fuel
          parse_program_loop reg fuel imports (functions ++ [enum_decl])
        else if t1 = TOKEN_IDENTIFIER then do
          let function ← parse_function_declaration reg fuel
          parse_program_loop reg fuel imports (functions ++ [function])
        else parser_error "Expected const, mut, struct, enum, or function name after 'def'"
      else if t = TOKEN_NEWLINE then do
        eat TOKEN_NEWLINE
        parse_program_loop reg fuel imports functions
      else parser_error "Expected import or def declaration"
    else pure (.program imports functions)

def parse_program (reg : Registry) (fuel : Nat) : PM ASTNode := do
  skip_newlines fuel
  parse_program_loop reg fuel [] []

/-- The recursion budget used for a whole source text: every loop turn and
every nested call of the parser consumes at least one character of input or
descends one of the boundedly many grammar levels. -/
def parse_fuel (input : CStr) : Nat := 16 * input.length + 16

/-- Lexer and parser created on a source text, then `parse_program`, as
`parse_file` does after reading the file. -/
def parse_source (reg : Registry) (input : CStr) : ParseResult ASTNode :=
  parse_program reg (parse_fuel input) (parser_create (create_lexer input))

/-- The source text `def struct P { x: t; }` for a type spelling `t`. -/
def struct_source (t : CStr) : CStr := "def struct P \x7b x: ".toList ++ t ++ "; \x7d".toList

/-- The source text `def p: *t = &v;` for a base type spelling `t`. -/
def pointer_decl_source (t : CStr) : CStr := "def p: *".toList ++ t ++ " = &v;".toList

/-- The primitive type names the lexer turns into keyword tokens other than
`TOKEN_BOOL` (`TOKEN_I32`, `TOKEN_F32`, `TOKEN_STRING_TYPE`, `TOKEN_VOID`). -/
def keyword_type_names : List CStr :=
  ["i32".toList, "f32".toList, "string".toList, "void".toList]

/-- The primitive type names that lex as `TOKEN_IDENTIFIER` or `TOKEN_BOOL`. -/
def plain_type_names : List CStr :=
  ["bool".toList, "i8".toList, "i16".toList, "i64".toList, "u8".toList, "u16".toList,
   "u32".toList, "u64".toList, "f64".toList, "char".toList]

/-! ## ast.c: type resolution -/

def get_field_type (reg : Registry) (struct_type : TypeKind) (field_name : CStr) : TypeKind :=
  match get_struct_type reg struct_type with
  | none => TYPE_UNKNOWN
  | some st =>
    match st.fields.find? (fun f => decide (f.name = field_name)) with
    | some f => f.type
    | none => TYPE_UNKNOWN

def get_node_type : ASTNode → TypeKind
  | .literal _ _ resolved_type => resolved_type
  | .identifier _ resolved_type => resolved_type
  | .binary_op _ _ _ resolved_type => resolved_type
  | .unary_op _ _ resolved_type => resolved_type
  | .variable_decl _ _ _ _ resolved_type => resolved_type
  | .parameter _ _ resolved_type => resolved_type
  | _ => TYPE_UNKNOWN

/-- The test `operator >= OP_EQ && operator <= OP_GE` of `resolve_types` and
`codegen_binary_op`. -/
def is_comparison_operator : BinaryOperator → Bool
  | OP_EQ | OP_NE | OP_LT | OP_GT | OP_LE | OP_GE => true
  | _ => false

/-- The entry `resolve_types` copies from a field node of a struct
declaration: its name and resolved type (the parser puts only `StructField`
nodes there). -/
def struct_field_entry : ASTNode → StructField
  | .struct_field name _ resolved_type => ⟨name, resolved_type, 0⟩
  | _ => ⟨[], TYPE_UNKNOWN, 0⟩

mutual

/-- The resolver: the registry is the global one, the node is rewritten in
place in C and returned here. -/
def resolve_types (reg : Registry) : ASTNode → Registry × ASTNode
  | .program imports functions =>
    let r := resolve_types_list reg functions
    (r.1, .program imports r.2)
  | .function name return_type params body =>
    let rp := resolve_types_list reg params
    let rb := resolve_types_opt rp.1 body
    (rb.1, .function name return_type rp.2 rb.2)
  | .block statements =>
    let r := resolve_types_list reg statements
    (r.1, .block r.2)
  | .variable_decl name type value is_mutable _ =>
    let r := resolve_types_opt reg value
    (r.1, .variable_decl name type r.2 is_mutable (string_to_type reg type))
  | .assignment variable_name value =>
    let r := resolve_types reg value
    (r.1, .assignment variable_name r.2)
  | .pointer_assignment target value =>
    let rt := resolve_types reg target
    let rv := resolve_types rt.1 value
    (rv.1, .pointer_assignment rt.2 rv.2)
  | .return_stmt value =>
    let r := resolve_types_opt reg value
    (r.1, .return_stmt r.2)
  | .call name args =>
    let r := resolve_types_list reg args
    (r.1, .call name r.2)
  | .binary_op operator left right _ =>
    let rl := resolve_types reg left
    let rr := resolve_types rl.1 right
    let left_type := get_node_type rl.2
    let right_type := get_node_type rr.2
    let is_comparison := is_comparison_operator operator
    (rr.1, .binary_op operator rl.2 rr.2
      (get_binary_result_type left_type right_type is_comparison))
  | .unary_op operator operand _ =>
    let r := resolve_types reg operand
    let operand_type := get_node_type r.2
    let resolved :=
      match operator with
      | UNARY_ADDRESS_OF => make_pointer_type operand_type
      | UNARY_DEREFERENCE =>
        if is_pointer_type operand_type then get_pointed_type operand_type else TYPE_UNKNOWN
    (r.1, .unary_op operator r.2 resolved)
  | .struct_decl name fields methods =>
    let rf := resolve_types_list reg fields
    let registered := register_struct_type rf.1 name (rf.2.map struct_field_entry)
    let rm := resolve_types_list registered.1 methods
    (rm.1, .struct_decl name rf.2 rm.2)
  | .struct_field name type _ =>
    (reg, .struct_field name type (string_to_type reg type))
  | .struct_method name return_type params body visibility =>
    let rp := resolve_types_list reg params
    let rb := resolve_types_opt rp.1 body
    (rb.1, .struct_method name return_type rp.2 rb.2 visibility)
  | .field_access object field_name _ =>
    let r := resolve_types reg object
    let object_type := get_node_type r.2
    let resolved :=
      if is_struct_type object_type then get_field_type r.1 object_type field_name
      else TYPE_UNKNOWN
    (r.1, .field_access r.2 field_name resolved)
  | .method_call object method_name args _ =>
    let ro := resolve_types reg object
    let ra := resolve_types_list ro.1 args
    (ra.1, .method_call ro.2 method_name ra.2 TYPE_UNKNOWN)
  | .struct_literal struct_type_name field_values field_names _ =>
    let r := resolve_types_list reg field_values
    let resolved :=
      match find_struct_by_name r.1 struct_type_name with
      | some st => st.type_id
      | none => TYPE_UNKNOWN
    (r.1, .struct_literal struct_type_name r.2 field_names resolved)
  | .if_stmt condition then_block else_block =>
    let rc := resolve_types reg condition
    let rt := resolve_types rc.1 then_block
    let re := resolve_types_opt rt.1 else_block
    (re.1, .if_stmt rc.2 rt.2 re.2)
  | .unless_stmt condition then_block else_block =>
    let rc := resolve_types reg condition
    let rt := resolve_types rc.1 then_block
    let re := resolve_types_opt rt.1 else_block
    (re.1, .unless_stmt rc.2 rt.2 re.2)
  | .for_stmt init condition update body =>
    let ri := resolve_types_opt reg init
    let rc := resolve_types_opt ri.1 condition
    let ru := resolve_types_opt rc.1 update
    let rb := resolve_types ru.1 body
    (rb.1, .for_stmt ri.2 rc.2 ru.2 rb.2)
  | .while_stmt condition body =>
    let rc := resolve_types reg condition
    let rb := resolve_types rc.1 body
    (rb.1, .while_stmt rc.2 rb.2)
  | .switch_stmt expression cases default_case =>
    let re := resolve_types reg expression
    let rc := resolve_types_list re.1 cases
    let rd := resolve_types_opt rc.1 default_case
    (rd.1, .switch_stmt re.2 rc.2 rd.2)
  | .switch_case value statements =>
    let rv := resolve_types_opt reg value
    let rs := resolve_types_list rv.1 statements
    (rs.1, .switch_case rv.2 rs.2)
  | .match_stmt expression cases =>
    let re := resolve_types reg expression
    let rc := resolve_types_list re.1 cases
    (rc.1, .match_stmt re.2 rc.2)
  | .match_case pattern body =>
    let rp := resolve_types reg pattern
    let rb := resolve_types rp.1 body
    (rb.1, .match_case rp.2 rb.2)
  | .import_node import_type path => (reg, .import_node import_type path)
  | .parameter name type resolved_type => (reg, .parameter name type resolved_type)
  | .identifier name resolved_type => (reg, .identifier name resolved_type)
  | .literal value type resolved_type => (reg, .literal value type resolved_type)
  | .enum_decl name variants => (reg, .enum_decl name variants)
  | .enum_variant name => (reg, .enum_variant name)
  | .break_stmt => (reg, .break_stmt)
  | .continue_stmt => (reg, .continue_stmt)

/-- A `for` loop of `resolve_types` over a child array, in order. -/
def resolve_types_list (reg : Registry) : List ASTNode → Registry × List ASTNode
  | [] => (reg, [])
  | n :: rest =>
    let r := resolve_types reg n
    let rs := resolve_types_list r.1 rest
    (rs.1, r.2 :: rs.2)

/-- The resolver on a child pointer that may be `NULL`. -/
def resolve_types_opt (reg : Registry) : Option ASTNode → Registry × Option ASTNode
  | none => (reg, none)
  | some n =>
    let r := resolve_types reg n
    (r.1, some r.2)

end

/-! ## codegen.h / codegen.c: the lowerer over an abstract IR builder

The IR library is a collaborator, not part of the program.  Its handles are
modelled by what the program can observe of them: a type is its shape, a value
is a constant, a parameter, a function or the result of a numbered instruction,
a basic block is an index into the list of blocks created so far, and the
builder appends each instruction it is asked to build to the block it is
positioned in.  A `NULL` handle is `none`. -/

inductive LLVMType where
  | void
  | int (bits : Nat)
  | float
  | double
  | pointer (pointee : LLVMType)
  | struct (fields : List LLVMType)
  | function (return_type : LLVMType) (params : List LLVMType)
  deriving Repr

inductive LLVMValue where
  | const_int (type : LLVMType) (value : Int)
  | global_string (text : CStr)
  | param (function : CStr) (index : Nat)
  | function (name : CStr)
  | inst (id : Nat)
  deriving Repr

abbrev LLVMValueRef := Option LLVMValue

abbrev LLVMBasicBlockRef := Nat

inductive CastOp where
  | sext | zext | int_cast | trunc | bit_cast | int_to_ptr | ptr_to_int
  deriving DecidableEq, Repr

/-- The instructions the lowerer asks the builder for. `binary` stands for the
instruction `codegen_binary_op` selects for an operator (`add`, `sub`, `mul`,
`sdiv`, or a signed `icmp`). -/
inductive Instr where
  | alloca (type : LLVMType) (name : CStr)
  | store (value : LLVMValueRef) (ptr : LLVMValueRef)
  | load (type : LLVMType) (ptr : LLVMValueRef) (name : CStr)
  | br (dest : LLVMBasicBlockRef)
  | cond_br (condition : LLVMValueRef) (then_dest : LLVMBasicBlockRef)
      (else_dest : LLVMBasicBlockRef)
  | ret (value : LLVMValueRef)
  | ret_void
  | binary (operator : BinaryOperator) (left : LLVMValueRef) (right : LLVMValueRef)
  | cast (op : CastOp) (value : LLVMValueRef) (type : LLVMType)
  | call (function : LLVMValueRef) (args : List LLVMValueRef)
  | switch (value : LLVMValueRef) (default_dest : LLVMBasicBlockRef)
      (cases : List (LLVMValueRef × LLVMBasicBlockRef))
  deriving Repr

def Instr.is_terminator : Instr → Bool
  | .br _ | .cond_br _ _ _ | .ret _ | .ret_void | .switch _ _ _ => true
  | _ => false

structure BasicBlock where
  name : CStr
  instrs : List (Nat × Instr)
  deriving Repr

/-- An entry of the symbol table `CodeGen.variables`. -/
structure Variable where
  name : CStr
  value : LLVMValueRef
  type : LLVMType
  is_mutable : Int
  type_kind : TypeKind
  deriving Repr

/-- An entry of `CodeGen.functions`. -/
structure FunctionEntry where
  name : CStr
  function : LLVMValueRef
  deriving Repr

/-- An entry of `CodeGen.loop_stack`. -/
structure LoopContext where
  break_target : LLVMBasicBlockRef
  continue_target : LLVMBasicBlockRef
  deriving DecidableEq, Repr

/-- The `CodeGen` struct together with the module and builder it owns.
`variable_table` (the member `variables`, a reserved word here), `functions`
and `loop_stack` hold the entries below `variable_count`, `function_count` and
`loop_depth` (the C code reads no other entry), so each count is the length of
its list. A block keeps its index when the library deletes it; `deleted_blocks`
lists the blocks deleted so far. -/
structure CodeGen where
  module_functions : List (CStr × LLVMType)
  blocks : List BasicBlock
  deleted_blocks : List LLVMBasicBlockRef
  insert_block : Option LLVMBasicBlockRef
  next_inst : Nat
  current_function : LLVMValueRef
  variable_table : List Variable
  functions : List FunctionEntry
  loop_stack : List LoopContext
  has_error : Bool
  deriving Repr

def CodeGen.variable_count (codegen : CodeGen) : Nat := codegen.variable_table.length

def CodeGen.function_count (codegen : CodeGen) : Nat := codegen.functions.length

def CodeGen.loop_depth (codegen : CodeGen) : Nat := codegen.loop_stack.length

/-- A lowering function: the `CodeGen *` argument is threaded through. -/
def CG (α : Type) : Type := CodeGen → α × CodeGen

def CG.pure {α : Type} (a : α) : CG α := fun s => (a, s)

def CG.bind {α β : Type} (m : CG α) (f : α → CG β) : CG β := fun s =>
  let r := m s
  f r.1 r.2

instance : Monad CG where
  pure := CG.pure
  bind := CG.bind

/-- Reads the `CodeGen` struct. -/
def CG.get : CG CodeGen := fun s => (s, s)

/-- The statement `codegen->has_error = 1;`. -/
def set_has_error : CG Unit := fun s => ((), { s with has_error := true })

/-- Appends an entry to the `i`-th block. -/
def append_to_block (blocks : List BasicBlock) (i : Nat) (entry : Nat × Instr) :
    List BasicBlock :=
  match blocks[i]? with
  | some b => blocks.set i { b with instrs := b.instrs ++ [entry] }
  | none => blocks

/-- Any `LLVMBuild...` call: the instruction gets the next number, is appended
to the block the builder is positioned in, and its value is returned. -/
def build (i : Instr) : CG LLVMValueRef := fun s =>
  let blocks :=
    match s.insert_block with
    | some b => append_to_block s.blocks b (s.next_inst, i)
    | none => s.blocks
  (some (.inst s.next_inst), { s with blocks := blocks, next_inst := s.next_inst + 1 })

/-- The library call `LLVMAppendBasicBlock`. -/
def append_basic_block (name : String) : CG LLVMBasicBlockRef := fun s =>
  (s.blocks.length, { s with blocks := s.blocks ++ [⟨name.toList, []⟩] })

/-- The library call `LLVMPositionBuilderAtEnd`. -/
def position_builder_at_end (block : LLVMBasicBlockRef) : CG Unit := fun s =>
  ((), { s with insert_block := some block })

/-- The test `LLVMGetBasicBlockTerminator(LLVMGetInsertBlock(builder))`: whether
the block the builder is positioned in ends in a terminator. -/
def current_block_terminated : CG Bool := fun s =>
  let terminated :=
    match s.insert_block with
    | none => false
    | some b =>
      match s.blocks[b]? with
      | none => false
      | some blk =>
        match blk.instrs.getLast? with
        | none => false
        | some e => e.2.is_terminator
  (terminated, s)

/-- The library call `LLVMGetInsertBlock`. -/
def get_insert_block : CG (Option LLVMBasicBlockRef) := fun s => (s.insert_block, s)

/-- The test `LLVMGetBasicBlockTerminator(block)`: whether the last instruction
of `block` is a terminator. -/
def block_terminated (block : Option LLVMBasicBlockRef) : CG Bool := fun s =>
  let terminated :=
    match block with
    | none => false
    | some b =>
      match s.blocks[b]? with
      | none => false
      | some blk =>
        match blk.instrs.getLast? with
        | none => false
        | some e => e.2.is_terminator
  (terminated, s)

/-- The library call `LLVMDeleteBasicBlock`. -/
def delete_basic_block (block : LLVMBasicBlockRef) : CG Unit := fun s =>
  ((), { s with deleted_blocks := s.deleted_blocks ++ [block] })

/-- The library call `LLVMAddCase`: the case is appended to the case list of
the switch instruction `switch_instr`. -/
def add_case (switch_instr on_value : LLVMValueRef) (dest : LLVMBasicBlockRef) : CG Unit :=
  fun s =>
    match switch_instr with
    | some (.inst id) =>
      ((), { s with blocks := s.blocks.map (fun b =>
        { b with instrs := b.instrs.map (fun e =>
          match e.2 with
          | .switch value default_dest cases =>
            if e.1 = id then (e.1, .switch value default_dest (cases ++ [(on_value, dest)]))
            else e
          | _ => e) }) })
    | _ => ((), s)

/-- The part of `get_llvm_type_from_kind` below the pointer test. The cases
`TYPE_I128`, `TYPE_U128` and `TYPE_F128` of the source name kinds that the
enum of `types.h` does not have; no `TypeKind` reaches them. `fuel` bounds the
descent through record fields. -/
def get_llvm_type_from_kind_fuel (reg : Registry) : Nat → TypeKind → LLVMType
  | 0, _ => .int 32
  | fuel + 1, type_kind =>
    if is_pointer_type type_kind then
      .pointer (get_llvm_type_from_kind_fuel reg fuel (get_pointed_type type_kind))
    else if type_kind = TYPE_VOID then .void
    else if type_kind = TYPE_BOOL then .int 1
    else if type_kind = TYPE_I8 then .int 8
    else if type_kind = TYPE_I16 then .int 16
    else if type_kind = TYPE_I32 then .int 32
    else if type_kind = TYPE_I64 then .int 64
    else if type_kind = TYPE_U8 then .int 8
    else if type_kind = TYPE_U16 then .int 16
    else if type_kind = TYPE_U32 then .int 32
    else if type_kind = TYPE_U64 then .int 64
    else if type_kind = TYPE_F32 then .float
    else if type_kind = TYPE_F64 then .double
    else if type_kind = TYPE_CHAR then .int 8
    else if type_kind = TYPE_STRING then .pointer (.int 8)
    else if is_struct_type type_kind then
      match get_struct_type reg type_kind with
      | some st => .struct (st.fields.map (fun f => get_llvm_type_from_kind_fuel reg fuel f.type))
      | none => .int 32
    else .int 32

/-- On a registry built by `register_struct_type` a field's kind is older than
its record, so the descent is at most `struct_count + 1` deep. -/
def get_llvm_type_from_kind (reg : Registry) (type_kind : TypeKind) : LLVMType :=
  get_llvm_type_from_kind_fuel reg (reg.registered_structs.length + 2) type_kind

def get_llvm_type (reg : Registry) (type_name : CStr) : LLVMType :=
  get_llvm_type_from_kind reg (string_to_type reg type_name)

/-- The search loop shared by the `get_variable...` functions. -/
def find_variable (codegen : CodeGen) (name : CStr) : Option Variable :=
  codegen.variable_table.find? (fun v => decide (v.name = name))

def get_variable (codegen : CodeGen) (name : CStr) : LLVMValueRef :=
  match find_variable codegen name with
  | some v => v.value
  | none => none

/-- Returns `none` for the `NULL` type handle of a name that is not found. -/
def get_variable_type (codegen : CodeGen) (name : CStr) : Option LLVMType :=
  match find_variable codegen name with
  | some v => some v.type
  | none => none

def get_variable_mutability (codegen : CodeGen) (name : CStr) : Int :=
  match find_variable codegen name with
  | some v => v.is_mutable
  | none => -1

def get_variable_type_kind (codegen : CodeGen) (name : CStr) : TypeKind :=
  match find_variable codegen name with
  | some v => v.type_kind
  | none => TYPE_UNKNOWN

/-- The update loop of `set_variable_with_type`: the first entry named `name`
is overwritten; `none` when there is none. -/
def update_variable (name : CStr) (entry : Variable) : List Variable → Option (List Variable)
  | [] => none
  | v :: rest =>
    if v.name = name then some (entry :: rest)
    else
      match update_variable name entry rest with
      | some rest1 => some (v :: rest1)
      | none => none

def set_variable_with_type (name : CStr) (value : LLVMValueRef) (type : LLVMType)
    (is_mutable : Int) (type_kind : TypeKind) : CG Unit := fun s =>
  let entry : Variable := ⟨name, value, type, is_mutable, type_kind⟩
  match update_variable name entry s.variable_table with
  | some vars => ((), { s with variable_table := vars })
  | none =>
    if s.variable_table.length < 256 then ((), { s with variable_table := s.variable_table ++ [entry] })
    else ((), s)

def set_variable (name : CStr) (value : LLVMValueRef) (type : LLVMType) (is_mutable : Int) :
    CG Unit :=
  set_variable_with_type name value type is_mutable TYPE_UNKNOWN

def get_function (codegen : CodeGen) (name : CStr) : LLVMValueRef :=
  match codegen.functions.find? (fun f => decide (f.name = name)) with
  | some f => f.function
  | none => none

def set_function (name : CStr) (function : LLVMValueRef) : CG Unit := fun s =>
  if s.functions.length < 256 then
    ((), { s with functions := s.functions ++ [⟨name, function⟩] })
  else ((), s)

def get_expression_type (reg : Registry) (codegen : CodeGen) : ASTNode → TypeKind
  | .literal _ _ resolved_type => resolved_type
  | .identifier name _ => get_variable_type_kind codegen name
  | .binary_op operator left right resolved_type =>
    if resolved_type ≠ TYPE_UNKNOWN then resolved_type
    else
      let left_type := get_expression_type reg codegen left
      let right_type := get_expression_type reg codegen right
      if operator = OP_LT ∨ operator = OP_GT ∨ operator = OP_LE ∨ operator = OP_GE ∨
          operator = OP_EQ ∨ operator = OP_NE then TYPE_BOOL
      else if left_type ≠ TYPE_UNKNOWN then left_type
      else if right_type ≠ TYPE_UNKNOWN then right_type
      else TYPE_UNKNOWN
  | .unary_op _ _ resolved_type => resolved_type
  | .call name args =>
    if name = "std.to_string".toList then TYPE_STRING
    else if name = "std.to_int".toList then TYPE_I32
    else if name = "std.to_i64".toList then TYPE_I64
    else if name = "std.input".toList then TYPE_STRING
    else if name = "std.readln".toList then TYPE_STRING
    else if name = "cast".toList then
      match args with
      | _ :: .literal value type _ :: _ =>
        if type = "string".toList then string_to_type reg value else TYPE_UNKNOWN
      | _ => TYPE_UNKNOWN
    else TYPE_UNKNOWN
  | _ => TYPE_UNKNOWN

def push_loop_context (break_target continue_target : LLVMBasicBlockRef) : CG Unit := fun s =>
  if s.loop_stack.length < 32 then
    ((), { s with loop_stack := s.loop_stack ++ [⟨break_target, continue_target⟩] })
  else ((), s)

def pop_loop_context : CG Unit := fun s =>
  if s.loop_stack.length > 0 then ((), { s with loop_stack := s.loop_stack.dropLast })
  else ((), s)

/-- The characters the C library `isspace` accepts in the "C" locale. -/
def isspace (c : Char) : Bool :=
  c = ' ' || c = '\t' || c = '\n' || c = '\r' || c = '\x0b' || c = '\x0c'

/-- The digit loop of `atoi`. -/
def atoi_digits : List Char → Int → Int
  | [], acc => acc
  | c :: rest, acc =>
    if isdigit c then atoi_digits rest (acc * 10 + ((c.toNat : Int) - 48)) else acc

/-- The C library `atoi` (a value outside `int` is undefined in C and is left
as it is here). -/
def atoi (s : CStr) : Int :=
  match s.dropWhile isspace with
  | '-' :: rest => - atoi_digits rest 0
  | '+' :: rest => atoi_digits rest 0
  | rest => atoi_digits rest 0

def codegen_literal (value type : CStr) : CG LLVMValueRef :=
  if type = "i32".toList then
    pure (some (.const_int (.int 32) (atoi value)))
  else if type = "bool".toList then
    pure (some (.const_int (.int 1) (if value = "true".toList then 1 else 0)))
  else if type = "string".toList then
    pure (some (.global_string value))
  else pure none

def codegen_identifier (name : CStr) : CG LLVMValueRef := do
  let codegen ← CG.get
  match get_variable codegen name with
  | none => pure none
  | some var =>
    match get_variable_type codegen name with
    | none => pure none
    | some var_type => build (.load var_type (some var) name)

/-- The arguments are the operator, the two operand nodes (for
`get_expression_type`) and what `codegen_expression` does on each operand. -/
def codegen_binary_op (reg : Registry) (operator : BinaryOperator) (left right : ASTNode)
    (lower_left lower_right : CG LLVMValueRef) : CG LLVMValueRef := do
  let codegen ← CG.get
  let left_type := get_expression_type reg codegen left
  let right_type := get_expression_type reg codegen right
  let is_comparison := is_comparison_operator operator
  if is_comparison && !types_comparable left_type right_type then do
    set_has_error
    pure none
  else if !is_comparison && !types_compatible left_type right_type then do
    set_has_error
    pure none
  else do
    let l ← lower_left
    let r ← lower_right
    match l, r with
    | some _, some _ => build (.binary operator l r)
    | _, _ => pure none

/-- The arguments are the operator, the operand node and what
`codegen_expression` does on the operand. -/
def codegen_unary_op (reg : Registry) (operator : UnaryOperator) (operand : ASTNode)
    (lower_operand : CG LLVMValueRef) : CG LLVMValueRef :=
  match operator with
  | UNARY_ADDRESS_OF =>
    match operand with
    | .identifier name _ => do
      let codegen ← CG.get
      pure (get_variable codegen name)
    | _ => pure none
  | UNARY_DEREFERENCE => do
    let ptr_value ← lower_operand
    match ptr_value with
    | none => pure none
    | some _ => do
      let codegen ← CG.get
      let operand_type := get_expression_type reg codegen operand
      if !is_pointer_type operand_type then do
        set_has_error
        pure none
      else
        build (.load (get_llvm_type_from_kind reg (get_pointed_type operand_type)) ptr_value
          "deref".toList)

/-- The names `codegen_call` hands to a builtin lowering function. -/
def builtin_call_names : List CStr :=
  ["std.print".toList, "std.println".toList, "std.input".toList, "std.readln".toList,
   "std.to_int".toList, "std.to_i64".toList, "std.to_string".toList, "cast".toList,
   "std.malloc".toList, "std.free".toList]

/-- Runs the lowering actions of a child array in order and collects the values. -/
def lower_all : List (CG LLVMValueRef) → CG (List LLVMValueRef)
  | [] => pure []
  | a :: rest => do
    let v ← a
    let vs ← lower_all rest
    pure (v :: vs)

/-- The arguments are the callee name, what the builtin lowering function does
for this call (used for the ten builtin names only) and what
`codegen_expression` does on each argument. -/
def codegen_call (name : CStr) (builtin : CG LLVMValueRef) (lower_args : List (CG LLVMValueRef)) :
    CG LLVMValueRef :=
  if name ∈ builtin_call_names then builtin
  else do
    let codegen ← CG.get
    match get_function codegen name with
    | none => pure none
    | some function => do
      let args ← lower_all lower_args
      build (.call (some function) args)

/-- The automatic numeric conversion of `codegen_variable_decl`. -/
def auto_convert (reg : Registry) (target_type source_type : TypeKind)
    (initial_value : LLVMValueRef) : CG LLVMValueRef :=
  if target_type ≠ source_type ∧ source_type ≠ TYPE_UNKNOWN then
    let target_llvm_type := get_llvm_type_from_kind reg target_type
    let src_info := get_type_info source_type
    let target_info := get_type_info target_type
    if src_info.is_numeric && target_info.is_numeric then
      if src_info.size < target_info.size then
        if src_info.is_signed && target_info.is_signed then
          build (.cast .sext initial_value target_llvm_type)
        else if !src_info.is_signed && !target_info.is_signed then
          build (.cast .zext initial_value target_llvm_type)
        else build (.cast .int_cast initial_value target_llvm_type)
      else if src_info.size > target_info.size then
        build (.cast .trunc initial_value target_llvm_type)
      else build (.cast .bit_cast initial_value target_llvm_type)
    else pure initial_value
  else pure initial_value

/-- The initializer, when present, is given as its node and what
`codegen_expression` does on it. -/
def codegen_variable_decl (reg : Registry) (name type : CStr)
    (value : Option (ASTNode × CG LLVMValueRef)) (is_mutable : Int) (resolved_type : TypeKind) :
    CG LLVMValueRef := do
  let var_type := get_llvm_type reg type
  let alloca_inst ← build (.alloca var_type name)
  match value with
  | none => pure ()
  | some (value_node, lower_value) => do
    let initial_value ← lower_value
    match initial_value with
    | none => pure ()
    | some _ =>
      match value_node with
      | .struct_literal _ _ _ _ => do
        let struct_value ← build (.load var_type initial_value "struct_val".toList)
        let _ ← build (.store struct_value alloca_inst)
        pure ()
      | _ => do
        let codegen ← CG.get
        let source_type := get_expression_type reg codegen value_node
        let converted ← auto_convert reg resolved_type source_type initial_value
        let _ ← build (.store converted alloca_inst)
        pure ()
  set_variable_with_type name alloca_inst var_type is_mutable resolved_type
  pure alloca_inst

/-- The arguments are the variable name and what `codegen_expression` does on
the assigned value. -/
def codegen_assignment (variable_name : CStr) (lower_value : CG LLVMValueRef) :
    CG LLVMValueRef := do
  let codegen ← CG.get
  match get_variable codegen variable_name with
  | none => pure none
  | some var_alloca =>
    let mutability := get_variable_mutability codegen variable_name
    if mutability = 0 then do
      set_has_error
      pure none
    else do
      let new_value ← lower_value
      match new_value with
      | none => pure none
      | some _ => build (.store new_value (some var_alloca))

/-- The target is given as its node; `lower_pointer` is what
`codegen_expression` does on the operand of the target's dereference. -/
def codegen_pointer_assignment (target : ASTNode) (lower_pointer lower_value : CG LLVMValueRef) :
    CG LLVMValueRef :=
  match target with
  | .unary_op UNARY_DEREFERENCE _ _ => do
    let pointer ← lower_pointer
    match pointer with
    | none => pure none
    | some _ => do
      let new_value ← lower_value
      match new_value with
      | none => pure none
      | some _ => build (.store new_value pointer)
  | _ => pure none

def codegen_return (lower_value : Option (CG LLVMValueRef)) : CG LLVMValueRef :=
  match lower_value with
  | some lower => do
    let return_value ← lower
    build (.ret return_value)
  | none => build .ret_void

/-- The statement loop of `codegen_block` over what `codegen_statement` does on
each statement. -/
def codegen_block_loop : List (CG LLVMValueRef) → LLVMValueRef → CG LLVMValueRef
  | [], last_value => pure last_value
  | statement :: rest, last_value => do
    let terminated ← current_block_terminated
    if terminated then pure last_value
    else do
      let v ← statement
      codegen_block_loop rest v

def codegen_block (statements : List (CG LLVMValueRef)) : CG LLVMValueRef :=
  codegen_block_loop statements none

def codegen_break : CG LLVMValueRef := do
  let codegen ← CG.get
  match codegen.loop_stack.getLast? with
  | none => do
    set_has_error
    pure none
  | some top => do
    let _ ← build (.br top.break_target)
    pure none

def codegen_continue : CG LLVMValueRef := do
  let codegen ← CG.get
  match codegen.loop_stack.getLast? with
  | none => do
    set_has_error
    pure none
  | some top => do
    let _ ← build (.br top.continue_target)
    pure none

/-- The blocks a loop creates, as far as the rest of its lowering uses them. -/
structure LoopBlocks where
  cond_block : LLVMBasicBlockRef
  body_block : LLVMBasicBlockRef
  update_block : LLVMBasicBlockRef
  exit_block : LLVMBasicBlockRef
  deriving DecidableEq, Repr

/-- The part of `codegen_for` before the body is lowered. The arguments are
what `codegen_statement` does on `init` and what `codegen_expression` does on
the condition. -/
def codegen_for_enter (lower_init lower_condition : Option (CG LLVMValueRef)) : CG LoopBlocks := do
  let init_block ← append_basic_block "for_init"
  let cond_block ← append_basic_block "for_cond"
  let body_block ← append_basic_block "for_body"
  let update_block ← append_basic_block "for_update"
  let exit_block ← append_basic_block "for_exit"
  let _ ← build (.br init_block)
  position_builder_at_end init_block
  match lower_init with
  | some init => do
    let _ ← init
    pure ()
  | none => pure ()
  let _ ← build (.br cond_block)
  push_loop_context exit_block update_block
  position_builder_at_end cond_block
  match lower_condition with
  | some cond => do
    let condition ← cond
    let _ ← build (.cond_br condition body_block exit_block)
    pure ()
  | none => do
    let _ ← build (.br body_block)
    pure ()
  position_builder_at_end body_block
  pure ⟨cond_block, body_block, update_block, exit_block⟩

/-- The part of `codegen_for` after the body is lowered. -/
def codegen_for_leave (lower_update : Option (CG LLVMValueRef)) (b : LoopBlocks) :
    CG LLVMValueRef := do
  let terminated ← current_block_terminated
  if !terminated then do
    let _ ← build (.br b.update_block)
    pure ()
  else pure ()
  position_builder_at_end b.update_block
  match lower_update with
  | some update => do
    let _ ← update
    pure ()
  | none => pure ()
  let _ ← build (.br b.cond_block)
  pop_loop_context
  position_builder_at_end b.exit_block
  pure none

/-- The arguments are what `codegen_statement` does on `init` and on the body
and what `codegen_expression` does on the condition and on `update`. -/
def codegen_for (lower_init lower_condition lower_update : Option (CG LLVMValueRef))
    (lower_body : CG LLVMValueRef) : CG LLVMValueRef := do
  let b ← codegen_for_enter lower_init lower_condition
  let _ ← lower_body
  codegen_for_leave lower_update b

/-- The part of `codegen_while` before the body is lowered; the argument is
what `codegen_expression` does on the condition. A `while` loop has no update
block: `update_block` repeats `cond_block`. -/
def codegen_while_enter (lower_condition : CG LLVMValueRef) : CG LoopBlocks := do
  let cond_block ← append_basic_block "while_cond"
  let body_block ← append_basic_block "while_body"
  let exit_block ← append_basic_block "while_exit"
  push_loop_context exit_block cond_block
  let _ ← build (.br cond_block)
  position_builder_at_end cond_block
  let condition ← lower_condition
  let _ ← build (.cond_br condition body_block exit_block)
  position_builder_at_end body_block
  pure ⟨cond_block, body_block, cond_block, exit_block⟩

/-- The part of `codegen_while` after the body is lowered. -/
def codegen_while_leave (b : LoopBlocks) : CG LLVMValueRef := do
  let terminated ← current_block_terminated
  if !terminated then do
    let _ ← build (.br b.cond_block)
    pure ()
  else pure ()
  pop_loop_context
  position_builder_at_end b.exit_block
  pure none

/-- The arguments are what `codegen_expression` does on the condition and what
`codegen_statement` does on the body. -/
def codegen_while (lower_condition lower_body : CG LLVMValueRef) : CG LLVMValueRef := do
  let b ← codegen_while_enter lower_condition
  let _ ← lower_body
  codegen_while_leave b

/-- The statement
`if (!LLVMGetBasicBlockTerminator(block)) LLVMBuildBr(builder, dest);`. -/
def branch_unless_terminated (block : Option LLVMBasicBlockRef) (dest : LLVMBasicBlockRef) :
    CG Unit := do
  let terminated ← block_terminated block
  if !terminated then do
    let _ ← build (.br dest)
    pure ()
  else pure ()

/-- The part of `codegen_if` after the conditional branch is built;
`codegen_unless` repeats it word for word. The arguments are the blocks
created, and what `codegen_statement` does on the then arm and on the else arm
(`else_block` and `lower_else` are present together). -/
def codegen_if_arms (then_block merge_block : LLVMBasicBlockRef)
    (else_block : Option LLVMBasicBlockRef) (lower_then : CG LLVMValueRef)
    (lower_else : Option (CG LLVMValueRef)) : CG LLVMValueRef := do
  position_builder_at_end then_block
  let _ ← lower_then
  let current_then_block ← get_insert_block
  branch_unless_terminated current_then_block merge_block
  let current_else_block ←
    (match else_block, lower_else with
      | some b, some lower => do
        position_builder_at_end b
        let _ ← lower
        let current ← get_insert_block
        branch_unless_terminated current merge_block
        pure current
      | _, _ => pure none)
  let then_terminated ← block_terminated current_then_block
  let else_terminated ← block_terminated current_else_block
  let merge_has_predecessors :=
    else_block.isNone || (current_then_block.isSome && !then_terminated) ||
      (else_block.isSome && current_else_block.isSome && !else_terminated)
  if merge_has_predecessors then position_builder_at_end merge_block
  else do
    delete_basic_block merge_block
    match (if else_block.isSome && current_else_block.isSome then current_else_block
      else current_then_block) with
    | some b => position_builder_at_end b
    | none => pure ()
  pure none

/-- The arguments are what `codegen_expression` does on the condition and what
`codegen_statement` does on the then arm and on the else arm. -/
def codegen_if (lower_condition lower_then : CG LLVMValueRef)
    (lower_else : Option (CG LLVMValueRef)) : CG LLVMValueRef := do
  let condition ← lower_condition
  match condition with
  | none => pure none
  | some _ => do
    let then_block ← append_basic_block "if_then"
    let merge_block ← append_basic_block "if_merge"
    let else_block ←
      (match lower_else with
        | some _ => do
          let b ← append_basic_block "if_else"
          let _ ← build (.cond_br condition then_block b)
          pure (some b)
        | none => do
          let _ ← build (.cond_br condition then_block merge_block)
          pure none)
    codegen_if_arms then_block merge_block else_block lower_then lower_else

/-- The arguments are those of `codegen_if`; the conditional branch has its
destinations exchanged. -/
def codegen_unless (lower_condition lower_then : CG LLVMValueRef)
    (lower_else : Option (CG LLVMValueRef)) : CG LLVMValueRef := do
  let condition ← lower_condition
  match condition with
  | none => pure none
  | some _ => do
    let then_block ← append_basic_block "unless_then"
    let merge_block ← append_basic_block "unless_merge"
    let else_block ←
      (match lower_else with
        | some _ => do
          let b ← append_basic_block "unless_else"
          let _ ← build (.cond_br condition b then_block)
          pure (some b)
        | none => do
          let _ ← build (.cond_br condition merge_block then_block)
          pure none)
    codegen_if_arms then_block merge_block else_block lower_then lower_else

/-- The loop of `codegen_switch` that creates the case blocks, from case `i` on. -/
def append_case_blocks : Nat → Nat → CG (List LLVMBasicBlockRef)
  | 0, _ => pure []
  | n + 1, i => do
    let b ← append_basic_block ("switch_case_" ++ toString i)
    let rest ← append_case_blocks n (i + 1)
    pure (b :: rest)

/-- The statement loop of a case body in `codegen_switch`: every statement is
lowered, with no test of the current block. -/
def codegen_case_statements : List (CG LLVMValueRef) → CG Unit
  | [] => pure ()
  | statement :: rest => do
    let _ ← statement
    codegen_case_statements rest

/-- The body of the case loop of `codegen_switch` for one case. The arguments
are what `codegen_expression` does on the case value and what
`codegen_statement` does on each statement of the case. -/
def codegen_switch_case (switch_instr : LLVMValueRef) (exit_block case_block : LLVMBasicBlockRef)
    (lower_value : CG LLVMValueRef) (lower_statements : List (CG LLVMValueRef)) : CG Unit := do
  let case_value ← lower_value
  add_case switch_instr case_value case_block
  position_builder_at_end case_block
  codegen_case_statements lower_statements
  branch_unless_terminated (some case_block) exit_block

/-- The case loop of `codegen_switch`. -/
def codegen_switch_cases (switch_instr : LLVMValueRef) (exit_block : LLVMBasicBlockRef) :
    List LLVMBasicBlockRef → List (CG LLVMValueRef × List (CG LLVMValueRef)) → CG Unit
  | case_block :: blocks, case :: cases => do
    codegen_switch_case switch_instr exit_block case_block case.1 case.2
    codegen_switch_cases switch_instr exit_block blocks cases
  | _, _ => pure ()

/-- The arguments are what `codegen_expression` does on the switch expression,
for each case what it does on the case value and what `codegen_statement` does
on each statement of the case, and the same for the statements of the default
case when there is one. -/
def codegen_switch (lower_expression : CG LLVMValueRef)
    (cases : List (CG LLVMValueRef × List (CG LLVMValueRef)))
    (default_case : Option (List (CG LLVMValueRef))) : CG LLVMValueRef := do
  let switch_value ← lower_expression
  match switch_value with
  | none => pure none
  | some _ => do
    let exit_block ← append_basic_block "switch_exit"
    let default_block ←
      (match default_case with
        | some _ => append_basic_block "switch_default"
        | none => pure exit_block)
    let case_blocks ← append_case_blocks cases.length 0
    let switch_instr ← build (.switch switch_value default_block [])
    codegen_switch_cases switch_instr exit_block case_blocks cases
    match default_case with
    | some lower_statements =>
      if default_block ≠ exit_block then do
        position_builder_at_end default_block
        codegen_case_statements lower_statements
        branch_unless_terminated (some default_block) exit_block
      else pure ()
    | none => pure ()
    position_builder_at_end exit_block
    pure none

/-- The name of the target type of a `cast` call, read from its second
argument: an Identifier, or a Literal of type `string`. -/
def cast_target_type_name : ASTNode → Option CStr
  | .identifier name _ => some name
  | .literal value type _ => if type = "string".toList then some value else none
  | _ => none

/-- The arguments are the argument nodes of the call and what
`codegen_expression` does on each of them (only the first is run). -/
def codegen_cast (reg : Registry) (args : List ASTNode) (lower_args : List (CG LLVMValueRef)) :
    CG LLVMValueRef :=
  match args, lower_args with
  | [value_node, target_type_node], lower_value :: _ => do
    let value ← lower_value
    match value with
    | none => pure none
    | some _ => do
      let codegen ← CG.get
      let src_type := get_expression_type reg codegen value_node
      match cast_target_type_name target_type_node with
      | none => pure none
      | some target_type_name =>
        let target_type := string_to_type reg target_type_name
        if target_type = TYPE_UNKNOWN then pure none
        else
          let target_llvm_type := get_llvm_type_from_kind reg target_type
          let src_info := get_type_info src_type
          let target_info := get_type_info target_type
          if src_type = target_type then pure value
          else if src_info.is_numeric && target_info.is_numeric &&
              decide (type_to_string reg src_type ≠ type_to_string reg target_type) then
            if src_info.size < target_info.size then
              if src_info.is_signed && target_info.is_signed then
                build (.cast .sext value target_llvm_type)
              else if !src_info.is_signed && !target_info.is_signed then
                build (.cast .zext value target_llvm_type)
              else build (.cast .int_cast value target_llvm_type)
            else if src_info.size > target_info.size then
              build (.cast .trunc value target_llvm_type)
            else build (.cast .bit_cast value target_llvm_type)
          else if is_pointer_type target_type || is_pointer_type src_type then
            build (.cast .bit_cast value target_llvm_type)
          else if src_info.is_numeric && is_pointer_type target_type then
            build (.cast .int_to_ptr value target_llvm_type)
          else if is_pointer_type src_type && target_info.is_numeric then
            build (.cast .ptr_to_int value target_llvm_type)
          else pure none
  | _, _ => pure none

/-- The lowering functions of `codegen.c` that are not embedded: the builtin
calls other than `cast` (`codegen_std_print` ... `codegen_std_free`),
`codegen_struct`, `codegen_field_access`, `codegen_method_call`,
`codegen_struct_literal` and `codegen_match`, each as an arbitrary function of
the node and the state; and the import processing of `codegen_program`, which
reads files. -/
structure External where
  lower : ASTNode → CG LLVMValueRef
  process_import : ASTNode → CG Unit

/-- What `codegen_call` does for a builtin name: `codegen_cast` for `cast`, the
unembedded lowering function for the nine others. -/
def codegen_builtin (ext : External) (reg : Registry) (name : CStr) (args : List ASTNode)
    (lower_args : List (CG LLVMValueRef)) : CG LLVMValueRef :=
  if name = "cast".toList then codegen_cast reg args lower_args
  else ext.lower (.call name args)

mutual

def codegen_expression (ext : External) (reg : Registry) : ASTNode → CG LLVMValueRef
  | .literal value type _ => codegen_literal value type
  | .identifier name _ => codegen_identifier name
  | .call name args =>
    codegen_call name
      (codegen_builtin ext reg name args (codegen_expression_list ext reg args))
      (codegen_expression_list ext reg args)
  | .binary_op operator left right _ =>
    codegen_binary_op reg operator left right (codegen_expression ext reg left)
      (codegen_expression ext reg right)
  | .unary_op operator operand _ =>
    codegen_unary_op reg operator operand (codegen_expression ext reg operand)
  | .assignment variable_name value =>
    codegen_assignment variable_name (codegen_expression ext reg value)
  | .field_access object field_name resolved_type =>
    ext.lower (.field_access object field_name resolved_type)
  | .method_call object method_name args resolved_type =>
    ext.lower (.method_call object method_name args resolved_type)
  | .struct_literal struct_type_name field_values field_names resolved_type =>
    ext.lower (.struct_literal struct_type_name field_values field_names resolved_type)
  | _ => pure none

/-- What `codegen_expression` does on each node of a child array. -/
def codegen_expression_list (ext : External) (reg : Registry) :
    List ASTNode → List (CG LLVMValueRef)
  | [] => []
  | n :: rest => codegen_expression ext reg n :: codegen_expression_list ext reg rest

end

mutual

/-- The `default:` branch of the source, `codegen_expression(statement)`, is
spelled out per node kind. -/
def codegen_statement (ext : External) (reg : Registry) : ASTNode → CG LLVMValueRef
  | .variable_decl name type none is_mutable resolved_type =>
    codegen_variable_decl reg name type none is_mutable resolved_type
  | .variable_decl name type (some value) is_mutable resolved_type =>
    codegen_variable_decl reg name type (some (value, codegen_expression ext reg value))
      is_mutable resolved_type
  | .assignment variable_name value =>
    codegen_assignment variable_name (codegen_expression ext reg value)
  | .pointer_assignment (.unary_op operator operand resolved_type) value =>
    codegen_pointer_assignment (.unary_op operator operand resolved_type)
      (codegen_expression ext reg operand) (codegen_expression ext reg value)
  | .pointer_assignment _ _ => pure none
  | .return_stmt none => codegen_return none
  | .return_stmt (some value) => codegen_return (some (codegen_expression ext reg value))
  | .call name args =>
    codegen_call name
      (codegen_builtin ext reg name args (codegen_expression_list ext reg args))
      (codegen_expression_list ext reg args)
  | .struct_decl name fields methods => ext.lower (.struct_decl name fields methods)
  | .block statements => codegen_block (codegen_statement_list ext reg statements)
  | .if_stmt condition then_block else_block =>
    codegen_if (codegen_expression ext reg condition) (codegen_statement ext reg then_block)
      (match else_block with
        | some n => some (codegen_statement ext reg n)
        | none => none)
  | .unless_stmt condition then_block else_block =>
    codegen_unless (codegen_expression ext reg condition) (codegen_statement ext reg then_block)
      (match else_block with
        | some n => some (codegen_statement ext reg n)
        | none => none)
  | .for_stmt init condition update body =>
    codegen_for
      (match init with
        | some n => some (codegen_statement ext reg n)
        | none => none)
      (condition.map (codegen_expression ext reg))
      (update.map (codegen_expression ext reg))
      (codegen_statement ext reg body)
  | .while_stmt condition body =>
    codegen_while (codegen_expression ext reg condition) (codegen_statement ext reg body)
  | .switch_stmt expression cases default_case =>
    codegen_switch (codegen_expression ext reg expression) (codegen_case_list ext reg cases)
      (match default_case with
        | some (.switch_case _ statements) => some (codegen_statement_list ext reg statements)
        | some _ => some []
        | none => none)
  | .match_stmt expression cases => ext.lower (.match_stmt expression cases)
  | .break_stmt => codegen_break
  | .continue_stmt => codegen_continue
  | .literal value type resolved_type =>
    codegen_expression ext reg (.literal value type resolved_type)
  | .identifier name resolved_type => codegen_expression ext reg (.identifier name resolved_type)
  | .binary_op operator left right resolved_type =>
    codegen_expression ext reg (.binary_op operator left right resolved_type)
  | .unary_op operator operand resolved_type =>
    codegen_expression ext reg (.unary_op operator operand resolved_type)
  | .field_access object field_name resolved_type =>
    codegen_expression ext reg (.field_access object field_name resolved_type)
  | .method_call object method_name args resolved_type =>
    codegen_expression ext reg (.method_call object method_name args resolved_type)
  | .struct_literal struct_type_name field_values field_names resolved_type =>
    codegen_expression ext reg
      (.struct_literal struct_type_name field_values field_names resolved_type)
  | _ => pure none

/-- What `codegen_statement` does on each statement of a block. -/
def codegen_statement_list (ext : External) (reg : Registry) :
    List ASTNode → List (CG LLVMValueRef)
  | [] => []
  | n :: rest => codegen_statement ext reg n :: codegen_statement_list ext reg rest

/-- For each case of a `switch`: what `codegen_expression` does on its value
and what `codegen_statement` does on each of its statements (the parser puts
only `SwitchCase` nodes in the case array). -/
def codegen_case_list (ext : External) (reg : Registry) :
    List ASTNode → List (CG LLVMValueRef × List (CG LLVMValueRef))
  | [] => []
  | .switch_case (some value) statements :: rest =>
    (codegen_expression ext reg value, codegen_statement_list ext reg statements) ::
      codegen_case_list ext reg rest
  | .switch_case none statements :: rest =>
    (pure none, codegen_statement_list ext reg statements) :: codegen_case_list ext reg rest
  | _ :: rest => (pure none, []) :: codegen_case_list ext reg rest

end

/-- Name, type text and resolved type of a parameter node (the parser puts
only `Param` nodes in a parameter array). -/
def parameter_entry : ASTNode → CStr × CStr × TypeKind
  | .parameter name type resolved_type => (name, type, resolved_type)
  | _ => ([], [], TYPE_UNKNOWN)

/-- The loop of `codegen_function` that spills each parameter to a slot. -/
def codegen_function_params (reg : Registry) (function_name : CStr) :
    List ASTNode → Nat → CG Unit
  | [], _ => pure ()
  | param :: rest, i => do
    let p := parameter_entry param
    let param_type := get_llvm_type reg p.2.1
    let param_alloca ← build (.alloca param_type p.1)
    let _ ← build (.store (some (.param function_name i)) param_alloca)
    set_variable_with_type p.1 param_alloca param_type 1 p.2.2
    codegen_function_params reg function_name rest (i + 1)

def codegen_function (ext : External) (reg : Registry) : ASTNode → CG LLVMValueRef
  | .function name return_type params body => do
    let llvm_return_type := get_llvm_type reg return_type
    let param_types := params.map (fun p => get_llvm_type reg (parameter_entry p).2.1)
    let function_type := LLVMType.function llvm_return_type param_types
    let llvm_function : LLVMValueRef := some (.function name)
    (fun s => ((), { s with module_functions := s.module_functions ++ [(name, function_type)] }))
    set_function name llvm_function
    let entry_block ← append_basic_block "entry"
    position_builder_at_end entry_block
    (fun s => ((), { s with current_function := llvm_function }))
    codegen_function_params reg name params 0
    match body with
    | some (.block statements) => do
      let _ ← codegen_statement ext reg (.block statements)
      pure ()
    | _ => pure ()
    let codegen ← CG.get
    let terminated ← current_block_terminated
    if codegen.insert_block.isSome && !terminated then
      if return_type = "void".toList then do
        let _ ← build .ret_void
        pure ()
      else do
        let _ ← build (.ret (some (.const_int llvm_return_type 0)))
        pure ()
    else pure ()
    (fun s => ((), { s with current_function := none }))
    pure llvm_function
  | _ => pure none

/-- The loop of `codegen_program` over the declarations, with its early
return once `has_error` is set. -/
def codegen_program_loop (ext : External) (reg : Registry) : List ASTNode → CG Unit
  | [] => pure ()
  | node :: rest => do
    match node with
    | .function name return_type params body => do
      let _ ← codegen_function ext reg (.function name return_type params body)
      pure ()
    | .struct_decl name fields methods => do
      let _ ← ext.lower (.struct_decl name fields methods)
      pure ()
    | _ => pure ()
    let codegen ← CG.get
    if codegen.has_error then pure () else codegen_program_loop ext reg rest

/-- The loop of `codegen_program` over the imports. -/
def codegen_program_imports (ext : External) : List ASTNode → CG Unit
  | [] => pure ()
  | node :: rest => do
    match node with
    | .import_node IMPORT_LOCAL path => ext.process_import (.import_node IMPORT_LOCAL path)
    | .import_node IMPORT_EXTERNAL path => ext.process_import (.import_node IMPORT_EXTERNAL path)
    | _ => pure ()
    codegen_program_imports ext rest

/-- The driver's lowering entry point: the registry after `resolve_types`, the
resolved program and the final lowerer state.  The module verification that
ends the C function belongs to the IR library and is not modelled. -/
def codegen_program (ext : External) (reg : Registry) (program : ASTNode) (codegen : CodeGen) :
    Registry × ASTNode × CodeGen :=
  match program with
  | .program imports functions =>
    let s1 := (codegen_program_imports ext imports codegen).2
    let resolved := resolve_types reg (.program imports functions)
    match resolved.2 with
    | .program _ resolved_functions =>
      (resolved.1, resolved.2, (codegen_program_loop ext resolved.1 resolved_functions s1).2)
    | _ => (resolved.1, resolved.2, s1)
  | _ => (reg, program, codegen)

/-- The state `create_codegen` returns: empty tables, no error, and the
builtin shims declared in the module. -/
def create_codegen : CodeGen :=
  { module_functions :=
      [("printf".toList, .function (.int 32) [.pointer (.int 8)]),
       ("puts".toList, .function (.int 32) [.pointer (.int 8)]),
       ("strlen".toList, .function (.int 64) [.pointer (.int 8)]),
       ("scanf".toList, .function (.int 32) [.pointer (.int 8)]),
       ("getline".toList,
          .function (.int 64) [.pointer (.pointer (.int 8)), .pointer (.int 64), .pointer (.int 8)]),
       ("atoi".toList, .function (.int 32) [.pointer (.int 8)]),
       ("atol".toList, .function (.int 64) [.pointer (.int 8)]),
       ("sprintf".toList, .function (.int 32) [.pointer (.int 8), .pointer (.int 8)]),
       ("malloc".toList, .function (.pointer (.int 8)) [.int 64]),
       ("free".toList, .function .void [.pointer (.int 8)]),
       ("realloc".toList, .function (.pointer (.int 8)) [.pointer (.int 8), .int 64])],
    blocks := [],
    deleted_blocks := [],
    insert_block := none,
    next_inst := 0,
    current_function := none,
    variable_table := [],
    functions := [],
    loop_stack := [],
    has_error := false }

/-- A lowerer state inside `main` after `def const PI: i32 = 3;`: the entry
block holds the slot of `PI` and the store of 3, and the symbol table has `PI`
with `is_mutable = -1`. -/
def state_with_const_PI : CodeGen :=
  { create_codegen with
    blocks := [⟨"entry".toList,
      [(0, .alloca (.int 32) "PI".toList),
       (1, .store (some (.const_int (.int 32) 3)) (some (.inst 0)))]⟩],
    insert_block := some 0,
    next_inst := 2,
    current_function := some (.function "main".toList),
    variable_table := [⟨"PI".toList, some (.inst 0), .int 32, -1, TYPE_I32⟩],
    functions := [⟨"main".toList, some (.function "main".toList)⟩] }

/-- No unembedded lowering function does anything: enough for programs that
use none of them. -/
def External.idle : External := ⟨fun _ => pure Option.none, fun _ => pure ()⟩

/-- The source of scenario S2. -/
def fact_source : CStr :=
  "def fact(n: i32) -> i32 \x7b if n <= 1 \x7b return 1; \x7d return n * fact(n - 1); \x7d".toList

/-- The lowerer state inside `fact` when its `return` statement is reached:
the parameter `n: i32` is spilled to its slot and `fact` is in the function
table. -/
def state_in_fact : CodeGen :=
  { create_codegen with
    blocks := [⟨"entry".toList,
      [(0, .alloca (.int 32) "n".toList),
       (1, .store (some (.param "fact".toList 0)) (some (.inst 0)))]⟩],
    insert_block := some 0,
    next_inst := 2,
    current_function := some (.function "fact".toList),
    variable_table := [⟨"n".toList, some (.inst 0), .int 32, 1, TYPE_I32⟩],
    functions := [⟨"fact".toList, some (.function "fact".toList)⟩] }

/-- The expression `n * fact(n - 1)` as the parser builds it. -/
def n_times_fact : ASTNode :=
  .binary_op OP_MUL (.identifier "n".toList TYPE_UNKNOWN)
    (.call "fact".toList
      [.binary_op OP_SUB (.identifier "n".toList TYPE_UNKNOWN)
        (.literal "1".toList "i32".toList TYPE_I32) TYPE_UNKNOWN])
    TYPE_UNKNOWN

/-- Whether a parsing function returned (rather than exiting). -/
def ParseResult.is_ok {α : Type} : ParseResult α → Bool
  | .ok _ _ => true
  | _ => false

/-- The program `parse_source` returns; a `Break` node stands in when it
returns none. -/
def parsed_program (reg : Registry) (input : CStr) : ASTNode :=
  match parse_source reg input with
  | .ok program _ => program
  | _ => .break_stmt

/-- The lowerer state at the start of the body of `main`: one empty entry
block, the builder positioned in it, no variable, no loop. -/
def state_in_main : CodeGen :=
  { create_codegen with
    blocks := [⟨"entry".toList, []⟩],
    insert_block := some 0,
    current_function := some (.function "main".toList),
    functions := [⟨"main".toList, some (.function "main".toList)⟩] }

/-- The literal `true` as the parser builds it. -/
def literal_true : ASTNode := .literal "true".toList "bool".toList TYPE_BOOL

/-- The statement `while true { while true { ... body ... } }` with `n` loops. -/
def nested_while : Nat → ASTNode → ASTNode
  | 0, body => body
  | n + 1, body => .while_stmt literal_true (.block [nested_while n body])

/-- The state in which the body of the innermost of `n` nested
`while true` loops starts to be lowered. -/
def enter_whiles : Nat → CodeGen → CodeGen
  | 0, s => s
  | n + 1, s =>
    (codegen_while_enter (codegen_literal "true".toList "bool".toList) (enter_whiles n s)).2

/-- Whether block `block` holds an unconditional branch to block `dest`. -/
def block_branches_to (s : CodeGen) (block dest : LLVMBasicBlockRef) : Bool :=
  match s.blocks[block]? with
  | some b =>
    b.instrs.any (fun e =>
      match e.2 with
      | .br d => d == dest
      | _ => false)
  | none => false

/-- The number of instructions of block `block`. -/
def block_size (s : CodeGen) (block : LLVMBasicBlockRef) : Nat :=
  match s.blocks[block]? with
  | some b => b.instrs.length
  | none => 0

/-! ## Properties of resolved programs -/

mutual

/-- Whether `p` holds of every node `resolve_types` visits in a tree: the node
itself and, recursively, the children the resolver descends into (a program's
declarations but not its imports; nothing below an enum). -/
def visited_all (p : ASTNode → Bool) : ASTNode → Bool
  | .program imports functions =>
    p (.program imports functions) && visited_all_list p functions
  | .function name return_type params body =>
    p (.function name return_type params body) && visited_all_list p params &&
      visited_all_opt p body
  | .block statements => p (.block statements) && visited_all_list p statements
  | .variable_decl name type value is_mutable resolved_type =>
    p (.variable_decl name type value is_mutable resolved_type) && visited_all_opt p value
  | .assignment variable_name value =>
    p (.assignment variable_name value) && visited_all p value
  | .pointer_assignment target value =>
    p (.pointer_assignment target value) && visited_all p target && visited_all p value
  | .return_stmt value => p (.return_stmt value) && visited_all_opt p value
  | .call name args => p (.call name args) && visited_all_list p args
  | .binary_op operator left right resolved_type =>
    p (.binary_op operator left right resolved_type) && visited_all p left &&
      visited_all p right
  | .unary_op operator operand resolved_type =>
    p (.unary_op operator operand resolved_type) && visited_all p operand
  | .struct_decl name fields methods =>
    p (.struct_decl name fields methods) && visited_all_list p fields &&
      visited_all_list p methods
  | .struct_method name return_type params body visibility =>
    p (.struct_method name return_type params body visibility) && visited_all_list p params &&
      visited_all_opt p body
  | .field_access object field_name resolved_type =>
    p (.field_access object field_name resolved_type) && visited_all p object
  | .method_call object method_name args resolved_type =>
    p (.method_call object method_name args resolved_type) && visited_all p object &&
      visited_all_list p args
  | .struct_literal struct_type_name field_values field_names resolved_type =>
    p (.struct_literal struct_type_name field_values field_names resolved_type) &&
      visited_all_list p field_values
  | .if_stmt condition then_block else_block =>
    p (.if_stmt condition then_block else_block) && visited_all p condition &&
      visited_all p then_block && visited_all_opt p else_block
  | .unless_stmt condition then_block else_block =>
    p (.unless_stmt condition then_block else_block) && visited_all p condition &&
      visited_all p then_block && visited_all_opt p else_block
  | .for_stmt init condition update body =>
    p (.for_stmt init condition update body) && visited_all_opt p init &&
      visited_all_opt p condition && visited_all_opt p update && visited_all p body
  | .while_stmt condition body =>
    p (.while_stmt condition body) && visited_all p condition && visited_all p body
  | .switch_stmt expression cases default_case =>
    p (.switch_stmt expression cases default_case) && visited_all p expression &&
      visited_all_list p cases && visited_all_opt p default_case
  | .switch_case value statements =>
    p (.switch_case value statements) && visited_all_opt p value &&
      visited_all_list p statements
  | .match_stmt expression cases =>
    p (.match_stmt expression cases) && visited_all p expression && visited_all_list p cases
  | .match_case pattern body =>
    p (.match_case pattern body) && visited_all p pattern && visited_all p body
  | .import_node import_type path => p (.import_node import_type path)
  | .parameter name type resolved_type => p (.parameter name type resolved_type)
  | .identifier name resolved_type => p (.identifier name resolved_type)
  | .literal value type resolved_type => p (.literal value type resolved_type)
  | .struct_field name type resolved_type => p (.struct_field name type resolved_type)
  | .enum_decl name variants => p (.enum_decl name variants)
  | .enum_variant name => p (.enum_variant name)
  | .break_stmt => p .break_stmt
  | .continue_stmt => p .continue_stmt

/-- `visited_all` over a child array. -/
def visited_all_list (p : ASTNode → Bool) : List ASTNode → Bool
  | [] => true
  | n :: rest => visited_all p n && visited_all_list p rest

/-- `visited_all` over a child pointer that may be `NULL`. -/
def visited_all_opt (p : ASTNode → Bool) : Option ASTNode → Bool
  | none => true
  | some n => visited_all p n

end

/-- The spellings of the primitive types and of the one-level pointers to them. -/
def builtin_type_names : List CStr :=
  primitive_names ++ primitive_names.map (fun t => '*' :: t)

/-- The type texts `parse_primary` writes into the Literal nodes it creates. -/
def literal_type_texts : List CStr :=
  ["string".toList, "i32".toList, "f32".toList, "bool".toList, "void".toList]

/-- A Literal or Param node as the parser creates it, with the registry `reg`
of that time: a Literal has one of the type texts of `parse_primary`, and both
carry `string_to_type` of their type text (`create_literal_node`,
`create_parameter_node`). -/
def node_as_created (reg : Registry) : ASTNode → Bool
  | .literal _ type resolved_type =>
    decide (type ∈ literal_type_texts) && resolved_type == string_to_type reg type
  | .parameter _ type resolved_type => resolved_type == string_to_type reg type
  | _ => true

/-- What `resolve_types` leaves in the nodes it visits. A Literal has a known
type, and so has a Param declared with a primitive or pointer-to-primitive
spelling. A BinaryOp has `get_binary_result_type` of the node types of its
operands. A UnaryOp has the pointer type of its operand's node type for `&`,
and for `*` the pointed-to type when the operand's node type is a pointer type,
`TYPE_UNKNOWN` when it is not. A VarDecl or StructField declared with a
primitive or pointer-to-primitive spelling has a known type. A MethodCall has
`TYPE_UNKNOWN`. -/
def resolver_typed : ASTNode → Bool
  | .literal _ _ resolved_type => resolved_type != TYPE_UNKNOWN
  | .parameter _ type resolved_type =>
    !decide (type ∈ builtin_type_names) || resolved_type != TYPE_UNKNOWN
  | .binary_op operator left right resolved_type =>
    resolved_type ==
      get_binary_result_type (get_node_type left) (get_node_type right)
        (is_comparison_operator operator)
  | .unary_op operator operand resolved_type =>
    resolved_type ==
      (match operator with
        | UNARY_ADDRESS_OF => make_pointer_type (get_node_type operand)
        | UNARY_DEREFERENCE =>
          if is_pointer_type (get_node_type operand) then get_pointed_type (get_node_type operand)
          else TYPE_UNKNOWN)
  | .variable_decl _ type _ _ resolved_type =>
    !decide (type ∈ builtin_type_names) || resolved_type != TYPE_UNKNOWN
  | .struct_field _ type resolved_type =>
    !decide (type ∈ builtin_type_names) || resolved_type != TYPE_UNKNOWN
  | .method_call _ _ _ resolved_type => resolved_type == TYPE_UNKNOWN
  | _ => true

/-- A function that assigns to a constant. -/
def const_assign_source : CStr :=
  "def main() -> i32 \x7b def const PI: i32 = 3; PI = 4; return PI; \x7d".toList

/-- The number of store instructions in block `block`. -/
def block_store_count (s : CodeGen) (block : LLVMBasicBlockRef) : Nat :=
  match s.blocks[block]? with
  | some b =>
    b.instrs.countP (fun e =>
      match e.2 with
      | .store _ _ => true
      | _ => false)
  | none => 0

/-- The registry after the registrations `calls` (the name and the field list
of each call of `register_struct_type`), made in order from program start. -/
def register_all (calls : List (CStr × List StructField)) : Registry :=
  calls.foldl (fun reg c => (register_struct_type reg c.1 c.2).1) Registry.initial

/-- A function that reads the unknown variable `x`, assigns to the unknown
variable `y` and calls the unknown function `foo`. -/
def unknown_names_source : CStr :=
  "def main() -> i32 \x7b x; y = 1; foo(); return 0; \x7d".toList

/-- The node a parsing function returned, `none` when it exited. -/
def ParseResult.value {α : Type} : ParseResult α → Option α
  | .ok a _ => some a
  | _ => none

/-! ## Expression grammar: chains of operands -/

/-- The parser state after `eat` has accepted the current token: the next
token is read from the lexer. -/
def after_eat (p : Parser) : Parser :=
  ⟨(next_token p.lexer).2, (next_token p.lexer).1⟩

/-- With enough recursion budget the parsing function `m` returns `a` from the
parser state `p` and leaves the parser in the state `q`. -/
def Returns {α : Type} (m : Nat → PM α) (p : Parser) (a : α) (q : Parser) : Prop :=
  ∃ k : Nat, ∀ fuel : Nat, k ≤ fuel → m fuel p = .ok a q

/-- Some run of the parsing function `m` from the state `p` returned `a` and
left the parser in the state `q`. -/
def Parsed {α : Type} (m : Nat → PM α) (p : Parser) (a : α) (q : Parser) : Prop :=
  ∃ fuel : Nat, m fuel p = .ok a q

/-- The test of the `while` in `parse_multiplicative_expression`. -/
def is_multiplicative_token (t : TokenType) : Bool := t = TOKEN_MULTIPLY || t = TOKEN_DIVIDE

/-- The test of the `while` in `parse_additive_continuation`. -/
def is_additive_token (t : TokenType) : Bool := t = TOKEN_PLUS || t = TOKEN_MINUS

/-- The left-nested tree `BinaryOp(op_n, ... BinaryOp(op_1, first, x_1) ..., x_n)`
over a first operand and the following operator/operand pairs. -/
def left_nested (first : ASTNode) (rest : List (BinaryOperator × ASTNode)) : ASTNode :=
  rest.foldl (fun left x => create_binary_op_node x.1 left x.2) first

/-- The token stream from the state `p` is `op_1 x_1 op_2 x_2 ... op_n x_n` and
ends in the state `q`: each operator token satisfies `is_op`, and each operand
`x_i` is what `R` relates to the state right after its operator and to the
state in which the next operator (or `q`) is the current token. -/
inductive OperandChain (R : Parser → ASTNode → Parser → Prop) (is_op : TokenType → Bool) :
    Parser → List (BinaryOperator × ASTNode) → Parser → Prop
  | nil (p : Parser) : OperandChain R is_op p [] p
  | cons (p p2 q : Parser) (right : ASTNode) (rest : List (BinaryOperator × ASTNode)) :
      is_op p.current_token.type = true → R (after_eat p) right p2 →
      OperandChain R is_op p2 rest q →
      OperandChain R is_op p ((token_to_binary_operator p.current_token.type, right) :: rest) q

/-- A first operand related by `R`, then a chain of `is_op` operators and `R`
operands, and `t` the left-nested tree over them. -/
def Level (R : Parser → ASTNode → Parser → Prop) (is_op : TokenType → Bool)
    (p : Parser) (t : ASTNode) (q : Parser) : Prop :=
  ∃ (first : ASTNode) (p1 : Parser) (rest : List (BinaryOperator × ASTNode)),
    R p first p1 ∧ OperandChain R is_op p1 rest q ∧ t = left_nested first rest

/-- Primaries joined by `*` and `/`. -/
def MultiplicativeShape (reg : Registry) : Parser → ASTNode → Parser → Prop :=
  Level (Parsed (parse_primary reg)) is_multiplicative_token

/-- Multiplicative chains joined by `+` and `-`. -/
def AdditiveShape (reg : Registry) : Parser → ASTNode → Parser → Prop :=
  Level (MultiplicativeShape reg) is_additive_token

/-- Additive chains joined by comparison operators. -/
def ComparisonShape (reg : Registry) : Parser → ASTNode → Parser → Prop :=
  Level (AdditiveShape reg) is_comparison_token

/-- The parser at the start of the source text `input`. -/
def parser_at (input : String) : Parser := parser_create (create_lexer input.toList)

/-- The parser state after `n` more tokens have been accepted. -/
def after_tokens : Nat → Parser → Parser
  | 0, p => p
  | n + 1, p => after_tokens n (after_eat p)

/-- The Identifier node of `name`, as `create_identifier_node` builds it. -/
def ident (name : String) : ASTNode := create_identifier_node name.toList

/-- Whether a node is a `BinaryOp` node. -/
def is_binary_op : ASTNode → Bool
  | .binary_op _ _ _ _ => true
  | _ => false

/-- Precedence level of a binary operator: comparisons 1, `+` `-` 2, `*` `/` 3. -/
def precedence : BinaryOperator → Nat
  | OP_MUL | OP_DIV => 3
  | OP_ADD | OP_SUB => 2
  | _ => 1

/-- Precedence level of the operator of a `BinaryOp` node (0 for another node). -/
def binary_level : ASTNode → Nat
  | .binary_op operator _ _ _ => precedence operator
  | _ => 0

/-- The test `name[0] >= 'A' && name[0] <= 'Z'` of `parse_primary`. -/
def starts_uppercase (name : CStr) : Bool :=
  decide ('A' ≤ char_at name 0) && decide (char_at name 0 ≤ 'Z')

/-- The token stream from the state `p` is a well-formed field list of a
struct literal, `name : value` items separated by `,` (or by a newline), up to
the state `q` whose current token is the closing brace; each value is what
`parse_expression` returns at the position after the `:`. -/
inductive FieldList (reg : Registry) : Parser → List (CStr × ASTNode) → Parser → Prop
  | done (p : Parser) : p.current_token.type = TOKEN_RBRACE → FieldList reg p [] p
  | newline (p q : Parser) (fs : List (CStr × ASTNode)) :
      p.current_token.type = TOKEN_NEWLINE → FieldList reg (after_eat p) fs q →
      FieldList reg p fs q
  | comma (p p3 q : Parser) (v : ASTNode) (fs : List (CStr × ASTNode)) :
      p.current_token.type = TOKEN_IDENTIFIER →
      (after_eat p).current_token.type = TOKEN_COLON →
      Returns (parse_expression reg) (after_eat (after_eat p)) v p3 →
      p3.current_token.type = TOKEN_COMMA → FieldList reg (after_eat p3) fs q →
      FieldList reg p ((p.current_token.value, v) :: fs) q
  | plain (p p3 q : Parser) (v : ASTNode) (fs : List (CStr × ASTNode)) :
      p.current_token.type = TOKEN_IDENTIFIER →
      (after_eat p).current_token.type = TOKEN_COLON →
      Returns (parse_expression reg) (after_eat (after_eat p)) v p3 →
      (p3.current_token.type = TOKEN_RBRACE ∨ p3.current_token.type = TOKEN_NEWLINE) →
      FieldList reg p3 fs q →
      FieldList reg p ((p.current_token.value, v) :: fs) q

/-- The token stream from the state `p`, which follows an argument, is
`, a_2 , a_3 ... , a_n` up to the state `q` whose current token is `)`; each
argument is what `parse_expression` returns at the position after its comma. -/
inductive ArgTail (reg : Registry) : Parser → List ASTNode → Parser → Prop
  | done (p : Parser) : p.current_token.type = TOKEN_RPAREN → ArgTail reg p [] p
  | comma (p p2 q : Parser) (a : ASTNode) (rest : List ASTNode) :
      p.current_token.type = TOKEN_COMMA →
      (after_eat p).current_token.type ≠ TOKEN_RPAREN →
      Returns (parse_expression reg) (after_eat p) a p2 → ArgTail reg p2 rest q →
      ArgTail reg p (a :: rest) q

/-- The token stream from the state `p`, which follows `(`, is a well-formed
argument list `a_1 , ... , a_n` (possibly empty) up to the state `q` whose
current token is `)`. -/
inductive ArgList (reg : Registry) : Parser → List ASTNode → Parser → Prop
  | empty (p : Parser) : p.current_token.type = TOKEN_RPAREN → ArgList reg p [] p
  | args (p p1 q : Parser) (a : ASTNode) (rest : List ASTNode) :
      p.current_token.type ≠ TOKEN_RPAREN → Returns (parse_expression reg) p a p1 →
      ArgTail reg p1 rest q → ArgList reg p (a :: rest) q

/-- The conversions that the `cast` instructions of block `block` apply, in order. -/
def block_cast_ops (s : CodeGen) (block : LLVMBasicBlockRef) : List CastOp :=
  match s.blocks[block]? with
  | some b =>
    b.instrs.filterMap (fun e =>
      match e.2 with
      | .cast op _ _ => some op
      | _ => none)
  | none => []

/-- A function that widens the `u8` value 200 to `i32` with `cast`. -/
def widen_unsigned_source : CStr :=
  "def main() -> i32 \x7b def x: u8 = 200; def y: i32 = cast(x, \"i32\"); return y; \x7d".toList

/-- A function that casts the `i64` value 0 to `*i64`, and back. -/
def pointer_cast_source : CStr :=
  ("def main() -> i32 \x7b def n: i64 = 0; def p: *i64 = cast(n, \"*i64\"); " ++
   "def m: i64 = cast(p, \"i64\"); return 0; \x7d").toList

/-- The lowerer state inside `main` after `def x: u8 = 200;`. -/
def state_with_u8 : CodeGen :=
  { create_codegen with
    blocks := [⟨"entry".toList,
      [(0, .alloca (.int 8) "x".toList),
       (1, .cast .trunc (some (.const_int (.int 32) 200)) (.int 8)),
       (2, .store (some (.inst 1)) (some (.inst 0)))]⟩],
    insert_block := some 0,
    next_inst := 3,
    current_function := some (.function "main".toList),
    variable_table := [⟨"x".toList, some (.inst 0), .int 8, 0, TYPE_U8⟩],
    functions := [⟨"main".toList, some (.function "main".toList)⟩] }

/-- A lowerer state inside `main` with `n: i64` in the symbol table. -/
def state_with_i64 : CodeGen :=
  { state_in_main with
    blocks := [⟨"entry".toList, [(0, .alloca (.int 64) "n".toList)]⟩],
    next_inst := 1,
    variable_table := [⟨"n".toList, some (.inst 0), .int 64, 0, TYPE_I64⟩] }

/-! ## Lexer: the list view -/

/-- The part of the input that the lexer has not consumed. -/
def Lexer.remaining (l : Lexer) : CStr := l.input.drop l.position

/-- The lexer `l` runs over `input` and is positioned at its suffix `r`:
`current_char` is the first character of `r`, or NUL when `r` is empty. This
is the state `create_lexer` builds and `advance` maintains. -/
def Lexer.At (l : Lexer) (input r : CStr) : Prop :=
  l.input = input ∧ l.position + r.length = input.length ∧ input.drop l.position = r ∧
    l.current_char = r.headD NUL

/-- The test of `skip_whitespace`. -/
def is_blank (c : Char) : Bool := c = ' ' || c = '\t' || c = '\r'

/-- The test of the loop of `read_identifier`. -/
def is_identifier_char (c : Char) : Bool := isalnum c || c = '_'

/-- List view of `next_token` inside a line comment: kind and lexeme of the
token and the rest of the input. -/
def scan_comment : CStr → TokenType × CStr × CStr
  | [] => (TOKEN_EOF, [], [])
  | c :: rest => if c = '\n' then (TOKEN_NEWLINE, ['\n'], rest) else scan_comment rest

/-- List view of `next_token_punct`. -/
def scan_punct (r : CStr) : TokenType × CStr × CStr :=
  let c := r.headD NUL
  let d := (r.drop 1).headD NUL
  let one (t : TokenType) (v : String) : TokenType × CStr × CStr := (t, v.toList, r.drop 1)
  let two (t : TokenType) (v : String) : TokenType × CStr × CStr := (t, v.toList, r.drop 2)
  if c = '(' then one TOKEN_LPAREN "("
  else if c = ')' then one TOKEN_RPAREN ")"
  else if c = '{' then one TOKEN_LBRACE "\x7b"
  else if c = '}' then one TOKEN_RBRACE "\x7d"
  else if c = ';' then one TOKEN_SEMICOLON ";"
  else if c = ':' then
    if d = ':' then two TOKEN_DOUBLE_COLON "::" else one TOKEN_COLON ":"
  else if c = '=' then
    if d = '=' then two TOKEN_EQ "=="
    else if d = '>' then two TOKEN_DOUBLE_ARROW "=>"
    else one TOKEN_ASSIGN "="
  else if c = '+' then one TOKEN_PLUS "+"
  else if c = '-' then
    if d = '>' then two TOKEN_ARROW "->" else one TOKEN_MINUS "-"
  else if c = '*' then one TOKEN_MULTIPLY "*"
  else if c = '/' then one TOKEN_DIVIDE "/"
  else if c = '!' then
    if d = '=' then two TOKEN_NE "!=" else one TOKEN_UNKNOWN "!"
  else if c = '<' then
    if d = '=' then two TOKEN_LE "<=" else one TOKEN_LT "<"
  else if c = '>' then
    if d = '=' then two TOKEN_GE ">=" else one TOKEN_GT ">"
  else if c = '&' then one TOKEN_AMPERSAND "&"
  else if c = '.' then one TOKEN_DOT "."
  else if c = '@' then one TOKEN_AT "@"
  else if c = '#' then one TOKEN_HASH "#"
  else if c = ',' then one TOKEN_COMMA ","
  else if c = '_' then one TOKEN_UNDERSCORE "_"
  else (TOKEN_UNKNOWN, [c], r.drop 1)

/-- List view of `next_token`: the kind and the lexeme of the token that
`next_token` returns when the unconsumed input is `r`, and the input left
after it (`next_token_scan` proves the agreement). -/
def scan : CStr → TokenType × CStr × CStr
  | [] => (TOKEN_EOF, [], [])
  | c :: rest =>
    if c = ' ' ∨ c = '\t' ∨ c = '\r' then scan rest
    else if c = '\n' then (TOKEN_NEWLINE, ['\n'], rest)
    else if c = '/' ∧ rest.headD NUL = '/' then scan_comment rest
    else if c = '"' then
      (TOKEN_STRING, rest.takeWhile (fun x => x ≠ '"'), (rest.dropWhile (fun x => x ≠ '"')).drop 1)
    else if isdigit c then
      if has_decimal_scan (c :: rest) then
        let r1 := (c :: rest).dropWhile isdigit
        if r1.headD NUL = '.' then
          (TOKEN_FLOAT, (c :: rest).takeWhile isdigit ++ '.' :: (r1.drop 1).takeWhile isdigit,
            (r1.drop 1).dropWhile isdigit)
        else (TOKEN_FLOAT, (c :: rest).takeWhile isdigit, r1)
      else (TOKEN_NUMBER, (c :: rest).takeWhile isdigit, (c :: rest).dropWhile isdigit)
    else if isalpha c || c = '_' then
      (get_keyword_type ((c :: rest).takeWhile is_identifier_char),
        (c :: rest).takeWhile is_identifier_char, (c :: rest).dropWhile is_identifier_char)
    else scan_punct (c :: rest)

/-- The result `x` of `next_token` (a token and the lexer after it) agrees
with the list view `y`: same kind and lexeme, position `line`, `column`, and
the lexer is left at the rest of the input that `y` names. -/
def ScanAgrees (input : CStr) (line column : Int) (x : Token × Lexer)
    (y : TokenType × CStr × CStr) : Prop :=
  x.1 = ⟨y.1, y.2.1, line, column⟩ ∧ x.2.At input y.2.2


/-- Kind and lexeme of a token (its position left out). -/
def kind_lexeme (t : Token) : TokenType × CStr := (t.type, t.value)

/-- The concatenation of the lexemes of a token sequence. -/
def lexemes (ts : List Token) : CStr := (ts.map Token.value).flatten

/-- List view of `tokenize_loop`: kinds and lexemes of the tokens of `r`, up
to and including the first `TOKEN_EOF`. -/
def scan_all : Nat → CStr → List (TokenType × CStr)
  | 0, _ => []
  | fuel + 1, r =>
    if (scan r).1 = TOKEN_EOF then [((scan r).1, (scan r).2.1)]
    else ((scan r).1, (scan r).2.1) :: scan_all fuel (scan r).2.2

/-- Where a byte of the source lies: in code, inside a line comment (after
its `//` and before the newline that ends it), or inside a string literal. -/
inductive StripMode where
  | code | comment | string
  deriving DecidableEq, Repr

/-- The source with its separators deleted, read byte by byte: outside string
literals the spaces, tabs and carriage returns and the line comments (from
`//` up to, not including, the newline) are deleted; of a string literal the
two quotes are deleted and every byte between them is kept. -/
def strip_from : StripMode → CStr → CStr
  | _, [] => []
  | .code, c :: rest =>
    if c = ' ' ∨ c = '\t' ∨ c = '\r' then strip_from .code rest
    else if c = '/' ∧ rest.headD NUL = '/' then strip_from .comment rest
    else if c = '"' then strip_from .string rest
    else c :: strip_from .code rest
  | .comment, c :: rest =>
    if c = '\n' then c :: strip_from .code rest else strip_from .comment rest
  | .string, c :: rest =>
    if c = '"' then strip_from .code rest else c :: strip_from .string rest

def strip_source (input : CStr) : CStr := strip_from .code input

/-- A byte that `strip_source` keeps wherever it stands in code: not a
space, tab or carriage return, not `/` and not `"`. -/
def is_plain (c : Char) : Bool := !(is_blank c) && c != '/' && c != '"'

/-- What one `scan` step `x` on the input `r` does: either it is the EOF
token and nothing of `r` is kept by `strip_source`, or it is another token,
the rest is shorter than `r`, and `strip_source r` is the lexeme followed by
`strip_source` of the rest. -/
def ScanStep (r : CStr) (x : TokenType × CStr × CStr) : Prop :=
  (x = (TOKEN_EOF, [], []) ∧ strip_source r = []) ∨
    (x.1 ≠ TOKEN_EOF ∧ x.2.2.length < r.length ∧
      strip_source r = x.2.1 ++ strip_source x.2.2)

/-- The first bytes of the operator and punctuation forms: the `case` labels
of the `switch` of `next_token`. -/
def operator_starts : List Char :=
  ['(', ')', '{', '}', ';', ':', '=', '+', '-', '*', '/', '!', '<', '>', '&', '.', '@', '#',
    ',', '_']

/-- The lowerer state after `n` variables named `a`, `aa`, `aaa`, ... were
entered, in this order, in the symbol table of `create_codegen`. -/
def state_with_variables : Nat → CodeGen
  | 0 => create_codegen
  | n + 1 =>
    (set_variable_with_type (List.replicate (n + 1) 'a') (some (.inst n)) (.int 32) 1 TYPE_I32
      (state_with_variables n)).2


/-! ## Lexer: source positions -/

/-- The line of the byte that follows the bytes `consumed` of the input: 1 +
the number of newlines among them. -/
def line_after (consumed : CStr) : Int := 1 + (consumed.count '\n' : Nat)

/-- The 1-based column of the byte that follows the bytes `consumed` of the
input: 1 + the number of bytes after the last newline among them. -/
def column_after (consumed : CStr) : Int :=
  1 + ((consumed.reverse.takeWhile (fun c => c ≠ '\n')).length : Nat)

/-- The lexer's `line` and `column` are those of the byte at `position`. -/
def Lexer.Tracks (l : Lexer) : Prop :=
  l.line = line_after (l.input.take l.position) ∧
    l.column = column_after (l.input.take l.position)

/-- The unconsumed input from the first byte of the next token on: `r` without
the spaces, tabs, carriage returns and the line comment (up to its newline)
that `next_token` skips before the token. Empty when the token is EOF. -/
def token_start : CStr → CStr
  | [] => []
  | c :: rest =>
    if c = ' ' ∨ c = '\t' ∨ c = '\r' then token_start rest
    else if c = '/' ∧ rest.headD NUL = '/' then rest.dropWhile (fun x => x ≠ '\n')
    else c :: rest

/-- The offset in `input` of the first byte of the token that `next_token`
returns on the lexer `l`. -/
def token_offset (l : Lexer) : Nat := l.input.length - (token_start l.remaining).length

/-- The lexer after `n` calls of `next_token` on `input`. -/
def lexer_after (input : CStr) (n : Nat) : Lexer :=
  Nat.iterate (fun x => (next_token x).2) n (create_lexer input)


/-- The reading of the claim's reference behaviour: `parse_expression`
followed by `eat(TOKEN_SEMICOLON)`. -/
def parse_expression_then_semicolon (reg : Registry) (fuel : Nat) : PM ASTNode := do
  let expr ← parse_expression reg fuel
  eat TOKEN_SEMICOLON
  pure expr


/-- A record declared before the function that uses it as the type of a
parameter and of a local variable. -/
def record_parameter_source : CStr :=
  "def struct P \x7b x: bool; \x7d def f(p: P) -> i32 \x7b def q: P = p; return 0; \x7d".toList

/-- The per-node condition of "declared types are resolved against the
registry `reg`": the `resolved_type` of a VarDecl, Param or StructField is
`string_to_type` of its declared type text. -/
def declared_type_resolved (reg : Registry) : ASTNode → Bool
  | .variable_decl _ type _ _ resolved_type => resolved_type == string_to_type reg type
  | .parameter _ type resolved_type => resolved_type == string_to_type reg type
  | .struct_field _ type resolved_type => resolved_type == string_to_type reg type
  | _ => true

/-- A Param node has `resolved_type` `kind`. -/
def parameter_resolved_as (kind : TypeKind) : ASTNode → Bool
  | .parameter _ _ resolved_type => resolved_type == kind
  | _ => true

/-- A VarDecl node has `resolved_type` `kind`. -/
def variable_resolved_as (kind : TypeKind) : ASTNode → Bool
  | .variable_decl _ _ _ _ resolved_type => resolved_type == kind
  | _ => true


/-- The part of `codegen_function` before the body is lowered: the function is
added to the module and to the function table, the entry block is created, and
every parameter is spilled to a slot and entered in the symbol table. -/
def codegen_function_enter (reg : Registry) (name return_type : CStr) (params : List ASTNode) :
    CG Unit := do
  let llvm_return_type := get_llvm_type reg return_type
  let param_types := params.map (fun p => get_llvm_type reg (parameter_entry p).2.1)
  let function_type := LLVMType.function llvm_return_type param_types
  let llvm_function : LLVMValueRef := some (.function name)
  (fun s => ((), { s with module_functions := s.module_functions ++ [(name, function_type)] }))
  set_function name llvm_function
  let entry_block ← append_basic_block "entry"
  position_builder_at_end entry_block
  (fun s => ((), { s with current_function := llvm_function }))
  codegen_function_params reg name params 0

/-- Two functions: `t` is a local of `f` and is used in `g`. -/
def leaked_local_source : CStr :=
  ("def f(a: i32) -> i32 \x7b def t: i32 = 1; return t; \x7d " ++
    "def g() -> i32 \x7b return t; \x7d").toList

/-- The instruction numbers of the slots that the loads of block `block` read. -/
def block_load_slots (s : CodeGen) (block : LLVMBasicBlockRef) : List Nat :=
  match s.blocks[block]? with
  | some b =>
    b.instrs.filterMap (fun e =>
      match e.2 with
      | .load _ (some (.inst slot)) _ => some slot
      | _ => none)
  | none => []

/-- The instruction numbers of the slots that block `block` allocates. -/
def block_alloca_slots (s : CodeGen) (block : LLVMBasicBlockRef) : List Nat :=
  match s.blocks[block]? with
  | some b =>
    b.instrs.filterMap (fun e =>
      match e.2 with
      | .alloca _ _ => some e.1
      | _ => none)
  | none => []


/-- A function whose `if` has an else arm, both arms fall through, and a
`return` follows the `if`. -/
def if_else_source : CStr :=
  ("def f(c: bool) -> i32 \x7b def mut x: i32 = 0; " ++
    "if c \x7b x = 1; \x7d else \x7b x = 2; \x7d return x; \x7d").toList

/-- The same function with `unless`. -/
def unless_else_source : CStr :=
  ("def f(c: bool) -> i32 \x7b def mut x: i32 = 0; " ++
    "unless c \x7b x = 1; \x7d else \x7b x = 2; \x7d return x; \x7d").toList

/-- A function whose `switch` has a case that ends in an `if` without else. -/
def switch_if_source : CStr :=
  ("def f(c: bool) -> i32 \x7b def mut y: i32 = 0; " ++
    "switch y \x7b case 1: if c \x7b y = 2; \x7d \x7d return y; \x7d").toList

/-- Whether the last instruction of block `block` is a terminator. -/
def block_ends_in_terminator (s : CodeGen) (block : LLVMBasicBlockRef) : Bool :=
  (block_terminated (some block) s).1

/-- Whether block `block` holds a `ret` instruction. -/
def block_returns (s : CodeGen) (block : LLVMBasicBlockRef) : Bool :=
  match s.blocks[block]? with
  | some b =>
    b.instrs.any (fun e =>
      match e.2 with
      | .ret _ => true
      | .ret_void => true
      | _ => false)
  | none => false

/-- The names of the blocks created so far. -/
def block_names (s : CodeGen) : List String := s.blocks.map (fun b => String.mk b.name)

/-- A function whose `switch` has a case with a statement after a `return`. -/
def switch_return_source : CStr :=
  ("def f(c: bool) -> i32 \x7b def mut y: i32 = 0; " ++
    "switch y \x7b case 1: return 1; y = 2; \x7d return y; \x7d").toList

/-- The number of terminators among the instructions of block `block`. -/
def block_terminator_count (s : CodeGen) (block : LLVMBasicBlockRef) : Nat :=
  match s.blocks[block]? with
  | some b => (b.instrs.filter (fun e => e.2.is_terminator)).length
  | none => 0

/-- The state in which `codegen_switch` starts on the cases of a switch with
one case and no default, in the entry block of `main`. -/
def state_in_switch : CodeGen :=
  (append_basic_block "switch_case_0" (append_basic_block "switch_exit" state_in_main).2).2


theorem get_type_info_size_nonneg (k : TypeKind) : 0 ≤ (get_type_info k).size := by
  unfold get_type_info
  split_ifs with h1 h2
  · obtain ⟨_, h⟩ := h1
    have : k ≤ 13 := h
    interval_cases k <;> simp [type_table]
  · simp [POINTER_SIZE]
  · simp [unknown_type]

theorem field_size_sum_nonneg (fs : List StructField) : 0 ≤ field_size_sum fs := by
  induction fs with
  | nil => simp [field_size_sum]
  | cons f rest ih =>
    have := get_type_info_size_nonneg f.type
    simp only [field_size_sum, List.map_cons, List.sum_cons] at ih ⊢
    omega

theorem field_size_sum_cons (f : StructField) (fs : List StructField) :
    field_size_sum (f :: fs) = (get_type_info f.type).size + field_size_sum fs := by
  simp [field_size_sum]

theorem wrap32_of_range (x : Int) (h0 : 0 ≤ x) (h1 : x < 2147483648) : wrap32 x = x := by
  unfold wrap32
  omega

theorem register_fields_length (off : Int) (fs : List StructField) :
    (register_fields off fs).1.length = fs.length := by
  induction fs generalizing off with
  | nil => simp [register_fields]
  | cons f rest ih => simp [register_fields, ih]

theorem register_fields_total (off : Int) (fs : List StructField) (h0 : 0 ≤ off)
    (h : off + field_size_sum fs < 2147483648) :
    (register_fields off fs).2 = off + field_size_sum fs := by
  induction fs generalizing off with
  | nil => simp [register_fields, field_size_sum]
  | cons f rest ih =>
    have hs := get_type_info_size_nonneg f.type
    have hr := field_size_sum_nonneg rest
    rw [field_size_sum_cons] at h ⊢
    simp only [register_fields]
    rw [wrap32_of_range _ (by omega) (by omega)]
    rw [ih _ (by omega) (by omega)]
    omega

theorem register_fields_offset (off : Int) (fs : List StructField) (h0 : 0 ≤ off)
    (h : off + field_size_sum fs < 2147483648) (k : Nat) (hk : k < fs.length) :
    (register_fields off fs).1[k]? =
      some ⟨(fs.get ⟨k, hk⟩).name, (fs.get ⟨k, hk⟩).type, off + field_size_sum (fs.take k)⟩ := by
  induction fs generalizing off k with
  | nil => simp at hk
  | cons f rest ih =>
    have hs := get_type_info_size_nonneg f.type
    have hr := field_size_sum_nonneg rest
    rw [field_size_sum_cons] at h
    cases k with
    | zero => simp [register_fields, field_size_sum]
    | succ k =>
      simp only [register_fields, List.getElem?_cons_succ, List.take_succ_cons,
        field_size_sum_cons, List.get_cons_succ]
      rw [wrap32_of_range _ (by omega) (by omega)]
      rw [ih _ (by omega) (by omega) k (by simpa using hk)]
      simp only [List.get_eq_getElem, Option.some.injEq, StructField.mk.injEq, true_and]
      omega

/-- C6: the entry appended by `register_struct_type` holds the given fields in
declaration order with `fields[k].offset` the sum of the sizes of the fields
before `k` and `total_size` the sum of all field sizes (packed, first field at
offset 0), whenever that total fits the C `int` accumulator. -/
theorem register_struct_type_layout (reg : Registry) (name : CStr) (fs : List StructField)
    (hfit : field_size_sum fs < 2147483648) :
    ∃ st : StructType,
      (register_struct_type reg name fs).1.registered_structs = reg.registered_structs ++ [st] ∧
      st.name = name ∧ st.type_id = (register_struct_type reg name fs).2 ∧
      st.fields.length = fs.length ∧
      (∀ (k : Nat) (hk : k < fs.length),
        st.fields[k]? = some ⟨(fs.get ⟨k, hk⟩).name, (fs.get ⟨k, hk⟩).type,
          field_size_sum (fs.take k)⟩) ∧
      st.total_size = field_size_sum fs := by
  refine ⟨⟨name, reg.next_struct_type_id, (register_fields 0 fs).1, (register_fields 0 fs).2⟩,
    rfl, rfl, rfl, register_fields_length 0 fs, ?_, ?_⟩
  · intro k hk
    have := register_fields_offset 0 fs (le_refl 0) (by omega) k hk
    simpa using this
  · have := register_fields_total 0 fs (le_refl 0) (by omega)
    simpa using this

/-- Witness for C6: `struct P { x: i32; y: i64; }` gets offsets 0 and 4 and total size 12. -/
theorem register_struct_type_layout_witness :
    ∃ st : StructType,
      (register_struct_type Registry.initial "P".toList
          [⟨"x".toList, TYPE_I32, 0⟩, ⟨"y".toList, TYPE_I64, 0⟩]).1.registered_structs
        = Registry.initial.registered_structs ++ [st] ∧
      st.fields.map (fun f => f.offset) = [0, 4] ∧ st.total_size = 12 := by
  obtain ⟨st, h1, _, _, _, _, h6⟩ :=
    register_struct_type_layout Registry.initial "P".toList
      [⟨"x".toList, TYPE_I32, 0⟩, ⟨"y".toList, TYPE_I64, 0⟩] (by decide)
  refine ⟨st, h1, ?_, ?_⟩
  · have h := h1
    simp only [register_struct_type, Registry.initial, List.nil_append, List.cons.injEq,
      and_true] at h
    rw [← h]
    decide
  · rw [h6]; decide

/-- C7: typing is conservative: `types_compatible(a, b)` non-zero implies `a = b`,
and `types_comparable(a, b)` non-zero implies `a = b`, for all `TypeKind` values. -/
theorem types_conservative (a b : TypeKind) :
    (types_compatible a b = true → a = b) ∧ (types_comparable a b = true → a = b) := by
  constructor
  · intro h
    unfold types_compatible at h
    by_cases hab : a = b
    · exact hab
    · simp [hab] at h
  · intro h
    unfold types_comparable at h
    by_cases hab : a = b
    · exact hab
    · simp [hab] at h

/-- Witness for C7 at `(i32, i32)`: both predicates hold and the kinds are equal. -/
theorem types_conservative_witness :
    types_compatible TYPE_I32 TYPE_I32 = true ∧ types_comparable TYPE_I32 TYPE_I32 = true ∧
      TYPE_I32 = TYPE_I32 :=
  ⟨by decide, by decide, (types_conservative TYPE_I32 TYPE_I32).1 (by decide)⟩

/-- C8 fails as stated: `types_compatible(Bool, Bool)` holds although `Bool` is
not numeric (likewise `String` and `Unknown`). -/
theorem types_compatible_non_numeric :
    types_compatible TYPE_BOOL TYPE_BOOL = true ∧ (get_type_info TYPE_BOOL).is_numeric = false ∧
    types_compatible TYPE_STRING TYPE_STRING = true ∧
      (get_type_info TYPE_STRING).is_numeric = false ∧
    types_compatible TYPE_UNKNOWN TYPE_UNKNOWN = true ∧
      (get_type_info TYPE_UNKNOWN).is_numeric = false := by
  decide

/-- C8 amended: `types_compatible(a, b)` holds if and only if `a = b`, whether
or not the type is numeric. -/
theorem types_compatible_iff_eq (a b : TypeKind) : types_compatible a b = true ↔ a = b := by
  unfold types_compatible
  by_cases hab : a = b
  · simp [hab]
  · simp [hab]

/-! ### Names and kinds -/

theorem find?_eq_of_first {α : Type} (p : α → Bool) (l : List α) (i : Nat) (hi : i < l.length)
    (hp : p (l.get ⟨i, hi⟩) = true)
    (hfirst : ∀ (j : Nat) (hj : j < i), p (l.get ⟨j, Nat.lt_trans hj hi⟩) = false) :
    l.find? p = some (l.get ⟨i, hi⟩) := by
  induction l generalizing i with
  | nil => simp at hi
  | cons x xs ih =>
    cases i with
    | zero =>
      simp only [List.get_eq_getElem, List.getElem_cons_zero] at hp ⊢
      simp [List.find?, hp]
    | succ i =>
      have h0 : p x = false := by
        have := hfirst 0 (Nat.succ_pos i)
        simpa using this
      have hi2 : i < xs.length := by simpa using hi
      have := ih i hi2 (by simpa using hp) (by
        intro j hj
        have := hfirst (j + 1) (by omega)
        simpa using this)
      simp only [List.find?, h0, List.get_eq_getElem, List.getElem_cons_succ] at this ⊢
      exact this

theorem reachable_ids (reg : Registry) (hr : reg.Reachable) :
    reg.next_struct_type_id = TYPE_STRUCT_START + reg.registered_structs.length ∧
    ∀ (i : Nat) (hi : i < reg.registered_structs.length),
      (reg.registered_structs.get ⟨i, hi⟩).type_id = TYPE_STRUCT_START + i := by
  induction hr with
  | initial => simp [Registry.initial]
  | register reg name fields _ ih =>
    obtain ⟨ih1, ih2⟩ := ih
    constructor
    · simp only [register_struct_type, List.length_append, List.length_singleton]
      omega
    · intro i hi
      simp only [register_struct_type, List.length_append, List.length_singleton] at hi
      simp only [register_struct_type, List.get_eq_getElem]
      by_cases hlt : i < reg.registered_structs.length
      · rw [List.getElem_append_left hlt]
        simpa using ih2 i hlt
      · have hieq : i = reg.registered_structs.length := by omega
        subst hieq
        simp [ih1]

theorem get_struct_type_reachable (reg : Registry) (hr : reg.Reachable) (i : Nat)
    (hi : i < reg.registered_structs.length) :
    get_struct_type reg (TYPE_STRUCT_START + i) = some (reg.registered_structs.get ⟨i, hi⟩) := by
  obtain ⟨_, hid⟩ := reachable_ids reg hr
  unfold get_struct_type
  apply find?_eq_of_first
  · rw [hid i hi]; simp
  · intro j hj
    rw [hid j (Nat.lt_trans hj hi)]
    simp only [TYPE_STRUCT_START, TypeKind, decide_eq_false_iff_not]
    omega

theorem type_to_string_struct (reg : Registry) (hr : reg.Reachable) (i : Nat)
    (hi : i < reg.registered_structs.length) (hlt : TYPE_STRUCT_START + i < TYPE_UNKNOWN) :
    type_to_string reg (TYPE_STRUCT_START + i) = (reg.registered_structs.get ⟨i, hi⟩).name := by
  have hget := get_struct_type_reachable reg hr i hi
  have hs : is_struct_type (TYPE_STRUCT_START + i) = true := by
    simp only [is_struct_type, Bool.and_eq_true, decide_eq_true_eq]
    simp only [TYPE_STRUCT_START, TYPE_UNKNOWN, TypeKind] at hlt ⊢
    omega
  unfold type_to_string
  rw [hget, hs]
  simp only [TypeKind, TYPE_STRUCT_START, TYPE_VOID, TYPE_BOOL, TYPE_I8, TYPE_I16, TYPE_I32, TYPE_I64,
    TYPE_U8, TYPE_U16, TYPE_U32, TYPE_U64, TYPE_F32, TYPE_F64, TYPE_CHAR, TYPE_STRING,
    TYPE_PTR_VOID, TYPE_PTR_BOOL, TYPE_PTR_I8, TYPE_PTR_I16, TYPE_PTR_I32, TYPE_PTR_I64,
    TYPE_PTR_U8, TYPE_PTR_U16, TYPE_PTR_U32, TYPE_PTR_U64, TYPE_PTR_F32, TYPE_PTR_F64,
    TYPE_PTR_CHAR, TYPE_PTR_STRING]
  repeat (rw [if_neg (by omega)])
  simp

theorem string_to_type_base_not_primitive (reg : Registry) (s : CStr) (h : s ∉ primitive_names) :
    string_to_type_base reg s =
      match find_struct_by_name reg s with
      | some st => st.type_id
      | none => TYPE_UNKNOWN := by
  simp [primitive_names] at h
  unfold string_to_type_base
  simp [h]

theorem type_to_string_primitive (reg : Registry) (s : CStr) (k : TypeKind)
    (h : string_to_type_base reg s = k) (hp : s ∈ primitive_names) :
    type_to_string reg k = s ∧ k ≤ TYPE_STRING := by
  simp [primitive_names] at hp
  rcases hp with h1 | h1 | h1 | h1 | h1 | h1 | h1 | h1 | h1 | h1 | h1 | h1 | h1 | h1 <;>
    (subst h1; simp [string_to_type_base] at h; subst h
     exact ⟨by simp [type_to_string], by decide⟩)

theorem string_to_type_of_type_to_string_builtin (reg : Registry) (k : TypeKind)
    (hk : k ≤ TYPE_STRING ∨ (TYPE_PTR_VOID ≤ k ∧ k ≤ TYPE_PTR_STRING)) :
    string_to_type reg (type_to_string reg k) = k := by
  simp only [TypeKind, TYPE_STRING, TYPE_PTR_VOID, TYPE_PTR_STRING] at hk
  rcases hk with h | ⟨h1, h2⟩
  · interval_cases k <;> rfl
  · interval_cases k <;> rfl

theorem make_pointer_type_unknown (k : TypeKind) (hk : TYPE_STRING < k) :
    make_pointer_type k = TYPE_UNKNOWN := by
  unfold make_pointer_type
  simp only [TypeKind, TYPE_VOID, TYPE_BOOL, TYPE_I8, TYPE_I16, TYPE_I32, TYPE_I64,
    TYPE_U8, TYPE_U16, TYPE_U32, TYPE_U64, TYPE_F32, TYPE_F64, TYPE_CHAR, TYPE_STRING] at hk ⊢
  repeat (rw [if_neg (by omega)])

theorem make_pointer_type_known (k : TypeKind) (h : make_pointer_type k < TYPE_UNKNOWN) :
    k ≤ TYPE_STRING ∧ make_pointer_type k = TYPE_PTR_VOID + k := by
  by_cases hk : k ≤ TYPE_STRING
  · refine ⟨hk, ?_⟩
    simp only [TypeKind, TYPE_STRING] at hk
    interval_cases k <;> rfl
  · rw [make_pointer_type_unknown k (by simpa using hk)] at h
    exact absurd h (by decide)

theorem type_to_string_pointer (reg : Registry) (k : TypeKind) (hk : k ≤ TYPE_STRING) :
    type_to_string reg (TYPE_PTR_VOID + k) = '*' :: type_to_string reg k := by
  simp only [TypeKind, TYPE_STRING] at hk
  interval_cases k <;> rfl

theorem find_struct_by_name_some (reg : Registry) (s : CStr) (st : StructType)
    (h : find_struct_by_name reg s = some st) :
    st.name = s ∧ ∃ (i : Nat) (hi : i < reg.registered_structs.length),
      reg.registered_structs.get ⟨i, hi⟩ = st := by
  unfold find_struct_by_name at h
  have h1 := List.find?_some h
  have h2 := List.mem_of_find?_eq_some h
  refine ⟨by simpa using h1, ?_⟩
  obtain ⟨n, hn⟩ := List.get_of_mem h2
  exact ⟨n.1, n.2, hn⟩

/-- On a reachable registry, a name that `string_to_type` maps to a kind below
`TYPE_UNKNOWN` is the name `type_to_string` gives back for that kind. -/
theorem type_to_string_of_string_to_type (reg : Registry) (hr : reg.Reachable) (s : CStr) :
    ∀ k : TypeKind, string_to_type reg s = k → k < TYPE_UNKNOWN → type_to_string reg k = s := by
  have hbase : ∀ (t : CStr) (k : TypeKind), string_to_type_base reg t = k → k < TYPE_UNKNOWN →
      type_to_string reg k = t := by
    intro t k hk hlt
    by_cases hp : t ∈ primitive_names
    · exact (type_to_string_primitive reg t k hk hp).1
    · rw [string_to_type_base_not_primitive reg t hp] at hk
      cases hf : find_struct_by_name reg t with
      | none =>
        rw [hf] at hk
        simp only at hk
        subst hk
        exact absurd hlt (by decide)
      | some st =>
        rw [hf] at hk
        simp only at hk
        obtain ⟨hname, i, hi, hget⟩ := find_struct_by_name_some reg t st hf
        have hid := (reachable_ids reg hr).2 i hi
        rw [hget, hk] at hid
        subst hid
        rw [type_to_string_struct reg hr i hi hlt, hget, hname]
  induction s with
  | nil =>
    intro k hk hlt
    exact hbase [] k (by simpa [string_to_type] using hk) hlt
  | cons c rest ih =>
    intro k hk hlt
    by_cases hc : c = '*'
    · subst hc
      simp only [string_to_type, if_true] at hk
      subst hk
      obtain ⟨h13, hmk⟩ := make_pointer_type_known _ hlt
      rw [hmk, type_to_string_pointer reg _ h13]
      have hlt2 : string_to_type reg rest < TYPE_UNKNOWN := by
        simp only [TypeKind, TYPE_STRING, TYPE_UNKNOWN] at h13 ⊢
        omega
      rw [ih _ rfl hlt2]
    · simp only [string_to_type, hc, if_false] at hk
      exact hbase (c :: rest) k hk hlt

/-- On a reachable registry, the id of a registered record whose name is not a
pointer spelling, not a primitive name and not registered earlier maps to its
name and back. -/
theorem string_to_type_of_type_to_string_struct (reg : Registry) (hr : reg.Reachable) (i : Nat)
    (hi : i < reg.registered_structs.length)
    (hlt : (reg.registered_structs.get ⟨i, hi⟩).type_id < TYPE_UNKNOWN)
    (hstar : ∀ rest : CStr, (reg.registered_structs.get ⟨i, hi⟩).name ≠ '*' :: rest)
    (hprim : (reg.registered_structs.get ⟨i, hi⟩).name ∉ primitive_names)
    (hfirst : ∀ (j : Nat) (hj : j < i),
      (reg.registered_structs.get ⟨j, Nat.lt_trans hj hi⟩).name ≠
        (reg.registered_structs.get ⟨i, hi⟩).name) :
    string_to_type reg (type_to_string reg (reg.registered_structs.get ⟨i, hi⟩).type_id) =
      (reg.registered_structs.get ⟨i, hi⟩).type_id := by
  have hid := (reachable_ids reg hr).2 i hi
  rw [hid] at hlt ⊢
  rw [type_to_string_struct reg hr i hi hlt]
  have hfind : find_struct_by_name reg (reg.registered_structs.get ⟨i, hi⟩).name =
      some (reg.registered_structs.get ⟨i, hi⟩) := by
    unfold find_struct_by_name
    apply find?_eq_of_first
    · simp
    · intro j hj
      simpa using hfirst j hj
  have hb : string_to_type_base reg (reg.registered_structs.get ⟨i, hi⟩).name =
      TYPE_STRUCT_START + i := by
    rw [string_to_type_base_not_primitive reg _ hprim, hfind]
    exact hid
  cases hn : (reg.registered_structs.get ⟨i, hi⟩).name with
  | nil => rw [hn] at hb; simpa [string_to_type] using hb
  | cons c rest =>
    rw [hn] at hb
    have hc : c ≠ '*' := by
      intro hc
      exact hstar rest (by rw [hn, hc])
    simp only [string_to_type, hc, if_false]
    exact hb

/-- C10 fails as stated. With `P` declared twice the second record has id 201,
whose name `P` maps back to 200; and with 57 records the last one has id 256,
which `string_to_type` returns for its name but `type_to_string` renders as
`unknown`. -/
theorem type_string_inverse_fails :
    registry_with_duplicate.Reachable ∧
    (∃ st ∈ registry_with_duplicate.registered_structs, st.type_id = 201) ∧
    string_to_type registry_with_duplicate (type_to_string registry_with_duplicate 201) ≠ 201 ∧
    (register_many 57).Reachable ∧
    string_to_type (register_many 57) (List.replicate 57 'a') = 256 ∧
    (256 : TypeKind) ≠ TYPE_UNKNOWN ∧
    type_to_string (register_many 57) 256 ≠ List.replicate 57 'a' := by
  refine ⟨?_, ?_, ?_, ?_, ?_, ?_, ?_⟩
  · exact Registry.Reachable.register _ _ _ (Registry.Reachable.register _ _ _ Registry.Reachable.initial)
  · decide
  · decide
  · have h : ∀ n, (register_many n).Reachable := by
      intro n
      induction n with
      | zero => exact Registry.Reachable.initial
      | succ n ih => exact Registry.Reachable.register _ _ _ ih
    exact h 57
  · decide
  · decide
  · decide

/-- C10 amended: on every registry reachable by registrations,
(a) `string_to_type(type_to_string(k)) = k` for every primitive and every
one-level pointer kind `k`;
(b) the same holds for the id `k < TYPE_UNKNOWN` of a registered record whose
name does not start with `*`, is not a primitive type name and is not the name
of an earlier registered record;
(c) for every name `s` with `string_to_type(s) = k` and `k < TYPE_UNKNOWN`,
`type_to_string(k) = s`. -/
theorem type_string_inverse (reg : Registry) (hr : reg.Reachable) :
    (∀ k : TypeKind, (k ≤ TYPE_STRING ∨ (TYPE_PTR_VOID ≤ k ∧ k ≤ TYPE_PTR_STRING)) →
      string_to_type reg (type_to_string reg k) = k) ∧
    (∀ (i : Nat) (hi : i < reg.registered_structs.length),
      (reg.registered_structs.get ⟨i, hi⟩).type_id < TYPE_UNKNOWN →
      (∀ rest : CStr, (reg.registered_structs.get ⟨i, hi⟩).name ≠ '*' :: rest) →
      (reg.registered_structs.get ⟨i, hi⟩).name ∉ primitive_names →
      (∀ (j : Nat) (hj : j < i),
        (reg.registered_structs.get ⟨j, Nat.lt_trans hj hi⟩).name ≠
          (reg.registered_structs.get ⟨i, hi⟩).name) →
      string_to_type reg (type_to_string reg (reg.registered_structs.get ⟨i, hi⟩).type_id) =
        (reg.registered_structs.get ⟨i, hi⟩).type_id) ∧
    (∀ (s : CStr) (k : TypeKind), string_to_type reg s = k → k < TYPE_UNKNOWN →
      type_to_string reg k = s) :=
  ⟨fun k hk => string_to_type_of_type_to_string_builtin reg k hk,
   fun i hi hlt hstar hprim hfirst =>
     string_to_type_of_type_to_string_struct reg hr i hi hlt hstar hprim hfirst,
   fun s k hk hlt => type_to_string_of_string_to_type reg hr s k hk hlt⟩

/-- Witness for C10 amended, on the registry holding the single record `a`:
`*i32` and the name `a` of id 200 make the round trip. -/
theorem type_string_inverse_witness :
    (register_many 1).Reachable ∧
    string_to_type (register_many 1) (type_to_string (register_many 1) TYPE_PTR_I32) =
      TYPE_PTR_I32 ∧
    type_to_string (register_many 1) 200 = "a".toList :=
  ⟨Registry.Reachable.register _ _ _ Registry.Reachable.initial,
   (type_string_inverse (register_many 1)
      (Registry.Reachable.register _ _ _ Registry.Reachable.initial)).1 TYPE_PTR_I32
      (Or.inr ⟨by decide, by decide⟩),
   (type_string_inverse (register_many 1)
      (Registry.Reachable.register _ _ _ Registry.Reachable.initial)).2.2 "a".toList 200
      (by decide) (by decide)⟩

/-! ### Parser: type spellings -/

/-- C3 (code defect): `parse_program` on `def struct P { x: i32; y: i32; }`
exits with "Expected field type" at the keyword token `i32`, whatever the
recursion budget; the same happens for a field of type `f32`, `string` or
`void`, while the ten other primitive names give the `Struct` node the claim
describes. -/
theorem parse_struct_field_keyword_type (reg : Registry) :
    (∀ fuel : Nat,
      parse_program reg (fuel + 4)
          (parser_create (create_lexer "def struct P \x7b x: i32; y: i32; \x7d".toList)) =
        .exit1 (.message "Expected field type" 1 18)) ∧
    parse_source reg "def struct P \x7b x: i32; y: i32; \x7d".toList =
      .exit1 (.message "Expected field type" 1 18) ∧
    (∀ t ∈ keyword_type_names,
      parse_source reg (struct_source t) = .exit1 (.message "Expected field type" 1 18)) ∧
    (∀ t ∈ plain_type_names, ∃ p : Parser,
      parse_source reg (struct_source t) =
        .ok (.program [] [.struct_decl "P".toList [.struct_field "x".toList t TYPE_UNKNOWN] []])
          p) := by
  refine ⟨fun fuel => rfl, rfl, ?_, ?_⟩
  · intro t ht
    simp only [keyword_type_names, List.mem_cons, List.mem_singleton, List.not_mem_nil,
      or_false] at ht
    rcases ht with h | h | h | h <;> (subst h; rfl)
  · intro t ht
    simp only [plain_type_names, List.mem_cons, List.mem_singleton, List.not_mem_nil,
      or_false] at ht
    rcases ht with h | h | h | h | h | h | h | h | h | h <;> (subst h; exact ⟨_, rfl⟩)

/-- C4 (code defect): `parse_variable_declaration` on `def p: *i32 = &v;` exits
with "Expected base type after '*'" at the keyword token `i32`, whatever the
recursion budget; the same happens for `*f32`, `*string` and `*void`, while the
ten other primitive names give the `VarDecl` node the claim describes. -/
theorem parse_pointer_declaration_keyword_type (reg : Registry) :
    (∀ fuel : Nat,
      parse_variable_declaration reg fuel
          (parser_create (create_lexer "def p: *i32 = &v;".toList)) =
        .exit1 (.message "Expected base type after '*'" 1 9)) ∧
    (∀ t ∈ keyword_type_names, ∀ fuel : Nat,
      parse_variable_declaration reg fuel (parser_create (create_lexer (pointer_decl_source t))) =
        .exit1 (.message "Expected base type after '*'" 1 9)) ∧
    (∀ t ∈ plain_type_names, ∀ fuel : Nat, ∃ p : Parser,
      parse_variable_declaration reg (fuel + 6)
          (parser_create (create_lexer (pointer_decl_source t))) =
        .ok (.variable_decl "p".toList ('*' :: t)
              (some (.unary_op UNARY_ADDRESS_OF (.identifier "v".toList TYPE_UNKNOWN)
                TYPE_UNKNOWN))
              0 (make_pointer_type (string_to_type reg t))) p) := by
  refine ⟨fun fuel => rfl, ?_, ?_⟩
  · intro t ht fuel
    simp only [keyword_type_names, List.mem_cons, List.mem_singleton, List.not_mem_nil,
      or_false] at ht
    rcases ht with h | h | h | h <;> (subst h; rfl)
  · intro t ht fuel
    simp only [plain_type_names, List.mem_cons, List.mem_singleton, List.not_mem_nil,
      or_false] at ht
    rcases ht with h | h | h | h | h | h | h | h | h | h <;> (subst h; exact ⟨_, rfl⟩)

/-! ### Lowerer: assignments and binary operations -/

theorem build_has_error (i : Instr) (s : CodeGen) : (build i s).2.has_error = s.has_error := rfl

theorem build_loop_stack (i : Instr) (s : CodeGen) : (build i s).2.loop_stack = s.loop_stack := rfl

/-- C1 (code defect): for a variable `x` that is in the symbol table with a
slot, `codegen_assignment` rejects `x = e` exactly when `is_mutable = 0`
(has_error set, nothing emitted, `e` not lowered); for every other value,
Mutable (1) and also Const (-1), it lowers `e` and, when that gives a value,
emits the store to the slot of `x` and leaves has_error as lowering `e` left
it. -/
theorem codegen_assignment_mutability (s : CodeGen) (x : CStr) (var : Variable)
    (slot : LLVMValue) (lower_value : CG LLVMValueRef)
    (hfind : find_variable s x = some var) (hslot : var.value = some slot) :
    (var.is_mutable = 0 →
      codegen_assignment x lower_value s = (none, { s with has_error := true })) ∧
    (var.is_mutable ≠ 0 → ∀ v : LLVMValue, (lower_value s).1 = some v →
      codegen_assignment x lower_value s =
        build (.store (some v) (some slot)) (lower_value s).2 ∧
      (codegen_assignment x lower_value s).2.has_error = (lower_value s).2.has_error) := by
  constructor
  · intro h0
    simp [codegen_assignment, bind, CG.bind, CG.get, get_variable, get_variable_mutability,
      hfind, hslot, h0, set_has_error, pure, CG.pure]
  · intro h0 v hv
    have h1 : codegen_assignment x lower_value s =
        build (.store (some v) (some slot)) (lower_value s).2 := by
      simp [codegen_assignment, bind, CG.bind, CG.get, get_variable, get_variable_mutability,
        hfind, hslot, h0, hv]
    exact ⟨h1, by rw [h1, build_has_error]⟩

/-- Witness for C1 at the failing input: in `state_with_const_PI` the
assignment `PI = 4` is lowered to a store of 4 into the slot of the constant
and has_error stays clear; and the driver accepts the whole function
`const_assign_source`, whose entry block then holds two stores. -/
theorem codegen_assignment_mutability_witness :
    (codegen_statement External.idle Registry.initial
        (.assignment "PI".toList (.literal "4".toList "i32".toList TYPE_I32))
        state_with_const_PI =
      build (.store (some (.const_int (.int 32) 4)) (some (.inst 0))) state_with_const_PI ∧
    (codegen_statement External.idle Registry.initial
        (.assignment "PI".toList (.literal "4".toList "i32".toList TYPE_I32))
        state_with_const_PI).2.has_error = false) ∧
    (parse_source Registry.initial const_assign_source).is_ok = true ∧
    (codegen_program External.idle Registry.initial
      (parsed_program Registry.initial const_assign_source) create_codegen).2.2.has_error
        = false ∧
    block_store_count
      (codegen_program External.idle Registry.initial
        (parsed_program Registry.initial const_assign_source) create_codegen).2.2 0 = 2 :=
  ⟨(codegen_assignment_mutability state_with_const_PI "PI".toList
      ⟨"PI".toList, some (.inst 0), .int 32, -1, TYPE_I32⟩ (.inst 0)
      (codegen_literal "4".toList "i32".toList) rfl rfl).2 (by decide)
      (.const_int (.int 32) 4) rfl,
   by decide!, by decide!, by decide!⟩

theorem get_expression_type_user_call (reg : Registry) (s : CodeGen) (name : CStr)
    (args : List ASTNode) (hname : name ∉ builtin_call_names) :
    get_expression_type reg s (.call name args) = TYPE_UNKNOWN := by
  have h : ∀ n ∈ builtin_call_names, name ≠ n := fun _ hn heq => hname (heq ▸ hn)
  show (if name = "std.to_string".toList then TYPE_STRING
    else if name = "std.to_int".toList then TYPE_I32
    else if name = "std.to_i64".toList then TYPE_I64
    else if name = "std.input".toList then TYPE_STRING
    else if name = "std.readln".toList then TYPE_STRING
    else if name = "cast".toList then
      match args with
      | _ :: .literal value type _ :: _ =>
        if type = "string".toList then string_to_type reg value else TYPE_UNKNOWN
      | _ => TYPE_UNKNOWN
    else TYPE_UNKNOWN) = TYPE_UNKNOWN
  rw [if_neg (h _ (by decide)), if_neg (h _ (by decide)), if_neg (h _ (by decide)),
    if_neg (h _ (by decide)), if_neg (h _ (by decide)), if_neg (h _ (by decide))]

theorem numeric_ne_unknown (t : TypeKind) (h : (get_type_info t).is_numeric = true) :
    t ≠ TYPE_UNKNOWN := by
  intro ht
  subst ht
  exact absurd h (by decide)

/-- C2 (code defect): `codegen_binary_op` rejects every arithmetic operation
that has a call of a user-defined (non-builtin) function as one operand and an
operand of a numeric type as the other: `get_expression_type` gives
`TYPE_UNKNOWN` for the call, the types are not compatible, has_error is set and
neither operand is lowered. -/
theorem codegen_binary_op_user_call (reg : Registry) (s : CodeGen) (operator : BinaryOperator)
    (other : ASTNode) (name : CStr) (args : List ASTNode)
    (lower_left lower_right : CG LLVMValueRef)
    (harith : is_comparison_operator operator = false)
    (hname : name ∉ builtin_call_names)
    (hnum : (get_type_info (get_expression_type reg s other)).is_numeric = true) :
    codegen_binary_op reg operator other (.call name args) lower_left lower_right s =
      (none, { s with has_error := true }) ∧
    codegen_binary_op reg operator (.call name args) other lower_left lower_right s =
      (none, { s with has_error := true }) := by
  have hcall := get_expression_type_user_call reg s name args hname
  have hne := numeric_ne_unknown _ hnum
  have h1 : types_compatible (get_expression_type reg s other) TYPE_UNKNOWN = false := by
    simp [types_compatible, hne]
  have h2 : types_compatible TYPE_UNKNOWN (get_expression_type reg s other) = false := by
    simp [types_compatible, Ne.symm hne]
  constructor
  · simp [codegen_binary_op, bind, CG.bind, CG.get, harith, hcall, h1, set_has_error, pure,
      CG.pure]
  · simp [codegen_binary_op, bind, CG.bind, CG.get, harith, hcall, h2, set_has_error, pure,
      CG.pure]

/-- Witness for C2 at the failing input: inside `fact`, lowering
`n * fact(n - 1)` sets has_error and emits nothing, and the driver's
`codegen_program` on the whole source of S2 ends with has_error set. -/
theorem codegen_binary_op_user_call_witness :
    codegen_expression External.idle Registry.initial n_times_fact state_in_fact =
      (none, { state_in_fact with has_error := true }) ∧
    (parse_source Registry.initial fact_source).is_ok = true ∧
    (codegen_program External.idle Registry.initial
      (parsed_program Registry.initial fact_source) create_codegen).2.2.has_error = true :=
  ⟨(codegen_binary_op_user_call Registry.initial state_in_fact OP_MUL
      (.identifier "n".toList TYPE_UNKNOWN) "fact".toList _ _ _ rfl (by decide) rfl).1,
   by decide!, by decide!⟩

/-! ### Lowerer: loops, break and continue -/

theorem append_to_block_length (blocks : List BasicBlock) (i : Nat) (e : Nat × Instr) :
    (append_to_block blocks i e).length = blocks.length := by
  unfold append_to_block
  split <;> simp

theorem build_blocks_length (i : Instr) (s : CodeGen) :
    (build i s).2.blocks.length = s.blocks.length := by
  unfold build
  cases s.insert_block <;> simp [append_to_block_length]

theorem build_insert_block (i : Instr) (s : CodeGen) :
    (build i s).2.insert_block = s.insert_block := rfl

theorem append_basic_block_fst (name : String) (s : CodeGen) :
    (append_basic_block name s).1 = s.blocks.length := rfl

theorem append_basic_block_blocks_length (name : String) (s : CodeGen) :
    (append_basic_block name s).2.blocks.length = s.blocks.length + 1 := by
  simp [append_basic_block]

theorem append_basic_block_loop_stack (name : String) (s : CodeGen) :
    (append_basic_block name s).2.loop_stack = s.loop_stack := rfl

theorem position_builder_loop_stack (b : LLVMBasicBlockRef) (s : CodeGen) :
    (position_builder_at_end b s).2.loop_stack = s.loop_stack := rfl

theorem position_builder_blocks (b : LLVMBasicBlockRef) (s : CodeGen) :
    (position_builder_at_end b s).2.blocks = s.blocks := rfl

theorem position_builder_insert_block (b : LLVMBasicBlockRef) (s : CodeGen) :
    (position_builder_at_end b s).2.insert_block = some b := rfl

theorem push_loop_context_loop_stack (e c : LLVMBasicBlockRef) (s : CodeGen)
    (h : s.loop_stack.length < 32) :
    (push_loop_context e c s).2.loop_stack = s.loop_stack ++ [⟨e, c⟩] := by
  simp [push_loop_context, h]

theorem push_loop_context_full (e c : LLVMBasicBlockRef) (s : CodeGen)
    (h : ¬ s.loop_stack.length < 32) :
    push_loop_context e c s = ((), s) := by
  simp [push_loop_context, h]

theorem push_loop_context_blocks (e c : LLVMBasicBlockRef) (s : CodeGen) :
    (push_loop_context e c s).2.blocks = s.blocks := by
  unfold push_loop_context
  split <;> rfl

theorem codegen_while_enter_spec (lower_condition : CG LLVMValueRef) (s : CodeGen)
    (hdepth : s.loop_stack.length < 32)
    (hcond : ∀ t : CodeGen, (lower_condition t).2.loop_stack = t.loop_stack) :
    (codegen_while_enter lower_condition s).1 =
      ⟨s.blocks.length, s.blocks.length + 1, s.blocks.length, s.blocks.length + 2⟩ ∧
    (codegen_while_enter lower_condition s).2.loop_stack =
      s.loop_stack ++ [⟨s.blocks.length + 2, s.blocks.length⟩] ∧
    (codegen_while_enter lower_condition s).2.insert_block = some (s.blocks.length + 1) := by
  simp only [codegen_while_enter, bind, CG.bind, pure, CG.pure]
  simp only [append_basic_block_fst, append_basic_block_blocks_length,
    position_builder_loop_stack, position_builder_insert_block, build_loop_stack, hcond]
  refine ⟨trivial, ?_, trivial⟩
  rw [push_loop_context_loop_stack _ _ _ (by simpa [append_basic_block_loop_stack] using hdepth)]
  simp only [append_basic_block_loop_stack]

theorem codegen_for_enter_spec (lower_init lower_condition : Option (CG LLVMValueRef))
    (s : CodeGen) (hdepth : s.loop_stack.length < 32)
    (hinit : ∀ f ∈ lower_init, ∀ t : CodeGen, (f t).2.loop_stack = t.loop_stack)
    (hcond : ∀ f ∈ lower_condition, ∀ t : CodeGen, (f t).2.loop_stack = t.loop_stack) :
    (codegen_for_enter lower_init lower_condition s).1 =
      ⟨s.blocks.length + 1, s.blocks.length + 2, s.blocks.length + 3, s.blocks.length + 4⟩ ∧
    (codegen_for_enter lower_init lower_condition s).2.loop_stack =
      s.loop_stack ++ [⟨s.blocks.length + 4, s.blocks.length + 3⟩] ∧
    (codegen_for_enter lower_init lower_condition s).2.insert_block =
      some (s.blocks.length + 2) := by
  cases lower_init with
  | none =>
    cases lower_condition with
    | none =>
      simp only [codegen_for_enter, bind, CG.bind, pure, CG.pure]
      simp only [append_basic_block_fst, append_basic_block_blocks_length,
        position_builder_loop_stack, position_builder_insert_block, build_loop_stack]
      refine ⟨trivial, ?_, trivial⟩
      rw [push_loop_context_loop_stack _ _ _
        (by simpa [append_basic_block_loop_stack, build_loop_stack, position_builder_loop_stack]
          using hdepth)]
      simp only [append_basic_block_loop_stack, build_loop_stack, position_builder_loop_stack]
    | some fc =>
      have hc := hcond fc rfl
      simp only [codegen_for_enter, bind, CG.bind, pure, CG.pure]
      simp only [append_basic_block_fst, append_basic_block_blocks_length,
        position_builder_loop_stack, position_builder_insert_block, build_loop_stack, hc]
      refine ⟨trivial, ?_, trivial⟩
      rw [push_loop_context_loop_stack _ _ _
        (by simpa [append_basic_block_loop_stack, build_loop_stack, position_builder_loop_stack]
          using hdepth)]
      simp only [append_basic_block_loop_stack, build_loop_stack, position_builder_loop_stack]
  | some fi =>
    have hi := hinit fi rfl
    cases lower_condition with
    | none =>
      simp only [codegen_for_enter, bind, CG.bind, pure, CG.pure]
      simp only [append_basic_block_fst, append_basic_block_blocks_length,
        position_builder_loop_stack, position_builder_insert_block, build_loop_stack]
      refine ⟨trivial, ?_, trivial⟩
      rw [push_loop_context_loop_stack _ _ _
        (by simpa [append_basic_block_loop_stack, build_loop_stack, position_builder_loop_stack,
          hi] using hdepth)]
      simp only [append_basic_block_loop_stack, build_loop_stack, position_builder_loop_stack, hi]
    | some fc =>
      have hc := hcond fc rfl
      simp only [codegen_for_enter, bind, CG.bind, pure, CG.pure]
      simp only [append_basic_block_fst, append_basic_block_blocks_length,
        position_builder_loop_stack, position_builder_insert_block, build_loop_stack, hc]
      refine ⟨trivial, ?_, trivial⟩
      rw [push_loop_context_loop_stack _ _ _
        (by simpa [append_basic_block_loop_stack, build_loop_stack, position_builder_loop_stack,
          hi] using hdepth)]
      simp only [append_basic_block_loop_stack, build_loop_stack, position_builder_loop_stack, hi]

/-! ### Resolver -/

theorem string_to_type_primitive_name (reg : Registry) (t : CStr) (h : t ∈ primitive_names) :
    string_to_type reg t = string_to_type_base reg t ∧ string_to_type_base reg t ≤ TYPE_STRING := by
  simp [primitive_names] at h
  rcases h with h | h | h | h | h | h | h | h | h | h | h | h | h | h <;>
    (subst h; exact ⟨rfl, Nat.le_of_ble_eq_true rfl⟩)

theorem string_to_type_builtin_name (reg : Registry) (t : CStr) (h : t ∈ builtin_type_names) :
    string_to_type reg t ≠ TYPE_UNKNOWN := by
  simp only [builtin_type_names, List.mem_append, List.mem_map] at h
  rcases h with h | ⟨b, hb, rfl⟩
  · obtain ⟨h1, h2⟩ := string_to_type_primitive_name reg t h
    rw [h1]
    simp only [TypeKind, TYPE_STRING, TYPE_UNKNOWN] at h2 ⊢
    omega
  · obtain ⟨h1, h2⟩ := string_to_type_primitive_name reg b hb
    have h3 : string_to_type reg ('*' :: b) = make_pointer_type (string_to_type reg b) := by
      simp [string_to_type]
    rw [h3, h1]
    generalize string_to_type_base reg b = k at h2
    simp only [TypeKind, TYPE_STRING] at h2
    interval_cases k <;> decide

theorem comparison_result_type (l r : TypeKind) : get_binary_result_type l r true = TYPE_BOOL := by
  simp [get_binary_result_type]

theorem make_pointer_type_twice (k : TypeKind) :
    make_pointer_type (make_pointer_type k) = TYPE_UNKNOWN := by
  by_cases hk : k ≤ TYPE_STRING
  · simp only [TypeKind, TYPE_STRING] at hk
    interval_cases k <;> rfl
  · rw [make_pointer_type_unknown k (by simpa using hk)]
    rfl

/-- C11: pointers are exactly one indirection level. For a primitive kind `b`,
`make_pointer_type b` is a pointer kind and `get_pointed_type` takes it back to
`b`; for a pointer kind `p`, `make_pointer_type (get_pointed_type p) = p` and
`make_pointer_type p = TYPE_UNKNOWN`; `string_to_type` of a name with two or
more leading `*` is `TYPE_UNKNOWN` in every registry; and `get_pointed_type` of
a kind that is not a pointer kind is `TYPE_UNKNOWN`. -/
theorem pointer_one_level :
    (∀ b : TypeKind, b ≤ TYPE_STRING →
      is_pointer_type (make_pointer_type b) = true ∧
      get_pointed_type (make_pointer_type b) = b) ∧
    (∀ p : TypeKind, is_pointer_type p = true →
      make_pointer_type (get_pointed_type p) = p ∧ make_pointer_type p = TYPE_UNKNOWN) ∧
    (∀ (reg : Registry) (s : CStr), string_to_type reg ('*' :: '*' :: s) = TYPE_UNKNOWN) ∧
    (∀ k : TypeKind, is_pointer_type k = false → get_pointed_type k = TYPE_UNKNOWN) := by
  refine ⟨?_, ?_, ?_, ?_⟩
  · intro b hb
    simp only [TypeKind, TYPE_STRING] at hb
    interval_cases b <;> exact ⟨rfl, rfl⟩
  · intro p hp
    simp only [is_pointer_type, Bool.and_eq_true, decide_eq_true_eq, TypeKind, TYPE_PTR_VOID,
      TYPE_PTR_STRING] at hp
    obtain ⟨h1, h2⟩ := hp
    interval_cases p <;> exact ⟨rfl, rfl⟩
  · intro reg s
    simp only [string_to_type, if_true]
    exact make_pointer_type_twice _
  · intro k hk
    simp only [is_pointer_type, Bool.and_eq_false_iff, decide_eq_false_iff_not, TypeKind,
      TYPE_PTR_VOID, TYPE_PTR_STRING] at hk
    unfold get_pointed_type
    simp only [TypeKind, TYPE_PTR_VOID, TYPE_PTR_BOOL, TYPE_PTR_I8, TYPE_PTR_I16, TYPE_PTR_I32,
      TYPE_PTR_I64, TYPE_PTR_U8, TYPE_PTR_U16, TYPE_PTR_U32, TYPE_PTR_U64, TYPE_PTR_F32,
      TYPE_PTR_F64, TYPE_PTR_CHAR, TYPE_PTR_STRING]
    repeat (rw [if_neg (by omega)])

/-- Witness for C11 at `i32`, `*i32`, the name `**i32` and the kind `i32`. -/
theorem pointer_one_level_witness :
    (is_pointer_type (make_pointer_type TYPE_I32) = true ∧
      get_pointed_type (make_pointer_type TYPE_I32) = TYPE_I32) ∧
    (make_pointer_type (get_pointed_type TYPE_PTR_I32) = TYPE_PTR_I32 ∧
      make_pointer_type TYPE_PTR_I32 = TYPE_UNKNOWN) ∧
    string_to_type Registry.initial "**i32".toList = TYPE_UNKNOWN ∧
    get_pointed_type TYPE_I32 = TYPE_UNKNOWN :=
  ⟨pointer_one_level.1 TYPE_I32 (by decide), pointer_one_level.2.1 TYPE_PTR_I32 (by decide),
   pointer_one_level.2.2.1 Registry.initial "i32".toList,
   pointer_one_level.2.2.2 TYPE_I32 (by decide)⟩

theorem register_fields_names_types (off : Int) (fs : List StructField) :
    (register_fields off fs).1.map (fun f => (f.name, f.type)) =
      fs.map (fun f => (f.name, f.type)) := by
  induction fs generalizing off with
  | nil => simp [register_fields]
  | cons f rest ih => simp [register_fields, ih]

theorem register_all_snoc (calls : List (CStr × List StructField)) (c : CStr × List StructField) :
    register_all (calls ++ [c]) = (register_struct_type (register_all calls) c.1 c.2).1 := by
  simp [register_all, List.foldl_append]

theorem register_all_reachable (calls : List (CStr × List StructField)) :
    (register_all calls).Reachable := by
  induction calls using List.reverseRecOn with
  | nil => exact Registry.Reachable.initial
  | append_singleton calls c ih =>
    rw [register_all_snoc]
    exact Registry.Reachable.register _ _ _ ih

theorem register_all_count (calls : List (CStr × List StructField)) :
    (register_all calls).struct_count = calls.length := by
  induction calls using List.reverseRecOn with
  | nil => rfl
  | append_singleton calls c ih =>
    rw [register_all_snoc]
    simp only [Registry.struct_count, register_struct_type, List.length_append,
      List.length_singleton] at ih ⊢
    omega

/-- C12: `register_struct_type` assigns ids consecutively from
`TYPE_STRUCT_START` and is append-only. After any `n` registrations the next
one returns `TYPE_STRUCT_START + n`; in every registry a registration makes
`struct_count` grow by one, the new last entry holds the given name, the
returned id and the given field names and types in the given order, and every
entry that was there before is unchanged. -/
theorem register_struct_type_append_only (name : CStr) (fs : List StructField) :
    (∀ calls : List (CStr × List StructField),
      (register_struct_type (register_all calls) name fs).2 = TYPE_STRUCT_START + calls.length) ∧
    (∀ reg : Registry,
      (register_struct_type reg name fs).1.struct_count = reg.struct_count + 1 ∧
      (∃ st : StructType,
        (register_struct_type reg name fs).1.registered_structs =
          reg.registered_structs ++ [st] ∧
        st.name = name ∧ st.type_id = (register_struct_type reg name fs).2 ∧
        st.fields.map (fun f => (f.name, f.type)) = fs.map (fun f => (f.name, f.type))) ∧
      (∀ (i : Nat) (hi : i < reg.struct_count),
        (register_struct_type reg name fs).1.registered_structs[i]? =
          some (reg.registered_structs.get ⟨i, hi⟩))) := by
  constructor
  · intro calls
    have h := (reachable_ids _ (register_all_reachable calls)).1
    have hc := register_all_count calls
    simp only [Registry.struct_count] at hc
    simp only [register_struct_type, h, hc]
  · intro reg
    refine ⟨?_, ⟨⟨name, reg.next_struct_type_id, (register_fields 0 fs).1,
      (register_fields 0 fs).2⟩, rfl, rfl, rfl, register_fields_names_types 0 fs⟩, ?_⟩
    · simp [Registry.struct_count, register_struct_type]
    · intro i hi
      simp only [Registry.struct_count] at hi
      simp only [register_struct_type, List.get_eq_getElem]
      rw [List.getElem?_append_left hi, List.getElem?_eq_getElem hi]

/-- Witness for C12: after `P` and `Q` the registration of `R` returns 202 and
the registry then holds `P`, `Q`, `R` with the ids 200, 201, 202. -/
theorem register_struct_type_append_only_witness :
    (register_struct_type
        (register_all [("P".toList, [⟨"a".toList, TYPE_BOOL, 0⟩]), ("Q".toList, [])])
        "R".toList [⟨"x".toList, TYPE_I32, 0⟩]).2 = 202 ∧
    (register_struct_type
        (register_all [("P".toList, [⟨"a".toList, TYPE_BOOL, 0⟩]), ("Q".toList, [])])
        "R".toList [⟨"x".toList, TYPE_I32, 0⟩]).1.registered_structs.map
          (fun st => (st.name, st.type_id)) =
      [("P".toList, 200), ("Q".toList, 201), ("R".toList, 202)] :=
  ⟨(register_struct_type_append_only "R".toList [⟨"x".toList, TYPE_I32, 0⟩]).1
      [("P".toList, [⟨"a".toList, TYPE_BOOL, 0⟩]), ("Q".toList, [])],
   by decide⟩

theorem find?_append_of_some {α : Type} (p : α → Bool) (l l2 : List α) (a : α)
    (h : l.find? p = some a) : (l ++ l2).find? p = some a := by
  rw [List.find?_append, h]
  rfl

/-- C13 fails as stated: `P` is present in the registry (one entry), and
registering `P` again makes `struct_count` 2 and returns the new id 201. -/
theorem duplicate_name_registered_again :
    (find_struct_by_name
        (register_struct_type Registry.initial "P".toList [⟨"a".toList, TYPE_BOOL, 0⟩]).1
        "P".toList).isSome = true ∧
    (register_struct_type Registry.initial "P".toList
        [⟨"a".toList, TYPE_BOOL, 0⟩]).1.struct_count = 1 ∧
    registry_with_duplicate.struct_count = 2 ∧
    registry_with_duplicate.registered_structs.map (fun st => (st.name, st.type_id)) =
      [("P".toList, 200), ("P".toList, 201)] := by
  decide

/-- C13 amended: `register_struct_type` with a name that is already present
appends one more entry under that name (`struct_count` grows by one, the entry
gets the next id); the entry that `find_struct_by_name` finds under the name
(the first one: id, fields, total size) is the same before and after. -/
theorem register_duplicate_name (reg : Registry) (name : CStr) (fs : List StructField)
    (st : StructType) (hfound : find_struct_by_name reg name = some st) :
    (register_struct_type reg name fs).1.struct_count = reg.struct_count + 1 ∧
    (register_struct_type reg name fs).2 = reg.next_struct_type_id ∧
    (register_struct_type reg name fs).1.registered_structs.getLast? =
      some ⟨name, reg.next_struct_type_id, (register_fields 0 fs).1, (register_fields 0 fs).2⟩ ∧
    find_struct_by_name (register_struct_type reg name fs).1 name = some st := by
  refine ⟨?_, rfl, ?_, ?_⟩
  · simp [Registry.struct_count, register_struct_type]
  · simp [register_struct_type]
  · unfold find_struct_by_name at hfound ⊢
    exact find?_append_of_some _ _ _ _ hfound

/-- Witness for C13 amended: registering `P { x: i32 }` over a registry that
holds `P { a: bool }` gives two entries, and `P` still names the first. -/
theorem register_duplicate_name_witness :
    (register_struct_type
        (register_struct_type Registry.initial "P".toList [⟨"a".toList, TYPE_BOOL, 0⟩]).1
        "P".toList [⟨"x".toList, TYPE_I32, 0⟩]).1.struct_count = 2 ∧
    find_struct_by_name
        (register_struct_type
          (register_struct_type Registry.initial "P".toList [⟨"a".toList, TYPE_BOOL, 0⟩]).1
          "P".toList [⟨"x".toList, TYPE_I32, 0⟩]).1 "P".toList =
      some ⟨"P".toList, 200, [⟨"a".toList, TYPE_BOOL, 0⟩], 1⟩ :=
  have h := register_duplicate_name
    (register_struct_type Registry.initial "P".toList [⟨"a".toList, TYPE_BOOL, 0⟩]).1
    "P".toList [⟨"x".toList, TYPE_I32, 0⟩] ⟨"P".toList, 200, [⟨"a".toList, TYPE_BOOL, 0⟩], 1⟩
    (by decide)
  ⟨h.1, h.2.2.2⟩

theorem is_numeric_iff (a : TypeKind) :
    (get_type_info a).is_numeric = true ↔ TYPE_I8 ≤ a ∧ a ≤ TYPE_F64 := by
  by_cases h : a ≤ TYPE_STRING
  · simp only [TypeKind, TYPE_STRING] at h
    interval_cases a <;> decide
  · simp only [TypeKind, TYPE_STRING] at h
    have h1 : ¬ (a ≥ TYPE_VOID ∧ a ≤ TYPE_STRING) := by
      simp only [TypeKind, TYPE_VOID, TYPE_STRING]; omega
    have h2 : ¬ (TYPE_I8 ≤ a ∧ a ≤ TYPE_F64) := by
      simp only [TypeKind, TYPE_I8, TYPE_F64]; omega
    simp only [get_type_info, if_neg h1, h2, iff_false]
    split_ifs <;> simp [unknown_type]

/-- C14: `get_binary_result_type(a, b, is_comparison)` is `TYPE_BOOL` whenever
`is_comparison` is non-zero, whatever `a` and `b` are; when it is zero the
result is `a` if `a = b` and `a` is numeric (one of `i8` ... `f64`), and
`TYPE_UNKNOWN` otherwise. -/
theorem get_binary_result_type_spec (a b : TypeKind) :
    get_binary_result_type a b true = TYPE_BOOL ∧
    get_binary_result_type a b false =
      (if a = b ∧ (get_type_info a).is_numeric = true then a else TYPE_UNKNOWN) ∧
    get_binary_result_type a b false =
      (if a = b ∧ TYPE_I8 ≤ a ∧ a ≤ TYPE_F64 then a else TYPE_UNKNOWN) := by
  refine ⟨rfl, rfl, ?_⟩
  simp only [get_binary_result_type, is_numeric_iff]
  rfl

/-! ### Lowerer: unknown names -/

/-- C20 (code defect): lowering an Identifier whose name is not in the symbol
table, an assignment to such a name, or a Call whose name is neither a builtin
nor in the function table returns `NULL` and leaves the lowerer state as it
was: has_error is not set (it keeps its value) and nothing is emitted. -/
theorem unknown_name_keeps_has_error (s : CodeGen) (name : CStr) :
    (find_variable s name = none →
      codegen_identifier name s = (none, s) ∧
      ∀ lower_value : CG LLVMValueRef, codegen_assignment name lower_value s = (none, s)) ∧
    (name ∉ builtin_call_names →
      s.functions.find? (fun f => decide (f.name = name)) = none →
      ∀ (builtin : CG LLVMValueRef) (lower_args : List (CG LLVMValueRef)),
        codegen_call name builtin lower_args s = (none, s)) := by
  constructor
  · intro h
    constructor
    · simp [codegen_identifier, bind, CG.bind, CG.get, get_variable, h, pure, CG.pure]
    · intro lower_value
      simp [codegen_assignment, bind, CG.bind, CG.get, get_variable, h, pure, CG.pure]
  · intro hb hf builtin lower_args
    simp [codegen_call, hb, bind, CG.bind, CG.get, get_function, hf, pure, CG.pure]

/-- Witness for C20 at the failing input: in `state_in_main` the three
statements of `unknown_names_source` leave has_error clear, and the driver's
`codegen_program` on the whole source ends with has_error clear and an entry
block that holds the `ret` alone. -/
theorem unknown_name_keeps_has_error_witness :
    (codegen_statement External.idle Registry.initial (.identifier "x".toList TYPE_UNKNOWN)
        state_in_main = (none, state_in_main) ∧
      codegen_statement External.idle Registry.initial
        (.assignment "y".toList (.literal "1".toList "i32".toList TYPE_I32))
        state_in_main = (none, state_in_main)) ∧
    codegen_statement External.idle Registry.initial (.call "foo".toList [])
        state_in_main = (none, state_in_main) ∧
    state_in_main.has_error = false ∧
    (parse_source Registry.initial unknown_names_source).is_ok = true ∧
    (codegen_program External.idle Registry.initial
      (parsed_program Registry.initial unknown_names_source) create_codegen).2.2.has_error
        = false ∧
    block_size
      (codegen_program External.idle Registry.initial
        (parsed_program Registry.initial unknown_names_source) create_codegen).2.2 0 = 1 :=
  ⟨⟨((unknown_name_keeps_has_error state_in_main "x".toList).1 rfl).1,
     ((unknown_name_keeps_has_error state_in_main "y".toList).1 rfl).2 _⟩,
   (unknown_name_keeps_has_error state_in_main "foo".toList).2 (by decide) rfl _ _,
   rfl, by decide!, by decide!, by decide!⟩

/-! ### Parser: imports -/

/-- C19: import classification. When `parse_import` runs with `import` as the
current token and a string token of value `v` next, it returns
`Import{Std, p}` for `v = "@" ++ p`, `Import{External, p}` for `v = "#" ++ p`
and `Import{Local, p}` for `v = "./" ++ p`, with `p` kept as it is; for a `v`
that starts with none of `@`, `#`, `./` it exits with the parse error
"Invalid import path format" at the string token. -/
theorem parse_import_classification (parser : Parser) (v : CStr)
    (himport : parser.current_token.type = TOKEN_IMPORT)
    (hstring : (next_token parser.lexer).1.type = TOKEN_STRING)
    (hvalue : (next_token parser.lexer).1.value = v) :
    (∀ p : CStr, v = '@' :: p →
      (parse_import_decl parser).value = some (.import_node IMPORT_STD p)) ∧
    (∀ p : CStr, v = '#' :: p →
      (parse_import_decl parser).value = some (.import_node IMPORT_EXTERNAL p)) ∧
    (∀ p : CStr, v = '.' :: '/' :: p →
      (parse_import_decl parser).value = some (.import_node IMPORT_LOCAL p)) ∧
    (¬ ['@'] <+: v → ¬ ['#'] <+: v → ¬ ['.', '/'] <+: v →
      parse_import_decl parser =
        .exit1 (.message "Invalid import path format" (next_token parser.lexer).1.line
          (next_token parser.lexer).1.column)) := by
  refine ⟨?_, ?_, ?_, ?_⟩
  · intro p hv
    rw [hv] at hvalue
    simp only [parse_import_decl, bind, PM.bind, eat, himport, if_true, current_token, hstring,
      ne_eq, not_true_eq_false, if_false, hvalue, char_at, List.getD_cons_zero, current_type,
      pure, PM.pure, List.drop_succ_cons, List.drop_zero]
    split_ifs with h <;> simp [ParseResult.value, PM.bind, PM.pure, eat, h]
  · intro p hv
    rw [hv] at hvalue
    have c1 : ¬ '#' = '@' := by decide
    simp only [parse_import_decl, bind, PM.bind, eat, himport, if_true, current_token, hstring,
      ne_eq, not_true_eq_false, if_false, hvalue, char_at, List.getD_cons_zero, current_type,
      pure, PM.pure, List.drop_succ_cons, List.drop_zero, c1]
    split_ifs with h <;> simp [ParseResult.value, PM.bind, PM.pure, eat, h]
  · intro p hv
    rw [hv] at hvalue
    have c1 : ¬ '.' = '@' := by decide
    have c2 : ¬ '.' = '#' := by decide
    have c3 : List.take 2 ('.' :: '/' :: p) = "./".toList := rfl
    simp only [parse_import_decl, bind, PM.bind, eat, himport, if_true, current_token, hstring,
      ne_eq, not_true_eq_false, if_false, hvalue, char_at, List.getD_cons_zero, current_type,
      pure, PM.pure, List.drop_succ_cons, List.drop_zero, c1, c2, c3]
    split_ifs with h <;> simp [ParseResult.value, PM.bind, PM.pure, eat, h]
  · intro h1 h2 h3
    have c1 : ¬ char_at v 0 = '@' := by
      intro h
      apply h1
      cases v with
      | nil => exact absurd h (by decide)
      | cons c rest =>
        simp only [char_at, List.getD_cons_zero] at h
        subst h
        exact ⟨rest, rfl⟩
    have c2 : ¬ char_at v 0 = '#' := by
      intro h
      apply h2
      cases v with
      | nil => exact absurd h (by decide)
      | cons c rest =>
        simp only [char_at, List.getD_cons_zero] at h
        subst h
        exact ⟨rest, rfl⟩
    have c3 : ¬ v.take 2 = "./".toList := by
      intro h
      apply h3
      exact ⟨v.drop 2, by
        have := List.take_append_drop 2 v
        rw [h] at this
        exact this⟩
    simp only [parse_import_decl, bind, PM.bind, eat, himport, if_true, current_token, hstring,
      ne_eq, not_true_eq_false, if_false, hvalue, c1, c2, c3, parser_error]

/-- Witness for C19 on source text: `import "@std"`, `import "#lib/net"` and
`import "./util/io"` give the three kinds with the sigil stripped, and
`import "std"` exits. -/
theorem parse_import_classification_witness :
    (parse_import_decl (parser_create (create_lexer "import \"@std\"".toList))).value =
      some (.import_node IMPORT_STD "std".toList) ∧
    (parse_import_decl (parser_create (create_lexer "import \"#lib/net\"".toList))).value =
      some (.import_node IMPORT_EXTERNAL "lib/net".toList) ∧
    (parse_import_decl (parser_create (create_lexer "import \"./util/io\"\n".toList))).value =
      some (.import_node IMPORT_LOCAL "util/io".toList) ∧
    parse_import_decl (parser_create (create_lexer "import \"std\"".toList)) =
      .exit1 (.message "Invalid import path format" 1 7) :=
  ⟨(parse_import_classification (parser_create (create_lexer "import \"@std\"".toList))
      "@std".toList rfl rfl rfl).1 "std".toList rfl,
   (parse_import_classification (parser_create (create_lexer "import \"#lib/net\"".toList))
      "#lib/net".toList rfl rfl rfl).2.1 "lib/net".toList rfl,
   (parse_import_classification (parser_create (create_lexer "import \"./util/io\"\n".toList))
      "./util/io".toList rfl rfl rfl).2.2.1 "util/io".toList rfl,
   ((parse_import_classification (parser_create (create_lexer "import \"std\"".toList))
      "std".toList rfl rfl rfl).2.2.2 (by decide) (by decide) (by decide)).trans rfl⟩

/-! ### Parser: expressions -/

theorem eat_current (p : Parser) (t : TokenType) (h : p.current_token.type = t) :
    eat t p = .ok () (after_eat p) := by
  simp [eat, h, after_eat]

theorem returns_of_succ {α : Type} (m : Nat → PM α) (p : Parser) (a : α) (q : Parser) (k : Nat)
    (h : ∀ fuel : Nat, k ≤ fuel → m (fuel + 1) p = .ok a q) : Returns m p a q := by
  refine ⟨k + 1, fun fuel hf => ?_⟩
  obtain ⟨n, rfl⟩ : ∃ n, fuel = n + 1 := ⟨fuel - 1, by omega⟩
  exact h n (by omega)

theorem operand_chain_head (R : Parser → ASTNode → Parser → Prop) (is_op : TokenType → Bool)
    (p q : Parser) (rest : List (BinaryOperator × ASTNode)) (h : OperandChain R is_op p rest q) :
    p = q ∨ is_op p.current_token.type = true := by
  cases h with
  | nil => exact Or.inl rfl
  | cons _ _ _ _ _ hop _ _ => exact Or.inr hop

theorem operand_chain_lift (R S : Parser → ASTNode → Parser → Prop) (is_op stop : TokenType → Bool)
    (hstop : ∀ t, is_op t = true → stop t = false)
    (hlift : ∀ p a q, R p a q → stop q.current_token.type = false → S p a q)
    (p q : Parser) (rest : List (BinaryOperator × ASTNode)) (h : OperandChain R is_op p rest q)
    (hq : stop q.current_token.type = false) : OperandChain S is_op p rest q := by
  induction h with
  | nil p => exact .nil p
  | cons p p2 q right rest hop hr hchain ih =>
    refine .cons p p2 q right rest hop (hlift _ _ _ hr ?_) (ih hq)
    rcases operand_chain_head _ _ _ _ _ hchain with h | h
    · rw [h]; exact hq
    · exact hstop _ h

theorem left_nested_cons (first : ASTNode) (x : BinaryOperator × ASTNode)
    (rest : List (BinaryOperator × ASTNode)) :
    left_nested first (x :: rest) = left_nested (create_binary_op_node x.1 first x.2) rest := rfl

theorem multiplicative_loop_returns (reg : Registry) (p q : Parser)
    (rest : List (BinaryOperator × ASTNode))
    (h : OperandChain (Returns (parse_primary reg)) is_multiplicative_token p rest q)
    (hq : is_multiplicative_token q.current_token.type = false) (left : ASTNode) :
    Returns (fun fuel => parse_multiplicative_loop reg fuel left) p (left_nested left rest) q := by
  induction h generalizing left with
  | nil p =>
    apply returns_of_succ _ _ _ _ 0
    intro fuel _
    simp only [is_multiplicative_token, Bool.or_eq_false_iff, decide_eq_false_iff_not] at hq
    simp only [parse_multiplicative_loop, bind, PM.bind, current_type, hq.1, hq.2, or_self,
      if_false, pure, PM.pure, left_nested, List.foldl_nil]
  | cons p p2 q right rest hop hr _ ih =>
    obtain ⟨k1, h1⟩ := hr
    obtain ⟨k2, h2⟩ := ih hq
      (create_binary_op_node (token_to_binary_operator p.current_token.type) left right)
    apply returns_of_succ _ _ _ _ (max k1 k2)
    intro fuel hf
    simp only [is_multiplicative_token, Bool.or_eq_true, decide_eq_true_eq] at hop
    simp only [parse_multiplicative_loop, bind, PM.bind, current_type, hop, if_true,
      eat_current _ _ rfl, h1 fuel (by omega), h2 fuel (by omega), left_nested_cons]

theorem multiplicative_returns (reg : Registry) (p p1 q : Parser) (first : ASTNode)
    (rest : List (BinaryOperator × ASTNode)) (hfirst : Returns (parse_primary reg) p first p1)
    (h : OperandChain (Returns (parse_primary reg)) is_multiplicative_token p1 rest q)
    (hq : is_multiplicative_token q.current_token.type = false) :
    Returns (parse_multiplicative_expression reg) p (left_nested first rest) q := by
  obtain ⟨k1, h1⟩ := hfirst
  obtain ⟨k2, h2⟩ := multiplicative_loop_returns reg p1 q rest h hq first
  apply returns_of_succ _ _ _ _ (max k1 k2)
  intro fuel hf
  simp only [parse_multiplicative_expression, bind, PM.bind, h1 fuel (by omega),
    h2 fuel (by omega)]

theorem additive_loop_returns (reg : Registry) (p q : Parser)
    (rest : List (BinaryOperator × ASTNode))
    (h : OperandChain (Returns (parse_multiplicative_expression reg)) is_additive_token p rest q)
    (hq : is_additive_token q.current_token.type = false) (left : ASTNode) :
    Returns (fun fuel => parse_additive_continuation reg fuel left) p (left_nested left rest) q := by
  induction h generalizing left with
  | nil p =>
    apply returns_of_succ _ _ _ _ 0
    intro fuel _
    simp only [is_additive_token, Bool.or_eq_false_iff, decide_eq_false_iff_not] at hq
    simp only [parse_additive_continuation, bind, PM.bind, current_type, hq.1, hq.2, or_self,
      if_false, pure, PM.pure, left_nested, List.foldl_nil]
  | cons p p2 q right rest hop hr _ ih =>
    obtain ⟨k1, h1⟩ := hr
    obtain ⟨k2, h2⟩ := ih hq
      (create_binary_op_node (token_to_binary_operator p.current_token.type) left right)
    apply returns_of_succ _ _ _ _ (max k1 k2)
    intro fuel hf
    simp only [is_additive_token, Bool.or_eq_true, decide_eq_true_eq] at hop
    simp only [parse_additive_continuation, bind, PM.bind, current_type, hop, if_true,
      eat_current _ _ rfl, h1 fuel (by omega), h2 fuel (by omega), left_nested_cons]

theorem additive_returns (reg : Registry) (p p1 q : Parser) (first : ASTNode)
    (rest : List (BinaryOperator × ASTNode))
    (hfirst : Returns (parse_multiplicative_expression reg) p first p1)
    (h : OperandChain (Returns (parse_multiplicative_expression reg)) is_additive_token p1 rest q)
    (hq : is_additive_token q.current_token.type = false) :
    Returns (parse_additive_expression reg) p (left_nested first rest) q := by
  obtain ⟨k1, h1⟩ := hfirst
  obtain ⟨k2, h2⟩ := additive_loop_returns reg p1 q rest h hq first
  apply returns_of_succ _ _ _ _ (max k1 k2)
  intro fuel hf
  simp only [parse_additive_expression, bind, PM.bind, h1 fuel (by omega), h2 fuel (by omega)]

theorem comparison_loop_returns (reg : Registry) (p q : Parser)
    (rest : List (BinaryOperator × ASTNode))
    (h : OperandChain (Returns (parse_additive_expression reg)) is_comparison_token p rest q)
    (hq : is_comparison_token q.current_token.type = false) (left : ASTNode) :
    Returns (fun fuel => parse_comparison_loop reg fuel left) p (left_nested left rest) q := by
  induction h generalizing left with
  | nil p =>
    apply returns_of_succ _ _ _ _ 0
    intro fuel _
    simp only [parse_comparison_loop, bind, PM.bind, current_type, hq, Bool.false_eq_true,
      if_false, pure, PM.pure, left_nested, List.foldl_nil]
  | cons p p2 q right rest hop hr _ ih =>
    obtain ⟨k1, h1⟩ := hr
    obtain ⟨k2, h2⟩ := ih hq
      (create_binary_op_node (token_to_binary_operator p.current_token.type) left right)
    apply returns_of_succ _ _ _ _ (max k1 k2)
    intro fuel hf
    simp only [parse_comparison_loop, bind, PM.bind, current_type, hop, if_true,
      eat_current _ _ rfl, h1 fuel (by omega), h2 fuel (by omega), left_nested_cons]

theorem comparison_returns (reg : Registry) (p p1 q : Parser) (first : ASTNode)
    (rest : List (BinaryOperator × ASTNode))
    (hfirst : Returns (parse_additive_expression reg) p first p1)
    (h : OperandChain (Returns (parse_additive_expression reg)) is_comparison_token p1 rest q)
    (hq : is_comparison_token q.current_token.type = false) :
    Returns (parse_expression reg) p (left_nested first rest) q := by
  obtain ⟨k1, h1⟩ := hfirst
  obtain ⟨k2, h2⟩ := comparison_loop_returns reg p1 q rest h hq first
  apply returns_of_succ _ _ _ _ (max k1 k2 + 1)
  intro fuel hf
  obtain ⟨n, rfl⟩ : ∃ n, fuel = n + 1 := ⟨fuel - 1, by omega⟩
  simp only [parse_expression, parse_comparison_expression, bind, PM.bind, h1 n (by omega),
    h2 n (by omega)]

theorem multiplicative_loop_shape (reg : Registry) (fuel : Nat) :
    ∀ (left t : ASTNode) (p q : Parser), parse_multiplicative_loop reg fuel left p = .ok t q →
      ∃ rest, OperandChain (Parsed (parse_primary reg)) is_multiplicative_token p rest q ∧
        t = left_nested left rest := by
  induction fuel with
  | zero =>
    intro left t p q h
    simp [parse_multiplicative_loop, no_fuel] at h
  | succ n ih =>
    intro left t p q h
    simp only [parse_multiplicative_loop, bind, PM.bind, current_type] at h
    by_cases hop : p.current_token.type = TOKEN_MULTIPLY ∨ p.current_token.type = TOKEN_DIVIDE
    · simp only [hop, if_true, bind, PM.bind, eat_current _ _ rfl] at h
      cases hprim : parse_primary reg n (after_eat p) with
      | ok right p2 =>
        simp only [hprim] at h
        obtain ⟨rest, hchain, ht⟩ := ih _ _ _ _ h
        exact ⟨_ :: rest,
          .cons p p2 q right rest (by simpa [is_multiplicative_token] using hop) ⟨n, hprim⟩ hchain,
          ht⟩
      | exit1 e => simp [hprim] at h
      | out_of_fuel => simp [hprim] at h
    · simp only [hop, if_false, Bool.false_eq_true, pure, PM.pure, ParseResult.ok.injEq] at h
      obtain ⟨h1, h2⟩ := h
      subst h1 h2
      exact ⟨[], .nil _, rfl⟩

theorem multiplicative_shape (reg : Registry) (fuel : Nat) (t : ASTNode) (p q : Parser)
    (h : parse_multiplicative_expression reg fuel p = .ok t q) : MultiplicativeShape reg p t q := by
  cases fuel with
  | zero => simp [parse_multiplicative_expression, no_fuel] at h
  | succ n =>
    simp only [parse_multiplicative_expression, bind, PM.bind] at h
    cases hfirst : parse_primary reg n p with
    | ok first p1 =>
      simp only [hfirst] at h
      obtain ⟨rest, hchain, ht⟩ := multiplicative_loop_shape reg n _ _ _ _ h
      exact ⟨first, p1, rest, ⟨n, hfirst⟩, hchain, ht⟩
    | exit1 e => simp [hfirst] at h
    | out_of_fuel => simp [hfirst] at h

theorem additive_loop_shape (reg : Registry) (fuel : Nat) :
    ∀ (left t : ASTNode) (p q : Parser), parse_additive_continuation reg fuel left p = .ok t q →
      ∃ rest, OperandChain (MultiplicativeShape reg) is_additive_token p rest q ∧
        t = left_nested left rest := by
  induction fuel with
  | zero =>
    intro left t p q h
    simp [parse_additive_continuation, no_fuel] at h
  | succ n ih =>
    intro left t p q h
    simp only [parse_additive_continuation, bind, PM.bind, current_type] at h
    by_cases hop : p.current_token.type = TOKEN_PLUS ∨ p.current_token.type = TOKEN_MINUS
    · simp only [hop, if_true, bind, PM.bind, eat_current _ _ rfl] at h
      cases hright : parse_multiplicative_expression reg n (after_eat p) with
      | ok right p2 =>
        simp only [hright] at h
        obtain ⟨rest, hchain, ht⟩ := ih _ _ _ _ h
        exact ⟨_ :: rest,
          .cons p p2 q right rest (by simpa [is_additive_token] using hop)
            (multiplicative_shape reg n _ _ _ hright) hchain,
          ht⟩
      | exit1 e => simp [hright] at h
      | out_of_fuel => simp [hright] at h
    · simp only [hop, if_false, Bool.false_eq_true, pure, PM.pure, ParseResult.ok.injEq] at h
      obtain ⟨h1, h2⟩ := h
      subst h1 h2
      exact ⟨[], .nil _, rfl⟩

theorem additive_shape (reg : Registry) (fuel : Nat) (t : ASTNode) (p q : Parser)
    (h : parse_additive_expression reg fuel p = .ok t q) : AdditiveShape reg p t q := by
  cases fuel with
  | zero => simp [parse_additive_expression, no_fuel] at h
  | succ n =>
    simp only [parse_additive_expression, bind, PM.bind] at h
    cases hfirst : parse_multiplicative_expression reg n p with
    | ok first p1 =>
      simp only [hfirst] at h
      obtain ⟨rest, hchain, ht⟩ := additive_loop_shape reg n _ _ _ _ h
      exact ⟨first, p1, rest, multiplicative_shape reg n _ _ _ hfirst, hchain, ht⟩
    | exit1 e => simp [hfirst] at h
    | out_of_fuel => simp [hfirst] at h

theorem comparison_loop_shape (reg : Registry) (fuel : Nat) :
    ∀ (left t : ASTNode) (p q : Parser), parse_comparison_loop reg fuel left p = .ok t q →
      ∃ rest, OperandChain (AdditiveShape reg) is_comparison_token p rest q ∧
        t = left_nested left rest := by
  induction fuel with
  | zero =>
    intro left t p q h
    simp [parse_comparison_loop, no_fuel] at h
  | succ n ih =>
    intro left t p q h
    simp only [parse_comparison_loop, bind, PM.bind, current_type] at h
    by_cases hop : is_comparison_token p.current_token.type = true
    · simp only [hop, if_true, bind, PM.bind, eat_current _ _ rfl] at h
      cases hright : parse_additive_expression reg n (after_eat p) with
      | ok right p2 =>
        simp only [hright] at h
        obtain ⟨rest, hchain, ht⟩ := ih _ _ _ _ h
        exact ⟨_ :: rest,
          .cons p p2 q right rest hop (additive_shape reg n _ _ _ hright) hchain, ht⟩
      | exit1 e => simp [hright] at h
      | out_of_fuel => simp [hright] at h
    · simp only [hop, if_false, Bool.false_eq_true, pure, PM.pure, ParseResult.ok.injEq] at h
      obtain ⟨h1, h2⟩ := h
      subst h1 h2
      exact ⟨[], .nil _, rfl⟩

theorem expression_shape (reg : Registry) (fuel : Nat) (t : ASTNode) (p q : Parser)
    (h : parse_expression reg fuel p = .ok t q) : ComparisonShape reg p t q := by
  cases fuel with
  | zero => simp [parse_expression, no_fuel] at h
  | succ m =>
    cases m with
    | zero => simp [parse_expression, parse_comparison_expression, no_fuel] at h
    | succ n =>
      simp only [parse_expression, parse_comparison_expression, bind, PM.bind] at h
      cases hfirst : parse_additive_expression reg n p with
      | ok first p1 =>
        simp only [hfirst] at h
        obtain ⟨rest, hchain, ht⟩ := comparison_loop_shape reg n _ _ _ _ h
        exact ⟨first, p1, rest, additive_shape reg n _ _ _ hfirst, hchain, ht⟩
      | exit1 e => simp [hfirst] at h
      | out_of_fuel => simp [hfirst] at h

theorem bind_ok {α β : Type} (m : PM α) (f : α → PM β) (p q : Parser) (b : β)
    (h : PM.bind m f p = .ok b q) : ∃ a p1, m p = .ok a p1 ∧ f a p1 = .ok b q := by
  unfold PM.bind at h
  split at h
  · exact ⟨_, _, by assumption, h⟩
  · cases h
  · cases h

theorem pure_ok {α : Type} (a b : α) (p q : Parser) (h : PM.pure a p = .ok b q) : b = a := by
  simp only [PM.pure, ParseResult.ok.injEq] at h
  exact h.1.symm

theorem parse_call_kind (reg : Registry) (name : CStr) (fuel : Nat) (p q : Parser) (t : ASTNode)
    (h : parse_call reg name fuel p = .ok t q) : ∃ args, t = .call name args := by
  cases fuel with
  | zero => simp [parse_call, no_fuel] at h
  | succ n =>
    simp only [parse_call, bind] at h
    obtain ⟨_, _, _, h⟩ := bind_ok _ _ _ _ _ h
    obtain ⟨_, _, _, h⟩ := bind_ok _ _ _ _ _ h
    obtain ⟨args, _, _, h⟩ := bind_ok _ _ _ _ _ h
    obtain ⟨_, _, _, h⟩ := bind_ok _ _ _ _ _ h
    exact ⟨args, pure_ok _ _ _ _ h⟩

theorem primary_binary_from_paren (reg : Registry) (fuel : Nat) (p q : Parser) (t : ASTNode)
    (h : parse_primary reg fuel p = .ok t q) (hbin : is_binary_op t = true) :
    p.current_token.type = TOKEN_LPAREN := by
  cases fuel with
  | zero => simp [parse_primary, no_fuel] at h
  | succ n =>
    simp only [parse_primary, bind] at h
    obtain ⟨tok, p1, htok, h⟩ := bind_ok _ _ _ _ _ h
    simp only [current_token, ParseResult.ok.injEq] at htok
    obtain ⟨rfl, rfl⟩ := htok
    by_contra hne
    by_cases c : p.current_token.type = TOKEN_AMPERSAND
    · rw [if_pos c] at h
      obtain ⟨_, _, _, h⟩ := bind_ok _ _ _ _ _ h
      obtain ⟨_, _, _, h⟩ := bind_ok _ _ _ _ _ h
      rw [pure_ok _ _ _ _ h] at hbin; cases hbin
    rw [if_neg c] at h
    clear c
    by_cases c : p.current_token.type = TOKEN_MULTIPLY
    · rw [if_pos c] at h
      obtain ⟨_, _, _, h⟩ := bind_ok _ _ _ _ _ h
      obtain ⟨_, _, _, h⟩ := bind_ok _ _ _ _ _ h
      rw [pure_ok _ _ _ _ h] at hbin; cases hbin
    rw [if_neg c] at h
    clear c
    rw [if_neg hne] at h
    by_cases c : p.current_token.type = TOKEN_STRING
    · rw [if_pos c] at h
      obtain ⟨_, _, _, h⟩ := bind_ok _ _ _ _ _ h
      rw [pure_ok _ _ _ _ h] at hbin; cases hbin
    rw [if_neg c] at h
    clear c
    by_cases c : p.current_token.type = TOKEN_NUMBER
    · rw [if_pos c] at h
      obtain ⟨_, _, _, h⟩ := bind_ok _ _ _ _ _ h
      rw [pure_ok _ _ _ _ h] at hbin; cases hbin
    rw [if_neg c] at h
    clear c
    by_cases c : p.current_token.type = TOKEN_FLOAT
    · rw [if_pos c] at h
      obtain ⟨_, _, _, h⟩ := bind_ok _ _ _ _ _ h
      rw [pure_ok _ _ _ _ h] at hbin; cases hbin
    rw [if_neg c] at h
    clear c
    by_cases c : p.current_token.type = TOKEN_TRUE
    · rw [if_pos c] at h
      obtain ⟨_, _, _, h⟩ := bind_ok _ _ _ _ _ h
      rw [pure_ok _ _ _ _ h] at hbin; cases hbin
    rw [if_neg c] at h
    clear c
    by_cases c : p.current_token.type = TOKEN_FALSE
    · rw [if_pos c] at h
      obtain ⟨_, _, _, h⟩ := bind_ok _ _ _ _ _ h
      rw [pure_ok _ _ _ _ h] at hbin; cases hbin
    rw [if_neg c] at h
    clear c
    by_cases c : p.current_token.type = TOKEN_NULL
    · rw [if_pos c] at h
      obtain ⟨_, _, _, h⟩ := bind_ok _ _ _ _ _ h
      rw [pure_ok _ _ _ _ h] at hbin; cases hbin
    rw [if_neg c] at h
    clear c
    by_cases c : p.current_token.type = TOKEN_IDENTIFIER
    · rw [if_pos c] at h
      obtain ⟨_, _, _, h⟩ := bind_ok _ _ _ _ _ h
      obtain ⟨t1, _, _, h⟩ := bind_ok _ _ _ _ _ h
      by_cases d1 : t1 = TOKEN_DOT
      · rw [if_pos d1] at h
        obtain ⟨_, _, _, h⟩ := bind_ok _ _ _ _ _ h
        obtain ⟨tok2, _, _, h⟩ := bind_ok _ _ _ _ _ h
        by_cases d2 : tok2.type ≠ TOKEN_IDENTIFIER
        · rw [if_pos d2] at h
          cases h
        rw [if_neg d2] at h
        obtain ⟨_, _, _, h⟩ := bind_ok _ _ _ _ _ h
        obtain ⟨t3, _, _, h⟩ := bind_ok _ _ _ _ _ h
        by_cases d3 : p.current_token.value = "std".toList
        · rw [if_pos d3] at h
          by_cases d4 : t3 = TOKEN_LPAREN
          · rw [if_pos d4] at h
            obtain ⟨args, rfl⟩ := parse_call_kind _ _ _ _ _ _ h
            cases hbin
          · rw [if_neg d4] at h
            rw [pure_ok _ _ _ _ h] at hbin; cases hbin
        rw [if_neg d3] at h
        by_cases d4 : t3 = TOKEN_LPAREN
        · rw [if_pos d4] at h
          obtain ⟨_, _, _, h⟩ := bind_ok _ _ _ _ _ h
          obtain ⟨_, _, _, h⟩ := bind_ok _ _ _ _ _ h
          obtain ⟨_, _, _, h⟩ := bind_ok _ _ _ _ _ h
          rw [pure_ok _ _ _ _ h] at hbin; cases hbin
        · rw [if_neg d4] at h
          rw [pure_ok _ _ _ _ h] at hbin; cases hbin
      rw [if_neg d1] at h
      by_cases d2 : t1 = TOKEN_LPAREN
      · rw [if_pos d2] at h
        obtain ⟨args, rfl⟩ := parse_call_kind _ _ _ _ _ _ h
        cases hbin
      rw [if_neg d2] at h
      by_cases d3 : t1 = TOKEN_LBRACE
      · rw [if_pos d3] at h
        by_cases d4 : (decide ('A' ≤ char_at p.current_token.value 0) &&
            decide (char_at p.current_token.value 0 ≤ 'Z')) = true
        · rw [if_pos d4] at h
          obtain ⟨_, _, _, h⟩ := bind_ok _ _ _ _ _ h
          obtain ⟨_, _, _, h⟩ := bind_ok _ _ _ _ _ h
          obtain ⟨_, _, _, h⟩ := bind_ok _ _ _ _ _ h
          rw [pure_ok _ _ _ _ h] at hbin; cases hbin
        · rw [if_neg d4] at h
          rw [pure_ok _ _ _ _ h] at hbin; cases hbin
      rw [if_neg d3] at h
      rw [pure_ok _ _ _ _ h] at hbin; cases hbin
    rw [if_neg c] at h
    cases h

theorem left_nested_top (R : Parser → ASTNode → Parser → Prop) (is_op : TokenType → Bool)
    (p q : Parser) (rest : List (BinaryOperator × ASTNode))
    (h : OperandChain R is_op p rest q) (hne : rest ≠ []) (first : ASTNode) :
    ∃ tk l r, is_op tk = true ∧
      left_nested first rest = create_binary_op_node (token_to_binary_operator tk) l r := by
  induction h generalizing first with
  | nil p => exact absurd rfl hne
  | cons p p2 q right rest hop _ hchain ih =>
    by_cases hrest : rest = []
    · subst hrest
      exact ⟨p.current_token.type, first, right, hop, rfl⟩
    · rw [left_nested_cons]
      exact ih hrest _

theorem token_precedence (tk : TokenType) :
    (is_multiplicative_token tk = true → precedence (token_to_binary_operator tk) = 3) ∧
    (is_additive_token tk = true → precedence (token_to_binary_operator tk) = 2) ∧
    (is_comparison_token tk = true → precedence (token_to_binary_operator tk) = 1) := by
  cases tk <;> decide

theorem multiplicative_operand_level (reg : Registry) (s s2 : Parser) (r : ASTNode)
    (h : MultiplicativeShape reg s r s2) (hb : is_binary_op r = true) :
    3 ≤ binary_level r ∨
      (s.current_token.type = TOKEN_LPAREN ∧ Parsed (parse_primary reg) s r s2) := by
  obtain ⟨first, p1, rest, hfirst, hchain, rfl⟩ := h
  by_cases hrest : rest = []
  · subst hrest
    cases hchain
    obtain ⟨fuel, hf⟩ := hfirst
    exact Or.inr ⟨primary_binary_from_paren reg fuel s _ first hf hb, ⟨fuel, hf⟩⟩
  · obtain ⟨tk, l, r, hop, htop⟩ := left_nested_top _ _ _ _ _ hchain hrest first
    rw [htop]
    left
    show 3 ≤ precedence (token_to_binary_operator tk)
    rw [(token_precedence tk).1 hop]

theorem additive_operand_level (reg : Registry) (s s2 : Parser) (r : ASTNode)
    (h : AdditiveShape reg s r s2) (hb : is_binary_op r = true) :
    2 ≤ binary_level r ∨
      (s.current_token.type = TOKEN_LPAREN ∧ Parsed (parse_primary reg) s r s2) := by
  obtain ⟨first, p1, rest, hfirst, hchain, rfl⟩ := h
  by_cases hrest : rest = []
  · subst hrest
    cases hchain
    rcases multiplicative_operand_level reg s _ first hfirst hb with h | h
    · left
      have : left_nested first [] = first := rfl
      rw [this]
      omega
    · exact Or.inr h
  · obtain ⟨tk, l, r, hop, htop⟩ := left_nested_top _ _ _ _ _ hchain hrest first
    rw [htop]
    left
    show 2 ≤ precedence (token_to_binary_operator tk)
    rw [(token_precedence tk).2.1 hop]

theorem primary_unary_shape (reg : Registry) (fuel : Nat) (p q : Parser) (t : ASTNode)
    (h : parse_primary reg fuel p = .ok t q) :
    (p.current_token.type = TOKEN_AMPERSAND →
      ∃ operand, Parsed (parse_primary reg) (after_eat p) operand q ∧
        t = create_unary_op_node UNARY_ADDRESS_OF operand) ∧
    (p.current_token.type = TOKEN_MULTIPLY →
      ∃ operand, Parsed (parse_primary reg) (after_eat p) operand q ∧
        t = create_unary_op_node UNARY_DEREFERENCE operand) := by
  cases fuel with
  | zero => simp [parse_primary, no_fuel] at h
  | succ n =>
    simp only [parse_primary, bind] at h
    obtain ⟨tok, p1, htok, h⟩ := bind_ok _ _ _ _ _ h
    simp only [current_token, ParseResult.ok.injEq] at htok
    obtain ⟨rfl, rfl⟩ := htok
    constructor
    · intro c
      rw [if_pos c] at h
      obtain ⟨_, p2, h1, h3⟩ := bind_ok _ _ _ _ _ h
      rw [eat_current _ _ c, ParseResult.ok.injEq] at h1
      obtain ⟨_, rfl⟩ := h1
      obtain ⟨operand, p3, h2, h4⟩ := bind_ok _ _ _ _ _ h3
      have hq : p3 = q := by
        simp only [pure, PM.pure, ParseResult.ok.injEq] at h4
        exact h4.2
      subst hq
      exact ⟨operand, ⟨n, h2⟩, pure_ok _ _ _ _ h4⟩
    · intro c
      have c0 : ¬ p.current_token.type = TOKEN_AMPERSAND := by rw [c]; decide
      rw [if_neg c0, if_pos c] at h
      obtain ⟨_, p2, h1, h3⟩ := bind_ok _ _ _ _ _ h
      rw [eat_current _ _ c, ParseResult.ok.injEq] at h1
      obtain ⟨_, rfl⟩ := h1
      obtain ⟨operand, p3, h2, h4⟩ := bind_ok _ _ _ _ _ h3
      have hq : p3 = q := by
        simp only [pure, PM.pure, ParseResult.ok.injEq] at h4
        exact h4.2
      subst hq
      exact ⟨operand, ⟨n, h2⟩, pure_ok _ _ _ _ h4⟩

/-- C15: expression precedence is comparisons < additive < multiplicative <
unary `&`/`*` < primary. `a + b * c`, `a < b + c` and `&a + b` parse to
`a + (b * c)`, `a < (b + c)` and `(&a) + b`. In general the tree that
`parse_expression` returns is a left-nested chain of comparison operators over
operands that are left-nested chains of `+`/`-` over operands that are
left-nested chains of `*`/`/` over trees returned by `parse_primary`, each
operand parsed at the position right after its operator; a tree returned by
`parse_primary` is a BinaryOp only when the primary starts with `(`, and the
operand of a unary `&` or `*` is itself a primary. Hence an operand of a
comparison that is a BinaryOp has level 2 or more, and an operand of `+`/`-`
that is a BinaryOp has level 3, unless the operand is a parenthesised primary
(levels: comparisons 1, `+` `-` 2, `*` `/` 3). -/
theorem expression_precedence (reg : Registry) :
    (∀ fuel : Nat, parse_expression reg (fuel + 8) (parser_at "a + b * c") =
      .ok (.binary_op OP_ADD (ident "a")
            (.binary_op OP_MUL (ident "b") (ident "c") TYPE_UNKNOWN) TYPE_UNKNOWN)
        (after_tokens 5 (parser_at "a + b * c"))) ∧
    (∀ fuel : Nat, parse_expression reg (fuel + 8) (parser_at "a < b + c") =
      .ok (.binary_op OP_LT (ident "a")
            (.binary_op OP_ADD (ident "b") (ident "c") TYPE_UNKNOWN) TYPE_UNKNOWN)
        (after_tokens 5 (parser_at "a < b + c"))) ∧
    (∀ fuel : Nat, parse_expression reg (fuel + 8) (parser_at "&a + b") =
      .ok (.binary_op OP_ADD (.unary_op UNARY_ADDRESS_OF (ident "a") TYPE_UNKNOWN) (ident "b")
            TYPE_UNKNOWN)
        (after_tokens 4 (parser_at "&a + b"))) ∧
    (∀ (fuel : Nat) (p q : Parser) (t : ASTNode),
      parse_expression reg fuel p = .ok t q → ComparisonShape reg p t q) ∧
    (∀ tk : TokenType,
      (is_multiplicative_token tk = true → precedence (token_to_binary_operator tk) = 3) ∧
      (is_additive_token tk = true → precedence (token_to_binary_operator tk) = 2) ∧
      (is_comparison_token tk = true → precedence (token_to_binary_operator tk) = 1)) ∧
    (∀ (s s2 : Parser) (r : ASTNode), AdditiveShape reg s r s2 → is_binary_op r = true →
      2 ≤ binary_level r ∨
        (s.current_token.type = TOKEN_LPAREN ∧ Parsed (parse_primary reg) s r s2)) ∧
    (∀ (s s2 : Parser) (r : ASTNode), MultiplicativeShape reg s r s2 → is_binary_op r = true →
      3 ≤ binary_level r ∨
        (s.current_token.type = TOKEN_LPAREN ∧ Parsed (parse_primary reg) s r s2)) ∧
    (∀ (fuel : Nat) (p q : Parser) (t : ASTNode), parse_primary reg fuel p = .ok t q →
      (is_binary_op t = true → p.current_token.type = TOKEN_LPAREN) ∧
      (p.current_token.type = TOKEN_AMPERSAND →
        ∃ operand, Parsed (parse_primary reg) (after_eat p) operand q ∧
          t = create_unary_op_node UNARY_ADDRESS_OF operand) ∧
      (p.current_token.type = TOKEN_MULTIPLY →
        ∃ operand, Parsed (parse_primary reg) (after_eat p) operand q ∧
          t = create_unary_op_node UNARY_DEREFERENCE operand)) :=
  ⟨fun _ => rfl, fun _ => rfl, fun _ => rfl,
   fun fuel p q t h => expression_shape reg fuel t p q h,
   token_precedence, additive_operand_level reg, multiplicative_operand_level reg,
   fun fuel p q t h =>
    ⟨primary_binary_from_paren reg fuel p q t h, primary_unary_shape reg fuel p q t h⟩⟩

/-- Witness for C15: the general part applied to the parse of `(a + b) * c`,
whose `*` node has the parenthesised `a + b` as its left operand. -/
theorem expression_precedence_witness :
    parse_expression Registry.initial 12 (parser_at "(a + b) * c") =
      .ok (.binary_op OP_MUL (.binary_op OP_ADD (ident "a") (ident "b") TYPE_UNKNOWN) (ident "c")
            TYPE_UNKNOWN)
        (after_tokens 7 (parser_at "(a + b) * c")) ∧
    ComparisonShape Registry.initial (parser_at "(a + b) * c")
      (.binary_op OP_MUL (.binary_op OP_ADD (ident "a") (ident "b") TYPE_UNKNOWN) (ident "c")
        TYPE_UNKNOWN)
      (after_tokens 7 (parser_at "(a + b) * c")) ∧
    (parser_at "(a + b) * c").current_token.type = TOKEN_LPAREN :=
  ⟨rfl, (expression_precedence Registry.initial).2.2.2.1 12 _ _ _ rfl,
   ((expression_precedence Registry.initial).2.2.2.2.2.2.2 8 (parser_at "(a + b) * c")
      (after_tokens 5 (parser_at "(a + b) * c"))
      (.binary_op OP_ADD (ident "a") (ident "b") TYPE_UNKNOWN) rfl).1 rfl⟩

theorem primary_as_multiplicative (reg : Registry) (p q : Parser) (a : ASTNode)
    (h : Returns (parse_primary reg) p a q)
    (hq : is_multiplicative_token q.current_token.type = false) :
    Returns (parse_multiplicative_expression reg) p a q :=
  multiplicative_returns reg p q q a [] h (.nil q) hq

theorem multiplicative_as_additive (reg : Registry) (p q : Parser) (a : ASTNode)
    (h : Returns (parse_multiplicative_expression reg) p a q)
    (hq : is_additive_token q.current_token.type = false) :
    Returns (parse_additive_expression reg) p a q :=
  additive_returns reg p q q a [] h (.nil q) hq

theorem additive_as_expression (reg : Registry) (p q : Parser) (a : ASTNode)
    (h : Returns (parse_additive_expression reg) p a q)
    (hq : is_comparison_token q.current_token.type = false) :
    Returns (parse_expression reg) p a q :=
  comparison_returns reg p q q a [] h (.nil q) hq

theorem primary_identifier_returns (reg : Registry) (p : Parser)
    (h : p.current_token.type = TOKEN_IDENTIFIER)
    (h1 : (after_eat p).current_token.type ≠ TOKEN_DOT)
    (h2 : (after_eat p).current_token.type ≠ TOKEN_LPAREN)
    (h3 : (after_eat p).current_token.type ≠ TOKEN_LBRACE) :
    Returns (parse_primary reg) p (create_identifier_node p.current_token.value) (after_eat p) := by
  apply returns_of_succ _ _ _ _ 0
  intro fuel _
  simp [parse_primary, bind, PM.bind, current_token, current_type, h, eat_current _ _ h, h1, h2,
    h3, pure, PM.pure]

/-- C16: all binary operators are left-associative. When the token stream is
a primary followed by operator/primary pairs whose operators all belong to one
level (all `*` `/`, or all `+` `-`, or all comparisons) and the token after the
last primary is no binary operator, then with enough recursion budget
`parse_expression` returns the left-nested tree
`BinaryOp(op_n, ... BinaryOp(op_1, first, x_1) ..., x_n)` over the trees that
`parse_primary` returns for the primaries, and stops at that token. -/
theorem left_associative (reg : Registry) (p p1 q : Parser) (first : ASTNode)
    (rest : List (BinaryOperator × ASTNode))
    (hfirst : Returns (parse_primary reg) p first p1)
    (hmul : is_multiplicative_token q.current_token.type = false)
    (hadd : is_additive_token q.current_token.type = false)
    (hcmp : is_comparison_token q.current_token.type = false) :
    (OperandChain (Returns (parse_primary reg)) is_multiplicative_token p1 rest q →
      Returns (parse_expression reg) p (left_nested first rest) q) ∧
    (OperandChain (Returns (parse_primary reg)) is_additive_token p1 rest q →
      Returns (parse_expression reg) p (left_nested first rest) q) ∧
    (OperandChain (Returns (parse_primary reg)) is_comparison_token p1 rest q →
      Returns (parse_expression reg) p (left_nested first rest) q) := by
  refine ⟨?_, ?_, ?_⟩
  · intro h
    exact additive_as_expression reg p q _
      (multiplicative_as_additive reg p q _ (multiplicative_returns reg p p1 q first rest hfirst h hmul)
        hadd) hcmp
  · intro h
    have hp1 : is_multiplicative_token p1.current_token.type = false := by
      rcases operand_chain_head _ _ _ _ _ h with h | h
      · rw [h]; exact hmul
      · revert h; cases p1.current_token.type <;> decide
    have hchain := operand_chain_lift _ (Returns (parse_multiplicative_expression reg))
      is_additive_token is_multiplicative_token (fun t => by cases t <;> decide)
      (fun p a q => primary_as_multiplicative reg p q a) p1 q rest h hmul
    exact additive_as_expression reg p q _
      (additive_returns reg p p1 q first rest (primary_as_multiplicative reg p p1 first hfirst hp1)
        hchain hadd) hcmp
  · intro h
    have hp1 : is_multiplicative_token p1.current_token.type = false ∧
        is_additive_token p1.current_token.type = false := by
      rcases operand_chain_head _ _ _ _ _ h with h | h
      · rw [h]; exact ⟨hmul, hadd⟩
      · revert h; cases p1.current_token.type <;> decide
    have hchain1 := operand_chain_lift _ (Returns (parse_multiplicative_expression reg))
      is_comparison_token is_multiplicative_token (fun t => by cases t <;> decide)
      (fun p a q => primary_as_multiplicative reg p q a) p1 q rest h hmul
    have hchain2 := operand_chain_lift _ (Returns (parse_additive_expression reg))
      is_comparison_token is_additive_token (fun t => by cases t <;> decide)
      (fun p a q => multiplicative_as_additive reg p q a) p1 q rest hchain1 hadd
    exact comparison_returns reg p p1 q first rest
      (multiplicative_as_additive reg p p1 first
        (primary_as_multiplicative reg p p1 first hfirst hp1.1) hp1.2) hchain2 hcmp

/-- Witness for C16: `a - b - c` parses to `(a - b) - c`, `a * b / c` to
`(a * b) / c` and `a < b == c` to `(a < b) == c`, each ending at the end of the
input. -/
theorem left_associative_witness :
    Returns (parse_expression Registry.initial) (parser_at "a - b - c")
      (.binary_op OP_SUB (.binary_op OP_SUB (ident "a") (ident "b") TYPE_UNKNOWN) (ident "c")
        TYPE_UNKNOWN)
      (after_tokens 5 (parser_at "a - b - c")) ∧
    Returns (parse_expression Registry.initial) (parser_at "a * b / c")
      (.binary_op OP_DIV (.binary_op OP_MUL (ident "a") (ident "b") TYPE_UNKNOWN) (ident "c")
        TYPE_UNKNOWN)
      (after_tokens 5 (parser_at "a * b / c")) ∧
    Returns (parse_expression Registry.initial) (parser_at "a < b == c")
      (.binary_op OP_EQ (.binary_op OP_LT (ident "a") (ident "b") TYPE_UNKNOWN) (ident "c")
        TYPE_UNKNOWN)
      (after_tokens 5 (parser_at "a < b == c")) :=
  ⟨(left_associative Registry.initial (parser_at "a - b - c")
      (after_tokens 1 (parser_at "a - b - c")) (after_tokens 5 (parser_at "a - b - c"))
      (ident "a") [(OP_SUB, ident "b"), (OP_SUB, ident "c")]
      (primary_identifier_returns _ _ rfl (by decide) (by decide) (by decide))
      rfl rfl rfl).2.1
      (.cons _ (after_tokens 3 (parser_at "a - b - c")) _ (ident "b") _ rfl
        (primary_identifier_returns _ _ rfl (by decide) (by decide) (by decide))
        (.cons _ (after_tokens 5 (parser_at "a - b - c")) _ (ident "c") _ rfl
          (primary_identifier_returns _ _ rfl (by decide) (by decide) (by decide))
          (.nil _))),
   (left_associative Registry.initial (parser_at "a * b / c")
      (after_tokens 1 (parser_at "a * b / c")) (after_tokens 5 (parser_at "a * b / c"))
      (ident "a") [(OP_MUL, ident "b"), (OP_DIV, ident "c")]
      (primary_identifier_returns _ _ rfl (by decide) (by decide) (by decide))
      rfl rfl rfl).1
      (.cons _ (after_tokens 3 (parser_at "a * b / c")) _ (ident "b") _ rfl
        (primary_identifier_returns _ _ rfl (by decide) (by decide) (by decide))
        (.cons _ (after_tokens 5 (parser_at "a * b / c")) _ (ident "c") _ rfl
          (primary_identifier_returns _ _ rfl (by decide) (by decide) (by decide))
          (.nil _))),
   (left_associative Registry.initial (parser_at "a < b == c")
      (after_tokens 1 (parser_at "a < b == c")) (after_tokens 5 (parser_at "a < b == c"))
      (ident "a") [(OP_LT, ident "b"), (OP_EQ, ident "c")]
      (primary_identifier_returns _ _ rfl (by decide) (by decide) (by decide))
      rfl rfl rfl).2.2
      (.cons _ (after_tokens 3 (parser_at "a < b == c")) _ (ident "b") _ rfl
        (primary_identifier_returns _ _ rfl (by decide) (by decide) (by decide))
        (.cons _ (after_tokens 5 (parser_at "a < b == c")) _ (ident "c") _ rfl
          (primary_identifier_returns _ _ rfl (by decide) (by decide) (by decide))
          (.nil _)))⟩


/-! ### Parser: struct literals and qualified calls -/

theorem returns_of_add {α : Type} (m : Nat → PM α) (p : Parser) (a : α) (q : Parser) (k : Nat)
    (h : ∀ n : Nat, m (n + k) p = .ok a q) : Returns m p a q := by
  refine ⟨k, fun fuel hf => ?_⟩
  obtain ⟨n, rfl⟩ : ∃ n, fuel = n + k := ⟨fuel - k, by omega⟩
  exact h n

theorem field_list_end (reg : Registry) (p q : Parser) (fs : List (CStr × ASTNode))
    (h : FieldList reg p fs q) : q.current_token.type = TOKEN_RBRACE := by
  induction h with
  | done p h => exact h
  | newline _ _ _ _ _ ih => exact ih
  | comma _ _ _ _ _ _ _ _ _ _ ih => exact ih
  | plain _ _ _ _ _ _ _ _ _ _ ih => exact ih

theorem struct_literal_fields_returns (reg : Registry) (p q : Parser)
    (fs : List (CStr × ASTNode)) (h : FieldList reg p fs q) :
    ∀ (values : List ASTNode) (names : List CStr),
      Returns (fun fuel => parse_struct_literal_fields reg fuel values names) p
        (values ++ fs.map Prod.snd, names ++ fs.map Prod.fst) q := by
  induction h with
  | done p hp =>
    intro values names
    apply returns_of_succ _ _ _ _ 0
    intro fuel _
    simp [parse_struct_literal_fields, bind, PM.bind, current_type, hp, pure, PM.pure]
  | newline p q fs hp _ ih =>
    intro values names
    obtain ⟨k, hk⟩ := ih values names
    apply returns_of_succ _ _ _ _ k
    intro fuel hf
    simp [parse_struct_literal_fields, bind, PM.bind, current_type, hp, eat_current _ _ hp,
      hk fuel hf]
  | comma p p3 q v fs hp hcolon hv hcomma _ ih =>
    intro values names
    obtain ⟨k1, h1⟩ := hv
    obtain ⟨k2, h2⟩ := ih (values ++ [v]) (names ++ [p.current_token.value])
    apply returns_of_succ _ _ _ _ (max k1 k2)
    intro fuel hf
    simp [parse_struct_literal_fields, bind, PM.bind, current_type, current_token, hp,
      eat_current _ _ hp, eat_current _ _ hcolon, h1 fuel (by omega), hcomma,
      eat_current _ _ hcomma, h2 fuel (by omega)]
  | plain p p3 q v fs hp hcolon hv hsep _ ih =>
    intro values names
    obtain ⟨k1, h1⟩ := hv
    obtain ⟨k2, h2⟩ := ih (values ++ [v]) (names ++ [p.current_token.value])
    apply returns_of_succ _ _ _ _ (max k1 k2)
    intro fuel hf
    rcases hsep with hsep | hsep <;>
      simp [parse_struct_literal_fields, bind, PM.bind, current_type, current_token, hp,
        eat_current _ _ hp, eat_current _ _ hcolon, h1 fuel (by omega), hsep,
        h2 fuel (by omega)]

theorem primary_uppercase_brace (reg : Registry) (p : Parser) (n : Nat)
    (hident : p.current_token.type = TOKEN_IDENTIFIER)
    (hbrace : (after_eat p).current_token.type = TOKEN_LBRACE)
    (hupper : starts_uppercase p.current_token.value = true) :
    parse_primary reg (n + 1) p =
      PM.bind (parse_struct_literal_fields reg n [] [])
        (fun r => PM.bind (eat TOKEN_RBRACE)
          (fun _ => PM.pure
            (.struct_literal p.current_token.value r.1 r.2 TYPE_UNKNOWN)))
        (after_eat (after_eat p)) := by
  simp only [starts_uppercase] at hupper
  simp [parse_primary, bind, PM.bind, current_token, current_type, hident, eat_current _ _ hident,
    hbrace, eat_current _ _ hbrace, hupper, pure, PM.pure]

/-- C17: record literal vs identifier. When `parse_primary` has read an
identifier and the next token is `{`: if the first character of the identifier
is not in `A`..`Z`, it returns `Identifier(name)` and the `{` stays the current
token; if it is, every well-formed field list up to the closing brace gives
`StructLiteral{name, values, field names}` in source order with the closing
brace consumed, and whatever `parse_primary` returns is a StructLiteral node
of that name. -/
theorem struct_literal_or_identifier (reg : Registry) (p : Parser)
    (hident : p.current_token.type = TOKEN_IDENTIFIER)
    (hbrace : (after_eat p).current_token.type = TOKEN_LBRACE) :
    (starts_uppercase p.current_token.value = false →
      ∀ fuel : Nat, parse_primary reg (fuel + 1) p =
        .ok (create_identifier_node p.current_token.value) (after_eat p)) ∧
    (starts_uppercase p.current_token.value = true →
      (∀ (fs : List (CStr × ASTNode)) (q : Parser),
        FieldList reg (after_eat (after_eat p)) fs q →
        Returns (parse_primary reg) p
          (.struct_literal p.current_token.value (fs.map Prod.snd) (fs.map Prod.fst)
            TYPE_UNKNOWN)
          (after_eat q)) ∧
      (∀ (fuel : Nat) (t : ASTNode) (q : Parser), parse_primary reg fuel p = .ok t q →
        ∃ values names, t = .struct_literal p.current_token.value values names TYPE_UNKNOWN)) := by
  constructor
  · intro hlower fuel
    simp only [starts_uppercase] at hlower
    simp [parse_primary, bind, PM.bind, current_token, current_type, hident,
      eat_current _ _ hident, hbrace, hlower, pure, PM.pure]
  · intro hupper
    constructor
    · intro fs q hfs
      obtain ⟨k, hk⟩ := struct_literal_fields_returns reg _ q fs hfs [] []
      apply returns_of_succ _ _ _ _ k
      intro fuel hf
      rw [primary_uppercase_brace reg p fuel hident hbrace hupper]
      simp [PM.bind, hk fuel hf, eat_current _ _ (field_list_end reg _ q fs hfs), PM.pure]
    · intro fuel t q h
      cases fuel with
      | zero => simp [parse_primary, no_fuel] at h
      | succ n =>
        rw [primary_uppercase_brace reg p n hident hbrace hupper] at h
        obtain ⟨r, _, _, h⟩ := bind_ok _ _ _ _ _ h
        obtain ⟨_, _, _, h⟩ := bind_ok _ _ _ _ _ h
        exact ⟨r.1, r.2, pure_ok _ _ _ _ h⟩

/-- Witness for C17: `P { x: 1, y: 2 }` gives the StructLiteral of `P` with the
values 1, 2 and the names `x`, `y`, ending after the closing brace; `p { x: 1 }`
gives `Identifier(p)` and leaves `{` as the current token. -/
theorem struct_literal_or_identifier_witness :
    Returns (parse_primary Registry.initial) (parser_at "P \x7b x: 1, y: 2 \x7d")
      (.struct_literal "P".toList
        [.literal "1".toList "i32".toList TYPE_I32, .literal "2".toList "i32".toList TYPE_I32]
        ["x".toList, "y".toList] TYPE_UNKNOWN)
      (after_tokens 10 (parser_at "P \x7b x: 1, y: 2 \x7d")) ∧
    parse_primary Registry.initial 1 (parser_at "p \x7b x: 1 \x7d") =
      .ok (ident "p") (after_tokens 1 (parser_at "p \x7b x: 1 \x7d")) ∧
    (after_tokens 1 (parser_at "p \x7b x: 1 \x7d")).current_token.type = TOKEN_LBRACE :=
  ⟨((struct_literal_or_identifier Registry.initial (parser_at "P \x7b x: 1, y: 2 \x7d")
      rfl rfl).2 rfl).1
      [("x".toList, .literal "1".toList "i32".toList TYPE_I32),
       ("y".toList, .literal "2".toList "i32".toList TYPE_I32)]
      (after_tokens 9 (parser_at "P \x7b x: 1, y: 2 \x7d"))
      (.comma _ (after_tokens 5 (parser_at "P \x7b x: 1, y: 2 \x7d")) _ _ _ rfl rfl
        (returns_of_add _ _ _ _ 8 (fun _ => rfl)) rfl
        (.plain _ (after_tokens 9 (parser_at "P \x7b x: 1, y: 2 \x7d")) _ _ _ rfl rfl
          (returns_of_add _ _ _ _ 8 (fun _ => rfl)) (Or.inl rfl) (.done _ rfl))),
   (struct_literal_or_identifier Registry.initial (parser_at "p \x7b x: 1 \x7d") rfl rfl).1 rfl 0,
   rfl⟩

theorem arg_tail_end (reg : Registry) (p q : Parser) (rest : List ASTNode)
    (h : ArgTail reg p rest q) : q.current_token.type = TOKEN_RPAREN := by
  induction h with
  | done p h => exact h
  | comma _ _ _ _ _ _ _ _ _ ih => exact ih

theorem arg_list_end (reg : Registry) (p q : Parser) (args : List ASTNode)
    (h : ArgList reg p args q) : q.current_token.type = TOKEN_RPAREN := by
  cases h
  · assumption
  · rename_i htail
    exact arg_tail_end reg _ _ _ htail

theorem call_more_returns (reg : Registry) (p q : Parser) (rest : List ASTNode)
    (h : ArgTail reg p rest q) :
    ∀ acc : List ASTNode, Returns (fun fuel => parse_call_more reg fuel acc) p (acc ++ rest) q := by
  induction h with
  | done p hp =>
    intro acc
    apply returns_of_succ _ _ _ _ 0
    intro fuel _
    simp [parse_call_more, bind, PM.bind, current_type, hp, pure, PM.pure]
  | comma p p2 q a rest hp _ ha _ ih =>
    intro acc
    obtain ⟨k1, h1⟩ := ha
    obtain ⟨k2, h2⟩ := ih (acc ++ [a])
    apply returns_of_succ _ _ _ _ (max k1 k2)
    intro fuel hf
    simp [parse_call_more, bind, PM.bind, current_type, hp, eat_current _ _ hp,
      h1 fuel (by omega), h2 fuel (by omega)]

theorem parse_call_returns (reg : Registry) (name : CStr) (p q : Parser) (args : List ASTNode)
    (hp : p.current_token.type = TOKEN_LPAREN) (h : ArgList reg (after_eat p) args q) :
    Returns (parse_call reg name) p (.call name args) (after_eat q) := by
  have hq := arg_list_end reg _ _ _ h
  cases h
  · rename_i hr
    apply returns_of_succ _ _ _ _ 0
    intro fuel _
    simp [parse_call, bind, PM.bind, current_type, eat_current _ _ hp, hr, eat_current _ _ hr,
      pure, PM.pure]
  · rename_i p1 a rest hne ha htail
    obtain ⟨k1, h1⟩ := ha
    obtain ⟨k2, h2⟩ := call_more_returns reg p1 q rest htail [a]
    apply returns_of_succ _ _ _ _ (max k1 k2)
    intro fuel hf
    simp [parse_call, bind, PM.bind, current_type, eat_current _ _ hp, hne, h1 fuel (by omega),
      h2 fuel (by omega), eat_current _ _ hq, pure, PM.pure]

theorem args_until_rparen_tail (reg : Registry) (what : String) (p1 q : Parser)
    (rest : List ASTNode) (h : ArgTail reg p1 rest q) :
    ∀ (acc : List ASTNode) (a : ASTNode) (p0 : Parser),
      p0.current_token.type ≠ TOKEN_RPAREN → Returns (parse_expression reg) p0 a p1 →
      Returns (fun fuel => parse_args_until_rparen reg what fuel acc) p0 (acc ++ a :: rest) q := by
  induction h with
  | done p hp =>
    intro acc a p0 hne ha
    obtain ⟨k1, h1⟩ := ha
    apply returns_of_succ _ _ _ _ (k1 + 1)
    intro fuel hf
    obtain ⟨n, rfl⟩ : ∃ n, fuel = n + 1 := ⟨fuel - 1, by omega⟩
    simp [parse_args_until_rparen, bind, PM.bind, current_type, hne, h1 (n + 1) (by omega), hp,
      pure, PM.pure]
  | comma p p2 q a2 rest hp hne2 ha2 _ ih =>
    intro acc a p0 hne ha
    obtain ⟨k1, h1⟩ := ha
    obtain ⟨k2, h2⟩ := ih (acc ++ [a]) a2 (after_eat p) hne2 ha2
    apply returns_of_succ _ _ _ _ (max k1 k2)
    intro fuel hf
    simp [parse_args_until_rparen, bind, PM.bind, current_type, hne, h1 fuel (by omega), hp,
      eat_current _ _ hp, h2 fuel (by omega)]

theorem args_until_rparen_returns (reg : Registry) (what : String) (p q : Parser)
    (args : List ASTNode) (h : ArgList reg p args q) :
    Returns (fun fuel => parse_args_until_rparen reg what fuel []) p args q := by
  cases h
  · rename_i hr
    apply returns_of_succ _ _ _ _ 0
    intro fuel _
    simp [parse_args_until_rparen, bind, PM.bind, current_type, hr, pure, PM.pure]
  · rename_i p1 a rest hne ha htail
    exact args_until_rparen_tail reg what p1 q rest htail [] a p hne ha

theorem primary_std_call (reg : Registry) (p : Parser) (name : CStr) (n : Nat)
    (hstd1 : p.current_token.type = TOKEN_IDENTIFIER)
    (hstd2 : p.current_token.value = "std".toList)
    (hdot : (after_eat p).current_token.type = TOKEN_DOT)
    (hname1 : (after_eat (after_eat p)).current_token.type = TOKEN_IDENTIFIER)
    (hname2 : (after_eat (after_eat p)).current_token.value = name)
    (hparen : (after_eat (after_eat (after_eat p))).current_token.type = TOKEN_LPAREN) :
    parse_primary reg (n + 1) p =
      parse_call reg ("std.".toList ++ name) n (after_eat (after_eat (after_eat p))) := by
  have hcons : "std.".toList ++ name = 's' :: 't' :: 'd' :: '.' :: name := rfl
  rw [hcons]
  simp [parse_primary, bind, PM.bind, current_token, current_type, hstd1,
    eat_current _ _ hstd1, hdot, eat_current _ _ hdot, hname1, eat_current _ _ hname1, hparen,
    hstd2, hname2]

theorem statement_std_call (reg : Registry) (p : Parser) (name : CStr) (fuel : Nat)
    (hstd1 : p.current_token.type = TOKEN_IDENTIFIER)
    (hstd2 : p.current_token.value = "std".toList)
    (hdot : (after_eat p).current_token.type = TOKEN_DOT)
    (hname1 : (after_eat (after_eat p)).current_token.type = TOKEN_IDENTIFIER)
    (hname2 : (after_eat (after_eat p)).current_token.value = name)
    (hparen : (after_eat (after_eat (after_eat p))).current_token.type = TOKEN_LPAREN) :
    parse_expression_statement reg fuel p =
      PM.bind (parse_args_until_rparen reg "function call" fuel [])
        (fun args => PM.bind (eat TOKEN_RPAREN)
          (fun _ => PM.bind (eat TOKEN_SEMICOLON)
            (fun _ => PM.pure (.call ("std.".toList ++ name) args))))
        (after_eat (after_eat (after_eat (after_eat p)))) := by
  have hcons : "std.".toList ++ name = 's' :: 't' :: 'd' :: '.' :: name := rfl
  rw [hcons]
  simp [parse_expression_statement, bind, PM.bind, current_token, current_type, hstd1,
    eat_current _ _ hstd1, hdot, eat_current _ _ hdot, hname1, eat_current _ _ hname1, hparen,
    eat_current _ _ hparen, hstd2, hname2, pure, PM.pure]

/-- C18: qualified std call. When the tokens from the state `p` are the
identifier `std`, `.`, an identifier `NAME` and `(`: for every well-formed
argument list up to the closing `)`, `parse_primary` returns the Call node
whose callee name is `"std." ++ NAME` and whose args are the trees
`parse_expression` returns for the arguments, in source order, and when a `;`
follows so does `parse_expression_statement`; and whatever either function
returns from `p` is a Call node of that name (no MethodCall or FieldAccess). -/
theorem qualified_std_call (reg : Registry) (p : Parser) (name : CStr)
    (hstd : p.current_token.type = TOKEN_IDENTIFIER ∧ p.current_token.value = "std".toList)
    (hdot : (after_tokens 1 p).current_token.type = TOKEN_DOT)
    (hname : (after_tokens 2 p).current_token.type = TOKEN_IDENTIFIER ∧
      (after_tokens 2 p).current_token.value = name)
    (hparen : (after_tokens 3 p).current_token.type = TOKEN_LPAREN) :
    (∀ (args : List ASTNode) (q : Parser), ArgList reg (after_tokens 4 p) args q →
      Returns (parse_primary reg) p (.call ("std.".toList ++ name) args) (after_eat q) ∧
      ((after_eat q).current_token.type = TOKEN_SEMICOLON →
        Returns (parse_expression_statement reg) p (.call ("std.".toList ++ name) args)
          (after_eat (after_eat q)))) ∧
    (∀ (fuel : Nat) (t : ASTNode) (q : Parser),
      parse_primary reg fuel p = .ok t q ∨ parse_expression_statement reg fuel p = .ok t q →
      ∃ args, t = .call ("std.".toList ++ name) args) := by
  simp only [after_tokens] at hdot hname hparen ⊢
  obtain ⟨hstd1, hstd2⟩ := hstd
  obtain ⟨hname1, hname2⟩ := hname
  constructor
  · intro args q hargs
    have hq := arg_list_end reg _ _ _ hargs
    constructor
    · obtain ⟨k, hk⟩ := parse_call_returns reg ("std.".toList ++ name) _ q args hparen hargs
      apply returns_of_succ _ _ _ _ k
      intro fuel hf
      rw [primary_std_call reg p name fuel hstd1 hstd2 hdot hname1 hname2 hparen]
      exact hk fuel hf
    · intro hsemi
      obtain ⟨k, hk⟩ := args_until_rparen_returns reg "function call" _ q args hargs
      refine ⟨k, fun fuel hf => ?_⟩
      rw [statement_std_call reg p name fuel hstd1 hstd2 hdot hname1 hname2 hparen]
      simp [PM.bind, hk fuel hf, eat_current _ _ hq, eat_current _ _ hsemi, PM.pure]
  · intro fuel t q h
    rcases h with h | h
    · cases fuel with
      | zero => simp [parse_primary, no_fuel] at h
      | succ n =>
        rw [primary_std_call reg p name n hstd1 hstd2 hdot hname1 hname2 hparen] at h
        exact parse_call_kind _ _ _ _ _ _ h
    · rw [statement_std_call reg p name fuel hstd1 hstd2 hdot hname1 hname2 hparen] at h
      obtain ⟨args, _, _, h⟩ := bind_ok _ _ _ _ _ h
      obtain ⟨_, _, _, h⟩ := bind_ok _ _ _ _ _ h
      obtain ⟨_, _, _, h⟩ := bind_ok _ _ _ _ _ h
      exact ⟨args, pure_ok _ _ _ _ h⟩

/-- Witness for C18: `std.print(x, 1)` as an expression and `std.print(x, 1);`
as a statement both give `Call("std.print", [x, 1])`. -/
theorem qualified_std_call_witness :
    Returns (parse_primary Registry.initial) (parser_at "std.print(x, 1);")
      (.call "std.print".toList [ident "x", .literal "1".toList "i32".toList TYPE_I32])
      (after_tokens 8 (parser_at "std.print(x, 1);")) ∧
    Returns (parse_expression_statement Registry.initial) (parser_at "std.print(x, 1);")
      (.call "std.print".toList [ident "x", .literal "1".toList "i32".toList TYPE_I32])
      (after_tokens 9 (parser_at "std.print(x, 1);")) :=
  have h := (qualified_std_call Registry.initial (parser_at "std.print(x, 1);") "print".toList
      ⟨rfl, rfl⟩ rfl ⟨rfl, rfl⟩ rfl).1
      [ident "x", .literal "1".toList "i32".toList TYPE_I32]
      (after_tokens 7 (parser_at "std.print(x, 1);"))
      (.args _ (after_tokens 5 (parser_at "std.print(x, 1);")) _ _ _ (by decide)
        (returns_of_add _ _ _ _ 8 (fun _ => rfl))
        (.comma _ (after_tokens 7 (parser_at "std.print(x, 1);")) _ _ _ rfl (by decide)
          (returns_of_add _ _ _ _ 8 (fun _ => rfl)) (.done _ rfl)))
  ⟨h.1, h.2 rfl⟩

/-! ### Lowerer: cast -/

theorem numeric_names_differ (reg : Registry) (a b : TypeKind)
    (ha : (get_type_info a).is_numeric = true) (hb : (get_type_info b).is_numeric = true)
    (hab : a ≠ b) : type_to_string reg a ≠ type_to_string reg b := by
  rw [is_numeric_iff] at ha hb
  intro h
  apply hab
  have h2 := congrArg (string_to_type reg) h
  rw [string_to_type_of_type_to_string_builtin reg a (Or.inl (by
      simp only [TypeKind, TYPE_I8, TYPE_F64, TYPE_STRING] at ha ⊢; omega)),
    string_to_type_of_type_to_string_builtin reg b (Or.inl (by
      simp only [TypeKind, TYPE_I8, TYPE_F64, TYPE_STRING] at hb ⊢; omega))] at h2
  exact h2

theorem pointer_not_numeric (t : TypeKind) (h : is_pointer_type t = true) :
    (get_type_info t).is_numeric = false := by
  simp only [is_pointer_type, Bool.and_eq_true, decide_eq_true_eq, TypeKind, TYPE_PTR_VOID,
    TYPE_PTR_STRING] at h
  obtain ⟨h1, h2⟩ := h
  interval_cases t <;> rfl

/-- C21 (code defect): for a `cast` between numeric types `codegen_cast`
returns the value unchanged when the types are equal; otherwise it builds a
truncation when the source is wider, a bit-cast when the sizes are equal, and
when the source is narrower a sign-extension if both types are signed, a
zero-extension if both are unsigned, and the library's `IntCast` if the
signedness differs, so an unsigned source widened to a signed target is not
zero-extended. -/
theorem codegen_cast_numeric (reg : Registry) (s s1 : CodeGen)
    (value_node target_type_node : ASTNode) (lower_value : CG LLVMValueRef)
    (rest : List (CG LLVMValueRef)) (v : LLVMValue) (name : CStr) (src tgt : TypeKind)
    (hvalue : lower_value s = (some v, s1))
    (hsrc : get_expression_type reg s1 value_node = src)
    (hname : cast_target_type_name target_type_node = some name)
    (htgt : string_to_type reg name = tgt)
    (hsn : (get_type_info src).is_numeric = true)
    (htn : (get_type_info tgt).is_numeric = true) :
    codegen_cast reg [value_node, target_type_node] (lower_value :: rest) s =
      if src = tgt then (some v, s1)
      else if (get_type_info src).size < (get_type_info tgt).size then
        if (get_type_info src).is_signed = true ∧ (get_type_info tgt).is_signed = true then
          build (.cast .sext (some v) (get_llvm_type_from_kind reg tgt)) s1
        else if (get_type_info src).is_signed = false ∧ (get_type_info tgt).is_signed = false then
          build (.cast .zext (some v) (get_llvm_type_from_kind reg tgt)) s1
        else build (.cast .int_cast (some v) (get_llvm_type_from_kind reg tgt)) s1
      else if (get_type_info src).size > (get_type_info tgt).size then
        build (.cast .trunc (some v) (get_llvm_type_from_kind reg tgt)) s1
      else build (.cast .bit_cast (some v) (get_llvm_type_from_kind reg tgt)) s1 := by
  have hknown : tgt ≠ TYPE_UNKNOWN := numeric_ne_unknown tgt htn
  by_cases heq : src = tgt
  · simp [codegen_cast, bind, CG.bind, hvalue, CG.get, hsrc, hname, htgt, hknown, heq, pure,
      CG.pure]
  · have hnames := numeric_names_differ reg src tgt hsn htn heq
    simp only [codegen_cast, bind, CG.bind, hvalue, CG.get, hsrc, hname, htgt, hknown, heq,
      if_false, hsn, htn, hnames, ne_eq, not_false_eq_true, decide_True, Bool.and_self, if_true]
    split_ifs <;> simp_all

/-- Witness for C21 at the failing input: in `state_with_u8` the call
`cast(x, "i32")` builds the library's `IntCast`, not a zero-extension, and the
driver accepts the whole function with that instruction in its entry block. -/
theorem codegen_cast_numeric_witness :
    codegen_expression External.idle Registry.initial
        (.call "cast".toList
          [.identifier "x".toList TYPE_UNKNOWN, .literal "i32".toList "string".toList TYPE_STRING])
        state_with_u8 =
      build (.cast .int_cast (some (.inst 3)) (.int 32))
        (build (.load (.int 8) (some (.inst 0)) "x".toList) state_with_u8).2 ∧
    (parse_source Registry.initial widen_unsigned_source).is_ok = true ∧
    (codegen_program External.idle Registry.initial
      (parsed_program Registry.initial widen_unsigned_source) create_codegen).2.2.has_error
        = false ∧
    block_cast_ops
      (codegen_program External.idle Registry.initial
        (parsed_program Registry.initial widen_unsigned_source) create_codegen).2.2 0 =
      [.trunc, .int_cast] :=
  ⟨(codegen_cast_numeric Registry.initial state_with_u8
      (build (.load (.int 8) (some (.inst 0)) "x".toList) state_with_u8).2
      (.identifier "x".toList TYPE_UNKNOWN)
      (.literal "i32".toList "string".toList TYPE_STRING)
      (codegen_identifier "x".toList) [codegen_literal "i32".toList "string".toList]
      (.inst 3) "i32".toList TYPE_U8 TYPE_I32 rfl rfl rfl rfl rfl rfl).trans rfl,
   by decide!, by decide!, by decide!⟩

/-- C22 (code defect): when the source type or the target type of a `cast` is
a pointer type (and they differ), `codegen_cast` builds a bit-cast: also for a
numeric source with a pointer target and for a pointer source with a numeric
target, where the integer-to-pointer and pointer-to-integer branches of the
source come after the pointer test and are never reached. -/
theorem codegen_cast_pointer (reg : Registry) (s s1 : CodeGen)
    (value_node target_type_node : ASTNode) (lower_value : CG LLVMValueRef)
    (rest : List (CG LLVMValueRef)) (v : LLVMValue) (name : CStr) (src tgt : TypeKind)
    (hvalue : lower_value s = (some v, s1))
    (hsrc : get_expression_type reg s1 value_node = src)
    (hname : cast_target_type_name target_type_node = some name)
    (htgt : string_to_type reg name = tgt)
    (hknown : tgt ≠ TYPE_UNKNOWN) (hne : src ≠ tgt)
    (hpointer : is_pointer_type tgt = true ∨ is_pointer_type src = true) :
    codegen_cast reg [value_node, target_type_node] (lower_value :: rest) s =
      build (.cast .bit_cast (some v) (get_llvm_type_from_kind reg tgt)) s1 := by
  have hnum : ((get_type_info src).is_numeric && (get_type_info tgt).is_numeric) = false := by
    rcases hpointer with h | h
    · rw [pointer_not_numeric tgt h, Bool.and_false]
    · rw [pointer_not_numeric src h, Bool.false_and]
  have hp : (is_pointer_type tgt || is_pointer_type src) = true := by
    rcases hpointer with h | h <;> simp [h]
  simp [codegen_cast, bind, CG.bind, hvalue, CG.get, hsrc, hname, htgt, hknown, hne, hnum, hp]

/-- Witness for C22 at the failing input: with `n: i64` in the symbol table,
`cast(n, "*i64")` builds a bit-cast, not an integer-to-pointer conversion; and
the driver accepts the whole function `pointer_cast_source`, whose two casts
between `i64` and `*i64` are both lowered to bit-casts. -/
theorem codegen_cast_pointer_witness :
    codegen_cast Registry.initial
        [.identifier "n".toList TYPE_UNKNOWN, .literal "*i64".toList "string".toList TYPE_STRING]
        [codegen_identifier "n".toList] state_with_i64 =
      build (.cast .bit_cast (some (.inst 1)) (.pointer (.int 64)))
        (build (.load (.int 64) (some (.inst 0)) "n".toList) state_with_i64).2 ∧
    (parse_source Registry.initial pointer_cast_source).is_ok = true ∧
    (codegen_program External.idle Registry.initial
      (parsed_program Registry.initial pointer_cast_source) create_codegen).2.2.has_error
        = false ∧
    block_cast_ops
      (codegen_program External.idle Registry.initial
        (parsed_program Registry.initial pointer_cast_source) create_codegen).2.2 0 =
      [.sext, .bit_cast, .bit_cast] :=
  ⟨(codegen_cast_pointer Registry.initial state_with_i64
      (build (.load (.int 64) (some (.inst 0)) "n".toList) state_with_i64).2
      (.identifier "n".toList TYPE_UNKNOWN)
      (.literal "*i64".toList "string".toList TYPE_STRING)
      (codegen_identifier "n".toList) [] (.inst 1) "*i64".toList TYPE_I64
      TYPE_PTR_I64 rfl rfl rfl rfl (by decide) (by decide) (Or.inl rfl)).trans rfl,
   by decide!, by decide!, by decide!⟩

/-! ### Lexer -/

theorem getD_eq_headD_drop (input : CStr) (i : Nat) :
    input.getD i NUL = (input.drop i).headD NUL := by
  induction input generalizing i with
  | nil => simp
  | cons c rest ih =>
    cases i with
    | zero => simp
    | succ i => simp [ih i]

theorem at_create (input : CStr) : (create_lexer input).At input input := by
  refine ⟨rfl, by simp [create_lexer], by simp [create_lexer], ?_⟩
  simp only [create_lexer, char_at]
  rw [getD_eq_headD_drop]
  simp

theorem at_remaining (l : Lexer) (input r : CStr) (h : l.At input r) : l.remaining = r := by
  obtain ⟨h1, _, h3, _⟩ := h
  simp [Lexer.remaining, h1, h3]

theorem at_drop_succ (l : Lexer) (input r : CStr) (c : Char) (h : l.At input (c :: r)) :
    input.drop (l.position + 1) = r := by
  obtain ⟨_, _, h3, _⟩ := h
  have : input.drop (l.position + 1) = (input.drop l.position).drop 1 := by
    rw [List.drop_drop, Nat.add_comm]
  rw [this, h3]
  rfl

theorem at_advance (l : Lexer) (input r : CStr) (c : Char) (h : l.At input (c :: r)) :
    (advance l).At input r := by
  have hdrop := at_drop_succ l input r c h
  obtain ⟨h1, h2, h3, h4⟩ := h
  simp only [List.length_cons] at h2
  refine ⟨h1, by simp only [advance]; omega, by simpa [advance] using hdrop, ?_⟩
  simp only [advance, h1, char_at]
  split_ifs with hge
  · have : r = [] := List.eq_nil_of_length_eq_zero (by omega)
    simp [this]
  · rw [getD_eq_headD_drop, hdrop]

theorem at_peek (l : Lexer) (input r : CStr) (c : Char) (h : l.At input (c :: r)) :
    peek l = r.headD NUL := by
  have hdrop := at_drop_succ l input r c h
  obtain ⟨h1, h2, h3, h4⟩ := h
  simp only [List.length_cons] at h2
  simp only [peek, h1, char_at]
  split_ifs with hge
  · have : r = [] := List.eq_nil_of_length_eq_zero (by omega)
    simp [this]
  · rw [getD_eq_headD_drop, hdrop]

theorem at_advance_while (cond : Char → Bool) (input : CStr) (fuel : Nat) :
    ∀ (l : Lexer) (r : CStr), l.At input r → NUL ∉ r → r.length ≤ fuel →
      (advance_while cond fuel l).At input (r.dropWhile cond) := by
  induction fuel with
  | zero =>
    intro l r h _ hlen
    have : r = [] := List.eq_nil_of_length_eq_zero (by omega)
    subst this
    simpa [advance_while] using h
  | succ n ih =>
    intro l r h hnul hlen
    cases r with
    | nil =>
      have hc : l.current_char = NUL := by simpa using h.2.2.2
      simpa [advance_while, hc] using h
    | cons c rest =>
      have hc : l.current_char = c := by simpa using h.2.2.2
      have hcn : c ≠ NUL := fun hx => hnul (by simp [hx])
      by_cases hcond : cond c = true
      · have hstep := ih (advance l) rest (at_advance l input rest c h)
          (fun hx => hnul (List.mem_cons_of_mem _ hx)) (by simpa using hlen)
        simpa [advance_while, hc, hcn, hcond] using hstep
      · simpa [advance_while, hc, hcn, hcond] using h

theorem at_substring (l l2 : Lexer) (input r r2 s : CStr) (h : l.At input r)
    (h2 : l2.At input r2) (hs : r = s ++ r2) : substring_from l2 l.position = s := by
  obtain ⟨a1, a2, a3, _⟩ := h
  obtain ⟨b1, b2, b3, _⟩ := h2
  subst hs
  simp only [List.length_append] at a2
  have hlen : l2.position - l.position = s.length := by omega
  simp [substring_from, b1, a3, hlen]
theorem scan_drop_blank (r : CStr) : scan (r.dropWhile is_blank) = scan r := by
  induction r with
  | nil => rfl
  | cons c rest ih =>
    by_cases hc : c = ' ' ∨ c = '\t' ∨ c = '\r'
    · have hb : is_blank c = true := by
        simpa [is_blank, or_assoc] using hc
      rw [List.dropWhile_cons_of_pos hb, ih]
      simp [scan, hc]
    · have hb : ¬ is_blank c = true := by
        simpa [is_blank, or_assoc] using hc
      rw [List.dropWhile_cons_of_neg hb]

theorem scan_comment_eq (r : CStr) :
    scan (r.dropWhile (fun x => x ≠ '\n')) = scan_comment r := by
  induction r with
  | nil => rfl
  | cons c rest ih =>
    by_cases hc : c = '\n'
    · subst hc
      simp [scan_comment, scan]
    · have hd : (c :: rest).dropWhile (fun x => decide (x ≠ '\n')) =
          rest.dropWhile (fun x => decide (x ≠ '\n')) := by
        simp [List.dropWhile_cons, hc]
      rw [hd, ih]
      simp [scan_comment, hc]

theorem mem_of_suffix_drop (input r : CStr) (n : Nat) (h : input.drop n = r) (c : Char)
    (hc : c ∈ r) : c ∈ input := by
  rw [← h] at hc
  exact List.mem_of_mem_drop hc

theorem at_no_nul (l : Lexer) (input r : CStr) (h : l.At input r) (hnul : NUL ∉ input) :
    NUL ∉ r :=
  fun hx => hnul (mem_of_suffix_drop input r l.position h.2.2.1 NUL hx)
theorem next_token_punct_scan (l : Lexer) (input rest : CStr) (c : Char) (line column : Int)
    (h : l.At input (c :: rest)) :
    ScanAgrees input line column (next_token_punct l line column) (scan_punct (c :: rest)) := by
  have hc : l.current_char = c := by simpa using h.2.2.2
  have hpeek := at_peek l input rest c h
  have h1 := at_advance l input rest c h
  have h2 : rest.headD NUL ≠ NUL → (advance (advance l)).At input (rest.drop 1) := by
    intro hne
    cases rest with
    | nil => exact absurd rfl hne
    | cons d rest2 => exact at_advance _ input rest2 d h1
  have e0 : (c :: rest).headD NUL = c := rfl
  have e1 : (c :: rest).drop 1 = rest := rfl
  have e2 : (c :: rest).drop 2 = rest.drop 1 := rfl
  unfold next_token_punct scan_punct
  rw [hc, hpeek, e0, e1, e2]
  generalize advance (advance l) = l2 at h2 ⊢
  generalize advance l = l1 at h1 ⊢
  generalize rest.headD NUL = d at h2 ⊢
  generalize rest.drop 1 = r2 at h2 ⊢
  clear hpeek hc h
  dsimp only
  by_cases c0 : c = '('
  · rw [if_pos c0, if_pos c0]; exact ⟨rfl, h1⟩
  rw [if_neg c0, if_neg c0]
  by_cases c1 : c = ')'
  · rw [if_pos c1, if_pos c1]; exact ⟨rfl, h1⟩
  rw [if_neg c1, if_neg c1]
  by_cases c2 : c = '{'
  · rw [if_pos c2, if_pos c2]; exact ⟨rfl, h1⟩
  rw [if_neg c2, if_neg c2]
  by_cases c3 : c = '}'
  · rw [if_pos c3, if_pos c3]; exact ⟨rfl, h1⟩
  rw [if_neg c3, if_neg c3]
  by_cases c4 : c = ';'
  · rw [if_pos c4, if_pos c4]; exact ⟨rfl, h1⟩
  rw [if_neg c4, if_neg c4]
  by_cases c5 : c = ':'
  · rw [if_pos c5, if_pos c5]
    by_cases hd0 : d = ':'
    · rw [if_pos hd0, if_pos hd0]; exact ⟨rfl, h2 (by rw [hd0]; decide)⟩
    rw [if_neg hd0, if_neg hd0]
    exact ⟨rfl, h1⟩
  rw [if_neg c5, if_neg c5]
  by_cases c6 : c = '='
  · rw [if_pos c6, if_pos c6]
    by_cases hd0 : d = '='
    · rw [if_pos hd0, if_pos hd0]; exact ⟨rfl, h2 (by rw [hd0]; decide)⟩
    rw [if_neg hd0, if_neg hd0]
    by_cases hd1 : d = '>'
    · rw [if_pos hd1, if_pos hd1]; exact ⟨rfl, h2 (by rw [hd1]; decide)⟩
    rw [if_neg hd1, if_neg hd1]
    exact ⟨rfl, h1⟩
  rw [if_neg c6, if_neg c6]
  by_cases c7 : c = '+'
  · rw [if_pos c7, if_pos c7]; exact ⟨rfl, h1⟩
  rw [if_neg c7, if_neg c7]
  by_cases c8 : c = '-'
  · rw [if_pos c8, if_pos c8]
    by_cases hd0 : d = '>'
    · rw [if_pos hd0, if_pos hd0]; exact ⟨rfl, h2 (by rw [hd0]; decide)⟩
    rw [if_neg hd0, if_neg hd0]
    exact ⟨rfl, h1⟩
  rw [if_neg c8, if_neg c8]
  by_cases c9 : c = '*'
  · rw [if_pos c9, if_pos c9]; exact ⟨rfl, h1⟩
  rw [if_neg c9, if_neg c9]
  by_cases c10 : c = '/'
  · rw [if_pos c10, if_pos c10]; exact ⟨rfl, h1⟩
  rw [if_neg c10, if_neg c10]
  by_cases c11 : c = '!'
  · rw [if_pos c11, if_pos c11]
    by_cases hd0 : d = '='
    · rw [if_pos hd0, if_pos hd0]; exact ⟨rfl, h2 (by rw [hd0]; decide)⟩
    rw [if_neg hd0, if_neg hd0]
    exact ⟨rfl, h1⟩
  rw [if_neg c11, if_neg c11]
  by_cases c12 : c = '<'
  · rw [if_pos c12, if_pos c12]
    by_cases hd0 : d = '='
    · rw [if_pos hd0, if_pos hd0]; exact ⟨rfl, h2 (by rw [hd0]; decide)⟩
    rw [if_neg hd0, if_neg hd0]
    exact ⟨rfl, h1⟩
  rw [if_neg c12, if_neg c12]
  by_cases c13 : c = '>'
  · rw [if_pos c13, if_pos c13]
    by_cases hd0 : d = '='
    · rw [if_pos hd0, if_pos hd0]; exact ⟨rfl, h2 (by rw [hd0]; decide)⟩
    rw [if_neg hd0, if_neg hd0]
    exact ⟨rfl, h1⟩
  rw [if_neg c13, if_neg c13]
  by_cases c14 : c = '&'
  · rw [if_pos c14, if_pos c14]; exact ⟨rfl, h1⟩
  rw [if_neg c14, if_neg c14]
  by_cases c15 : c = '.'
  · rw [if_pos c15, if_pos c15]; exact ⟨rfl, h1⟩
  rw [if_neg c15, if_neg c15]
  by_cases c16 : c = '@'
  · rw [if_pos c16, if_pos c16]; exact ⟨rfl, h1⟩
  rw [if_neg c16, if_neg c16]
  by_cases c17 : c = '#'
  · rw [if_pos c17, if_pos c17]; exact ⟨rfl, h1⟩
  rw [if_neg c17, if_neg c17]
  by_cases c18 : c = ','
  · rw [if_pos c18, if_pos c18]; exact ⟨rfl, h1⟩
  rw [if_neg c18, if_neg c18]
  by_cases c19 : c = '_'
  · rw [if_pos c19, if_pos c19]; exact ⟨rfl, h1⟩
  rw [if_neg c19, if_neg c19]
  exact ⟨rfl, h1⟩
theorem at_advance_input (cond : Char → Bool) (l : Lexer) (input r : CStr) (h : l.At input r)
    (hnul : NUL ∉ input) : (advance_while cond l.input.length l).At input (r.dropWhile cond) :=
  at_advance_while cond input l.input.length l r h (at_no_nul l input r h hnul)
    (by have h2 := h.2.1; rw [h.1]; omega)

theorem dropWhile_ne_cases (q : Char) (rest : CStr) :
    rest.dropWhile (fun x => decide (x ≠ q)) = [] ∨
      ∃ t, rest.dropWhile (fun x => decide (x ≠ q)) = q :: t := by
  induction rest with
  | nil => exact Or.inl rfl
  | cons c rest ih =>
    by_cases hc : c = q
    · subst hc
      exact Or.inr ⟨rest, by simp [List.dropWhile_cons]⟩
    · have hd : (c :: rest).dropWhile (fun x => decide (x ≠ q)) =
          rest.dropWhile (fun x => decide (x ≠ q)) := by
        simp [List.dropWhile_cons, hc]
      rw [hd]
      exact ih

theorem at_skip_whitespace (l : Lexer) (input r : CStr) (h : l.At input r)
    (hnul : NUL ∉ input) : (skip_whitespace l).At input (r.dropWhile is_blank) :=
  at_advance_input is_blank l input r h hnul

theorem at_skip_comment (l : Lexer) (input rest : CStr) (h : l.At input ('/' :: '/' :: rest))
    (hnul : NUL ∉ input) :
    (skip_comment l).At input (rest.dropWhile (fun x => x ≠ '\n')) := by
  have hc : l.current_char = '/' := by simpa using h.2.2.2
  have hp : peek l = '/' := by simpa using at_peek l input _ '/' h
  have h1 := at_advance l input _ '/' h
  have h2 := at_advance (advance l) input _ '/' h1
  have h3 := at_advance_input (fun x => decide (x ≠ '\n')) _ input rest h2 hnul
  simpa [skip_comment, hc, hp] using h3

theorem read_string_scan (l : Lexer) (input rest : CStr) (h : l.At input ('"' :: rest))
    (hnul : NUL ∉ input) :
    (read_string l).1 = rest.takeWhile (fun x => x ≠ '"') ∧
      (read_string l).2.At input ((rest.dropWhile (fun x => x ≠ '"')).drop 1) := by
  have h1 := at_advance l input rest '"' h
  have h2 := at_advance_input (fun x => decide (x ≠ '"')) (advance l) input rest h1 hnul
  refine ⟨at_substring (advance l) _ input rest _ _ h1 h2
    (List.takeWhile_append_dropWhile _ _).symm, ?_⟩
  show (if (advance_while (fun x => decide (x ≠ '"')) (advance l).input.length
      (advance l)).current_char = '"' then advance (advance_while (fun x => decide (x ≠ '"'))
      (advance l).input.length (advance l)) else advance_while (fun x => decide (x ≠ '"'))
      (advance l).input.length (advance l)).At input _
  generalize advance_while (fun x => decide (x ≠ '"')) (advance l).input.length (advance l) = l2
    at h2 ⊢
  rcases dropWhile_ne_cases '"' rest with hd | ⟨t, hd⟩
  · rw [hd] at h2 ⊢
    have hc : l2.current_char = NUL := by simpa using h2.2.2.2
    have hne : ¬ l2.current_char = '"' := by rw [hc]; decide
    rw [if_neg hne]
    exact h2
  · rw [hd] at h2 ⊢
    have hc : l2.current_char = '"' := by simpa using h2.2.2.2
    rw [if_pos hc]
    exact at_advance l2 input t '"' h2

theorem read_number_scan (l : Lexer) (input r : CStr) (h : l.At input r) (hnul : NUL ∉ input) :
    (read_number l).1 = r.takeWhile isdigit ∧ (read_number l).2.At input (r.dropWhile isdigit) := by
  have h1 := at_advance_input isdigit l input r h hnul
  exact ⟨at_substring l _ input r _ _ h h1 (List.takeWhile_append_dropWhile _ _).symm, h1⟩

theorem read_identifier_scan (l : Lexer) (input r : CStr) (h : l.At input r)
    (hnul : NUL ∉ input) :
    (read_identifier l).1 = r.takeWhile is_identifier_char ∧
      (read_identifier l).2.At input (r.dropWhile is_identifier_char) := by
  have h1 := at_advance_input is_identifier_char l input r h hnul
  exact ⟨at_substring l _ input r _ _ h h1 (List.takeWhile_append_dropWhile _ _).symm, h1⟩

theorem read_float_scan (l : Lexer) (input r : CStr) (h : l.At input r) (hnul : NUL ∉ input) :
    ((r.dropWhile isdigit).headD NUL = '.' →
      (read_float l).1 =
          r.takeWhile isdigit ++ '.' :: ((r.dropWhile isdigit).drop 1).takeWhile isdigit ∧
        (read_float l).2.At input (((r.dropWhile isdigit).drop 1).dropWhile isdigit)) ∧
    (¬ (r.dropWhile isdigit).headD NUL = '.' →
      (read_float l).1 = r.takeWhile isdigit ∧
        (read_float l).2.At input (r.dropWhile isdigit)) := by
  have h1 := at_advance_input isdigit l input r h hnul
  have hsplit : r = r.takeWhile isdigit ++ r.dropWhile isdigit :=
    (List.takeWhile_append_dropWhile _ _).symm
  have hc : (advance_while isdigit l.input.length l).current_char =
      (r.dropWhile isdigit).headD NUL := h1.2.2.2
  constructor
  · intro hdot
    have hl2 : (read_float l).2 = advance_while isdigit
        (advance_while isdigit l.input.length l).input.length
        (advance (advance_while isdigit l.input.length l)) := by
      unfold read_float
      dsimp only
      rw [if_pos (hc.trans hdot)]
    have hfst : (read_float l).1 = substring_from (read_float l).2 l.position := rfl
    obtain ⟨t, ht⟩ : ∃ t, r.dropWhile isdigit = '.' :: t := by
      cases hr : r.dropWhile isdigit with
      | nil => rw [hr] at hdot; exact absurd hdot (by decide)
      | cons d t =>
        rw [hr] at hdot
        exact ⟨t, by rw [show d = '.' from hdot]⟩
    rw [ht] at h1
    have h2 := at_advance _ input t '.' h1
    have h3 := at_advance_input isdigit _ input t h2 hnul
    have h3b : (read_float l).2.At input (t.dropWhile isdigit) := by
      rw [hl2]; exact h3
    rw [ht]
    refine ⟨?_, h3b⟩
    rw [hfst]
    refine at_substring l _ input r _ _ h h3b ?_
    have ht2 : t = t.takeWhile isdigit ++ t.dropWhile isdigit :=
      (List.takeWhile_append_dropWhile _ _).symm
    calc r = r.takeWhile isdigit ++ r.dropWhile isdigit := hsplit
      _ = r.takeWhile isdigit ++ '.' :: t := by rw [ht]
      _ = r.takeWhile isdigit ++ '.' :: (t.takeWhile isdigit ++ t.dropWhile isdigit) := by
        rw [← ht2]
      _ = _ := by simp
  · intro hdot
    have hl2 : (read_float l).2 = advance_while isdigit l.input.length l := by
      unfold read_float
      dsimp only
      rw [if_neg (fun hx => hdot (hc.symm.trans hx))]
    have hfst : (read_float l).1 = substring_from (read_float l).2 l.position := rfl
    have h3b : (read_float l).2.At input (r.dropWhile isdigit) := by
      rw [hl2]; exact h1
    refine ⟨?_, h3b⟩
    rw [hfst]
    exact at_substring l _ input r _ _ h h3b hsplit
theorem next_token_loop_scan (input : CStr) (hnul : NUL ∉ input) (line column : Int)
    (fuel : Nat) :
    ∀ (l : Lexer) (r : CStr), l.At input r → r.length < fuel →
      ScanAgrees input line column (next_token_loop line column fuel l) (scan r) := by
  induction fuel with
  | zero => intro l r _ hlen; omega
  | succ n ih =>
    intro l r h hlen
    cases r with
    | nil =>
      have hc : l.current_char = NUL := by simpa using h.2.2.2
      have he : next_token_loop line column (n + 1) l = (⟨TOKEN_EOF, [], line, column⟩, l) := by
        simp [next_token_loop, hc]
      rw [he]
      exact ⟨rfl, h⟩
    | cons c rest =>
      have hc : l.current_char = c := by simpa using h.2.2.2
      have hcn : ¬ c = NUL := fun hx => at_no_nul l input _ h hnul (by simp [hx])
      have hlen2 : rest.length < n := by simpa using hlen
      simp only [next_token_loop, scan]
      rw [hc, if_neg hcn]
      by_cases hb : c = ' ' ∨ c = '\t' ∨ c = '\r'
      · rw [if_pos hb, if_pos hb]
        have hbl : is_blank c = true := by simpa [is_blank, or_assoc] using hb
        have h1 := at_skip_whitespace l input _ h hnul
        rw [List.dropWhile_cons_of_pos hbl] at h1
        have h2 := ih _ _ h1
          (lt_of_le_of_lt (List.dropWhile_suffix is_blank).length_le hlen2)
        rw [scan_drop_blank] at h2
        exact h2
      rw [if_neg hb, if_neg hb]
      by_cases hn : c = '\n'
      · rw [if_pos hn, if_pos hn]
        exact ⟨rfl, at_advance l input rest c h⟩
      rw [if_neg hn, if_neg hn, at_peek l input rest c h]
      by_cases hcm : c = '/' ∧ rest.headD NUL = '/'
      · rw [if_pos hcm, if_pos hcm]
        obtain ⟨hc1, hc2⟩ := hcm
        cases rest with
        | nil => exact absurd hc2 (by decide)
        | cons d rest2 =>
          have hd : d = '/' := hc2
          subst hc1
          subst hd
          have h1 := at_skip_comment l input rest2 h hnul
          have h2 := ih _ _ h1 (lt_of_le_of_lt (List.dropWhile_suffix _).length_le
            (by simp only [List.length_cons] at hlen2; omega))
          rw [scan_comment_eq] at h2
          have e : scan_comment ('/' :: rest2) = scan_comment rest2 := by
            simp [scan_comment]
          rw [e]
          exact h2
      rw [if_neg hcm, if_neg hcm]
      by_cases hq : c = '"'
      · rw [if_pos hq, if_pos hq]
        subst hq
        obtain ⟨e1, e2⟩ := read_string_scan l input rest h hnul
        exact ⟨by rw [e1], e2⟩
      rw [if_neg hq, if_neg hq]
      by_cases hdg : isdigit c = true
      · rw [if_pos hdg, if_pos hdg]
        have hrem : l.input.drop l.position = c :: rest := by rw [h.1]; exact h.2.2.1
        rw [hrem]
        by_cases hdec : has_decimal_scan (c :: rest) = true
        · rw [if_pos hdec, if_pos hdec]
          have hf := read_float_scan l input (c :: rest) h hnul
          by_cases hdot : ((c :: rest).dropWhile isdigit).headD NUL = '.'
          · rw [if_pos hdot]
            obtain ⟨e1, e2⟩ := hf.1 hdot
            exact ⟨by rw [e1], e2⟩
          · rw [if_neg hdot]
            obtain ⟨e1, e2⟩ := hf.2 hdot
            exact ⟨by rw [e1], e2⟩
        · rw [if_neg hdec, if_neg hdec]
          obtain ⟨e1, e2⟩ := read_number_scan l input (c :: rest) h hnul
          exact ⟨by rw [e1], e2⟩
      rw [if_neg hdg, if_neg hdg]
      by_cases hid : (isalpha c || decide (c = '_')) = true
      · rw [if_pos hid, if_pos hid]
        obtain ⟨e1, e2⟩ := read_identifier_scan l input (c :: rest) h hnul
        exact ⟨by rw [e1], e2⟩
      rw [if_neg hid, if_neg hid]
      exact next_token_punct_scan l input rest c line column h

theorem next_token_scan (l : Lexer) (input r : CStr) (h : l.At input r) (hnul : NUL ∉ input) :
    ScanAgrees input l.line l.column (next_token l) (scan r) :=
  next_token_loop_scan input hnul l.line l.column (l.input.length + 1) l r h
    (by have h2 := h.2.1; rw [h.1]; omega)

theorem next_token_kind (l : Lexer) (input r : CStr) (h : l.At input r) (hnul : NUL ∉ input) :
    (next_token l).1.type = (scan r).1 := by
  rw [(next_token_scan l input r h hnul).1]

theorem next_token_lexeme (l : Lexer) (input r : CStr) (h : l.At input r)
    (hnul : NUL ∉ input) : (next_token l).1.value = (scan r).2.1 := by
  rw [(next_token_scan l input r h hnul).1]

theorem next_token_rest (l : Lexer) (input r : CStr) (h : l.At input r) (hnul : NUL ∉ input) :
    (next_token l).2.At input (scan r).2.2 :=
  (next_token_scan l input r h hnul).2
theorem scan_punct_cases (c : Char) (rest : CStr) :
    ∃ t, (scan_punct (c :: rest) = (t, [c], rest) ∨
        ((rest.headD NUL = ':' ∨ rest.headD NUL = '=' ∨ rest.headD NUL = '>') ∧
          scan_punct (c :: rest) = (t, [c, rest.headD NUL], rest.drop 1))) ∧
      t ≠ TOKEN_EOF := by
  have e0 : (c :: rest).headD NUL = c := rfl
  have e1 : (c :: rest).drop 1 = rest := rfl
  have e2 : (c :: rest).drop 2 = rest.drop 1 := rfl
  unfold scan_punct
  rw [e0, e1, e2]
  generalize rest.headD NUL = d
  generalize rest.drop 1 = r2
  dsimp only
  by_cases c0 : c = '('
  · rw [if_pos c0]; exact ⟨TOKEN_LPAREN, Or.inl (by rw [c0]; rfl), by decide⟩
  rw [if_neg c0]
  by_cases c1 : c = ')'
  · rw [if_pos c1]; exact ⟨TOKEN_RPAREN, Or.inl (by rw [c1]; rfl), by decide⟩
  rw [if_neg c1]
  by_cases c2 : c = '{'
  · rw [if_pos c2]; exact ⟨TOKEN_LBRACE, Or.inl (by rw [c2]; rfl), by decide⟩
  rw [if_neg c2]
  by_cases c3 : c = '}'
  · rw [if_pos c3]; exact ⟨TOKEN_RBRACE, Or.inl (by rw [c3]; rfl), by decide⟩
  rw [if_neg c3]
  by_cases c4 : c = ';'
  · rw [if_pos c4]; exact ⟨TOKEN_SEMICOLON, Or.inl (by rw [c4]; rfl), by decide⟩
  rw [if_neg c4]
  by_cases c5 : c = ':'
  · rw [if_pos c5]
    by_cases hd0 : d = ':'
    · rw [if_pos hd0]
      exact ⟨TOKEN_DOUBLE_COLON, Or.inr ⟨by rw [hd0]; decide, by rw [c5, hd0]; rfl⟩, by decide⟩
    rw [if_neg hd0]
    exact ⟨TOKEN_COLON, Or.inl (by rw [c5]; rfl), by decide⟩
  rw [if_neg c5]
  by_cases c6 : c = '='
  · rw [if_pos c6]
    by_cases hd0 : d = '='
    · rw [if_pos hd0]
      exact ⟨TOKEN_EQ, Or.inr ⟨by rw [hd0]; decide, by rw [c6, hd0]; rfl⟩, by decide⟩
    rw [if_neg hd0]
    by_cases hd1 : d = '>'
    · rw [if_pos hd1]
      exact ⟨TOKEN_DOUBLE_ARROW, Or.inr ⟨by rw [hd1]; decide, by rw [c6, hd1]; rfl⟩, by decide⟩
    rw [if_neg hd1]
    exact ⟨TOKEN_ASSIGN, Or.inl (by rw [c6]; rfl), by decide⟩
  rw [if_neg c6]
  by_cases c7 : c = '+'
  · rw [if_pos c7]; exact ⟨TOKEN_PLUS, Or.inl (by rw [c7]; rfl), by decide⟩
  rw [if_neg c7]
  by_cases c8 : c = '-'
  · rw [if_pos c8]
    by_cases hd0 : d = '>'
    · rw [if_pos hd0]
      exact ⟨TOKEN_ARROW, Or.inr ⟨by rw [hd0]; decide, by rw [c8, hd0]; rfl⟩, by decide⟩
    rw [if_neg hd0]
    exact ⟨TOKEN_MINUS, Or.inl (by rw [c8]; rfl), by decide⟩
  rw [if_neg c8]
  by_cases c9 : c = '*'
  · rw [if_pos c9]; exact ⟨TOKEN_MULTIPLY, Or.inl (by rw [c9]; rfl), by decide⟩
  rw [if_neg c9]
  by_cases c10 : c = '/'
  · rw [if_pos c10]; exact ⟨TOKEN_DIVIDE, Or.inl (by rw [c10]; rfl), by decide⟩
  rw [if_neg c10]
  by_cases c11 : c = '!'
  · rw [if_pos c11]
    by_cases hd0 : d = '='
    · rw [if_pos hd0]
      exact ⟨TOKEN_NE, Or.inr ⟨by rw [hd0]; decide, by rw [c11, hd0]; rfl⟩, by decide⟩
    rw [if_neg hd0]
    exact ⟨TOKEN_UNKNOWN, Or.inl (by rw [c11]; rfl), by decide⟩
  rw [if_neg c11]
  by_cases c12 : c = '<'
  · rw [if_pos c12]
    by_cases hd0 : d = '='
    · rw [if_pos hd0]
      exact ⟨TOKEN_LE, Or.inr ⟨by rw [hd0]; decide, by rw [c12, hd0]; rfl⟩, by decide⟩
    rw [if_neg hd0]
    exact ⟨TOKEN_LT, Or.inl (by rw [c12]; rfl), by decide⟩
  rw [if_neg c12]
  by_cases c13 : c = '>'
  · rw [if_pos c13]
    by_cases hd0 : d = '='
    · rw [if_pos hd0]
      exact ⟨TOKEN_GE, Or.inr ⟨by rw [hd0]; decide, by rw [c13, hd0]; rfl⟩, by decide⟩
    rw [if_neg hd0]
    exact ⟨TOKEN_GT, Or.inl (by rw [c13]; rfl), by decide⟩
  rw [if_neg c13]
  by_cases c14 : c = '&'
  · rw [if_pos c14]; exact ⟨TOKEN_AMPERSAND, Or.inl (by rw [c14]; rfl), by decide⟩
  rw [if_neg c14]
  by_cases c15 : c = '.'
  · rw [if_pos c15]; exact ⟨TOKEN_DOT, Or.inl (by rw [c15]; rfl), by decide⟩
  rw [if_neg c15]
  by_cases c16 : c = '@'
  · rw [if_pos c16]; exact ⟨TOKEN_AT, Or.inl (by rw [c16]; rfl), by decide⟩
  rw [if_neg c16]
  by_cases c17 : c = '#'
  · rw [if_pos c17]; exact ⟨TOKEN_HASH, Or.inl (by rw [c17]; rfl), by decide⟩
  rw [if_neg c17]
  by_cases c18 : c = ','
  · rw [if_pos c18]; exact ⟨TOKEN_COMMA, Or.inl (by rw [c18]; rfl), by decide⟩
  rw [if_neg c18]
  by_cases c19 : c = '_'
  · rw [if_pos c19]; exact ⟨TOKEN_UNDERSCORE, Or.inl (by rw [c19]; rfl), by decide⟩
  rw [if_neg c19]
  exact ⟨TOKEN_UNKNOWN, Or.inl rfl, by decide⟩

theorem ite_ne_of {p : Prop} [Decidable p] {a b x : TokenType} (ha : a ≠ x) (hb : b ≠ x) :
    (if p then a else b) ≠ x := by
  by_cases h : p
  · rw [if_pos h]; exact ha
  · rw [if_neg h]; exact hb

theorem get_keyword_type_ne_eof (s : CStr) : get_keyword_type s ≠ TOKEN_EOF := by
  unfold get_keyword_type
  repeat' (first | decide | refine ite_ne_of ?_ ?_)

theorem identifier_char_plain (c : Char) (h : is_identifier_char c = true) :
    is_plain c = true := by
  have hne : ∀ x : Char, is_identifier_char x = false → ¬ c = x := by
    intro x hx hcx
    rw [hcx, hx] at h
    exact absurd h (by decide)
  have h1 := hne ' ' (by decide)
  have h2 := hne '\t' (by decide)
  have h3 := hne '\r' (by decide)
  have h4 := hne '/' (by decide)
  have h5 := hne '"' (by decide)
  simp [is_plain, is_blank, h1, h2, h3, h4, h5]

theorem digit_plain (c : Char) (h : isdigit c = true) : is_plain c = true :=
  identifier_char_plain c (by simp [is_identifier_char, isalnum, h])

theorem strip_code_plain (c : Char) (rest : CStr) (h : is_plain c = true) :
    strip_from .code (c :: rest) = c :: strip_from .code rest := by
  have hb : ¬ (c = ' ' ∨ c = '\t' ∨ c = '\r') := by
    intro hx
    have : is_blank c = true := by simpa [is_blank, or_assoc] using hx
    simp [is_plain, this] at h
  have hs : ¬ c = '/' := by
    intro hx
    rw [hx] at h
    exact absurd h (by decide)
  have hq : ¬ c = '"' := by
    intro hx
    rw [hx] at h
    exact absurd h (by decide)
  rw [strip_from, if_neg hb, if_neg (fun hx => hs hx.1), if_neg hq]

theorem strip_code_append (s r : CStr) (h : ∀ c ∈ s, is_plain c = true) :
    strip_from .code (s ++ r) = s ++ strip_from .code r := by
  induction s with
  | nil => rfl
  | cons c s ih =>
    rw [List.cons_append, strip_code_plain c _ (h c (List.mem_cons_self _ _)),
      ih (fun x hx => h x (List.mem_cons_of_mem _ hx)), List.cons_append]

theorem strip_comment_scan (x : CStr) :
    (scan_comment x = (TOKEN_EOF, [], []) ∧ strip_from .comment x = []) ∨
      ((scan_comment x).1 ≠ TOKEN_EOF ∧ (scan_comment x).2.2.length < x.length + 1 ∧
        strip_from .comment x =
          (scan_comment x).2.1 ++ strip_from .code (scan_comment x).2.2) := by
  induction x with
  | nil => exact Or.inl ⟨rfl, rfl⟩
  | cons c rest ih =>
    by_cases hc : c = '\n'
    · right
      rw [scan_comment, strip_from, if_pos hc, if_pos hc, hc]
      refine ⟨?_, ?_, rfl⟩
      · show TOKEN_NEWLINE ≠ TOKEN_EOF
        decide
      · show rest.length < (c :: rest).length + 1
        simp only [List.length_cons]
        omega
    · rw [scan_comment, strip_from, if_neg hc, if_neg hc]
      rcases ih with ⟨e1, e2⟩ | ⟨e1, e2, e3⟩
      · exact Or.inl ⟨e1, e2⟩
      · exact Or.inr ⟨e1, by simp only [List.length_cons]; omega, e3⟩

theorem strip_string_scan (rest : CStr) :
    strip_from .string rest =
      rest.takeWhile (fun x => x ≠ '"') ++
        strip_from .code ((rest.dropWhile (fun x => x ≠ '"')).drop 1) := by
  induction rest with
  | nil => rfl
  | cons c rest ih =>
    by_cases hc : c = '"'
    · rw [strip_from, if_pos hc]
      simp [List.takeWhile_cons, List.dropWhile_cons, hc]
    · rw [strip_from, if_neg hc, ih]
      simp [List.takeWhile_cons, List.dropWhile_cons, hc]

theorem takeWhile_all (p : Char → Bool) (r : CStr) : ∀ c ∈ r.takeWhile p, p c = true :=
  fun _ hc => List.mem_takeWhile_imp hc

theorem cons_headD_drop (r : CStr) (h : ¬ r.headD NUL = NUL) : r = r.headD NUL :: r.drop 1 := by
  cases r with
  | nil => exact absurd rfl h
  | cons d t => rfl

theorem dropWhile_length_of_pos (p : Char → Bool) (c : Char) (rest : CStr)
    (h : p c = true) : ((c :: rest).dropWhile p).length < (c :: rest).length := by
  rw [List.dropWhile_cons_of_pos h]
  exact lt_of_le_of_lt (List.dropWhile_suffix p).length_le (by simp)

theorem drop_dropWhile_length (p : Char → Bool) (r : CStr) :
    ((r.drop 1).dropWhile p).length ≤ r.length :=
  le_trans (List.dropWhile_suffix p).length_le (by simp)
theorem scan_step (r : CStr) : ScanStep r (scan r) := by
  induction r with
  | nil => exact Or.inl ⟨rfl, rfl⟩
  | cons c rest ih =>
    rw [scan]
    unfold ScanStep strip_source
    by_cases hb : c = ' ' ∨ c = '\t' ∨ c = '\r'
    · have hs : strip_from .code (c :: rest) = strip_from .code rest := by
        rw [strip_from, if_pos hb]
      rw [if_pos hb, hs]
      rcases ih with ⟨e1, e2⟩ | ⟨e1, e2, e3⟩
      · exact Or.inl ⟨e1, e2⟩
      · exact Or.inr ⟨e1, by simp only [List.length_cons]; omega, e3⟩
    rw [if_neg hb]
    by_cases hn : c = '\n'
    · have h1 : ¬ (c = '/' ∧ rest.headD NUL = '/') := by
        rw [hn]
        exact fun hx => absurd hx.1 (by decide)
      have h2 : ¬ c = '"' := by rw [hn]; decide
      have hs : strip_from .code (c :: rest) = '\n' :: strip_from .code rest := by
        rw [strip_from, if_neg hb, if_neg h1, if_neg h2, hn]
      rw [if_pos hn, hs]
      right
      refine ⟨?_, ?_, rfl⟩
      · show TOKEN_NEWLINE ≠ TOKEN_EOF
        decide
      · show rest.length < (c :: rest).length
        simp
    rw [if_neg hn]
    by_cases hcm : c = '/' ∧ rest.headD NUL = '/'
    · have hs : strip_from .code (c :: rest) = strip_from .comment rest := by
        rw [strip_from, if_neg hb, if_pos hcm]
      rw [if_pos hcm, hs]
      rcases strip_comment_scan rest with ⟨e1, e2⟩ | ⟨e1, e2, e3⟩
      · exact Or.inl ⟨e1, e2⟩
      · exact Or.inr ⟨e1, by simp only [List.length_cons]; omega, e3⟩
    rw [if_neg hcm]
    by_cases hq : c = '"'
    · have hs : strip_from .code (c :: rest) = strip_from .string rest := by
        rw [strip_from, if_neg hb, if_neg hcm, if_pos hq]
      rw [if_pos hq, hs]
      right
      refine ⟨?_, ?_, strip_string_scan rest⟩
      · show TOKEN_STRING ≠ TOKEN_EOF
        decide
      · show ((rest.dropWhile (fun x => decide (x ≠ '"'))).drop 1).length < (c :: rest).length
        have h1 : (rest.dropWhile (fun x => decide (x ≠ '"'))).length ≤ rest.length :=
          (List.dropWhile_suffix _).length_le
        simp only [List.length_drop, List.length_cons]
        omega
    rw [if_neg hq]
    have hkeep : strip_from .code (c :: rest) = c :: strip_from .code rest := by
      rw [strip_from, if_neg hb, if_neg hcm, if_neg hq]
    have hsplit : ∀ p : Char → Bool,
        c :: rest = (c :: rest).takeWhile p ++ (c :: rest).dropWhile p :=
      fun p => (List.takeWhile_append_dropWhile p _).symm
    have hrun : ∀ p : Char → Bool, (∀ x, p x = true → is_plain x = true) →
        strip_from .code (c :: rest) =
          (c :: rest).takeWhile p ++ strip_from .code ((c :: rest).dropWhile p) := by
      intro p hp
      rw [← strip_code_append _ _ (fun x hx => hp x (takeWhile_all p _ x hx)), ← hsplit p]
    by_cases hdg : isdigit c = true
    · rw [if_pos hdg]
      have hlen := dropWhile_length_of_pos isdigit c rest hdg
      have hnum := hrun isdigit digit_plain
      by_cases hdec : has_decimal_scan (c :: rest) = true
      · rw [if_pos hdec]
        by_cases hdot : ((c :: rest).dropWhile isdigit).headD NUL = '.'
        · rw [if_pos hdot]
          right
          refine ⟨?_, ?_, ?_⟩
          · show TOKEN_FLOAT ≠ TOKEN_EOF
            decide
          · show ((((c :: rest).dropWhile isdigit).drop 1).dropWhile isdigit).length <
              (c :: rest).length
            exact lt_of_le_of_lt (drop_dropWhile_length isdigit _) hlen
          · show _ = ((c :: rest).takeWhile isdigit ++
                '.' :: (((c :: rest).dropWhile isdigit).drop 1).takeWhile isdigit) ++
              strip_from .code ((((c :: rest).dropWhile isdigit).drop 1).dropWhile isdigit)
            have hr1 := cons_headD_drop ((c :: rest).dropWhile isdigit)
              (by rw [hdot]; decide)
            rw [hdot] at hr1
            have hpl2 : ∀ x ∈ (((c :: rest).dropWhile isdigit).drop 1).takeWhile isdigit,
                is_plain x = true :=
              fun x hx => digit_plain x (takeWhile_all isdigit _ x hx)
            have hfrac : strip_from .code (((c :: rest).dropWhile isdigit).drop 1) =
                (((c :: rest).dropWhile isdigit).drop 1).takeWhile isdigit ++
                  strip_from .code
                    ((((c :: rest).dropWhile isdigit).drop 1).dropWhile isdigit) := by
              rw [← strip_code_append _ _ hpl2, List.takeWhile_append_dropWhile]
            have hdotstep : strip_from .code ((c :: rest).dropWhile isdigit) =
                '.' :: strip_from .code (((c :: rest).dropWhile isdigit).drop 1) := by
              conv_lhs => rw [hr1]
              exact strip_code_plain '.' _ (by decide)
            rw [hnum, hdotstep, hfrac]
            simp
        · rw [if_neg hdot]
          right
          refine ⟨?_, hlen, hnum⟩
          show TOKEN_FLOAT ≠ TOKEN_EOF
          decide
      · rw [if_neg hdec]
        right
        refine ⟨?_, hlen, hnum⟩
        show TOKEN_NUMBER ≠ TOKEN_EOF
        decide
    rw [if_neg hdg]
    by_cases hid : (isalpha c || decide (c = '_')) = true
    · rw [if_pos hid]
      have hic : is_identifier_char c = true := by
        simp only [Bool.or_eq_true, decide_eq_true_eq] at hid
        rcases hid with hx | hx
        · simp [is_identifier_char, isalnum, hx]
        · simp [is_identifier_char, hx]
      have hlen := dropWhile_length_of_pos is_identifier_char c rest hic
      right
      exact ⟨get_keyword_type_ne_eof _, hlen, hrun is_identifier_char identifier_char_plain⟩
    rw [if_neg hid]
    obtain ⟨t, hcases, ht⟩ := scan_punct_cases c rest
    rcases hcases with e | ⟨hd, e⟩
    · rw [e]
      right
      exact ⟨ht, by simp, hkeep⟩
    · rw [e]
      right
      have hr1 := cons_headD_drop rest (by
        rcases hd with h | h | h <;> rw [h] <;> decide)
      have hdp : is_plain (rest.headD NUL) = true := by
        rcases hd with h | h | h <;> rw [h] <;> decide
      refine ⟨ht, ?_, ?_⟩
      · show (rest.drop 1).length < (c :: rest).length
        simp only [List.length_drop, List.length_cons]
        omega
      · show _ = [c, rest.headD NUL] ++ strip_from .code (rest.drop 1)
        rw [hkeep]
        conv_lhs => rw [hr1]
        rw [strip_code_plain _ _ hdp]
        rfl
theorem scan_shorter (r : CStr) (h : (scan r).1 ≠ TOKEN_EOF) :
    (scan r).2.2.length < r.length := by
  rcases scan_step r with ⟨e, _⟩ | ⟨_, e, _⟩
  · rw [e] at h
    exact absurd rfl h
  · exact e

theorem scan_eof (r : CStr) (h : (scan r).1 = TOKEN_EOF) :
    scan r = (TOKEN_EOF, [], []) ∧ strip_source r = [] := by
  rcases scan_step r with e | ⟨e, _⟩
  · exact e
  · exact absurd h e

theorem scan_all_fuel (f1 : Nat) :
    ∀ (f2 : Nat) (r : CStr), r.length < f1 → r.length < f2 → scan_all f1 r = scan_all f2 r := by
  induction f1 with
  | zero => intro f2 r h1; omega
  | succ n ih =>
    intro f2 r h1 h2
    cases f2 with
    | zero => omega
    | succ m =>
      rw [scan_all, scan_all]
      by_cases he : (scan r).1 = TOKEN_EOF
      · rw [if_pos he, if_pos he]
      · rw [if_neg he, if_neg he]
        have hs := scan_shorter r he
        rw [ih m _ (by omega) (by omega)]

theorem tokenize_loop_scan (input : CStr) (hnul : NUL ∉ input) (fuel : Nat) :
    ∀ (l : Lexer) (r : CStr), l.At input r →
      (tokenize_loop fuel l).map kind_lexeme = scan_all fuel r := by
  induction fuel with
  | zero => intro l r _; rfl
  | succ n ih =>
    intro l r h
    have hk := next_token_kind l input r h hnul
    have hv := next_token_lexeme l input r h hnul
    have hr := next_token_rest l input r h hnul
    rw [tokenize_loop, scan_all]
    by_cases he : (scan r).1 = TOKEN_EOF
    · rw [if_pos (hk.trans he), if_pos he]
      simp [kind_lexeme, hk, hv]
    · rw [if_neg (fun hx => he (hk.symm.trans hx)), if_neg he]
      simp [kind_lexeme, hk, hv, ih _ _ hr]

theorem tokenize_scan (input : CStr) (hnul : NUL ∉ input) :
    (tokenize input).map kind_lexeme = scan_all (input.length + 1) input :=
  tokenize_loop_scan input hnul _ _ _ (at_create input)

theorem scan_all_lexemes (fuel : Nat) :
    ∀ r : CStr, r.length < fuel →
      ((scan_all fuel r).map Prod.snd).flatten = strip_source r := by
  induction fuel with
  | zero => intro r h; omega
  | succ n ih =>
    intro r h
    rw [scan_all]
    rcases scan_step r with ⟨e1, e2⟩ | ⟨e1, e2, e3⟩
    · rw [e1, e2]
      rfl
    · rw [if_neg e1, List.map_cons, List.flatten_cons, ih _ (by omega), e3]

theorem lexemes_kind_lexeme (ts : List Token) :
    lexemes ts = ((ts.map kind_lexeme).map Prod.snd).flatten := by
  simp [lexemes, kind_lexeme, List.map_map, Function.comp_def]
theorem scan_to_punct (c : Char) (rest : CStr) (hb : ¬ (c = ' ' ∨ c = '\t' ∨ c = '\r'))
    (hn : ¬ c = '\n') (hcm : ¬ (c = '/' ∧ rest.headD NUL = '/')) (hq : ¬ c = '"')
    (hdg : ¬ isdigit c = true) (hid : ¬ (isalpha c || decide (c = '_')) = true) :
    scan (c :: rest) = scan_punct (c :: rest) := by
  rw [scan, if_neg hb, if_neg hn, if_neg hcm, if_neg hq, if_neg hdg, if_neg hid]

theorem scan_punct_unknown (b : Char) (rest : CStr) (hp : b ∉ operator_starts) :
    scan_punct (b :: rest) = (TOKEN_UNKNOWN, [b], rest) := by
  have hne : ∀ x : Char, x ∈ operator_starts → ¬ b = x := fun x hx hbx => hp (hbx ▸ hx)
  have e0 : (b :: rest).headD NUL = b := rfl
  have e1 : (b :: rest).drop 1 = rest := rfl
  unfold scan_punct
  rw [e0, e1]
  dsimp only
  rw [if_neg (hne '(' (by decide))]
  rw [if_neg (hne ')' (by decide))]
  rw [if_neg (hne '{' (by decide))]
  rw [if_neg (hne '}' (by decide))]
  rw [if_neg (hne ';' (by decide))]
  rw [if_neg (hne ':' (by decide))]
  rw [if_neg (hne '=' (by decide))]
  rw [if_neg (hne '+' (by decide))]
  rw [if_neg (hne '-' (by decide))]
  rw [if_neg (hne '*' (by decide))]
  rw [if_neg (hne '/' (by decide))]
  rw [if_neg (hne '!' (by decide))]
  rw [if_neg (hne '<' (by decide))]
  rw [if_neg (hne '>' (by decide))]
  rw [if_neg (hne '&' (by decide))]
  rw [if_neg (hne '.' (by decide))]
  rw [if_neg (hne '@' (by decide))]
  rw [if_neg (hne '#' (by decide))]
  rw [if_neg (hne ',' (by decide))]
  rw [if_neg (hne '_' (by decide))]

theorem scan_punct_bang (rest : CStr) (h : ¬ rest.headD NUL = '=') :
    scan_punct ('!' :: rest) = (TOKEN_UNKNOWN, ['!'], rest) := by
  have e0 : ('!' :: rest).headD NUL = '!' := rfl
  have e1 : ('!' :: rest).drop 1 = rest := rfl
  have e2 : ('!' :: rest).drop 2 = rest.drop 1 := rfl
  unfold scan_punct
  rw [e0, e1, e2]
  dsimp only
  rw [if_neg (by decide : ¬ '!' = '(')]
  rw [if_neg (by decide : ¬ '!' = ')')]
  rw [if_neg (by decide : ¬ '!' = '{')]
  rw [if_neg (by decide : ¬ '!' = '}')]
  rw [if_neg (by decide : ¬ '!' = ';')]
  rw [if_neg (by decide : ¬ '!' = ':')]
  rw [if_neg (by decide : ¬ '!' = '=')]
  rw [if_neg (by decide : ¬ '!' = '+')]
  rw [if_neg (by decide : ¬ '!' = '-')]
  rw [if_neg (by decide : ¬ '!' = '*')]
  rw [if_neg (by decide : ¬ '!' = '/')]
  rw [if_pos rfl, if_neg h]
  rfl

theorem takeWhile_append_stop (p : Char → Bool) (s r : CStr) (hs : ∀ x ∈ s, p x = true)
    (hr : p (r.headD NUL) = false) :
    (s ++ r).takeWhile p = s ∧ (s ++ r).dropWhile p = r := by
  induction s with
  | nil =>
    cases r with
    | nil => exact ⟨rfl, rfl⟩
    | cons d t =>
      have hd : p d = false := hr
      simp [List.takeWhile_cons, List.dropWhile_cons, hd]
  | cons c s ih =>
    have hc := hs c (List.mem_cons_self _ _)
    obtain ⟨i1, i2⟩ := ih (fun x hx => hs x (List.mem_cons_of_mem _ hx))
    simp [List.takeWhile_cons, List.dropWhile_cons, hc, i1, i2]

theorem has_decimal_run (d rest : CStr) (hd : ∀ x ∈ d, isdigit x = true) :
    has_decimal_scan (d ++ rest) = has_decimal_scan rest := by
  induction d with
  | nil => rfl
  | cons c d ih =>
    have hc := hd c (List.mem_cons_self _ _)
    have hne : ¬ c = '.' := by
      intro hx
      rw [hx] at hc
      exact absurd hc (by decide)
    rw [List.cons_append, has_decimal_scan]
    simp only [hc, Bool.true_or, if_true, if_neg hne]
    exact ih (fun x hx => hd x (List.mem_cons_of_mem _ hx))

theorem has_decimal_stop (rest : CStr) (hr : isdigit (rest.headD NUL) = false) :
    has_decimal_scan rest = decide (rest.headD NUL = '.') := by
  cases rest with
  | nil => rfl
  | cons c t =>
    have hc : isdigit c = false := hr
    by_cases hdot : c = '.'
    · simp [has_decimal_scan, hdot]
    · simp [has_decimal_scan, hdot, hc]

theorem scan_of_digit (c : Char) (rest : CStr) (h : isdigit c = true) :
    scan (c :: rest) =
      if has_decimal_scan (c :: rest) then
        if ((c :: rest).dropWhile isdigit).headD NUL = '.' then
          (TOKEN_FLOAT, (c :: rest).takeWhile isdigit ++
              '.' :: (((c :: rest).dropWhile isdigit).drop 1).takeWhile isdigit,
            (((c :: rest).dropWhile isdigit).drop 1).dropWhile isdigit)
        else (TOKEN_FLOAT, (c :: rest).takeWhile isdigit, (c :: rest).dropWhile isdigit)
      else (TOKEN_NUMBER, (c :: rest).takeWhile isdigit, (c :: rest).dropWhile isdigit) := by
  have hne : ∀ x : Char, isdigit x = false → ¬ c = x := by
    intro x hx hcx
    rw [hcx, hx] at h
    exact absurd h (by decide)
  have hb : ¬ (c = ' ' ∨ c = '\t' ∨ c = '\r') := by
    rintro (hx | hx | hx)
    · exact hne _ (by decide) hx
    · exact hne _ (by decide) hx
    · exact hne _ (by decide) hx
  rw [scan, if_neg hb, if_neg (hne '\n' (by decide)),
    if_neg (fun hx => hne '/' (by decide) hx.1), if_neg (hne '"' (by decide)), if_pos h]

theorem scan_number (d rest : CStr) (hne : d ≠ []) (hd : ∀ x ∈ d, isdigit x = true)
    (hr : isdigit (rest.headD NUL) = false) (hdot : ¬ rest.headD NUL = '.') :
    scan (d ++ rest) = (TOKEN_NUMBER, d, rest) := by
  obtain ⟨e1, e2⟩ := takeWhile_append_stop isdigit d rest hd hr
  have hdec : ¬ has_decimal_scan (d ++ rest) = true := by
    rw [has_decimal_run d rest hd, has_decimal_stop rest hr]
    simpa using hdot
  cases d with
  | nil => exact absurd rfl hne
  | cons c d =>
    rw [List.cons_append] at e1 e2 hdec ⊢
    rw [scan_of_digit c _ (hd c (List.mem_cons_self _ _)), if_neg hdec, e1, e2]

theorem scan_float (d f rest : CStr) (hne : d ≠ []) (hd : ∀ x ∈ d, isdigit x = true)
    (hf : ∀ x ∈ f, isdigit x = true) (hr : isdigit (rest.headD NUL) = false) :
    scan (d ++ '.' :: (f ++ rest)) = (TOKEN_FLOAT, d ++ '.' :: f, rest) := by
  obtain ⟨e1, e2⟩ := takeWhile_append_stop isdigit d ('.' :: (f ++ rest)) hd
    (show isdigit '.' = false by decide)
  obtain ⟨e3, e4⟩ := takeWhile_append_stop isdigit f rest hf hr
  have hdec : has_decimal_scan (d ++ '.' :: (f ++ rest)) = true := by
    rw [has_decimal_run d _ hd]
    rfl
  cases d with
  | nil => exact absurd rfl hne
  | cons c d =>
    rw [List.cons_append] at e1 e2 hdec ⊢
    rw [scan_of_digit c _ (hd c (List.mem_cons_self _ _)), if_pos hdec, e1, e2]
    have h1 : ('.' :: (f ++ rest)).headD NUL = '.' := rfl
    have h2 : ('.' :: (f ++ rest)).drop 1 = f ++ rest := rfl
    rw [if_pos h1, h2, e3, e4]

theorem scan_string (c r : CStr) (hc : '"' ∉ c) :
    scan ('"' :: (c ++ '"' :: r)) = (TOKEN_STRING, c, r) := by
  obtain ⟨e1, e2⟩ := takeWhile_append_stop (fun x => decide (x ≠ '"')) c ('"' :: r)
    (fun x hx => by
      have : x ≠ '"' := fun h => hc (h ▸ hx)
      simpa using this)
    (show decide ('"' ≠ '"') = false by decide)
  have hb : ¬ ('"' = ' ' ∨ '"' = '\t' ∨ '"' = '\r') := by decide
  rw [scan, if_neg hb, if_neg (by decide : ¬ '"' = '\n'),
    if_neg (fun hx => absurd hx.1 (by decide)), if_pos rfl, e1, e2]
  rfl

theorem scan_blanks (w s : CStr) (hw : ∀ c ∈ w, c = ' ' ∨ c = '\t' ∨ c = '\r') :
    scan (w ++ s) = scan s := by
  induction w with
  | nil => rfl
  | cons c w ih =>
    rw [List.cons_append, scan, if_pos (hw c (List.mem_cons_self _ _))]
    exact ih (fun x hx => hw x (List.mem_cons_of_mem _ hx))

theorem scan_comment_line (a r : CStr) (ha : '\n' ∉ a) :
    scan_comment (a ++ '\n' :: r) = (TOKEN_NEWLINE, ['\n'], r) := by
  induction a with
  | nil => rw [List.nil_append, scan_comment, if_pos rfl]
  | cons c a ih =>
    have hc : ¬ c = '\n' := fun h => ha (by rw [h]; exact List.mem_cons_self _ _)
    rw [List.cons_append, scan_comment, if_neg hc]
    exact ih (fun hx => ha (List.mem_cons_of_mem _ hx))

theorem scan_line_comment (a r : CStr) (ha : '\n' ∉ a) :
    scan ('/' :: '/' :: (a ++ '\n' :: r)) = (TOKEN_NEWLINE, ['\n'], r) := by
  have hb : ¬ ('/' = ' ' ∨ '/' = '\t' ∨ '/' = '\r') := by decide
  have hcm : '/' = '/' ∧ ('/' :: (a ++ '\n' :: r)).headD NUL = '/' := ⟨rfl, rfl⟩
  rw [scan, if_neg hb, if_neg (by decide : ¬ '/' = '\n'), if_pos hcm, scan_comment,
    if_neg (by decide : ¬ '/' = '\n')]
  exact scan_comment_line a r ha

theorem scan_underscore (rest : CStr) (hr : is_identifier_char (rest.headD NUL) = false) :
    scan ('_' :: rest) = (TOKEN_IDENTIFIER, ['_'], rest) := by
  obtain ⟨e1, e2⟩ := takeWhile_append_stop is_identifier_char ['_'] rest
    (fun x hx => by
      rw [List.mem_singleton] at hx
      rw [hx]
      decide) hr
  have hb : ¬ ('_' = ' ' ∨ '_' = '\t' ∨ '_' = '\r') := by decide
  have e1b : ('_' :: rest).takeWhile is_identifier_char = ['_'] := e1
  have e2b : ('_' :: rest).dropWhile is_identifier_char = rest := e2
  rw [scan, if_neg hb, if_neg (by decide : ¬ '_' = '\n'),
    if_neg (fun hx => absurd hx.1 (by decide)), if_neg (by decide : ¬ '_' = '"'),
    if_neg (by decide : ¬ isdigit '_' = true),
    if_pos (by decide : (isalpha '_' || decide ('_' = '_')) = true), e1b, e2b]
  rfl

theorem next_token_at_end (l : Lexer) (h : l.current_char = NUL) :
    next_token l = (⟨TOKEN_EOF, [], l.line, l.column⟩, l) := by
  rw [next_token, next_token_loop]
  exact if_pos h

theorem next_token_newline (l : Lexer) (input rest : CStr) (h : l.At input ('\n' :: rest)) :
    next_token l = (⟨TOKEN_NEWLINE, ['\n'], l.line, l.column⟩, advance l) := by
  have hc : l.current_char = '\n' := by simpa using h.2.2.2
  have hb : ¬ ('\n' = ' ' ∨ '\n' = '\t' ∨ '\n' = '\r') := by decide
  rw [next_token, next_token_loop]
  dsimp only
  rw [hc, if_neg (by decide : ¬ '\n' = NUL), if_neg hb, if_pos rfl]

/-! ### C23: round-trip lexing -/

/-- C23 fails as stated. The source `"a"` (a string
literal; no space, tab, carriage return or comment in it) lexes without an
Unknown token, and the concatenation of its lexemes is `a`, not the source:
the String lexeme leaves the two quotes out. -/
theorem round_trip_fails_on_quotes :
    (∀ t ∈ tokenize ['"', 'a', '"'], t.type ≠ TOKEN_UNKNOWN) ∧
      (∀ c ∈ ['"', 'a', '"'], c ≠ ' ' ∧ c ≠ '\t' ∧ c ≠ '\r' ∧ c ≠ '/') ∧
      (tokenize ['"', 'a', '"']).map kind_lexeme = [(TOKEN_STRING, ['a']), (TOKEN_EOF, [])] ∧
      lexemes (tokenize ['"', 'a', '"']) ≠ ['"', 'a', '"'] := by
  decide

/-- C23 (amended): for every source, the concatenation of the lexemes of all
tokens that successive `next_token` calls return equals `strip_source` of the
source: the source with, outside string literals, the spaces, tabs, carriage
returns and line comments (from `//` up to, not including, the newline)
deleted, and with the two quotes of every string literal deleted. -/
theorem lexemes_strip_source (input : CStr) (hnul : NUL ∉ input) :
    lexemes (tokenize input) = strip_source input := by
  rw [lexemes_kind_lexeme, tokenize_scan input hnul]
  exact scan_all_lexemes _ input (Nat.lt_succ_self _)

theorem lexemes_strip_source_witness :
    NUL ∉ "s = \x22a //b\x22 // c\n\tf(1.5)".toList ∧
      lexemes (tokenize "s = \x22a //b\x22 // c\n\tf(1.5)".toList) =
        strip_source "s = \x22a //b\x22 // c\n\tf(1.5)".toList ∧
      strip_source "s = \x22a //b\x22 // c\n\tf(1.5)".toList = "s=a //b\nf(1.5)".toList :=
  ⟨by decide, lexemes_strip_source _ (by decide), by decide⟩

/-! ### C24: numeric literals -/

/-- C24: when the unconsumed input is a non-empty run of digits `d` followed
by `rest`, where `rest` starts with neither a digit nor `.`, `next_token`
returns the token `TOKEN_NUMBER` with lexeme `d` and leaves the lexer at `rest`;
when it is `d`, then `.`, then a run of digits `f` (possibly empty) followed by
`rest`, where `rest` does not start with a digit, `next_token` returns the token
`TOKEN_FLOAT` with lexeme `d ++ "." ++ f` and leaves the lexer at `rest` (which
may start with a second `.`). -/
theorem numeric_literal :
    (∀ (l : Lexer) (input d rest : CStr), NUL ∉ input → d ≠ [] →
        (∀ x ∈ d, isdigit x = true) → isdigit (rest.headD NUL) = false →
        ¬ rest.headD NUL = '.' → l.At input (d ++ rest) →
        (next_token l).1 = ⟨TOKEN_NUMBER, d, l.line, l.column⟩ ∧
          (next_token l).2.At input rest) ∧
      (∀ (l : Lexer) (input d f rest : CStr), NUL ∉ input → d ≠ [] →
        (∀ x ∈ d, isdigit x = true) → (∀ x ∈ f, isdigit x = true) →
        isdigit (rest.headD NUL) = false → l.At input (d ++ '.' :: (f ++ rest)) →
        (next_token l).1 = ⟨TOKEN_FLOAT, d ++ '.' :: f, l.line, l.column⟩ ∧
          (next_token l).2.At input rest) := by
  constructor
  · intro l input d rest hnul hne hd hr hdot h
    have hs := next_token_scan l input _ h hnul
    rw [scan_number d rest hne hd hr hdot] at hs
    exact hs
  · intro l input d f rest hnul hne hd hf hr h
    have hs := next_token_scan l input _ h hnul
    rw [scan_float d f rest hne hd hf hr] at hs
    exact hs

theorem numeric_literal_witness :
    ((next_token (create_lexer "12;".toList)).1 = ⟨TOKEN_NUMBER, "12".toList, 1, 1⟩ ∧
        (next_token (create_lexer "12;".toList)).2.At "12;".toList ";".toList) ∧
      ((next_token (create_lexer "1.2.3".toList)).1 = ⟨TOKEN_FLOAT, "1.2".toList, 1, 1⟩ ∧
        (next_token (create_lexer "1.2.3".toList)).2.At "1.2.3".toList ".3".toList) :=
  ⟨numeric_literal.1 (create_lexer "12;".toList) "12;".toList "12".toList ";".toList
      (by decide) (by decide) (by decide) (by decide) (by decide) (at_create _),
    numeric_literal.2 (create_lexer "1.2.3".toList) "1.2.3".toList "1".toList "2".toList
      ".3".toList (by decide) (by decide) (by decide) (by decide) (by decide) (at_create _)⟩

/-! ### C25: string literals -/

/-- C25: when the unconsumed input is `"`, then a byte string `c` with no `"`
in it (backslashes and newlines allowed), then `"`, then `r`, `next_token`
returns the token `TOKEN_STRING` whose lexeme is exactly `c` and leaves the
lexer at the first byte of `r`. -/
theorem string_literal (l : Lexer) (input c r : CStr) (hnul : NUL ∉ input)
    (hc : '"' ∉ c) (h : l.At input ('"' :: (c ++ '"' :: r))) :
    (next_token l).1 = ⟨TOKEN_STRING, c, l.line, l.column⟩ ∧ (next_token l).2.At input r := by
  have hs := next_token_scan l input _ h hnul
  rw [scan_string c r hc] at hs
  exact hs

theorem string_literal_witness :
    (next_token (create_lexer ['"', 'a', '\\', 'n', '\n', '"', ';'])).1 =
        ⟨TOKEN_STRING, ['a', '\\', 'n', '\n'], 1, 1⟩ ∧
      (next_token (create_lexer ['"', 'a', '\\', 'n', '\n', '"', ';'])).2.At
        ['"', 'a', '\\', 'n', '\n', '"', ';'] [';'] :=
  string_literal (create_lexer ['"', 'a', '\\', 'n', '\n', '"', ';'])
    ['"', 'a', '\\', 'n', '\n', '"', ';'] ['a', '\\', 'n', '\n'] [';'] (by decide) (by decide)
    (at_create _)

/-! ### C26: whitespace and newlines -/

/-- C26: for every string `w` of spaces, tabs and carriage returns,
`next_token` on `w ++ s` returns a token of the same kind and lexeme, and
leaves the same remaining input, as `next_token` on `s`; and on an input that
begins with a newline, `next_token` returns the token `TOKEN_NEWLINE` with
lexeme `"\n"` and leaves the lexer right after that byte. -/
theorem whitespace_skipped_newline_token :
    (∀ (l1 l2 : Lexer) (in1 in2 w s : CStr), NUL ∉ in1 → NUL ∉ in2 →
        (∀ c ∈ w, c = ' ' ∨ c = '\t' ∨ c = '\r') → l1.At in1 (w ++ s) → l2.At in2 s →
        (next_token l1).1.type = (next_token l2).1.type ∧
          (next_token l1).1.value = (next_token l2).1.value ∧
          (next_token l1).2.remaining = (next_token l2).2.remaining) ∧
      (∀ (l : Lexer) (input rest : CStr), l.At input ('\n' :: rest) →
        (next_token l).1 = ⟨TOKEN_NEWLINE, ['\n'], l.line, l.column⟩ ∧
          (next_token l).2.At input rest ∧ (next_token l).2.position = l.position + 1) := by
  constructor
  · intro l1 l2 in1 in2 w s hn1 hn2 hw h1 h2
    have k1 := next_token_kind l1 in1 _ h1 hn1
    have v1 := next_token_lexeme l1 in1 _ h1 hn1
    have r1 := at_remaining _ _ _ (next_token_rest l1 in1 _ h1 hn1)
    rw [scan_blanks w s hw] at k1 v1 r1
    rw [k1, v1, r1, next_token_kind l2 in2 _ h2 hn2, next_token_lexeme l2 in2 _ h2 hn2,
      at_remaining _ _ _ (next_token_rest l2 in2 _ h2 hn2)]
    exact ⟨rfl, rfl, rfl⟩
  · intro l input rest h
    rw [next_token_newline l input rest h]
    exact ⟨rfl, at_advance l input rest '\n' h, rfl⟩

theorem whitespace_skipped_newline_token_witness :
    ((next_token (create_lexer " \t\r x y".toList)).1.type =
          (next_token (create_lexer "x y".toList)).1.type ∧
        (next_token (create_lexer " \t\r x y".toList)).1.value =
          (next_token (create_lexer "x y".toList)).1.value ∧
        (next_token (create_lexer " \t\r x y".toList)).2.remaining =
          (next_token (create_lexer "x y".toList)).2.remaining) ∧
      ((next_token (create_lexer "\nx".toList)).1 = ⟨TOKEN_NEWLINE, ['\n'], 1, 1⟩ ∧
        (next_token (create_lexer "\nx".toList)).2.At "\nx".toList "x".toList ∧
        (next_token (create_lexer "\nx".toList)).2.position = 0 + 1) :=
  ⟨whitespace_skipped_newline_token.1 (create_lexer " \t\r x y".toList)
      (create_lexer "x y".toList) " \t\r x y".toList "x y".toList " \t\r ".toList
      "x y".toList (by decide) (by decide) (by decide) (at_create _) (at_create _),
    whitespace_skipped_newline_token.2 (create_lexer "\nx".toList) "\nx".toList "x".toList
      (at_create _)⟩

/-! ### C27: line comments -/

/-- C27 fails as stated. Tokenising `//c\nx` gives a
Newline token before the tokens of `x`: the newline that ends the comment is
not skipped with it. -/
theorem comment_newline_is_a_token :
    '\n' ∉ ['c'] ∧
      (tokenize "//c\nx".toList).map kind_lexeme =
        [(TOKEN_NEWLINE, ['\n']), (TOKEN_IDENTIFIER, ['x']), (TOKEN_EOF, [])] ∧
      (tokenize "x".toList).map kind_lexeme = [(TOKEN_IDENTIFIER, ['x']), (TOKEN_EOF, [])] ∧
      (tokenize "//c\nx".toList).map kind_lexeme ≠ (tokenize "x".toList).map kind_lexeme := by
  decide

/-- C27 (amended): for every comment text `c` with no newline in it and every
rest `r`, tokenising `//` ++ `c` ++ `\n` ++ `r` yields one Newline token
(lexeme `"\n"`) followed by the kinds and lexemes of tokenising `r` alone: no
token is produced for the bytes of the comment from its `//` up to the
newline, and the newline itself is a token. -/
theorem line_comment_skipped (c r : CStr) (hc : '\n' ∉ c) (hnc : NUL ∉ c) (hnr : NUL ∉ r) :
    (tokenize ('/' :: '/' :: (c ++ '\n' :: r))).map kind_lexeme =
      (TOKEN_NEWLINE, ['\n']) :: (tokenize r).map kind_lexeme := by
  have hnul : NUL ∉ '/' :: '/' :: (c ++ '\n' :: r) := by
    intro hx
    simp only [List.mem_cons, List.mem_append] at hx
    rcases hx with hx | hx | hx | hx | hx
    · exact absurd hx (by decide)
    · exact absurd hx (by decide)
    · exact hnc hx
    · exact absurd hx (by decide)
    · exact hnr hx
  rw [tokenize_scan _ hnul, tokenize_scan r hnr, scan_all, scan_line_comment c r hc]
  rw [if_neg (by decide : ¬ TOKEN_NEWLINE = TOKEN_EOF)]
  congr 1
  exact scan_all_fuel _ _ r (by simp only [List.length_cons, List.length_append]; omega)
    (Nat.lt_succ_self _)

theorem line_comment_skipped_witness :
    (tokenize "// a comment\nx = 1".toList).map kind_lexeme =
      (TOKEN_NEWLINE, ['\n']) :: (tokenize "x = 1".toList).map kind_lexeme :=
  line_comment_skipped " a comment".toList "x = 1".toList (by decide) (by decide) (by decide)

/-! ### C28: the wildcard -/

/-- C28 (code defect): when the unconsumed input is `_` followed by a
byte that is no letter, digit or underscore (or by the end of the input),
`next_token` returns the token `TOKEN_IDENTIFIER` with lexeme `"_"`, not
`TOKEN_UNDERSCORE`: the identifier test `isalpha(c) || c == '_'` precedes the
`switch` whose `case '_'` would build the Underscore token. -/
theorem underscore_is_identifier (l : Lexer) (input rest : CStr) (hnul : NUL ∉ input)
    (hr : is_identifier_char (rest.headD NUL) = false) (h : l.At input ('_' :: rest)) :
    (next_token l).1 = ⟨TOKEN_IDENTIFIER, ['_'], l.line, l.column⟩ ∧
      (next_token l).1.type ≠ TOKEN_UNDERSCORE ∧ (next_token l).2.At input rest := by
  have hs := next_token_scan l input _ h hnul
  rw [scan_underscore rest hr] at hs
  refine ⟨hs.1, ?_, hs.2⟩
  rw [hs.1]
  show TOKEN_IDENTIFIER ≠ TOKEN_UNDERSCORE
  decide

theorem underscore_is_identifier_witness :
    (next_token (create_lexer "_ => 0".toList)).1 = ⟨TOKEN_IDENTIFIER, ['_'], 1, 1⟩ ∧
      (next_token (create_lexer "_ => 0".toList)).1.type ≠ TOKEN_UNDERSCORE ∧
      (next_token (create_lexer "_ => 0".toList)).2.At "_ => 0".toList " => 0".toList :=
  underscore_is_identifier (create_lexer "_ => 0".toList) "_ => 0".toList " => 0".toList
    (by decide) (by decide) (at_create _)

/-! ### C29: unknown bytes -/

/-- C29: when the first unconsumed byte `b` is no space, tab, carriage return,
newline, digit, letter, `"`, nor one of `operator_starts` (the first bytes of
the operator and punctuation forms, `_` among them), `next_token` returns the
token `TOKEN_UNKNOWN` whose lexeme is the one byte `b` and leaves the lexer
right after it; and a `!` that is not followed by `=` is returned as the token
`TOKEN_UNKNOWN` with lexeme `"!"`. -/
theorem unknown_byte :
    (∀ (l : Lexer) (input rest : CStr) (b : Char), NUL ∉ input →
        ¬ (b = ' ' ∨ b = '\t' ∨ b = '\r') → ¬ b = '\n' → isdigit b = false →
        isalpha b = false → ¬ b = '"' → b ∉ operator_starts → l.At input (b :: rest) →
        (next_token l).1 = ⟨TOKEN_UNKNOWN, [b], l.line, l.column⟩ ∧
          (next_token l).2.At input rest) ∧
      (∀ (l : Lexer) (input rest : CStr), NUL ∉ input → ¬ rest.headD NUL = '=' →
        l.At input ('!' :: rest) →
        (next_token l).1 = ⟨TOKEN_UNKNOWN, ['!'], l.line, l.column⟩ ∧
          (next_token l).2.At input rest) := by
  constructor
  · intro l input rest b hnul hb hn hdg hal hq hp h
    have hs := next_token_scan l input _ h hnul
    have hu : ¬ b = '_' := fun hx => hp (by rw [hx]; decide)
    have hsl : ¬ b = '/' := fun hx => hp (by rw [hx]; decide)
    rw [scan_to_punct b rest hb hn (fun hx => hsl hx.1) hq (by rw [hdg]; decide)
      (by simp [hal, hu]), scan_punct_unknown b rest hp] at hs
    exact hs
  · intro l input rest hnul hd h
    have hs := next_token_scan l input _ h hnul
    rw [scan_to_punct '!' rest (by decide) (by decide) (fun hx => absurd hx.1 (by decide))
      (by decide) (by decide) (by decide), scan_punct_bang rest hd] at hs
    exact hs

theorem unknown_byte_witness :
    ((next_token (create_lexer "$x".toList)).1 = ⟨TOKEN_UNKNOWN, ['$'], 1, 1⟩ ∧
        (next_token (create_lexer "$x".toList)).2.At "$x".toList "x".toList) ∧
      ((next_token (create_lexer "!x".toList)).1 = ⟨TOKEN_UNKNOWN, ['!'], 1, 1⟩ ∧
        (next_token (create_lexer "!x".toList)).2.At "!x".toList "x".toList) :=
  ⟨unknown_byte.1 (create_lexer "$x".toList) "$x".toList "x".toList '$' (by decide)
      (by decide) (by decide) (by decide) (by decide) (by decide) (by decide) (at_create _),
    unknown_byte.2 (create_lexer "!x".toList) "!x".toList "x".toList (by decide) (by decide)
      (at_create _)⟩

/-! ### C30: end of input -/

/-- C30: once the lexer has consumed its whole input, `next_token` returns the
token `TOKEN_EOF` with the empty lexeme and leaves the lexer state unchanged,
and so does every further call: after any number `n` of calls the next call
still returns that token and the same state. -/
theorem eof_repeats (l : Lexer) (input : CStr) (h : l.At input []) (n : Nat) :
    next_token (Nat.iterate (fun x => (next_token x).2) n l) =
      (⟨TOKEN_EOF, [], l.line, l.column⟩, l) := by
  have hc : l.current_char = NUL := by simpa using h.2.2.2
  have h1 := next_token_at_end l hc
  have hfix : Nat.iterate (fun x => (next_token x).2) n l = l := by
    induction n with
    | zero => rfl
    | succ k ih =>
      rw [Function.iterate_succ_apply]
      show Nat.iterate (fun x => (next_token x).2) k (next_token l).2 = l
      rw [h1]
      exact ih
  rw [hfix, h1]

theorem eof_repeats_witness :
    next_token (Nat.iterate (fun x => (next_token x).2) 3
        (next_token (create_lexer "a".toList)).2) =
      (⟨TOKEN_EOF, [], 1, 2⟩, (next_token (create_lexer "a".toList)).2) :=
  eof_repeats (next_token (create_lexer "a".toList)).2 "a".toList
    (next_token_rest (create_lexer "a".toList) "a".toList "a".toList (at_create _) (by decide))
    3

/-! ### C35: the loop-context stack -/

theorem pop_loop_context_loop_stack (s : CodeGen) :
    (pop_loop_context s).2.loop_stack = s.loop_stack.dropLast := by
  unfold pop_loop_context
  by_cases h : s.loop_stack.length > 0
  · simp [h]
  · have : s.loop_stack = [] := List.eq_nil_of_length_eq_zero (by omega)
    simp [this]

theorem push_pop_loop_stack (e c : LLVMBasicBlockRef) (s : CodeGen) :
    (pop_loop_context (push_loop_context e c s).2).2.loop_stack =
      if s.loop_stack.length < 32 then s.loop_stack else s.loop_stack.dropLast := by
  rw [pop_loop_context_loop_stack]
  by_cases h : s.loop_stack.length < 32
  · rw [push_loop_context_loop_stack e c s h, if_pos h, List.dropLast_concat]
  · rw [push_loop_context_full e c s h, if_neg h]

theorem current_block_terminated_state (s : CodeGen) : (current_block_terminated s).2 = s := rfl

theorem codegen_while_leave_loop_stack (b : LoopBlocks) (s : CodeGen) :
    (codegen_while_leave b s).2.loop_stack = s.loop_stack.dropLast := by
  simp only [codegen_while_leave, bind, CG.bind, pure, CG.pure, current_block_terminated_state]
  cases (current_block_terminated s).1 <;>
    simp [position_builder_loop_stack, pop_loop_context_loop_stack, build_loop_stack, CG.pure,
      CG.bind, pure, bind]

theorem codegen_while_enter_loop_stack (lower_condition : CG LLVMValueRef) (s : CodeGen)
    (hcond : ∀ t : CodeGen, (lower_condition t).2.loop_stack = t.loop_stack) :
    (codegen_while_enter lower_condition s).2.loop_stack =
      (push_loop_context (s.blocks.length + 2) s.blocks.length s).2.loop_stack := by
  simp only [codegen_while_enter, bind, CG.bind, pure, CG.pure]
  simp only [position_builder_loop_stack, build_loop_stack, hcond, append_basic_block_fst,
    append_basic_block_blocks_length]
  by_cases h : s.loop_stack.length < 32
  · rw [push_loop_context_loop_stack _ _ _ (by simpa [append_basic_block_loop_stack] using h),
      push_loop_context_loop_stack _ _ _ h]
    simp only [append_basic_block_loop_stack]
  · rw [push_loop_context_full _ _ _ (by simpa [append_basic_block_loop_stack] using h),
      push_loop_context_full _ _ _ h]
    simp only [append_basic_block_loop_stack]

theorem codegen_while_loop_stack (lower_condition lower_body : CG LLVMValueRef) (s : CodeGen)
    (hcond : ∀ t : CodeGen, (lower_condition t).2.loop_stack = t.loop_stack)
    (hbody : ∀ t : CodeGen, (lower_body t).2.loop_stack = t.loop_stack) :
    (codegen_while lower_condition lower_body s).2.loop_stack =
      if s.loop_stack.length < 32 then s.loop_stack else s.loop_stack.dropLast := by
  have h : (codegen_while lower_condition lower_body s).2.loop_stack =
      (codegen_while_enter lower_condition s).2.loop_stack.dropLast := by
    simp only [codegen_while, bind, CG.bind]
    rw [codegen_while_leave_loop_stack, hbody]
  rw [h, codegen_while_enter_loop_stack lower_condition s hcond, ← pop_loop_context_loop_stack,
    push_pop_loop_stack]
theorem push_loop_context_stack_of_eq (e c : LLVMBasicBlockRef) (s t : CodeGen)
    (h : s.loop_stack = t.loop_stack) :
    (push_loop_context e c s).2.loop_stack = (push_loop_context e c t).2.loop_stack := by
  unfold push_loop_context
  rw [h]
  by_cases hl : t.loop_stack.length < 32
  · simp [hl, h]
  · simp [hl, h]

theorem option_lower_loop_stack (lower : Option (CG LLVMValueRef))
    (h : ∀ f ∈ lower, ∀ t : CodeGen, (f t).2.loop_stack = t.loop_stack) (s : CodeGen) :
    ((match lower with
      | some f => do
        let _ ← f
        pure ()
      | none => pure () : CG Unit) s).2.loop_stack = s.loop_stack := by
  cases lower with
  | none => rfl
  | some f => exact h f rfl s

theorem codegen_for_enter_loop_stack (lower_init lower_condition : Option (CG LLVMValueRef))
    (s : CodeGen)
    (hinit : ∀ f ∈ lower_init, ∀ t : CodeGen, (f t).2.loop_stack = t.loop_stack)
    (hcond : ∀ f ∈ lower_condition, ∀ t : CodeGen, (f t).2.loop_stack = t.loop_stack) :
    (codegen_for_enter lower_init lower_condition s).2.loop_stack =
      (push_loop_context (s.blocks.length + 4) (s.blocks.length + 3) s).2.loop_stack := by
  cases lower_init with
  | none =>
    cases lower_condition with
    | none =>
      simp only [codegen_for_enter, bind, CG.bind, pure, CG.pure]
      simp only [position_builder_loop_stack, build_loop_stack, append_basic_block_fst,
        append_basic_block_blocks_length]
      exact push_loop_context_stack_of_eq _ _ _ _ rfl
    | some fc =>
      simp only [codegen_for_enter, bind, CG.bind, pure, CG.pure]
      simp only [position_builder_loop_stack, build_loop_stack, append_basic_block_fst,
        append_basic_block_blocks_length, hcond fc rfl]
      exact push_loop_context_stack_of_eq _ _ _ _ rfl
  | some fi =>
    cases lower_condition with
    | none =>
      simp only [codegen_for_enter, bind, CG.bind, pure, CG.pure]
      simp only [position_builder_loop_stack, build_loop_stack, append_basic_block_fst,
        append_basic_block_blocks_length]
      exact push_loop_context_stack_of_eq _ _ _ _ (by
        simp only [build_loop_stack, hinit fi rfl, position_builder_loop_stack,
          append_basic_block_loop_stack])
    | some fc =>
      simp only [codegen_for_enter, bind, CG.bind, pure, CG.pure]
      simp only [position_builder_loop_stack, build_loop_stack, append_basic_block_fst,
        append_basic_block_blocks_length, hcond fc rfl]
      exact push_loop_context_stack_of_eq _ _ _ _ (by
        simp only [build_loop_stack, hinit fi rfl, position_builder_loop_stack,
          append_basic_block_loop_stack])

theorem codegen_for_leave_loop_stack (lower_update : Option (CG LLVMValueRef)) (b : LoopBlocks)
    (s : CodeGen)
    (hupdate : ∀ f ∈ lower_update, ∀ t : CodeGen, (f t).2.loop_stack = t.loop_stack) :
    (codegen_for_leave lower_update b s).2.loop_stack = s.loop_stack.dropLast := by
  cases lower_update with
  | none =>
    simp only [codegen_for_leave, bind, CG.bind, pure, CG.pure, current_block_terminated_state]
    cases (current_block_terminated s).1 <;>
      simp [position_builder_loop_stack, pop_loop_context_loop_stack, build_loop_stack, CG.pure,
        CG.bind, pure, bind]
  | some fu =>
    simp only [codegen_for_leave, bind, CG.bind, pure, CG.pure, current_block_terminated_state]
    cases (current_block_terminated s).1 <;>
      simp [position_builder_loop_stack, pop_loop_context_loop_stack, build_loop_stack, CG.pure,
        CG.bind, pure, bind, hupdate fu rfl]

theorem codegen_for_loop_stack (lower_init lower_condition lower_update : Option (CG LLVMValueRef))
    (lower_body : CG LLVMValueRef) (s : CodeGen)
    (hinit : ∀ f ∈ lower_init, ∀ t : CodeGen, (f t).2.loop_stack = t.loop_stack)
    (hcond : ∀ f ∈ lower_condition, ∀ t : CodeGen, (f t).2.loop_stack = t.loop_stack)
    (hupdate : ∀ f ∈ lower_update, ∀ t : CodeGen, (f t).2.loop_stack = t.loop_stack)
    (hbody : ∀ t : CodeGen, (lower_body t).2.loop_stack = t.loop_stack) :
    (codegen_for lower_init lower_condition lower_update lower_body s).2.loop_stack =
      if s.loop_stack.length < 32 then s.loop_stack else s.loop_stack.dropLast := by
  have h : (codegen_for lower_init lower_condition lower_update lower_body s).2.loop_stack =
      (codegen_for_enter lower_init lower_condition s).2.loop_stack.dropLast := by
    simp only [codegen_for, bind, CG.bind]
    rw [codegen_for_leave_loop_stack _ _ _ hupdate, hbody]
  rw [h, codegen_for_enter_loop_stack lower_init lower_condition s hinit hcond,
    ← pop_loop_context_loop_stack, push_pop_loop_stack]

/-- C35 (code defect): when lowering the parts of a loop leaves the loop stack
as it found it, `codegen_while` and `codegen_for` return with the loop stack
they were called with if `loop_depth < 32`; called with `loop_depth = 32` (the
stack is full) they return with the top entry of the stack removed, because
`push_loop_context` pushes nothing on a full stack and `pop_loop_context` pops
all the same. Likewise `push_loop_context` followed by `pop_loop_context`
restores the stack only below depth 32. -/
theorem loop_context_restored (s : CodeGen) :
    (∀ (e c : LLVMBasicBlockRef),
      (pop_loop_context (push_loop_context e c s).2).2.loop_stack =
        if s.loop_stack.length < 32 then s.loop_stack else s.loop_stack.dropLast) ∧
    (∀ lower_condition lower_body : CG LLVMValueRef,
      (∀ t : CodeGen, (lower_condition t).2.loop_stack = t.loop_stack) →
      (∀ t : CodeGen, (lower_body t).2.loop_stack = t.loop_stack) →
      (codegen_while lower_condition lower_body s).2.loop_stack =
        if s.loop_stack.length < 32 then s.loop_stack else s.loop_stack.dropLast) ∧
    (∀ (lower_init lower_condition lower_update : Option (CG LLVMValueRef))
      (lower_body : CG LLVMValueRef),
      (∀ f ∈ lower_init, ∀ t : CodeGen, (f t).2.loop_stack = t.loop_stack) →
      (∀ f ∈ lower_condition, ∀ t : CodeGen, (f t).2.loop_stack = t.loop_stack) →
      (∀ f ∈ lower_update, ∀ t : CodeGen, (f t).2.loop_stack = t.loop_stack) →
      (∀ t : CodeGen, (lower_body t).2.loop_stack = t.loop_stack) →
      (codegen_for lower_init lower_condition lower_update lower_body s).2.loop_stack =
        if s.loop_stack.length < 32 then s.loop_stack else s.loop_stack.dropLast) :=
  ⟨fun e c => push_pop_loop_stack e c s,
    fun lower_condition lower_body hcond hbody =>
      codegen_while_loop_stack lower_condition lower_body s hcond hbody,
    fun lower_init lower_condition lower_update lower_body hinit hcond hupdate hbody =>
      codegen_for_loop_stack lower_init lower_condition lower_update lower_body s hinit hcond
        hupdate hbody⟩

/-- Witness for C35 at the failing input: inside 32 nested loops the loop stack
is full; lowering one more `while true \x7b \x7d` there returns with depth 31,
and a `break` that follows it in the body of the 32nd loop is lowered (in
block 99, the exit block of the inner loop) to a branch to block 93, the exit
block of the 31st loop, not to block 96, the exit block of the 32nd. -/
theorem loop_context_restored_witness :
    (enter_whiles 32 state_in_main).loop_stack.length = 32 ∧
      (codegen_while (codegen_literal "true".toList "bool".toList) (codegen_block [])
          (enter_whiles 32 state_in_main)).2.loop_stack =
        (enter_whiles 32 state_in_main).loop_stack.dropLast ∧
      (codegen_while (codegen_literal "true".toList "bool".toList) (codegen_block [])
          (enter_whiles 32 state_in_main)).2.loop_stack.length = 31 ∧
      block_branches_to
        (codegen_statement External.idle Registry.initial
          (nested_while 32 (.block [.while_stmt literal_true (.block []), .break_stmt]))
          state_in_main).2 99 93 = true ∧
      block_branches_to
        (codegen_statement External.idle Registry.initial
          (nested_while 32 (.block [.while_stmt literal_true (.block []), .break_stmt]))
          state_in_main).2 99 96 = false :=
  ⟨by decide!,
    ((loop_context_restored (enter_whiles 32 state_in_main)).2.1
      (codegen_literal "true".toList "bool".toList) (codegen_block []) (fun _ => rfl)
      (fun _ => rfl)).trans (if_neg (by decide!)),
    by decide!, by decide!, by decide!⟩
/-! ### C39: the symbol table -/

theorem update_variable_none (name : CStr) (entry : Variable) (vars : List Variable) :
    update_variable name entry vars = none ↔
      vars.find? (fun v => decide (v.name = name)) = none := by
  induction vars with
  | nil => simp [update_variable]
  | cons v rest ih =>
    by_cases h : v.name = name
    · simp [update_variable, List.find?, h]
    · cases hu : update_variable name entry rest with
      | none => simp [update_variable, List.find?, h, hu, ← ih]
      | some r =>
        have : ¬ rest.find? (fun v => decide (v.name = name)) = none := by
          rw [← ih, hu]
          exact fun hx => by cases hx
        simp [update_variable, List.find?, h, hu, this]

theorem update_variable_find (name : CStr) (entry : Variable) (hname : entry.name = name)
    (vars vars1 : List Variable) (h : update_variable name entry vars = some vars1) (n : CStr) :
    vars1.find? (fun v => decide (v.name = n)) =
      if n = name then some entry else vars.find? (fun v => decide (v.name = n)) := by
  induction vars generalizing vars1 with
  | nil => simp [update_variable] at h
  | cons v rest ih =>
    by_cases hv : v.name = name
    · simp only [update_variable, hv, if_true, Option.some.injEq] at h
      subst h
      by_cases hn : n = name
      · simp [List.find?, hn, hname]
      · have h1 : ¬ entry.name = n := by rw [hname]; exact fun hx => hn hx.symm
        have h2 : ¬ v.name = n := by rw [hv]; exact fun hx => hn hx.symm
        simp [List.find?, hn, h1, h2]
    · cases hu : update_variable name entry rest with
      | none => simp [update_variable, hv, hu] at h
      | some r =>
        simp only [update_variable, hv, if_false, hu, Option.some.injEq] at h
        subst h
        have ihr := ih r hu
        by_cases hn : n = name
        · have h2 : ¬ v.name = n := by rw [hn]; exact hv
          simp only [List.find?, h2, decide_False, ihr]
        · by_cases h3 : v.name = n
          · simp [List.find?, h3, hn]
          · simp only [List.find?, h3, decide_False, ihr]

theorem find?_append_singleton (vars : List Variable) (entry : Variable) (name n : CStr)
    (hname : entry.name = name)
    (hnone : vars.find? (fun v => decide (v.name = name)) = none) :
    (vars ++ [entry]).find? (fun v => decide (v.name = n)) =
      if n = name then some entry else vars.find? (fun v => decide (v.name = n)) := by
  rw [List.find?_append]
  by_cases hn : n = name
  · subst hn
    simp [hnone, List.find?, hname]
  · have h1 : ¬ entry.name = n := by rw [hname]; exact fun hx => hn hx.symm
    simp [hn, List.find?, h1]

/-- What `set_variable_with_type` does to the search of the lookups: when the
name is in the table or the table has room, the search for the name finds the
new entry and the search for any other name finds what it found before. -/
theorem set_variable_find (s : CodeGen) (name : CStr) (value : LLVMValueRef) (type : LLVMType)
    (is_mutable : Int) (type_kind : TypeKind)
    (hroom : find_variable s name ≠ none ∨ s.variable_table.length < 256) (n : CStr) :
    find_variable (set_variable_with_type name value type is_mutable type_kind s).2 n =
      if n = name then some ⟨name, value, type, is_mutable, type_kind⟩
      else find_variable s n := by
  cases hu : update_variable name ⟨name, value, type, is_mutable, type_kind⟩ s.variable_table with
  | some vars =>
    have e : (set_variable_with_type name value type is_mutable type_kind s).2.variable_table =
        vars := by
      simp [set_variable_with_type, hu]
    unfold find_variable
    rw [e]
    exact update_variable_find name _ rfl _ _ hu n
  | none =>
    have hnone := (update_variable_none name _ _).1 hu
    have hlt : s.variable_table.length < 256 := by
      rcases hroom with h | h
      · exact absurd hnone h
      · exact h
    have e : (set_variable_with_type name value type is_mutable type_kind s).2.variable_table =
        s.variable_table ++ [⟨name, value, type, is_mutable, type_kind⟩] := by
      simp [set_variable_with_type, hu, hlt]
    unfold find_variable
    rw [e]
    exact find?_append_singleton _ ⟨name, value, type, is_mutable, type_kind⟩ name n rfl hnone

/-- When the table is full and does not hold the name, `set_variable_with_type`
changes nothing. -/
theorem set_variable_full (s : CodeGen) (name : CStr) (value : LLVMValueRef) (type : LLVMType)
    (is_mutable : Int) (type_kind : TypeKind) (hnone : find_variable s name = none)
    (hfull : ¬ s.variable_table.length < 256) :
    set_variable_with_type name value type is_mutable type_kind s = ((), s) := by
  unfold set_variable_with_type
  have hu := (update_variable_none name ⟨name, value, type, is_mutable, type_kind⟩
    s.variable_table).2 hnone
  simp only [hu, hfull, if_false]

/-- C39 (amended): when the name is already in the symbol table or the table
holds fewer than 256 variables, after `set_variable_with_type(n, v, t, m, k)`
the four lookups of `n` return `v`, `t`, `m` and `k`; and in every state
(also with a full table) the lookups of every other name return what they
returned before. -/
theorem set_variable_lookup (s : CodeGen) (n : CStr) (v : LLVMValueRef) (t : LLVMType)
    (m : Int) (k : TypeKind) :
    (find_variable s n ≠ none ∨ s.variable_table.length < 256 →
      get_variable (set_variable_with_type n v t m k s).2 n = v ∧
      get_variable_type (set_variable_with_type n v t m k s).2 n = some t ∧
      get_variable_mutability (set_variable_with_type n v t m k s).2 n = m ∧
      get_variable_type_kind (set_variable_with_type n v t m k s).2 n = k) ∧
    (∀ other : CStr, other ≠ n →
      get_variable (set_variable_with_type n v t m k s).2 other = get_variable s other ∧
      get_variable_type (set_variable_with_type n v t m k s).2 other =
        get_variable_type s other ∧
      get_variable_mutability (set_variable_with_type n v t m k s).2 other =
        get_variable_mutability s other ∧
      get_variable_type_kind (set_variable_with_type n v t m k s).2 other =
        get_variable_type_kind s other) := by
  constructor
  · intro hroom
    have hf := set_variable_find s n v t m k hroom n
    rw [if_pos rfl] at hf
    simp [get_variable, get_variable_type, get_variable_mutability,
      get_variable_type_kind, hf]
  · intro other hne
    have hf : find_variable (set_variable_with_type n v t m k s).2 other =
        find_variable s other := by
      by_cases hroom : find_variable s n ≠ none ∨ s.variable_table.length < 256
      · rw [set_variable_find s n v t m k hroom other, if_neg hne]
      · have h1 : find_variable s n = none := by
          by_contra hx
          exact hroom (Or.inl hx)
        rw [set_variable_full s n v t m k h1 (fun hx => hroom (Or.inr hx))]
    simp [get_variable, get_variable_type, get_variable_mutability,
      get_variable_type_kind, hf]
theorem state_with_variables_table (n : Nat) (hn : n ≤ 256) :
    (state_with_variables n).variable_table =
      (List.range n).map (fun i =>
        (⟨List.replicate (i + 1) 'a', some (.inst i), .int 32, 1, TYPE_I32⟩ : Variable)) := by
  induction n with
  | zero => rfl
  | succ k ih =>
    have ihk := ih (by omega)
    have hnone : find_variable (state_with_variables k) (List.replicate (k + 1) 'a') = none := by
      unfold find_variable
      rw [ihk, List.find?_eq_none]
      intro v hv
      simp only [List.mem_map, List.mem_range] at hv
      obtain ⟨i, hi, rfl⟩ := hv
      simp only [decide_eq_true_eq]
      intro hx
      have := congrArg List.length hx
      simp at this
      omega
    have hu := (update_variable_none (List.replicate (k + 1) 'a')
      ⟨List.replicate (k + 1) 'a', some (.inst k), .int 32, 1, TYPE_I32⟩
      (state_with_variables k).variable_table).2 hnone
    have hlen : (state_with_variables k).variable_table.length < 256 := by
      rw [ihk]
      simp
      omega
    show (set_variable_with_type (List.replicate (k + 1) 'a') (some (.inst k)) (.int 32) 1
      TYPE_I32 (state_with_variables k)).2.variable_table = _
    simp only [set_variable_with_type, hu, hlen, if_true]
    rw [ihk, List.range_succ, List.map_append]
    rfl

theorem set_variable_full_lookup (s : CodeGen) (n : CStr) (v : LLVMValueRef) (t : LLVMType)
    (m : Int) (k : TypeKind) (hnone : find_variable s n = none)
    (hfull : ¬ s.variable_table.length < 256) :
    set_variable_with_type n v t m k s = ((), s) ∧
      get_variable (set_variable_with_type n v t m k s).2 n = none ∧
      get_variable_type_kind (set_variable_with_type n v t m k s).2 n = TYPE_UNKNOWN := by
  have hset := set_variable_full s n v t m k hnone hfull
  rw [hset]
  refine ⟨rfl, ?_, ?_⟩
  · show get_variable s n = none
    unfold get_variable
    rw [hnone]
  · show get_variable_type_kind s n = TYPE_UNKNOWN
    unfold get_variable_type_kind
    rw [hnone]

/-- C39 fails as stated: when the symbol table holds 256 variables, a call of
`set_variable_with_type` with a new name enters nothing, and the lookups of
that name return what they return for an unknown name. -/
theorem symbol_table_full :
    (state_with_variables 256).variable_table.length = 256 ∧
      set_variable_with_type "x".toList (some (.inst 256)) (.int 32) 1 TYPE_I32
        (state_with_variables 256) = ((), state_with_variables 256) ∧
      get_variable (set_variable_with_type "x".toList (some (.inst 256)) (.int 32) 1 TYPE_I32
        (state_with_variables 256)).2 "x".toList = none ∧
      get_variable_type_kind (set_variable_with_type "x".toList (some (.inst 256)) (.int 32) 1
        TYPE_I32 (state_with_variables 256)).2 "x".toList = TYPE_UNKNOWN := by
  have htable := state_with_variables_table 256 (le_refl _)
  have hlen : (state_with_variables 256).variable_table.length = 256 := by
    rw [htable]
    simp
  have hnone : find_variable (state_with_variables 256) "x".toList = none := by
    unfold find_variable
    rw [htable, List.find?_eq_none]
    intro v hv
    simp only [List.mem_map, List.mem_range] at hv
    obtain ⟨i, _, rfl⟩ := hv
    simp only [decide_eq_true_eq]
    intro hx
    have := congrArg List.head? hx
    simp [List.replicate_succ] at this
  exact ⟨hlen, set_variable_full_lookup _ _ _ _ _ _ hnone (by omega)⟩

theorem set_variable_lookup_witness :
    get_variable (set_variable_with_type "x".toList (some (.inst 7)) (.int 32) 1 TYPE_I32
        state_with_const_PI).2 "x".toList = some (.inst 7) ∧
      get_variable_type_kind (set_variable_with_type "x".toList (some (.inst 7)) (.int 32) 1
        TYPE_I32 state_with_const_PI).2 "x".toList = TYPE_I32 ∧
      get_variable_type_kind (set_variable_with_type "x".toList (some (.inst 7)) (.int 32) 1
        TYPE_I32 state_with_const_PI).2 "PI".toList =
          get_variable_type_kind state_with_const_PI "PI".toList :=
  ⟨((set_variable_lookup state_with_const_PI "x".toList (some (.inst 7)) (.int 32) 1
      TYPE_I32).1 (Or.inr (by decide))).1,
    ((set_variable_lookup state_with_const_PI "x".toList (some (.inst 7)) (.int 32) 1
      TYPE_I32).1 (Or.inr (by decide))).2.2.2,
    ((set_variable_lookup state_with_const_PI "x".toList (some (.inst 7)) (.int 32) 1
      TYPE_I32).2 "PI".toList (by decide)).2.2.2⟩
/-! ### C40: record ids -/

/-- C40 (code defect): after any `n` registrations the next call of
`register_struct_type` returns the id `TYPE_STRUCT_START + n`, which differs
from every id returned earlier, and `get_struct_type` of it returns the entry
that call registered; but the id satisfies `is_struct_type` only for `n < 55`,
and the 56th call (`n = 55`) returns `TYPE_UNKNOWN` itself. -/
theorem registered_id_usable (calls : List (CStr × List StructField)) (name : CStr)
    (fs : List StructField) :
    (register_struct_type (register_all calls) name fs).2 = TYPE_STRUCT_START + calls.length ∧
      (∀ (i : Nat) (hi : i < (register_all calls).registered_structs.length),
        ((register_all calls).registered_structs.get ⟨i, hi⟩).type_id ≠
          (register_struct_type (register_all calls) name fs).2) ∧
      (∃ st : StructType,
        (register_struct_type (register_all calls) name fs).1.registered_structs =
          (register_all calls).registered_structs ++ [st] ∧
        get_struct_type (register_struct_type (register_all calls) name fs).1
          (register_struct_type (register_all calls) name fs).2 = some st) ∧
      (is_struct_type (register_struct_type (register_all calls) name fs).2 = true ↔
        calls.length < 55) ∧
      ((register_struct_type (register_all calls) name fs).2 = TYPE_UNKNOWN ↔
        calls.length = 55) := by
  have hr := register_all_reachable calls
  have hcount : (register_all calls).registered_structs.length = calls.length :=
    register_all_count calls
  obtain ⟨hnext, hids⟩ := reachable_ids _ hr
  have hid : (register_struct_type (register_all calls) name fs).2 =
      TYPE_STRUCT_START + calls.length := by
    show (register_all calls).next_struct_type_id = _
    rw [hnext, hcount]
  have hr2 := Registry.Reachable.register _ name fs hr
  have hlen2 : (register_struct_type (register_all calls) name fs).1.registered_structs.length =
      calls.length + 1 := by
    simp [register_struct_type, hcount]
  refine ⟨hid, ?_, ?_, ?_, ?_⟩
  · intro i hi
    rw [hids i hi, hid]
    simp only [TYPE_STRUCT_START, TypeKind]
    omega
  · refine ⟨⟨name, (register_all calls).next_struct_type_id, (register_fields 0 fs).1,
      (register_fields 0 fs).2⟩, rfl, ?_⟩
    have h := get_struct_type_reachable _ hr2 calls.length (by rw [hlen2]; omega)
    rw [hid, h]
    simp [register_struct_type, hcount]
  · rw [hid]
    simp only [is_struct_type, TYPE_STRUCT_START, TYPE_UNKNOWN, TypeKind, Bool.and_eq_true,
      decide_eq_true_eq]
    omega
  · rw [hid]
    simp only [TYPE_STRUCT_START, TYPE_UNKNOWN, TypeKind]
    omega

theorem registered_id_usable_witness :
    (register_struct_type (register_all (List.replicate 55 ("S".toList, []))) "Last".toList
        []).2 = TYPE_UNKNOWN ∧
      is_struct_type (register_struct_type (register_all (List.replicate 55 ("S".toList, [])))
        "Last".toList []).2 = false :=
  ⟨(registered_id_usable (List.replicate 55 ("S".toList, [])) "Last".toList []).2.2.2.2.2
      (by decide),
    by
      have h := (registered_id_usable (List.replicate 55 ("S".toList, [])) "Last".toList
        []).2.2.2.1
      cases hb : is_struct_type (register_struct_type
        (register_all (List.replicate 55 ("S".toList, []))) "Last".toList []).2 with
      | false => rfl
      | true => exact absurd (h.1 hb) (by decide)⟩

theorem line_after_snoc (s : CStr) (c : Char) :
    line_after (s ++ [c]) = if c = '\n' then line_after s + 1 else line_after s := by
  unfold line_after
  by_cases h : c = '\n'
  · subst h
    simp [List.count_append]
    omega
  · have h2 : ¬ ('\n' = c) := fun hx => h hx.symm
    simp [List.count_append, h, List.count_singleton, h2]

theorem column_after_snoc (s : CStr) (c : Char) :
    column_after (s ++ [c]) = if c = '\n' then 1 else column_after s + 1 := by
  unfold column_after
  by_cases h : c = '\n'
  · subst h
    simp [List.takeWhile_cons]
  · simp [List.takeWhile_cons, h]
    omega

theorem take_succ_of_at (l : Lexer) (input r : CStr) (c : Char) (h : l.At input (c :: r)) :
    input.take (l.position + 1) = input.take l.position ++ [c] := by
  obtain ⟨_, h2, h3, _⟩ := h
  have hlt : l.position < input.length := by
    simp only [List.length_cons] at h2
    omega
  rw [List.take_succ]
  congr 1
  have hget : input[l.position]? = some c := by
    have : (input.drop l.position)[0]? = some c := by rw [h3]; simp
    simpa using this
  rw [hget]
  rfl

theorem tracks_create (input : CStr) : (create_lexer input).Tracks := by
  constructor <;> simp [create_lexer, line_after, column_after]

theorem tracks_advance (l : Lexer) (input r : CStr) (c : Char) (h : l.At input (c :: r))
    (ht : l.Tracks) : (advance l).Tracks := by
  have hc : l.current_char = c := by simpa using h.2.2.2
  have htake := take_succ_of_at l input r c h
  have hin : l.input = input := h.1
  obtain ⟨t1, t2⟩ := ht
  constructor
  · show (if l.current_char = '\n' then l.line + 1 else l.line) =
      line_after (l.input.take (l.position + 1))
    rw [hin, htake, line_after_snoc, hc, t1, hin]
  · show (if l.current_char = '\n' then 1 else l.column + 1) =
      column_after (l.input.take (l.position + 1))
    rw [hin, htake, column_after_snoc, hc, t2, hin]

theorem iterate_advance_position (n : Nat) (l : Lexer) :
    (Nat.iterate advance n l).position = l.position + n := by
  induction n generalizing l with
  | zero => rfl
  | succ k ih =>
    rw [Function.iterate_succ_apply, ih]
    show l.position + 1 + k = l.position + (k + 1)
    omega

theorem tracks_iterate (n : Nat) :
    ∀ (l : Lexer) (input r : CStr), l.At input r → l.Tracks → n ≤ r.length →
      (Nat.iterate advance n l).Tracks := by
  induction n with
  | zero => intro l input r _ ht _; exact ht
  | succ k ih =>
    intro l input r h ht hn
    cases r with
    | nil => simp at hn
    | cons c rest =>
      rw [Function.iterate_succ_apply]
      exact ih (advance l) input rest (at_advance l input rest c h)
        (tracks_advance l input rest c h ht) (by simpa using hn)

/-- The lexer `l2` is `l` after some number of `advance` calls. -/
theorem steps_advance_while (cond : Char → Bool) (fuel : Nat) :
    ∀ l : Lexer, ∃ n, advance_while cond fuel l = Nat.iterate advance n l := by
  induction fuel with
  | zero => intro l; exact ⟨0, rfl⟩
  | succ k ih =>
    intro l
    by_cases h : l.current_char ≠ NUL ∧ cond l.current_char = true
    · obtain ⟨n, hn⟩ := ih (advance l)
      refine ⟨n + 1, ?_⟩
      rw [advance_while, if_pos h, hn, Function.iterate_succ_apply]
    · refine ⟨0, ?_⟩
      rw [advance_while, if_neg h]
      rfl

theorem steps_trans (l : Lexer) (n : Nat) (f : Lexer → Lexer)
    (hf : ∀ x : Lexer, ∃ m, f x = Nat.iterate advance m x) :
    ∃ m, f (Nat.iterate advance n l) = Nat.iterate advance m l := by
  obtain ⟨m, hm⟩ := hf (Nat.iterate advance n l)
  refine ⟨m + n, ?_⟩
  rw [hm, Function.iterate_add_apply]

theorem steps_skip_whitespace (l : Lexer) :
    ∃ n, skip_whitespace l = Nat.iterate advance n l :=
  steps_advance_while _ _ l

theorem steps_skip_comment (l : Lexer) : ∃ n, skip_comment l = Nat.iterate advance n l := by
  unfold skip_comment
  by_cases h : l.current_char = '/' ∧ peek l = '/'
  · rw [if_pos h]
    exact steps_trans l 2 _ (fun x => steps_advance_while _ _ x) |>.imp (fun m hm => by
      simpa using hm)
  · rw [if_neg h]
    exact ⟨0, rfl⟩
theorem steps_of_pair (l : Lexer) (f g : Lexer → Lexer)
    (hf : ∀ x : Lexer, ∃ m, f x = Nat.iterate advance m x)
    (hg : ∀ x : Lexer, ∃ m, g x = Nat.iterate advance m x) :
    ∃ m, g (f l) = Nat.iterate advance m l := by
  obtain ⟨n, hn⟩ := hf l
  rw [hn]
  exact steps_trans l n g hg

theorem steps_advance (l : Lexer) : ∃ m, advance l = Nat.iterate advance m l := ⟨1, rfl⟩

theorem steps_refl (l : Lexer) : ∃ m, l = Nat.iterate advance m l := ⟨0, rfl⟩

theorem steps_read_string (l : Lexer) : ∃ n, (read_string l).2 = Nat.iterate advance n l := by
  show ∃ n, (if (advance_while (fun x => decide (x ≠ '"')) (advance l).input.length
      (advance l)).current_char = '"' then advance (advance_while (fun x => decide (x ≠ '"'))
      (advance l).input.length (advance l)) else advance_while (fun x => decide (x ≠ '"'))
      (advance l).input.length (advance l)) = Nat.iterate advance n l
  have h1 : ∃ m, advance_while (fun x => decide (x ≠ '"')) (advance l).input.length
      (advance l) = Nat.iterate advance m l :=
    steps_of_pair l advance (fun x => advance_while (fun x => decide (x ≠ '"'))
      (advance l).input.length x) steps_advance (fun x => steps_advance_while _ _ x)
  split_ifs
  · obtain ⟨m, hm⟩ := h1
    exact ⟨m + 1, by rw [hm, Function.iterate_succ_apply']⟩
  · exact h1

theorem steps_read_number (l : Lexer) : ∃ n, (read_number l).2 = Nat.iterate advance n l :=
  steps_advance_while _ _ l

theorem steps_read_identifier (l : Lexer) :
    ∃ n, (read_identifier l).2 = Nat.iterate advance n l :=
  steps_advance_while _ _ l

theorem steps_read_float (l : Lexer) : ∃ n, (read_float l).2 = Nat.iterate advance n l := by
  show ∃ n, (if (advance_while isdigit l.input.length l).current_char = '.' then
      advance_while isdigit (advance_while isdigit l.input.length l).input.length
        (advance (advance_while isdigit l.input.length l))
    else advance_while isdigit l.input.length l) = Nat.iterate advance n l
  have h1 := steps_advance_while isdigit l.input.length l
  split_ifs
  · obtain ⟨m, hm⟩ := h1
    obtain ⟨k, hk⟩ := steps_of_pair (advance_while isdigit l.input.length l) advance
      (fun x => advance_while isdigit (advance_while isdigit l.input.length l).input.length x)
      steps_advance (fun x => steps_advance_while _ _ x)
    refine ⟨k + m, ?_⟩
    rw [hk, hm, Function.iterate_add_apply]
  · exact h1

theorem ite_pred {α : Type} {p : Prop} [Decidable p] (P : α → Prop) {a b : α} (ha : P a)
    (hb : P b) : P (if p then a else b) := by
  by_cases h : p
  · rw [if_pos h]; exact ha
  · rw [if_neg h]; exact hb

theorem steps_next_token_punct (l : Lexer) (line column : Int) :
    ∃ n, (next_token_punct l line column).2 = Nat.iterate advance n l := by
  have h1 : ∃ n, advance l = Nat.iterate advance n l := ⟨1, rfl⟩
  have h2 : ∃ n, advance (advance l) = Nat.iterate advance n l := ⟨2, rfl⟩
  unfold next_token_punct
  dsimp only
  repeat' (first
    | exact h1
    | exact h2
    | refine ite_pred (fun x : Token × Lexer => ∃ n, x.2 = Nat.iterate advance n l) ?_ ?_)

theorem steps_next_token_loop (line column : Int) (fuel : Nat) :
    ∀ l : Lexer, ∃ n, (next_token_loop line column fuel l).2 = Nat.iterate advance n l := by
  induction fuel with
  | zero => intro l; exact ⟨0, rfl⟩
  | succ k ih =>
    intro l
    rw [next_token_loop]
    dsimp only
    by_cases c0 : l.current_char = NUL
    · rw [if_pos c0]; exact ⟨0, rfl⟩
    rw [if_neg c0]
    by_cases c1 : l.current_char = ' ' ∨ l.current_char = '\t' ∨ l.current_char = '\r'
    · rw [if_pos c1]
      exact steps_of_pair l skip_whitespace (fun x => (next_token_loop line column k x).2)
        steps_skip_whitespace ih
    rw [if_neg c1]
    by_cases c2 : l.current_char = '\n'
    · rw [if_pos c2]; exact ⟨1, rfl⟩
    rw [if_neg c2]
    by_cases c3 : l.current_char = '/' ∧ peek l = '/'
    · rw [if_pos c3]
      exact steps_of_pair l skip_comment (fun x => (next_token_loop line column k x).2)
        steps_skip_comment ih
    rw [if_neg c3]
    by_cases c4 : l.current_char = '"'
    · rw [if_pos c4]; exact steps_read_string l
    rw [if_neg c4]
    by_cases c5 : isdigit l.current_char = true
    · rw [if_pos c5]
      by_cases c6 : has_decimal_scan (l.input.drop l.position) = true
      · rw [if_pos c6]; exact steps_read_float l
      · rw [if_neg c6]; exact steps_read_number l
    rw [if_neg c5]
    by_cases c7 : (isalpha l.current_char || decide (l.current_char = '_')) = true
    · rw [if_pos c7]; exact steps_read_identifier l
    rw [if_neg c7]
    exact steps_next_token_punct l line column

theorem steps_next_token (l : Lexer) : ∃ n, (next_token l).2 = Nat.iterate advance n l :=
  steps_next_token_loop _ _ _ l

theorem tracks_next_token (l : Lexer) (input r : CStr) (h : l.At input r) (ht : l.Tracks)
    (hnul : NUL ∉ input) : (next_token l).2.Tracks := by
  obtain ⟨n, hn⟩ := steps_next_token l
  have hrest := next_token_rest l input r h hnul
  have hpos : (next_token l).2.position = l.position + n := by
    rw [hn, iterate_advance_position]
  have h1 := h.2.1
  have h2 := hrest.2.1
  rw [hn]
  exact tracks_iterate n l input r h ht (by omega)

theorem lexer_after_succ (input : CStr) (n : Nat) :
    lexer_after input (n + 1) = (next_token (lexer_after input n)).2 := by
  unfold lexer_after
  rw [Function.iterate_succ_apply']

theorem lexer_after_invariant (input : CStr) (hnul : NUL ∉ input) (n : Nat) :
    (lexer_after input n).At input (lexer_after input n).remaining ∧
      (lexer_after input n).Tracks := by
  induction n with
  | zero =>
    have h := at_create input
    have hr : (create_lexer input).remaining = input := at_remaining _ _ _ h
    exact ⟨by show (create_lexer input).At input (create_lexer input).remaining; rw [hr]; exact h,
      tracks_create input⟩
  | succ k ih =>
    obtain ⟨h1, h2⟩ := ih
    rw [lexer_after_succ]
    have hrest := next_token_rest _ input _ h1 hnul
    have hr := at_remaining _ _ _ hrest
    refine ⟨by rw [hr]; exact hrest, tracks_next_token _ input _ h1 h2 hnul⟩
theorem token_start_split (r : CStr) :
    ∃ skipped, r = skipped ++ token_start r ∧ '\n' ∉ skipped := by
  induction r with
  | nil => exact ⟨[], rfl, by simp⟩
  | cons c rest ih =>
    rw [token_start]
    by_cases hb : c = ' ' ∨ c = '\t' ∨ c = '\r'
    · rw [if_pos hb]
      obtain ⟨sk, h1, h2⟩ := ih
      refine ⟨c :: sk, by rw [List.cons_append, ← h1], ?_⟩
      intro hx
      rcases List.mem_cons.1 hx with h | h
      · rcases hb with e | e | e <;> rw [e] at h <;> exact absurd h (by decide)
      · exact h2 h
    rw [if_neg hb]
    by_cases hcm : c = '/' ∧ rest.headD NUL = '/'
    · rw [if_pos hcm]
      refine ⟨c :: rest.takeWhile (fun x => decide (x ≠ '\n')),
        by rw [List.cons_append, List.takeWhile_append_dropWhile], ?_⟩
      intro hx
      rcases List.mem_cons.1 hx with h | h
      · rw [hcm.1] at h
        exact absurd h (by decide)
      · have := List.mem_takeWhile_imp h
        simp at this
    · rw [if_neg hcm]
      exact ⟨[], rfl, by simp⟩

theorem scan_token_start (r : CStr) : scan (token_start r) = scan r := by
  induction r with
  | nil => rfl
  | cons c rest ih =>
    rw [token_start]
    by_cases hb : c = ' ' ∨ c = '\t' ∨ c = '\r'
    · rw [if_pos hb, ih, scan, if_pos hb]
    rw [if_neg hb]
    by_cases hcm : c = '/' ∧ rest.headD NUL = '/'
    · have hn : ¬ c = '\n' := by rw [hcm.1]; decide
      rw [if_pos hcm, scan_comment_eq, scan, if_neg hb, if_neg hn, if_pos hcm]
    · rw [if_neg hcm]

theorem line_after_append (a sk : CStr) (h : '\n' ∉ sk) :
    line_after (a ++ sk) = line_after a := by
  unfold line_after
  rw [List.count_append, List.count_eq_zero.2 h]
  rfl

theorem column_after_append (a sk : CStr) (h : '\n' ∉ sk) :
    column_after (a ++ sk) = column_after a + (sk.length : Nat) := by
  unfold column_after
  rw [List.reverse_append, List.takeWhile_append_of_pos (by
    intro x hx
    have hne : x ≠ '\n' := fun e => h (e ▸ List.mem_reverse.1 hx)
    simpa using hne)]
  simp only [List.length_append, List.length_reverse, Nat.cast_add]
  omega

/-- The token of a lexer that satisfies the position invariant: its line and
column are those of the lexer, and the bytes skipped before its first byte
hold no newline. -/
theorem token_position (l : Lexer) (input r : CStr) (h : l.At input r) (ht : l.Tracks)
    (hnul : NUL ∉ input) :
    (next_token l).1.line = line_after (input.take (token_offset l)) ∧
      (next_token l).1.column = column_after (input.take l.position) ∧
      column_after (input.take (token_offset l)) =
        (next_token l).1.column + ((token_offset l - l.position : Nat) : Int) := by
  have hs := (next_token_scan l input r h hnul).1
  have hline : (next_token l).1.line = l.line := by rw [hs]
  have hcol : (next_token l).1.column = l.column := by rw [hs]
  have hrem := at_remaining l input r h
  obtain ⟨hin, hlen, hdrop, _⟩ := h
  obtain ⟨t1, t2⟩ := ht
  rw [hin] at t1 t2
  obtain ⟨sk, hsplit, hsk⟩ := token_start_split r
  have hrl : r.length = sk.length + (token_start r).length := by
    conv_lhs => rw [hsplit]
    simp
  have hoff : token_offset l = l.position + sk.length := by
    unfold token_offset
    rw [hrem, hin]
    omega
  have htake : input.take (l.position + sk.length) = input.take l.position ++ sk := by
    rw [List.take_add, hdrop]
    congr 1
    conv_lhs => rw [hsplit]
    simp
  refine ⟨?_, ?_, ?_⟩
  · rw [hline, t1, hoff, htake, line_after_append _ _ hsk]
  · rw [hcol, t2]
  · rw [hcol, t2, hoff, htake, column_after_append _ _ hsk]
    simp
/-! ### C31, C32: token positions -/

/-- C31: for every input and every `n`, the token returned by the `n + 1`-th
call of `next_token` (Newline and EOF tokens included) has as its line 1 + the
number of newlines that precede the token's first byte in the input. -/
theorem token_line_exact (input : CStr) (hnul : NUL ∉ input) (n : Nat) :
    (next_token (lexer_after input n)).1.line =
      line_after (input.take (token_offset (lexer_after input n))) := by
  obtain ⟨h1, h2⟩ := lexer_after_invariant input hnul n
  exact (token_position _ input _ h1 h2 hnul).1

theorem token_line_exact_witness :
    NUL ∉ "a\n \x22x\ny\x22 // c\n  b".toList ∧
      (next_token (lexer_after "a\n \x22x\ny\x22 // c\n  b".toList 4)).1.line =
        line_after ("a\n \x22x\ny\x22 // c\n  b".toList.take
          (token_offset (lexer_after "a\n \x22x\ny\x22 // c\n  b".toList 4))) ∧
      (next_token (lexer_after "a\n \x22x\ny\x22 // c\n  b".toList 4)).1 =
        ⟨TOKEN_IDENTIFIER, ['b'], 4, 1⟩ ∧
      token_offset (lexer_after "a\n \x22x\ny\x22 // c\n  b".toList 4) = 16 :=
  ⟨by decide, token_line_exact _ (by decide) 4, by decide, by decide⟩

/-- C32 (code defect): the column of the token returned by the `n + 1`-th call
of `next_token` is the column of the byte at which that call started (the byte
after the previous token), not of the token's first byte: the column of the
token's first byte is the token's column plus the number of bytes (spaces,
tabs, carriage returns, comment) skipped before the token. -/
theorem token_column_recorded (input : CStr) (hnul : NUL ∉ input) (n : Nat) :
    (next_token (lexer_after input n)).1.column =
        column_after (input.take (lexer_after input n).position) ∧
      column_after (input.take (token_offset (lexer_after input n))) =
        (next_token (lexer_after input n)).1.column +
          ((token_offset (lexer_after input n) - (lexer_after input n).position : Nat) : Int) := by
  obtain ⟨h1, h2⟩ := lexer_after_invariant input hnul n
  exact (token_position _ input _ h1 h2 hnul).2

/-- Witness for C32 at the failing input `  x`: the identifier `x` is the
third byte of its line and its token has column 1. -/
theorem token_column_recorded_witness :
    (next_token (lexer_after "  x".toList 0)).1 = ⟨TOKEN_IDENTIFIER, ['x'], 1, 1⟩ ∧
      token_offset (lexer_after "  x".toList 0) = 2 ∧
      column_after ("  x".toList.take (token_offset (lexer_after "  x".toList 0))) = 3 ∧
      (next_token (lexer_after "  x".toList 0)).1.column =
        column_after ("  x".toList.take (lexer_after "  x".toList 0).position) :=
  ⟨by decide, by decide, by decide, (token_column_recorded "  x".toList (by decide) 0).1⟩

/-! ### C37: expression statements -/

theorem statement_of_identifier (reg : Registry) (p : Parser) (fuel : Nat)
    (h : p.current_token.type = TOKEN_IDENTIFIER) :
    parse_statement reg (fuel + 1) p = parse_expression_statement reg fuel p := by
  simp [parse_statement, bind, PM.bind, current_type, h]

/-- C37 (code defect): a statement that starts with an identifier followed by
`*`, `/` or a comparison operator is not parsed as an expression:
`parse_statement` exits with `expected TOKEN_SEMICOLON` at the operator; and one
that starts with `IDENT . IDENT` not followed by `(` exits with the message
"Field access not implemented". -/
theorem identifier_statement_not_expression (reg : Registry) (p : Parser) (fuel : Nat)
    (h : p.current_token.type = TOKEN_IDENTIFIER) :
    ((after_eat p).current_token.type ∈
        [TOKEN_MULTIPLY, TOKEN_DIVIDE, TOKEN_EQ, TOKEN_NE, TOKEN_LT, TOKEN_GT, TOKEN_LE,
          TOKEN_GE] →
      parse_statement reg (fuel + 2) p =
        .exit1 (.expected TOKEN_SEMICOLON (after_eat p).current_token.type
          (after_eat p).current_token.line)) ∧
    ((after_eat p).current_token.type = TOKEN_DOT →
      (after_eat (after_eat p)).current_token.type = TOKEN_IDENTIFIER →
      (after_eat (after_eat (after_eat p))).current_token.type ≠ TOKEN_LPAREN →
      parse_statement reg (fuel + 1) p =
        .exit1 (.message "Field access not implemented"
          (after_eat (after_eat (after_eat p))).current_token.line
          (after_eat (after_eat (after_eat p))).current_token.column)) := by
  constructor
  · intro ht
    rw [statement_of_identifier reg p (fuel + 1) h]
    have hm : ¬ p.current_token.type = TOKEN_MULTIPLY := by rw [h]; decide
    generalize hq : (after_eat p).current_token.type = t at ht
    have hne : t ≠ TOKEN_ASSIGN ∧ t ≠ TOKEN_DOT ∧ t ≠ TOKEN_LPAREN ∧ t ≠ TOKEN_PLUS ∧
        t ≠ TOKEN_MINUS ∧ t ≠ TOKEN_SEMICOLON := by
      simp only [List.mem_cons, List.mem_singleton, List.not_mem_nil, or_false] at ht
      rcases ht with e | e | e | e | e | e | e | e <;> (rw [e]; decide)
    obtain ⟨n1, n2, n3, n4, n5, n6⟩ := hne
    have hq2 : (next_token p.lexer).1.type = t := hq
    have hl : (after_eat p).current_token.line = (next_token p.lexer).1.line := rfl
    simp [parse_expression_statement, bind, PM.bind, current_token, current_type, h,
      eat_current p TOKEN_IDENTIFIER h, hq2, hl, n1, n2, n3, n4, n5,
      parse_additive_continuation, pure, PM.pure, eat, n6, after_eat]
  · intro h1 h2 h3
    rw [statement_of_identifier reg p fuel h]
    simp [parse_expression_statement, bind, PM.bind, current_token, current_type, h,
      eat_current p TOKEN_IDENTIFIER h, h1, eat_current (after_eat p) TOKEN_DOT h1, h2,
      eat_current (after_eat (after_eat p)) TOKEN_IDENTIFIER h2, h3, parser_error]

/-- Witness for C37 at the failing inputs `a * b;`, `a == b;`, `obj.field;` and
`obj.method(x);`: `parse_expression` followed by `eat(;)` returns the BinaryOp,
FieldAccess and MethodCall nodes, and `parse_statement` exits on the first
three and returns a Call node without the object on the fourth. -/
theorem identifier_statement_not_expression_witness :
    (parse_statement Registry.initial 16 (parser_at "a * b;") =
        .exit1 (.expected TOKEN_SEMICOLON TOKEN_MULTIPLY 1) ∧
      (parse_expression_then_semicolon Registry.initial 16 (parser_at "a * b;")).value =
        some (.binary_op OP_MUL (ident "a") (ident "b") TYPE_UNKNOWN)) ∧
    (parse_statement Registry.initial 16 (parser_at "a == b;") =
        .exit1 (.expected TOKEN_SEMICOLON TOKEN_EQ 1) ∧
      (parse_expression_then_semicolon Registry.initial 16 (parser_at "a == b;")).value =
        some (.binary_op OP_EQ (ident "a") (ident "b") TYPE_UNKNOWN)) ∧
    (parse_statement Registry.initial 16 (parser_at "obj.field;") =
        .exit1 (.message "Field access not implemented" 1 10) ∧
      (parse_expression_then_semicolon Registry.initial 16 (parser_at "obj.field;")).value =
        some (.field_access (ident "obj") "field".toList TYPE_UNKNOWN)) ∧
    ((parse_statement Registry.initial 16 (parser_at "obj.method(x);")).value =
        some (.call "method".toList [ident "x"]) ∧
      (parse_expression_then_semicolon Registry.initial 16 (parser_at "obj.method(x);")).value =
        some (.method_call (ident "obj") "method".toList [ident "x"] TYPE_UNKNOWN)) :=
  ⟨⟨((identifier_statement_not_expression Registry.initial (parser_at "a * b;") 14 rfl).1
      (by decide)).trans rfl, rfl⟩,
    ⟨((identifier_statement_not_expression Registry.initial (parser_at "a == b;") 14 rfl).1
      (by decide)).trans rfl, rfl⟩,
    ⟨((identifier_statement_not_expression Registry.initial (parser_at "obj.field;") 15 rfl).2
      rfl rfl (by decide)).trans rfl, rfl⟩,
    ⟨rfl, rfl⟩⟩
/-! ### C38: declared types -/

theorem resolve_types_list_parameters (reg : Registry) (params : List ASTNode)
    (h : ∀ p ∈ params, ∃ n t r, p = ASTNode.parameter n t r) :
    resolve_types_list reg params = (reg, params) := by
  induction params with
  | nil => simp [resolve_types_list]
  | cons p rest ih =>
    obtain ⟨n, t, r, rfl⟩ := h _ (List.mem_cons_self _ _)
    have ihr := ih (fun q hq => h q (List.mem_cons_of_mem _ hq))
    simp [resolve_types_list, resolve_types, ihr]

/-- C38 (code defect): `resolve_types` re-resolves the declared type text of a
VarDecl and of a StructField against the registry as it stands when the node is
visited, and does not touch a Param: the Param nodes of a function or method
come out of the resolver as they went in, with the `resolved_type` that
`create_parameter_node` computed when the parameter was parsed. -/
theorem declared_types_resolved (reg : Registry) :
    (∀ (name type : CStr),
      create_parameter_node reg name type = .parameter name type (string_to_type reg type)) ∧
    (∀ (name type : CStr) (resolved_type : TypeKind),
      resolve_types reg (.parameter name type resolved_type) =
        (reg, .parameter name type resolved_type)) ∧
    (∀ (name return_type : CStr) (params : List ASTNode) (body : Option ASTNode),
      (∀ p ∈ params, ∃ n t r, p = ASTNode.parameter n t r) →
      resolve_types reg (.function name return_type params body) =
        ((resolve_types_opt reg body).1,
          .function name return_type params (resolve_types_opt reg body).2)) ∧
    (∀ (name return_type : CStr) (params : List ASTNode) (body : Option ASTNode)
      (visibility : Visibility),
      (∀ p ∈ params, ∃ n t r, p = ASTNode.parameter n t r) →
      resolve_types reg (.struct_method name return_type params body visibility) =
        ((resolve_types_opt reg body).1,
          .struct_method name return_type params (resolve_types_opt reg body).2 visibility)) ∧
    (∀ (name type : CStr) (value : Option ASTNode) (is_mutable : Int) (resolved_type : TypeKind),
      (resolve_types reg (.variable_decl name type value is_mutable resolved_type)).2 =
        .variable_decl name type (resolve_types_opt reg value).2 is_mutable
          (string_to_type reg type)) ∧
    (∀ (name type : CStr) (resolved_type : TypeKind),
      resolve_types reg (.struct_field name type resolved_type) =
        (reg, .struct_field name type (string_to_type reg type))) := by
  refine ⟨fun _ _ => rfl, fun _ _ _ => by simp [resolve_types], ?_, ?_,
    fun _ _ _ _ _ => by simp [resolve_types], fun _ _ _ => by simp [resolve_types]⟩
  · intro name return_type params body h
    simp [resolve_types, resolve_types_list_parameters reg params h]
  · intro name return_type params body visibility h
    simp [resolve_types, resolve_types_list_parameters reg params h]

/-- Witness for C38 at the failing input `record_parameter_source`: after the
resolver the record `P` has the id 200 in the registry, the local `q: P` is
resolved to 200, and the parameter `p: P` still has TYPE_UNKNOWN, so the
declared types are not all resolved against the final registry. -/
theorem declared_types_resolved_witness :
    (parse_source Registry.initial record_parameter_source).is_ok = true ∧
    string_to_type
      (resolve_types Registry.initial
        (parsed_program Registry.initial record_parameter_source)).1 "P".toList = 200 ∧
    visited_all (variable_resolved_as 200)
      (resolve_types Registry.initial
        (parsed_program Registry.initial record_parameter_source)).2 = true ∧
    visited_all (parameter_resolved_as TYPE_UNKNOWN)
      (resolve_types Registry.initial
        (parsed_program Registry.initial record_parameter_source)).2 = true ∧
    visited_all
      (declared_type_resolved
        (resolve_types Registry.initial
          (parsed_program Registry.initial record_parameter_source)).1)
      (resolve_types Registry.initial
        (parsed_program Registry.initial record_parameter_source)).2 = false ∧
    resolve_types Registry.initial (.parameter "p".toList "P".toList TYPE_UNKNOWN) =
      (Registry.initial, .parameter "p".toList "P".toList TYPE_UNKNOWN) :=
  ⟨by decide!, by decide!, by decide!, by decide!, by decide!,
    (declared_types_resolved Registry.initial).2.1 "p".toList "P".toList TYPE_UNKNOWN⟩

/-! ### C36: the symbol table across functions -/

theorem build_variable_table (i : Instr) (s : CodeGen) :
    (build i s).2.variable_table = s.variable_table := rfl

theorem update_variable_length (name : CStr) :
    ∀ (vs ws : List Variable) (e : Variable),
      update_variable name e vs = some ws → ws.length = vs.length := by
  intro vs
  induction vs with
  | nil => intro ws e h; simp [update_variable] at h
  | cons v rest ih =>
    intro ws e h
    by_cases hv : v.name = name
    · simp only [update_variable, hv, if_true, Option.some.injEq] at h
      rw [← h]
      simp
    · cases hr : update_variable name e rest with
      | none => simp [update_variable, hv, hr] at h
      | some r =>
        simp only [update_variable, hv, if_false, hr, Option.some.injEq] at h
        rw [← h]
        simp [ih r e hr]

theorem set_variable_length (name : CStr) (value : LLVMValueRef) (type : LLVMType)
    (is_mutable : Int) (type_kind : TypeKind) (s : CodeGen) :
    (set_variable_with_type name value type is_mutable type_kind s).2.variable_table.length ≤
      s.variable_table.length + 1 := by
  cases hu : update_variable name ⟨name, value, type, is_mutable, type_kind⟩ s.variable_table with
  | some vars =>
    have e : (set_variable_with_type name value type is_mutable type_kind s).2.variable_table =
        vars := by
      simp [set_variable_with_type, hu]
    rw [e, update_variable_length name _ _ _ hu]
    omega
  | none =>
    by_cases hlt : s.variable_table.length < 256
    · have e : (set_variable_with_type name value type is_mutable type_kind s).2.variable_table =
          s.variable_table ++ [⟨name, value, type, is_mutable, type_kind⟩] := by
        simp [set_variable_with_type, hu, hlt]
      rw [e]
      simp
    · have e : (set_variable_with_type name value type is_mutable type_kind s).2.variable_table =
          s.variable_table := by
        simp [set_variable_with_type, hu, hlt]
      rw [e]
      omega

theorem set_variable_keeps (name : CStr) (value : LLVMValueRef) (type : LLVMType)
    (is_mutable : Int) (type_kind : TypeKind) (s : CodeGen) (n : CStr)
    (h : find_variable s n ≠ none) :
    find_variable (set_variable_with_type name value type is_mutable type_kind s).2 n ≠ none := by
  by_cases hroom : find_variable s name ≠ none ∨ s.variable_table.length < 256
  · rw [set_variable_find s name value type is_mutable type_kind hroom n]
    by_cases hn : n = name
    · rw [if_pos hn]
      exact fun hx => by cases hx
    · rw [if_neg hn]
      exact h
  · have h1 : find_variable s name = none := by
      by_contra hx
      exact hroom (Or.inl hx)
    rw [set_variable_full s name value type is_mutable type_kind h1
      (fun hx => hroom (Or.inr hx))]
    exact h

theorem codegen_function_params_found (reg : Registry) (function_name : CStr)
    (params : List ASTNode) :
    ∀ (i : Nat) (s : CodeGen), s.variable_table.length + params.length ≤ 256 →
      (∀ n, find_variable s n ≠ none →
        find_variable (codegen_function_params reg function_name params i s).2 n ≠ none) ∧
      (∀ p ∈ params,
        find_variable (codegen_function_params reg function_name params i s).2
          (parameter_entry p).1 ≠ none) := by
  induction params with
  | nil =>
    intro i s _
    exact ⟨fun n h => h, fun p hp => absurd hp (List.not_mem_nil _)⟩
  | cons q rest ih =>
    intro i s hlen
    simp only [List.length_cons] at hlen
    have hstep : codegen_function_params reg function_name (q :: rest) i s =
        codegen_function_params reg function_name rest (i + 1)
          (set_variable_with_type (parameter_entry q).1
            (build (.alloca (get_llvm_type reg (parameter_entry q).2.1) (parameter_entry q).1)
              s).1
            (get_llvm_type reg (parameter_entry q).2.1) 1 (parameter_entry q).2.2
            (build (.store (some (.param function_name i))
              (build (.alloca (get_llvm_type reg (parameter_entry q).2.1)
                (parameter_entry q).1) s).1)
              (build (.alloca (get_llvm_type reg (parameter_entry q).2.1)
                (parameter_entry q).1) s).2).2).2 := rfl
    rw [hstep]
    generalize hs1 : (build (.store (some (.param function_name i))
      (build (.alloca (get_llvm_type reg (parameter_entry q).2.1) (parameter_entry q).1) s).1)
      (build (.alloca (get_llvm_type reg (parameter_entry q).2.1)
        (parameter_entry q).1) s).2).2 = s1
    have htab : s1.variable_table = s.variable_table := by
      rw [← hs1]
      rfl
    have hfind : ∀ n, find_variable s1 n = find_variable s n := by
      intro n
      unfold find_variable
      rw [htab]
    generalize hv : (build (.alloca (get_llvm_type reg (parameter_entry q).2.1)
      (parameter_entry q).1) s).1 = slot
    have hlen1 := set_variable_length (parameter_entry q).1 slot
      (get_llvm_type reg (parameter_entry q).2.1) 1 (parameter_entry q).2.2 s1
    obtain ⟨ih1, ih2⟩ := ih (i + 1)
      (set_variable_with_type (parameter_entry q).1 slot
        (get_llvm_type reg (parameter_entry q).2.1) 1 (parameter_entry q).2.2 s1).2
      (by rw [htab] at hlen1; omega)
    have hq : find_variable (set_variable_with_type (parameter_entry q).1 slot
        (get_llvm_type reg (parameter_entry q).2.1) 1 (parameter_entry q).2.2 s1).2
        (parameter_entry q).1 ≠ none := by
      rw [set_variable_find s1 _ _ _ _ _ (Or.inr (by rw [htab]; omega)), if_pos rfl]
      exact fun hx => by cases hx
    refine ⟨fun n h => ih1 n (set_variable_keeps _ _ _ _ _ s1 n (by rw [hfind]; exact h)), ?_⟩
    intro p hp
    rcases List.mem_cons.1 hp with e | e
    · rw [e]
      exact ih1 _ hq
    · exact ih2 p e
theorem codegen_function_table (ext : External) (reg : Registry) (name return_type : CStr)
    (params statements : List ASTNode) (s : CodeGen) :
    (codegen_function ext reg (.function name return_type params (some (.block statements)))
        s).2.variable_table =
      (codegen_statement ext reg (.block statements)
        (codegen_function_enter reg name return_type params s).2).2.variable_table := by
  simp only [codegen_function, codegen_function_enter, bind, CG.bind, pure, CG.pure, CG.get,
    current_block_terminated]
  split_ifs <;> rfl

theorem codegen_function_enter_found (reg : Registry) (name return_type : CStr)
    (params : List ASTNode) (s : CodeGen) (hroom : s.variable_table.length + params.length ≤ 256) :
    (∀ n, find_variable s n ≠ none →
      find_variable (codegen_function_enter reg name return_type params s).2 n ≠ none) ∧
    (∀ p ∈ params,
      find_variable (codegen_function_enter reg name return_type params s).2
        (parameter_entry p).1 ≠ none) := by
  have key : ∃ s0 : CodeGen, (codegen_function_enter reg name return_type params s).2 =
      (codegen_function_params reg name params 0 s0).2 ∧
      s0.variable_table = s.variable_table := by
    refine ⟨_, rfl, ?_⟩
    simp only [position_builder_at_end, append_basic_block, set_function]
    split_ifs <;> rfl
  obtain ⟨s0, h0, htab⟩ := key
  rw [h0]
  have hfind : ∀ n, find_variable s0 n = find_variable s n := by
    intro n
    unfold find_variable
    rw [htab]
  obtain ⟨h1, h2⟩ := codegen_function_params_found reg name params 0 s0 (by rw [htab]; exact hroom)
  exact ⟨fun n h => h1 n (by rw [hfind]; exact h), h2⟩

theorem codegen_statement_empty_block (ext : External) (reg : Registry) (t : CodeGen) :
    codegen_statement ext reg (.block []) t = (none, t) := rfl

/-- C36 (code defect): `codegen_function` removes nothing from the symbol
table. The table it returns with is the table as lowering the body left it;
every name found before the parameters were entered and every parameter is
found once they are entered (while the 256 entries suffice); so after a
function with an empty body returns, its parameters are still found. -/
theorem symbol_table_not_scoped (ext : External) (reg : Registry) (name return_type : CStr)
    (params statements : List ASTNode) (s : CodeGen) :
    (codegen_function ext reg (.function name return_type params (some (.block statements)))
        s).2.variable_table =
      (codegen_statement ext reg (.block statements)
        (codegen_function_enter reg name return_type params s).2).2.variable_table ∧
    (s.variable_table.length + params.length ≤ 256 →
      (∀ n, find_variable s n ≠ none →
        find_variable (codegen_function_enter reg name return_type params s).2 n ≠ none) ∧
      (∀ p ∈ params,
        find_variable (codegen_function_enter reg name return_type params s).2
          (parameter_entry p).1 ≠ none) ∧
      (∀ p ∈ params,
        find_variable
          (codegen_function ext reg (.function name return_type params (some (.block []))) s).2
          (parameter_entry p).1 ≠ none)) := by
  refine ⟨codegen_function_table ext reg name return_type params statements s, fun hroom => ?_⟩
  obtain ⟨h1, h2⟩ := codegen_function_enter_found reg name return_type params s hroom
  refine ⟨h1, h2, fun p hp => ?_⟩
  have ht := codegen_function_table ext reg name return_type params [] s
  rw [codegen_statement_empty_block] at ht
  have hf : find_variable
      (codegen_function ext reg (.function name return_type params (some (.block []))) s).2
      (parameter_entry p).1 =
      find_variable (codegen_function_enter reg name return_type params s).2
        (parameter_entry p).1 := by
    unfold find_variable
    rw [ht]
  rw [hf]
  exact h2 p hp

/-- Witness for C36 at the failing input `leaked_local_source`: the driver
accepts the program; when it ends the symbol table still holds the parameter
`a` and the local `t` of `f`; and the body of `g` (block 1) loads from
instruction 2, the slot that `f` allocated for `t` in its entry block
(block 0). -/
theorem symbol_table_not_scoped_witness :
    (∀ p ∈ [ASTNode.parameter "a".toList "i32".toList TYPE_I32],
      find_variable
        (codegen_function External.idle Registry.initial
          (.function "f".toList "i32".toList [.parameter "a".toList "i32".toList TYPE_I32]
            (some (.block []))) create_codegen).2
        (parameter_entry p).1 ≠ none) ∧
    (parse_source Registry.initial leaked_local_source).is_ok = true ∧
    (codegen_program External.idle Registry.initial
      (parsed_program Registry.initial leaked_local_source) create_codegen).2.2.has_error
        = false ∧
    (get_variable
      (codegen_program External.idle Registry.initial
        (parsed_program Registry.initial leaked_local_source) create_codegen).2.2
      "t".toList).isSome = true ∧
    (get_variable
      (codegen_program External.idle Registry.initial
        (parsed_program Registry.initial leaked_local_source) create_codegen).2.2
      "a".toList).isSome = true ∧
    block_alloca_slots
      (codegen_program External.idle Registry.initial
        (parsed_program Registry.initial leaked_local_source) create_codegen).2.2 0 = [0, 2] ∧
    block_load_slots
      (codegen_program External.idle Registry.initial
        (parsed_program Registry.initial leaked_local_source) create_codegen).2.2 1 = [2] :=
  ⟨((symbol_table_not_scoped External.idle Registry.initial "f".toList "i32".toList
      [.parameter "a".toList "i32".toList TYPE_I32] [] create_codegen).2 (by decide)).2.2,
    by decide!, by decide!, by decide!, by decide!, by decide!, by decide!⟩


/-! ### C33: the merge block of an `if` with an else arm -/

theorem append_to_block_same (blocks : List BasicBlock) (i : Nat) (e : Nat × Instr)
    (blk : BasicBlock) (h : blocks[i]? = some blk) :
    (append_to_block blocks i e)[i]? = some { blk with instrs := blk.instrs ++ [e] } := by
  have hlt : i < blocks.length := by
    rcases Nat.lt_or_ge i blocks.length with h1 | h1
    · exact h1
    · rw [List.getElem?_eq_none h1] at h
      cases h
  unfold append_to_block
  rw [h]
  simp [hlt]

theorem append_to_block_other (blocks : List BasicBlock) (i j : Nat) (e : Nat × Instr)
    (h : i ≠ j) : (append_to_block blocks i e)[j]? = blocks[j]? := by
  unfold append_to_block
  split
  · exact List.getElem?_set_ne h
  · rfl

theorem branch_unless_terminated_frame (block : Option LLVMBasicBlockRef)
    (dest : LLVMBasicBlockRef) (s : CodeGen) :
    (branch_unless_terminated block dest s).2.insert_block = s.insert_block ∧
    (branch_unless_terminated block dest s).2.deleted_blocks = s.deleted_blocks ∧
    (branch_unless_terminated block dest s).2.blocks.length = s.blocks.length := by
  unfold branch_unless_terminated
  simp only [bind, CG.bind]
  cases (block_terminated block s).1
  · refine ⟨rfl, rfl, ?_⟩
    show (build (.br dest) (block_terminated block s).2).2.blocks.length = _
    unfold build block_terminated
    dsimp only
    split
    · exact append_to_block_length _ _ _
    · rfl
  · exact ⟨rfl, rfl, rfl⟩

/-- After the statement, the block the builder is in ends in a terminator. -/
theorem terminated_after_branch (b dest : LLVMBasicBlockRef) (s : CodeGen)
    (hb : s.insert_block = some b) (hlt : b < s.blocks.length) :
    (block_terminated (some b) (branch_unless_terminated (some b) dest s).2).1 = true := by
  unfold branch_unless_terminated
  simp only [bind, CG.bind]
  cases h : (block_terminated (some b) s).1
  · show (block_terminated (some b) (build (.br dest) (block_terminated (some b) s).2).2).1 = true
    have hs : (block_terminated (some b) s).2 = s := rfl
    rw [hs]
    have hget : s.blocks[b]? = some (s.blocks[b]) := List.getElem?_eq_getElem hlt
    unfold build block_terminated
    dsimp only
    rw [hb]
    dsimp only
    rw [append_to_block_same _ _ _ _ hget]
    simp [Instr.is_terminator]
  · exact h

/-- The statement leaves a block that ends in a terminator ending in one. -/
theorem terminated_kept (b b2 dest : LLVMBasicBlockRef) (s : CodeGen)
    (hb : s.insert_block = some b2)
    (h : (block_terminated (some b) s).1 = true) :
    (block_terminated (some b) (branch_unless_terminated (some b2) dest s).2).1 = true := by
  unfold branch_unless_terminated
  simp only [bind, CG.bind]
  cases h2 : (block_terminated (some b2) s).1
  · have hne : b2 ≠ b := by
      intro e
      rw [e, h] at h2
      cases h2
    show (block_terminated (some b) (build (.br dest) (block_terminated (some b2) s).2).2).1 = true
    have hs : (block_terminated (some b2) s).2 = s := rfl
    rw [hs]
    have e : ((build (.br dest) s).2.blocks)[b]? = s.blocks[b]? := by
      unfold build
      dsimp only
      rw [hb]
      exact append_to_block_other _ _ _ _ hne
    have e2 : (block_terminated (some b) (build (.br dest) s).2).1 =
        (block_terminated (some b) s).1 := by
      unfold block_terminated
      dsimp only
      rw [e]
    rw [e2]
    exact h
  · exact h

theorem codegen_if_arms_else (then_block merge_block eb : LLVMBasicBlockRef)
    (lower_then le : CG LLVMValueRef) (s s2 s5 : CodeGen) (bt be : LLVMBasicBlockRef)
    (h2 : (lower_then (position_builder_at_end then_block s).2).2 = s2)
    (hbt : s2.insert_block = some bt)
    (h5 : (le (position_builder_at_end eb
      (branch_unless_terminated (some bt) merge_block s2).2).2).2 = s5)
    (hbe : s5.insert_block = some be) (hbe2 : be < s5.blocks.length)
    (hkeep : (block_terminated (some bt) s5).1 = true) :
    codegen_if_arms then_block merge_block (some eb) lower_then (some le) s =
      (none, (position_builder_at_end be (delete_basic_block merge_block
        (branch_unless_terminated (some be) merge_block s5).2).2).2) := by
  have h1 := terminated_kept bt be merge_block s5 hbe hkeep
  have h3 := terminated_after_branch be merge_block s5 hbe hbe2
  unfold codegen_if_arms
  simp only [bind, CG.bind, get_insert_block, pure, CG.pure]
  have p1 : ∀ (b : LLVMBasicBlockRef) (t : CodeGen), (position_builder_at_end b t).1 = () :=
    fun _ _ => rfl
  have p2 : ∀ (o : Option LLVMBasicBlockRef) (t : CodeGen), (block_terminated o t).2 = t :=
    fun _ _ => rfl
  simp only [h2, hbt, h5, hbe, p2, h1, h3]
  simp
  rfl

/-- When the block the builder is in has no terminator, the statement appends
the branch to it. -/
theorem branch_emitted (b dest : LLVMBasicBlockRef) (s : CodeGen)
    (hb : s.insert_block = some b) (hlt : b < s.blocks.length)
    (hnt : (block_terminated (some b) s).1 = false) :
    block_branches_to (branch_unless_terminated (some b) dest s).2 b dest = true := by
  unfold branch_unless_terminated
  simp only [bind, CG.bind]
  rw [hnt]
  show block_branches_to (build (.br dest) (block_terminated (some b) s).2).2 b dest = true
  have hs : (block_terminated (some b) s).2 = s := rfl
  rw [hs]
  have hget : s.blocks[b]? = some (s.blocks[b]) := List.getElem?_eq_getElem hlt
  unfold build block_branches_to
  dsimp only
  rw [hb]
  dsimp only
  rw [append_to_block_same _ _ _ _ hget]
  simp

theorem codegen_if_arms_no_else (then_block merge_block : LLVMBasicBlockRef)
    (lower_then : CG LLVMValueRef) (s : CodeGen) :
    (codegen_if_arms then_block merge_block none lower_then none s).2.insert_block =
      some merge_block ∧
    (codegen_if_arms then_block merge_block none lower_then none s).2.deleted_blocks =
      (lower_then (position_builder_at_end then_block s).2).2.deleted_blocks := by
  unfold codegen_if_arms
  simp only [bind, CG.bind, get_insert_block, pure, CG.pure]
  refine ⟨rfl, ?_⟩
  exact (branch_unless_terminated_frame _ _ _).2.1

theorem codegen_if_with_else (lower_condition lower_then le : CG LLVMValueRef)
    (s s1 : CodeGen) (c : LLVMValue) (hc : lower_condition s = (some c, s1)) :
    codegen_if lower_condition lower_then (some le) s =
      codegen_if_arms s1.blocks.length (s1.blocks.length + 1) (some (s1.blocks.length + 2))
        lower_then (some le)
        (build (.cond_br (some c) s1.blocks.length (s1.blocks.length + 2))
          (append_basic_block "if_else" (append_basic_block "if_merge"
            (append_basic_block "if_then" s1).2).2).2).2 := by
  unfold codegen_if
  simp only [bind, CG.bind, hc]
  simp [append_basic_block, pure, CG.pure]

theorem codegen_unless_with_else (lower_condition lower_then le : CG LLVMValueRef)
    (s s1 : CodeGen) (c : LLVMValue) (hc : lower_condition s = (some c, s1)) :
    codegen_unless lower_condition lower_then (some le) s =
      codegen_if_arms s1.blocks.length (s1.blocks.length + 1) (some (s1.blocks.length + 2))
        lower_then (some le)
        (build (.cond_br (some c) (s1.blocks.length + 2) s1.blocks.length)
          (append_basic_block "unless_else" (append_basic_block "unless_merge"
            (append_basic_block "unless_then" s1).2).2).2).2 := by
  unfold codegen_unless
  simp only [bind, CG.bind, hc]
  simp [append_basic_block, pure, CG.pure]

/-- C33 (code defect): with an else arm, `codegen_if` and `codegen_unless`
always delete the merge block. Both run `codegen_if_arms` on three new blocks;
there the tests that decide whether the merge block has predecessors read the
arm blocks after the branches to the merge block were appended, so both blocks
end in a terminator by then: the merge block is deleted and the builder is
left in the last block of the else arm, also when that block had no terminator
of its own and now branches to the deleted block. Without an else arm the
merge block is kept and the builder is positioned in it. -/
theorem merge_block_deleted_with_else (lower_condition lower_then le : CG LLVMValueRef)
    (s s1 : CodeGen) (c : LLVMValue) (hc : lower_condition s = (some c, s1)) :
    codegen_if lower_condition lower_then (some le) s =
      codegen_if_arms s1.blocks.length (s1.blocks.length + 1) (some (s1.blocks.length + 2))
        lower_then (some le)
        (build (.cond_br (some c) s1.blocks.length (s1.blocks.length + 2))
          (append_basic_block "if_else" (append_basic_block "if_merge"
            (append_basic_block "if_then" s1).2).2).2).2 ∧
    codegen_unless lower_condition lower_then (some le) s =
      codegen_if_arms s1.blocks.length (s1.blocks.length + 1) (some (s1.blocks.length + 2))
        lower_then (some le)
        (build (.cond_br (some c) (s1.blocks.length + 2) s1.blocks.length)
          (append_basic_block "unless_else" (append_basic_block "unless_merge"
            (append_basic_block "unless_then" s1).2).2).2).2 ∧
    (∀ (then_block merge_block eb bt be : LLVMBasicBlockRef) (s0 s2 s5 : CodeGen),
      (lower_then (position_builder_at_end then_block s0).2).2 = s2 →
      s2.insert_block = some bt →
      (le (position_builder_at_end eb
        (branch_unless_terminated (some bt) merge_block s2).2).2).2 = s5 →
      s5.insert_block = some be → be < s5.blocks.length →
      (block_terminated (some bt) s5).1 = true →
      (codegen_if_arms then_block merge_block (some eb) lower_then (some le) s0).2.deleted_blocks
        = s5.deleted_blocks ++ [merge_block] ∧
      (codegen_if_arms then_block merge_block (some eb) lower_then (some le) s0).2.insert_block
        = some be ∧
      ((block_terminated (some be) s5).1 = false →
        block_branches_to
          (codegen_if_arms then_block merge_block (some eb) lower_then (some le) s0).2
          be merge_block = true)) ∧
    (∀ (then_block merge_block : LLVMBasicBlockRef) (s0 : CodeGen),
      (codegen_if_arms then_block merge_block none lower_then none s0).2.insert_block =
        some merge_block ∧
      (codegen_if_arms then_block merge_block none lower_then none s0).2.deleted_blocks =
        (lower_then (position_builder_at_end then_block s0).2).2.deleted_blocks) := by
  refine ⟨codegen_if_with_else lower_condition lower_then le s s1 c hc,
    codegen_unless_with_else lower_condition lower_then le s s1 c hc, ?_,
    fun then_block merge_block s0 => codegen_if_arms_no_else then_block merge_block lower_then s0⟩
  intro then_block merge_block eb bt be s0 s2 s5 h2 hbt h5 hbe hbe2 hkeep
  rw [codegen_if_arms_else then_block merge_block eb lower_then le s0 s2 s5 bt be h2 hbt h5 hbe
    hbe2 hkeep]
  refine ⟨?_, rfl, fun hnt => ?_⟩
  · show (branch_unless_terminated (some be) merge_block s5).2.deleted_blocks ++ [merge_block] = _
    rw [(branch_unless_terminated_frame _ _ _).2.1]
  · exact branch_emitted be merge_block s5 hbe hbe2 hnt

/-- Witness for C33: where both arms are empty blocks, so that neither ends in
a terminator of its own, `codegen_if` deletes the merge block (block 2) and
leaves the builder in the else block (block 3), which branches to it. The same
through the whole pipeline at the failing inputs `if_else_source` and
`unless_else_source`: the merge block is deleted although the then block
(block 1) and the else block (block 3) both branch to it, the builder is left
in the else block, and the `return x` that follows the statement is lowered
into no block. -/
theorem merge_block_deleted_with_else_witness :
    ((codegen_if (codegen_literal "true".toList "bool".toList) (codegen_block [])
        (some (codegen_block [])) state_in_main).2.deleted_blocks = [2] ∧
      (codegen_if (codegen_literal "true".toList "bool".toList) (codegen_block [])
        (some (codegen_block [])) state_in_main).2.insert_block = some 3 ∧
      block_branches_to
        (codegen_if (codegen_literal "true".toList "bool".toList) (codegen_block [])
          (some (codegen_block [])) state_in_main).2 3 2 = true) ∧
    (parse_source Registry.initial if_else_source).is_ok = true ∧
    (codegen_program External.idle Registry.initial
      (parsed_program Registry.initial if_else_source) create_codegen).2.2.has_error = false ∧
    (codegen_program External.idle Registry.initial
      (parsed_program Registry.initial if_else_source) create_codegen).2.2.deleted_blocks
        = [2] ∧
    block_names (codegen_program External.idle Registry.initial
      (parsed_program Registry.initial if_else_source) create_codegen).2.2
        = ["entry", "if_then", "if_merge", "if_else"] ∧
    block_branches_to (codegen_program External.idle Registry.initial
      (parsed_program Registry.initial if_else_source) create_codegen).2.2 1 2 = true ∧
    block_branches_to (codegen_program External.idle Registry.initial
      (parsed_program Registry.initial if_else_source) create_codegen).2.2 3 2 = true ∧
    (codegen_program External.idle Registry.initial
      (parsed_program Registry.initial if_else_source) create_codegen).2.2.insert_block
        = some 3 ∧
    (List.range 4).map (block_returns (codegen_program External.idle Registry.initial
      (parsed_program Registry.initial if_else_source) create_codegen).2.2)
        = [false, false, false, false] ∧
    (parse_source Registry.initial unless_else_source).is_ok = true ∧
    (codegen_program External.idle Registry.initial
      (parsed_program Registry.initial unless_else_source) create_codegen).2.2.deleted_blocks
        = [2] ∧
    block_branches_to (codegen_program External.idle Registry.initial
      (parsed_program Registry.initial unless_else_source) create_codegen).2.2 1 2 = true ∧
    block_branches_to (codegen_program External.idle Registry.initial
      (parsed_program Registry.initial unless_else_source) create_codegen).2.2 3 2 = true ∧
    (List.range 4).map (block_returns (codegen_program External.idle Registry.initial
      (parsed_program Registry.initial unless_else_source) create_codegen).2.2)
        = [false, false, false, false] :=
  ⟨by
      rw [(merge_block_deleted_with_else (codegen_literal "true".toList "bool".toList)
        (codegen_block []) (codegen_block []) state_in_main state_in_main
        (.const_int (.int 1) 1) rfl).1]
      exact (merge_block_deleted_with_else (codegen_literal "true".toList "bool".toList)
        (codegen_block []) (codegen_block []) state_in_main state_in_main
        (.const_int (.int 1) 1) rfl).2.2.1 1 2 3 1 3 _ _ _ rfl rfl rfl rfl (by decide)
          (by decide!) |>.imp_right (fun h => h.imp_right (fun g => g (by decide!))),
    by decide!, by decide!, by decide!, by decide!, by decide!, by decide!, by decide!,
    by decide!, by decide!, by decide!, by decide!, by decide!, by decide!⟩

/-! ### C34: the end of a case of a `switch` -/

theorem codegen_case_statements_foldl (lower_statements : List (CG LLVMValueRef))
    (s : CodeGen) :
    codegen_case_statements lower_statements s =
      ((), lower_statements.foldl (fun t f => (f t).2) s) := by
  induction lower_statements generalizing s with
  | nil => rfl
  | cons f rest ih =>
    show codegen_case_statements rest (f s).2 = _
    rw [ih]
    rfl

theorem branch_unless_terminated_state (block : Option LLVMBasicBlockRef)
    (dest : LLVMBasicBlockRef) (s : CodeGen) :
    (branch_unless_terminated block dest s).2 =
      if (block_terminated block s).1 = true then s else (build (.br dest) s).2 := by
  unfold branch_unless_terminated
  simp only [bind, CG.bind]
  cases h : (block_terminated block s).1
  · rfl
  · rfl

/-- C34 (code defect): after the statements of a case, `codegen_switch` tests
the block created for the case, not the block the builder is then positioned
in. Every statement of the case is lowered, whether or not the current block
already ends in a terminator. If the case block then ends in a terminator,
nothing is appended: when the builder is in another block that has none (the
merge block of an `if` in the case), that block is left without a terminator.
Otherwise the branch to the exit block is appended to the block the builder is
in. -/
theorem switch_case_termination (switch_instr : LLVMValueRef)
    (exit_block case_block : LLVMBasicBlockRef) (lower_value : CG LLVMValueRef)
    (lower_statements : List (CG LLVMValueRef)) (s s1 : CodeGen)
    (hs : lower_statements.foldl (fun t f => (f t).2)
      (position_builder_at_end case_block
        (add_case switch_instr (lower_value s).1 case_block (lower_value s).2).2).2 = s1) :
    (codegen_switch_case switch_instr exit_block case_block lower_value lower_statements s).2 =
      (if (block_terminated (some case_block) s1).1 = true then s1
        else (build (.br exit_block) s1).2) ∧
    (∀ b, s1.insert_block = some b → (block_terminated (some case_block) s1).1 = true →
      (block_terminated (some b) s1).1 = false →
      (current_block_terminated
        (codegen_switch_case switch_instr exit_block case_block lower_value
          lower_statements s).2).1 = false) := by
  have h : (codegen_switch_case switch_instr exit_block case_block lower_value
      lower_statements s).2 =
      (if (block_terminated (some case_block) s1).1 = true then s1
        else (build (.br exit_block) s1).2) := by
    unfold codegen_switch_case
    simp only [bind, CG.bind]
    rw [codegen_case_statements_foldl, branch_unless_terminated_state]
    simp only [hs]
  refine ⟨h, fun b hb hcase hcur => ?_⟩
  rw [h, if_pos hcase]
  unfold current_block_terminated
  dsimp only
  rw [hb]
  exact hcur

/-- Witness for C34: a case whose only statement is `if true \x7b \x7d`, lowered
in `state_in_switch`, ends with the builder in the merge block of the `if`
(block 4), which has no terminator. Through the whole pipeline at the failing
input `switch_if_source`: the merge block of the `if` in the case (block 4) is
left empty, with no terminator. At `switch_return_source`, where a case holds
an assignment after a `return`, the case block (block 2) holds three
instructions, two of them terminators. -/
theorem switch_case_termination_witness :
    (current_block_terminated
      (codegen_switch_case none 1 2 (codegen_literal "1".toList "i32".toList)
        [codegen_if (codegen_literal "true".toList "bool".toList) (codegen_block []) none]
        state_in_switch).2).1 = false ∧
    (codegen_switch_case none 1 2 (codegen_literal "1".toList "i32".toList)
      [codegen_if (codegen_literal "true".toList "bool".toList) (codegen_block []) none]
      state_in_switch).2.insert_block = some 4 ∧
    (parse_source Registry.initial switch_if_source).is_ok = true ∧
    (codegen_program External.idle Registry.initial
      (parsed_program Registry.initial switch_if_source) create_codegen).2.2.has_error = false ∧
    (codegen_program External.idle Registry.initial
      (parsed_program Registry.initial switch_if_source) create_codegen).2.2.deleted_blocks
        = [] ∧
    block_names (codegen_program External.idle Registry.initial
      (parsed_program Registry.initial switch_if_source) create_codegen).2.2
        = ["entry", "switch_exit", "switch_case_0", "if_then", "if_merge"] ∧
    (List.range 5).map (block_ends_in_terminator (codegen_program External.idle Registry.initial
      (parsed_program Registry.initial switch_if_source) create_codegen).2.2)
        = [true, true, true, true, false] ∧
    block_branches_to (codegen_program External.idle Registry.initial
      (parsed_program Registry.initial switch_if_source) create_codegen).2.2 3 4 = true ∧
    block_size (codegen_program External.idle Registry.initial
      (parsed_program Registry.initial switch_if_source) create_codegen).2.2 4 = 0 ∧
    (parse_source Registry.initial switch_return_source).is_ok = true ∧
    (codegen_program External.idle Registry.initial
      (parsed_program Registry.initial switch_return_source) create_codegen).2.2.has_error
        = false ∧
    block_size (codegen_program External.idle Registry.initial
      (parsed_program Registry.initial switch_return_source) create_codegen).2.2 2 = 3 ∧
    block_terminator_count (codegen_program External.idle Registry.initial
      (parsed_program Registry.initial switch_return_source) create_codegen).2.2 2 = 2 :=
  ⟨(switch_case_termination none 1 2 (codegen_literal "1".toList "i32".toList)
      [codegen_if (codegen_literal "true".toList "bool".toList) (codegen_block []) none]
      state_in_switch _ rfl).2 4 (by decide!) (by decide!) (by decide!),
    by decide!, by decide!, by decide!, by decide!, by decide!, by decide!, by decide!,
    by decide!, by decide!, by decide!, by decide!, by decide!⟩


/-! ### C9: what the resolver settles -/

theorem literal_type_known (reg : Registry) (type : CStr) (h : type ∈ literal_type_texts) :
    string_to_type reg type ≠ TYPE_UNKNOWN := by
  simp [literal_type_texts] at h
  rcases h with h | h | h | h | h <;>
    (subst h; exact string_to_type_builtin_name reg _ (by decide))

mutual

theorem resolve_types_typed (reg0 : Registry) : ∀ (n : ASTNode) (reg : Registry),
    visited_all (node_as_created reg0) n = true →
    visited_all resolver_typed (resolve_types reg n).2 = true
  | .program imports functions, reg, h => by
    simp only [visited_all, resolve_types, Bool.and_eq_true] at h ⊢
    exact ⟨rfl, resolve_types_typed_list reg0 functions reg h.2⟩
  | .function name return_type params body, reg, h => by
    simp only [visited_all, resolve_types, Bool.and_eq_true] at h ⊢
    exact ⟨⟨rfl, resolve_types_typed_list reg0 params reg h.1.2⟩, resolve_types_typed_opt reg0 body _ h.2⟩
  | .block statements, reg, h => by
    simp only [visited_all, resolve_types, Bool.and_eq_true] at h ⊢
    exact ⟨rfl, resolve_types_typed_list reg0 statements reg h.2⟩
  | .variable_decl name type value is_mutable resolved_type, reg, h => by
    simp only [visited_all, resolve_types, Bool.and_eq_true] at h ⊢
    refine ⟨?_, resolve_types_typed_opt reg0 value reg h.2⟩
    by_cases hb : type ∈ builtin_type_names
    · simp [resolver_typed, hb, string_to_type_builtin_name reg type hb]
    · simp [resolver_typed, hb]
  | .assignment variable_name value, reg, h => by
    simp only [visited_all, resolve_types, Bool.and_eq_true] at h ⊢
    exact ⟨rfl, resolve_types_typed reg0 value reg h.2⟩
  | .pointer_assignment target value, reg, h => by
    simp only [visited_all, resolve_types, Bool.and_eq_true] at h ⊢
    exact ⟨⟨rfl, resolve_types_typed reg0 target reg h.1.2⟩, resolve_types_typed reg0 value _ h.2⟩
  | .return_stmt value, reg, h => by
    simp only [visited_all, resolve_types, Bool.and_eq_true] at h ⊢
    exact ⟨rfl, resolve_types_typed_opt reg0 value reg h.2⟩
  | .call name args, reg, h => by
    simp only [visited_all, resolve_types, Bool.and_eq_true] at h ⊢
    exact ⟨rfl, resolve_types_typed_list reg0 args reg h.2⟩
  | .binary_op operator left right resolved_type, reg, h => by
    simp only [visited_all, resolve_types, Bool.and_eq_true] at h ⊢
    refine ⟨⟨?_, resolve_types_typed reg0 left reg h.1.2⟩, resolve_types_typed reg0 right _ h.2⟩
    simp [resolver_typed]
  | .unary_op operator operand resolved_type, reg, h => by
    simp only [visited_all, resolve_types, Bool.and_eq_true] at h ⊢
    refine ⟨?_, resolve_types_typed reg0 operand reg h.2⟩
    cases operator <;> simp [resolver_typed]
  | .struct_decl name fields methods, reg, h => by
    simp only [visited_all, resolve_types, Bool.and_eq_true] at h ⊢
    exact ⟨⟨rfl, resolve_types_typed_list reg0 fields reg h.1.2⟩,
      resolve_types_typed_list reg0 methods _ h.2⟩
  | .struct_field name type resolved_type, reg, _ => by
    simp only [visited_all, resolve_types]
    by_cases hb : type ∈ builtin_type_names
    · simp [resolver_typed, hb, string_to_type_builtin_name reg type hb]
    · simp [resolver_typed, hb]
  | .struct_method name return_type params body visibility, reg, h => by
    simp only [visited_all, resolve_types, Bool.and_eq_true] at h ⊢
    exact ⟨⟨rfl, resolve_types_typed_list reg0 params reg h.1.2⟩, resolve_types_typed_opt reg0 body _ h.2⟩
  | .field_access object field_name resolved_type, reg, h => by
    simp only [visited_all, resolve_types, Bool.and_eq_true] at h ⊢
    exact ⟨rfl, resolve_types_typed reg0 object reg h.2⟩
  | .method_call object method_name args resolved_type, reg, h => by
    simp only [visited_all, resolve_types, Bool.and_eq_true] at h ⊢
    exact ⟨⟨by simp [resolver_typed], resolve_types_typed reg0 object reg h.1.2⟩,
      resolve_types_typed_list reg0 args _ h.2⟩
  | .struct_literal struct_type_name field_values field_names resolved_type, reg, h => by
    simp only [visited_all, resolve_types, Bool.and_eq_true] at h ⊢
    exact ⟨rfl, resolve_types_typed_list reg0 field_values reg h.2⟩
  | .if_stmt condition then_block else_block, reg, h => by
    simp only [visited_all, resolve_types, Bool.and_eq_true] at h ⊢
    exact ⟨⟨⟨rfl, resolve_types_typed reg0 condition reg h.1.1.2⟩,
      resolve_types_typed reg0 then_block _ h.1.2⟩, resolve_types_typed_opt reg0 else_block _ h.2⟩
  | .unless_stmt condition then_block else_block, reg, h => by
    simp only [visited_all, resolve_types, Bool.and_eq_true] at h ⊢
    exact ⟨⟨⟨rfl, resolve_types_typed reg0 condition reg h.1.1.2⟩,
      resolve_types_typed reg0 then_block _ h.1.2⟩, resolve_types_typed_opt reg0 else_block _ h.2⟩
  | .for_stmt init condition update body, reg, h => by
    simp only [visited_all, resolve_types, Bool.and_eq_true] at h ⊢
    exact ⟨⟨⟨⟨rfl, resolve_types_typed_opt reg0 init reg h.1.1.1.2⟩,
      resolve_types_typed_opt reg0 condition _ h.1.1.2⟩, resolve_types_typed_opt reg0 update _ h.1.2⟩,
      resolve_types_typed reg0 body _ h.2⟩
  | .while_stmt condition body, reg, h => by
    simp only [visited_all, resolve_types, Bool.and_eq_true] at h ⊢
    exact ⟨⟨rfl, resolve_types_typed reg0 condition reg h.1.2⟩, resolve_types_typed reg0 body _ h.2⟩
  | .switch_stmt expression cases default_case, reg, h => by
    simp only [visited_all, resolve_types, Bool.and_eq_true] at h ⊢
    exact ⟨⟨⟨rfl, resolve_types_typed reg0 expression reg h.1.1.2⟩,
      resolve_types_typed_list reg0 cases _ h.1.2⟩, resolve_types_typed_opt reg0 default_case _ h.2⟩
  | .switch_case value statements, reg, h => by
    simp only [visited_all, resolve_types, Bool.and_eq_true] at h ⊢
    exact ⟨⟨rfl, resolve_types_typed_opt reg0 value reg h.1.2⟩,
      resolve_types_typed_list reg0 statements _ h.2⟩
  | .match_stmt expression cases, reg, h => by
    simp only [visited_all, resolve_types, Bool.and_eq_true] at h ⊢
    exact ⟨⟨rfl, resolve_types_typed reg0 expression reg h.1.2⟩,
      resolve_types_typed_list reg0 cases _ h.2⟩
  | .match_case pattern body, reg, h => by
    simp only [visited_all, resolve_types, Bool.and_eq_true] at h ⊢
    exact ⟨⟨rfl, resolve_types_typed reg0 pattern reg h.1.2⟩, resolve_types_typed reg0 body _ h.2⟩
  | .import_node import_type path, reg, _ => rfl
  | .parameter name type resolved_type, reg, h => by
    simp only [visited_all, node_as_created, beq_iff_eq] at h
    simp only [visited_all, resolve_types, resolver_typed, h]
    by_cases hb : type ∈ builtin_type_names
    · simp [hb, string_to_type_builtin_name reg0 type hb]
    · simp [hb]
  | .identifier name resolved_type, reg, _ => rfl
  | .literal value type resolved_type, reg, h => by
    simp only [visited_all, node_as_created, Bool.and_eq_true, decide_eq_true_eq,
      beq_iff_eq] at h
    simp only [visited_all, resolve_types, resolver_typed, h.2]
    have ht := literal_type_known reg0 type h.1
    simpa using ht
  | .enum_decl name variants, reg, _ => rfl
  | .enum_variant name, reg, _ => rfl
  | .break_stmt, reg, _ => rfl
  | .continue_stmt, reg, _ => rfl

theorem resolve_types_typed_list (reg0 : Registry) : ∀ (l : List ASTNode) (reg : Registry),
    visited_all_list (node_as_created reg0) l = true →
    visited_all_list resolver_typed (resolve_types_list reg l).2 = true
  | [], _, _ => rfl
  | n :: rest, reg, h => by
    simp only [visited_all_list, resolve_types_list, Bool.and_eq_true] at h ⊢
    exact ⟨resolve_types_typed reg0 n reg h.1, resolve_types_typed_list reg0 rest _ h.2⟩

theorem resolve_types_typed_opt (reg0 : Registry) : ∀ (o : Option ASTNode) (reg : Registry),
    visited_all_opt (node_as_created reg0) o = true →
    visited_all_opt resolver_typed (resolve_types_opt reg o).2 = true
  | none, _, _ => rfl
  | some n, reg, h => by
    simp only [visited_all_opt, resolve_types_opt] at h ⊢
    exact resolve_types_typed reg0 n reg h

end


theorem codegen_break_target (s : CodeGen) (top : LoopContext)
    (h : s.loop_stack.getLast? = some top) :
    codegen_break s = (none, (build (.br top.break_target) s).2) ∧
    codegen_continue s = (none, (build (.br top.continue_target) s).2) := by
  constructor
  · simp [codegen_break, bind, CG.bind, CG.get, h, pure, CG.pure]
  · simp [codegen_continue, bind, CG.bind, CG.get, h, pure, CG.pure]

/-- C5 (code defect): `codegen_break` and `codegen_continue` with
`loop_depth = 0` set has_error and emit nothing; with `loop_depth > 0` they emit
an unconditional branch to the break / continue target of the top context and
leave has_error and the stack unchanged. A loop entered with `loop_depth < 32`
has its own context, (exit, cond) for `while` and (exit, update) for `for`, on
top when its body starts, and `break` / `continue` branch to it at every point
of the body up to which lowering has left the loop stack as it found it. A loop
entered with `loop_depth = 32` pushes nothing: its body is lowered with the
context of the loop around it on top, and it returns with that context popped,
so that what follows it in the body of the loop around it no longer has that
loop's context on top. -/
theorem break_continue_target (s : CodeGen) :
    (s.loop_stack = [] →
      codegen_break s = (none, { s with has_error := true }) ∧
      codegen_continue s = (none, { s with has_error := true })) ∧
    (∀ top : LoopContext, s.loop_stack.getLast? = some top →
      codegen_break s = (none, (build (.br top.break_target) s).2) ∧
      codegen_continue s = (none, (build (.br top.continue_target) s).2) ∧
      (codegen_break s).2.has_error = s.has_error ∧
      (codegen_break s).2.loop_stack = s.loop_stack ∧
      (codegen_continue s).2.has_error = s.has_error ∧
      (codegen_continue s).2.loop_stack = s.loop_stack) ∧
    (s.loop_stack.length < 32 →
      (∀ lower_condition : CG LLVMValueRef,
        (∀ t : CodeGen, (lower_condition t).2.loop_stack = t.loop_stack) →
        (∀ lower_body : CG LLVMValueRef,
          codegen_while lower_condition lower_body s =
            codegen_while_leave (codegen_while_enter lower_condition s).1
              (lower_body (codegen_while_enter lower_condition s).2).2) ∧
        (codegen_while_enter lower_condition s).1 =
          ⟨s.blocks.length, s.blocks.length + 1, s.blocks.length, s.blocks.length + 2⟩ ∧
        (codegen_while_enter lower_condition s).2.loop_stack.getLast? =
          some ⟨s.blocks.length + 2, s.blocks.length⟩ ∧
        (∀ before : CG LLVMValueRef,
          (∀ t : CodeGen, (before t).2.loop_stack = t.loop_stack) →
          codegen_break (before (codegen_while_enter lower_condition s).2).2 =
            (none, (build (.br (s.blocks.length + 2))
              (before (codegen_while_enter lower_condition s).2).2).2) ∧
          codegen_continue (before (codegen_while_enter lower_condition s).2).2 =
            (none, (build (.br s.blocks.length)
              (before (codegen_while_enter lower_condition s).2).2).2))) ∧
      (∀ lower_init lower_condition : Option (CG LLVMValueRef),
        (∀ f ∈ lower_init, ∀ t : CodeGen, (f t).2.loop_stack = t.loop_stack) →
        (∀ f ∈ lower_condition, ∀ t : CodeGen, (f t).2.loop_stack = t.loop_stack) →
        (∀ (lower_update : Option (CG LLVMValueRef)) (lower_body : CG LLVMValueRef),
          codegen_for lower_init lower_condition lower_update lower_body s =
            codegen_for_leave lower_update (codegen_for_enter lower_init lower_condition s).1
              (lower_body (codegen_for_enter lower_init lower_condition s).2).2) ∧
        (codegen_for_enter lower_init lower_condition s).1 =
          ⟨s.blocks.length + 1, s.blocks.length + 2, s.blocks.length + 3,
            s.blocks.length + 4⟩ ∧
        (codegen_for_enter lower_init lower_condition s).2.loop_stack.getLast? =
          some ⟨s.blocks.length + 4, s.blocks.length + 3⟩ ∧
        (∀ before : CG LLVMValueRef,
          (∀ t : CodeGen, (before t).2.loop_stack = t.loop_stack) →
          codegen_break (before (codegen_for_enter lower_init lower_condition s).2).2 =
            (none, (build (.br (s.blocks.length + 4))
              (before (codegen_for_enter lower_init lower_condition s).2).2).2) ∧
          codegen_continue (before (codegen_for_enter lower_init lower_condition s).2).2 =
            (none, (build (.br (s.blocks.length + 3))
              (before (codegen_for_enter lower_init lower_condition s).2).2).2)))) ∧
    (¬ s.loop_stack.length < 32 →
      (∀ lower_condition : CG LLVMValueRef,
        (∀ t : CodeGen, (lower_condition t).2.loop_stack = t.loop_stack) →
        (codegen_while_enter lower_condition s).2.loop_stack = s.loop_stack ∧
        (∀ lower_body : CG LLVMValueRef,
          (∀ t : CodeGen, (lower_body t).2.loop_stack = t.loop_stack) →
          (codegen_while lower_condition lower_body s).2.loop_stack =
            s.loop_stack.dropLast)) ∧
      (∀ lower_init lower_condition : Option (CG LLVMValueRef),
        (∀ f ∈ lower_init, ∀ t : CodeGen, (f t).2.loop_stack = t.loop_stack) →
        (∀ f ∈ lower_condition, ∀ t : CodeGen, (f t).2.loop_stack = t.loop_stack) →
        (codegen_for_enter lower_init lower_condition s).2.loop_stack = s.loop_stack ∧
        (∀ (lower_update : Option (CG LLVMValueRef)) (lower_body : CG LLVMValueRef),
          (∀ f ∈ lower_update, ∀ t : CodeGen, (f t).2.loop_stack = t.loop_stack) →
          (∀ t : CodeGen, (lower_body t).2.loop_stack = t.loop_stack) →
          (codegen_for lower_init lower_condition lower_update lower_body s).2.loop_stack =
            s.loop_stack.dropLast))) := by
  refine ⟨?_, ?_, ?_, ?_⟩
  · intro h
    simp [codegen_break, codegen_continue, bind, CG.bind, CG.get, h, set_has_error, pure,
      CG.pure]
  · intro top h
    obtain ⟨hb, hc⟩ := codegen_break_target s top h
    refine ⟨hb, hc, ?_, ?_, ?_, ?_⟩
    · rw [hb]; rfl
    · rw [hb]; rfl
    · rw [hc]; rfl
    · rw [hc]; rfl
  · intro hdepth
    constructor
    · intro lower_condition hcond
      obtain ⟨h1, h2, _⟩ := codegen_while_enter_spec lower_condition s hdepth hcond
      have h3 : (codegen_while_enter lower_condition s).2.loop_stack.getLast? =
          some ⟨s.blocks.length + 2, s.blocks.length⟩ := by
        rw [h2]; simp
      refine ⟨fun lower_body => rfl, h1, h3, fun before hbefore => ?_⟩
      exact codegen_break_target _ ⟨s.blocks.length + 2, s.blocks.length⟩
        (by rw [hbefore]; exact h3)
    · intro lower_init lower_condition hinit hcond
      obtain ⟨h1, h2, _⟩ := codegen_for_enter_spec lower_init lower_condition s hdepth hinit hcond
      have h3 : (codegen_for_enter lower_init lower_condition s).2.loop_stack.getLast? =
          some ⟨s.blocks.length + 4, s.blocks.length + 3⟩ := by
        rw [h2]; simp
      refine ⟨fun lower_update lower_body => rfl, h1, h3, fun before hbefore => ?_⟩
      exact codegen_break_target _ ⟨s.blocks.length + 4, s.blocks.length + 3⟩
        (by rw [hbefore]; exact h3)
  · intro hfull
    constructor
    · intro lower_condition hcond
      refine ⟨?_, fun lower_body hbody => ?_⟩
      · rw [codegen_while_enter_loop_stack lower_condition s hcond,
          push_loop_context_full _ _ _ hfull]
      · rw [codegen_while_loop_stack lower_condition lower_body s hcond hbody, if_neg hfull]
    · intro lower_init lower_condition hinit hcond
      refine ⟨?_, fun lower_update lower_body hupdate hbody => ?_⟩
      · rw [codegen_for_enter_loop_stack lower_init lower_condition s hinit hcond,
          push_loop_context_full _ _ _ hfull]
      · rw [codegen_for_loop_stack lower_init lower_condition lower_update lower_body s hinit
          hcond hupdate hbody, if_neg hfull]

/-- Witness for C5. In `state_in_main` (depth 0, one block) `break` is rejected,
and the body of `while true \x7b ... \x7d` starts with the top context (3, 1), the
exit and condition blocks of that loop. At the failing inputs: inside 32 nested
`while` loops the stack is full with (96, 94) on top, and entering a 33rd loop
(blocks 97, 98, 99) leaves it so; lowering 33 nested loops with `break` in the
innermost body puts a branch to 96, the exit of the 32nd loop, and not to 99
into block 98; lowering 32 nested loops whose innermost body is
`while true \x7b \x7d break;` puts a branch to 93, the exit of the 31st loop, and not
to 96 into block 99, where the `break` of the 32nd loop is lowered. has_error
stays clear in both. -/
theorem break_continue_target_witness :
    codegen_break state_in_main = (none, { state_in_main with has_error := true }) ∧
    (codegen_while_enter (codegen_literal "true".toList "bool".toList)
        state_in_main).2.loop_stack.getLast? = some ⟨3, 1⟩ ∧
    (enter_whiles 32 state_in_main).loop_stack.length = 32 ∧
    (enter_whiles 32 state_in_main).loop_stack.getLast? = some ⟨96, 94⟩ ∧
    (codegen_while_enter (codegen_literal "true".toList "bool".toList)
        (enter_whiles 32 state_in_main)).1 = ⟨97, 98, 97, 99⟩ ∧
    (codegen_while_enter (codegen_literal "true".toList "bool".toList)
        (enter_whiles 32 state_in_main)).2.loop_stack =
      (enter_whiles 32 state_in_main).loop_stack ∧
    block_branches_to
      (codegen_statement External.idle Registry.initial (nested_while 33 .break_stmt)
        state_in_main).2 98 96 = true ∧
    block_branches_to
      (codegen_statement External.idle Registry.initial (nested_while 33 .break_stmt)
        state_in_main).2 98 99 = false ∧
    (codegen_statement External.idle Registry.initial (nested_while 33 .break_stmt)
        state_in_main).2.has_error = false ∧
    block_branches_to
      (codegen_statement External.idle Registry.initial
        (nested_while 32 (.block [.while_stmt literal_true (.block []), .break_stmt]))
        state_in_main).2 99 93 = true ∧
    block_branches_to
      (codegen_statement External.idle Registry.initial
        (nested_while 32 (.block [.while_stmt literal_true (.block []), .break_stmt]))
        state_in_main).2 99 96 = false ∧
    (codegen_statement External.idle Registry.initial
        (nested_while 32 (.block [.while_stmt literal_true (.block []), .break_stmt]))
        state_in_main).2.has_error = false :=
  ⟨((break_continue_target state_in_main).1 rfl).1,
   (((break_continue_target state_in_main).2.2.1 (by decide)).1
      (codegen_literal "true".toList "bool".toList) (fun _ => rfl)).2.2.1,
   by decide!, by decide!, by decide!,
   (((break_continue_target (enter_whiles 32 state_in_main)).2.2.2 (by decide!)).1
      (codegen_literal "true".toList "bool".toList) (fun _ => rfl)).1,
   by decide!, by decide!, by decide!, by decide!, by decide!, by decide!⟩

end Gloin
